import Mathlib

/-!
# telepathy-idle: MUC channel state machine and text encode/decode

A shallow embedding of `src/idle-text.c` and `src/idle-muc-channel.c`.

Conventions of the embedding

* A C string is the list of its bytes (`List Nat`, each byte in `1 .. 255`);
  `strlen` is `List.length`, a pointer into the string is an offset.
* `gsize` arithmetic wraps modulo `2 ^ 64`, `guint` modulo `2 ^ 32`; the
  conversions `(gint) x`, `(unsigned) x` and `int` to `gsize` are `to_gint`,
  `to_unsigned` and `to_gsize`.  Offsets inside a string are exact natural
  numbers until the code converts them.
* Undefined behaviour of the C code (dereferencing the `NULL` returned by
  `g_utf8_find_prev_char`, reading past the end of the text) and a call that
  cannot return (an allocation of `2 ^ 63` bytes or more) is the outcome
  `Outcome.undefined`; a loop that has not finished within the given number
  of iterations is `Outcome.timeout`.  In the channel code undefined
  behaviour and a loop out of iterations are the result `none`.
* Pointer arithmetic that leaves the string without dereferencing (the
  pointer `part` of `idle_muc_channel_send`) is the address arithmetic of a
  64-bit target: offsets wrap modulo `2 ^ 64`.
* A `GPtrArray` of property structs is the list of `(id, value)` pairs its
  pointers lead to when the array is read; where one struct is appended more
  than once (`_idle_muc_channel_topic_full`) the pointers are kept explicit.
-/

namespace Idle

/-! ## Text: `src/idle-text.c` -/

/-- Bytes of an ASCII string literal. -/
def ascii (s : String) : List Nat := s.data.map Char.toNat

/-- Result of running a C routine of the embedding: `ok a` when it returned
its value, `error code` when it returned `NULL` and set a `GError`, `undefined`
when it ran into undefined behaviour, `timeout` when its loop was still
running after the given number of iterations. -/
inductive Outcome (α : Type) where
  | ok (a : α)
  | error (code : Nat)
  | undefined
  | timeout
  deriving DecidableEq, Repr

/-- Message type `TP_CHANNEL_TEXT_MESSAGE_TYPE_NORMAL` (telepathy-glib enum). -/
def TP_CHANNEL_TEXT_MESSAGE_TYPE_NORMAL : Nat := 0
/-- Message type `TP_CHANNEL_TEXT_MESSAGE_TYPE_ACTION` (telepathy-glib enum). -/
def TP_CHANNEL_TEXT_MESSAGE_TYPE_ACTION : Nat := 1
/-- Message type `TP_CHANNEL_TEXT_MESSAGE_TYPE_NOTICE` (telepathy-glib enum). -/
def TP_CHANNEL_TEXT_MESSAGE_TYPE_NOTICE : Nat := 2
/-- Error code `TP_ERROR_NOT_IMPLEMENTED` (telepathy-glib enum). -/
def TP_ERROR_NOT_IMPLEMENTED : Nat := 1

/-- Subtraction of two `gsize` values: wraps modulo `2 ^ 64`. -/
def gsize_sub (a b : Nat) : Nat :=
  (a % 18446744073709551616 + 18446744073709551616 - b % 18446744073709551616)
    % 18446744073709551616

/-- The conversion `(gint) x` of an unsigned value: low 32 bits, two's complement. -/
def to_gint (x : Nat) : Int :=
  if x % 4294967296 < 2147483648 then ((x % 4294967296 : Nat) : Int)
  else ((x % 4294967296 : Nat) : Int) - 4294967296

/-- The conversion `(unsigned) x` of a pointer difference: its low 32 bits. -/
def to_unsigned (x : Nat) : Nat := x % 4294967296

/-- The conversion of an `int` to `gsize`: sign extension, that is the value
modulo `2 ^ 64`. -/
def to_gsize (x : Int) : Nat := (x % 18446744073709551616).toNat

/-- ASCII lower-casing, glib's `g_ascii_tolower`. -/
def g_ascii_tolower (c : Nat) : Nat := if 65 ≤ c ∧ c ≤ 90 then c + 32 else c

/-- glib's `g_ascii_strncasecmp`: compares at most `n` bytes ignoring ASCII
case; the end of a list plays the terminating NUL. -/
def g_ascii_strncasecmp : List Nat → List Nat → Nat → Int
  | _, _, 0 => 0
  | [], [], _ + 1 => 0
  | [], c2 :: _, _ + 1 => 0 - (c2 : Int)
  | c1 :: _, [], _ + 1 => (c1 : Int)
  | c1 :: s1, c2 :: s2, n + 1 =>
    if g_ascii_tolower c1 ≠ g_ascii_tolower c2 then
      (g_ascii_tolower c1 : Int) - (g_ascii_tolower c2 : Int)
    else g_ascii_strncasecmp s1 s2 n

/-- glib's `g_strndup (s, n)` with `n` a `gsize`: it allocates `n + 1` bytes
and copies the first `n` bytes of the string.  `none` when the call does not
return: for `n = SIZE_MAX` the size `n + 1` wraps to 0, `g_new` gives `NULL` and
`strncpy` writes through it; for every other `n` of `2 ^ 63` or more no
allocation of `n + 1` bytes succeeds on a 64-bit target and `g_malloc` aborts. -/
def g_strndup (s : List Nat) (n : Nat) : Option (List Nat) :=
  if n % 18446744073709551616 < 9223372036854775808 then
    some (s.take (n % 18446744073709551616))
  else none

/-- The conversion `%.*s` of `g_strdup_printf`: at most `precision` bytes of
the string; a negative precision counts as no precision given. -/
def printf_precision_s (precision : Int) (s : List Nat) : List Nat :=
  if precision < 0 then s else s.take precision.toNat

/-- Function `idle_text_decode`: `ok (some (type, body))` when the C function
returns `TRUE`, `ok none` when it returns `FALSE` (body `NULL`), `undefined`
when `g_strndup` does not return (on the bare text `\001ACTION ` the length
`strlen (text + actionlen) - 1` wraps to `SIZE_MAX`).  The filter
`idle_ctcp_kill_blingbling` lives in another file and is a parameter. -/
def idle_text_decode (idle_ctcp_kill_blingbling : List Nat → List Nat) (text : List Nat) :
    Outcome (Option (Nat × List Nat)) :=
  if text.head? ≠ some 1 then
    .ok (some (TP_CHANNEL_TEXT_MESSAGE_TYPE_NORMAL, idle_ctcp_kill_blingbling text))
  else
    let actionlen := (ascii "\x01ACTION ").length
    if g_ascii_strncasecmp text (ascii "\x01ACTION ") actionlen = 0 then
      let rest := text.drop actionlen
      match g_strndup rest (gsize_sub rest.length 1) with
      | some tmp =>
        .ok (some (TP_CHANNEL_TEXT_MESSAGE_TYPE_ACTION, idle_ctcp_kill_blingbling tmp))
      | none => .undefined
    else .ok none

/-- Function `strchr(s, c)` as an offset: position of the first byte equal to `c`. -/
def strchr (c : Nat) : List Nat → Option Nat
  | [] => none
  | b :: r => if b = c then some 0 else (strchr c r).map (· + 1)

/-- glib's `g_utf8_find_prev_char (str, p)` with `p` an offset into `str`: the
largest offset below `p` whose byte is not a UTF-8 continuation byte
(`(*p & 0xc0) != 0x80`), `none` (NULL) when there is none. -/
def g_utf8_find_prev_char (str : List Nat) : Nat → Option Nat
  | 0 => none
  | p + 1 =>
    if (str.getD p 0) &&& 0xc0 ≠ 0x80 then some p else g_utf8_find_prev_char str p

/-- The `switch (type)` of `idle_text_encode_and_split`: header and footer of
the three supported message types, `none` for the `default:` branch. -/
def header_footer (type : Nat) (recipient : List Nat) : Option (List Nat × List Nat) :=
  if type = TP_CHANNEL_TEXT_MESSAGE_TYPE_NORMAL then
    some (ascii "PRIVMSG " ++ recipient ++ ascii " :", [])
  else if type = TP_CHANNEL_TEXT_MESSAGE_TYPE_ACTION then
    some (ascii "PRIVMSG " ++ recipient ++ ascii " :\x01ACTION ", ascii "\x01")
  else if type = TP_CHANNEL_TEXT_MESSAGE_TYPE_NOTICE then
    some (ascii "NOTICE " ++ recipient ++ ascii " :", [])
  else none

/-- The choice of `end_iter` in one iteration of the splitting loop, as an
offset from `remaining_text`; `none` is a `NULL` or out-of-bounds `end_iter`.
The newline test compares `(unsigned) (newline - remaining_text)`, the low 32
bits of the offset, with `max_bytes`; `end_iter` itself is the pointer
`newline`. -/
def end_iter (max_bytes : Nat) (remaining_text : List Nat) : Option Nat :=
  let no_newline : Option Nat :=
    if (remaining_text.length : Int) > to_gint max_bytes then
      /- Remaining string is too long; take as many bytes as possible -/
      if max_bytes ≤ remaining_text.length then
        g_utf8_find_prev_char remaining_text max_bytes
      else none
    else
      /- Just take it all. -/
      some remaining_text.length
  match strchr 10 remaining_text with
  | some newline => if to_unsigned newline < max_bytes then some newline else no_newline
  | none => no_newline

/-- The `while (remaining_text < text_end)` loop of `idle_text_encode_and_split`;
returns the arrays `messages` and `bodies`.  The cut `end_iter` is kept as the
pointer it is, while `len = (int) (end_iter - remaining_text)` keeps the low 32
bits of the offset as a signed number: the line is printed with precision
`len`, the body is `g_strndup (remaining_text, len)` with `len` converted to
`gsize`, and the loop goes on from `end_iter`. -/
def split_loop (header footer : List Nat) (max_bytes : Nat) :
    Nat → List Nat → Outcome (List (List Nat) × List (List Nat))
  | _, [] => .ok ([], [])
  | 0, _ :: _ => .timeout
  | fuel + 1, b :: r =>
    match end_iter max_bytes (b :: r) with
    | none => .undefined
    | some end_iter =>
      let len := to_gint end_iter
      let message := header ++ printf_precision_s len (b :: r) ++ footer
      match g_strndup (b :: r) (to_gsize len) with
      | none => .undefined
      | some body =>
        let remaining_text :=
          if (b :: r).get? end_iter = some 10 then (b :: r).drop (end_iter + 1)
          else (b :: r).drop end_iter
        match split_loop header footer max_bytes fuel remaining_text with
        | .ok (messages, bodies) => .ok (message :: messages, body :: bodies)
        | o => o

/-- Function `idle_text_encode_and_split`; `fuel` bounds the number of loop iterations.
The result is the pair of the returned lines and `*bodies_out`. -/
def idle_text_encode_and_split (fuel : Nat) (type : Nat) (recipient text : List Nat)
    (max_msg_len : Nat) : Outcome (List (List Nat) × List (List Nat)) :=
  match header_footer type recipient with
  | none => .error TP_ERROR_NOT_IMPLEMENTED
  | some (header, footer) =>
    let max_bytes := gsize_sub max_msg_len (header.length + footer.length)
    split_loop header footer max_bytes fuel text

/-! ## UTF-8 well-formedness -/

/-- State of a UTF-8 decoder between two bytes: at a code-point boundary, or
inside a code point where the next byte must lie in `lo .. hi` and `more`
further continuation bytes follow it. -/
inductive Utf8State where
  | boundary
  | inside (lo hi more : Nat)
  deriving DecidableEq, Repr

/-- One byte of well-formed UTF-8 (the table of RFC 3629 and of the Unicode
standard: no overlong forms, no surrogates, nothing above U+10FFFF). -/
def utf8_step : Utf8State → Nat → Option Utf8State
  | .boundary, b =>
    if b < 0x80 then some .boundary
    else if 0xC2 ≤ b ∧ b ≤ 0xDF then some (.inside 0x80 0xBF 0)
    else if b = 0xE0 then some (.inside 0xA0 0xBF 1)
    else if (0xE1 ≤ b ∧ b ≤ 0xEC) ∨ b = 0xEE ∨ b = 0xEF then some (.inside 0x80 0xBF 1)
    else if b = 0xED then some (.inside 0x80 0x9F 1)
    else if b = 0xF0 then some (.inside 0x90 0xBF 2)
    else if 0xF1 ≤ b ∧ b ≤ 0xF3 then some (.inside 0x80 0xBF 2)
    else if b = 0xF4 then some (.inside 0x80 0x8F 2)
    else none
  | .inside lo hi more, b =>
    if lo ≤ b ∧ b ≤ hi then
      some (if more = 0 then .boundary else .inside 0x80 0xBF (more - 1))
    else none

/-- Run the decoder over a byte string. -/
def utf8_run : Utf8State → List Nat → Option Utf8State
  | s, [] => some s
  | s, b :: r =>
    match utf8_step s b with
    | some s' => utf8_run s' r
    | none => none

/-- The byte string is valid UTF-8: the decoder accepts every byte and ends at
a code-point boundary. -/
def utf8_valid (text : List Nat) : Prop := utf8_run .boundary text = some .boundary

instance (text : List Nat) : Decidable (utf8_valid text) := by
  unfold utf8_valid; infer_instance

/-- The byte range expected inside a code point is a range of continuation bytes. -/
def utf8_state_ok : Utf8State → Prop
  | .boundary => True
  | .inside lo hi _ => 0x80 ≤ lo ∧ hi ≤ 0xBF

/-! ## MUC channel: `src/idle-muc-channel.c` -/

/-- Longest IRC line without CRLF, `IRC_MSG_MAXLEN`. -/
def IRC_MSG_MAXLEN : Nat := 510

/-- The lifecycle states `IdleMUCState`. -/
inductive IdleMUCState where
  | MUC_STATE_CREATED
  | MUC_STATE_JOINING
  | MUC_STATE_NEED_PASSWORD
  | MUC_STATE_JOINED
  | MUC_STATE_PARTED
  deriving DecidableEq, Repr

/-- Numeric value of a state in the C enum. -/
def IdleMUCState.toNat : IdleMUCState → Nat
  | .MUC_STATE_CREATED => 0
  | .MUC_STATE_JOINING => 1
  | .MUC_STATE_NEED_PASSWORD => 2
  | .MUC_STATE_JOINED => 3
  | .MUC_STATE_PARTED => 4

def MODE_FLAG_CREATOR : Nat := 1
def MODE_FLAG_OPERATOR_PRIVILEGE : Nat := 2
def MODE_FLAG_VOICE_PRIVILEGE : Nat := 4
def MODE_FLAG_ANONYMOUS : Nat := 8
def MODE_FLAG_INVITE_ONLY : Nat := 16
def MODE_FLAG_MODERATED : Nat := 32
def MODE_FLAG_NO_OUTSIDE_MESSAGES : Nat := 64
def MODE_FLAG_QUIET : Nat := 128
def MODE_FLAG_PRIVATE : Nat := 256
def MODE_FLAG_SECRET : Nat := 512
def MODE_FLAG_SERVER_REOP : Nat := 1024
def MODE_FLAG_TOPIC_ONLY_SETTABLE_BY_OPS : Nat := 2048
def MODE_FLAG_KEY : Nat := 4096
def MODE_FLAG_USER_LIMIT : Nat := 8192
def MODE_FLAG_HALFOP_PRIVILEGE : Nat := 16384
def LAST_MODE_FLAG_ENUM : Nat := 16385

/-- The record `IRCChannelModeState`; a `gchar *` that may be `NULL` is an `Option`. -/
structure IRCChannelModeState where
  flags : Nat
  limit : Nat
  topic : Option (List Nat)
  key : Option (List Nat)
  topic_touched : Nat
  topic_toucher : Nat
  deriving DecidableEq, Repr

def TP_PROPERTY_INVITE_ONLY : Nat := 0
def TP_PROPERTY_LIMIT : Nat := 1
def TP_PROPERTY_LIMITED : Nat := 2
def TP_PROPERTY_MODERATED : Nat := 3
def TP_PROPERTY_PASSWORD : Nat := 4
def TP_PROPERTY_PASSWORD_REQUIRED : Nat := 5
def TP_PROPERTY_PRIVATE : Nat := 6
def TP_PROPERTY_SUBJECT : Nat := 7
def TP_PROPERTY_SUBJECT_TIMESTAMP : Nat := 8
def TP_PROPERTY_SUBJECT_CONTACT : Nat := 9
def LAST_TP_PROPERTY_ENUM : Nat := 10

/-- The three `GType`s used by the property bag. -/
inductive GType where
  | G_TYPE_BOOLEAN
  | G_TYPE_UINT
  | G_TYPE_STRING
  deriving DecidableEq, Repr

/-- A `GValue` holding a boolean, a `guint` or a (possibly `NULL`) string. -/
inductive GValue where
  | boolean (b : Bool)
  | uint (n : Nat)
  | string (s : Option (List Nat))
  deriving DecidableEq, Repr

/-- The macro `G_VALUE_TYPE`. -/
def GValue.type : GValue → GType
  | .boolean _ => .G_TYPE_BOOLEAN
  | .uint _ => .G_TYPE_UINT
  | .string _ => .G_TYPE_STRING

/-- A value as `g_value_init` leaves it: zero of its type. -/
def g_value_init : GType → GValue
  | .G_TYPE_BOOLEAN => .boolean false
  | .G_TYPE_UINT => .uint 0
  | .G_TYPE_STRING => .string none

/-- The `type` column of the table `property_signatures`. -/
def property_signatures : List GType :=
  [.G_TYPE_BOOLEAN, .G_TYPE_UINT, .G_TYPE_BOOLEAN, .G_TYPE_BOOLEAN, .G_TYPE_STRING,
   .G_TYPE_BOOLEAN, .G_TYPE_BOOLEAN, .G_TYPE_STRING, .G_TYPE_UINT, .G_TYPE_UINT]

/-- One slot `TPProperty` of the property bag. -/
structure TPProperty where
  value : GValue
  flags : Nat
  deriving DecidableEq, Repr

/-- Property flag `TP_PROPERTY_FLAG_READ` (telepathy-glib enum). -/
def TP_PROPERTY_FLAG_READ : Nat := 1
/-- Property flag `TP_PROPERTY_FLAG_WRITE` (telepathy-glib enum). -/
def TP_PROPERTY_FLAG_WRITE : Nat := 2
/-- Group flag `TP_CHANNEL_GROUP_FLAG_CAN_ADD` (telepathy-glib enum). -/
def TP_CHANNEL_GROUP_FLAG_CAN_ADD : Nat := 1
/-- Group flag `TP_CHANNEL_GROUP_FLAG_CAN_REMOVE` (telepathy-glib enum). -/
def TP_CHANNEL_GROUP_FLAG_CAN_REMOVE : Nat := 2
/-- Group flag `TP_CHANNEL_GROUP_FLAG_MESSAGE_REMOVE` (telepathy-glib enum). -/
def TP_CHANNEL_GROUP_FLAG_MESSAGE_REMOVE : Nat := 16
/-- Password flag `TP_CHANNEL_PASSWORD_FLAG_PROVIDE` (telepathy-glib enum). -/
def TP_CHANNEL_PASSWORD_FLAG_PROVIDE : Nat := 8
/-- Change reason `TP_CHANNEL_GROUP_CHANGE_REASON_NONE` (telepathy-glib enum). -/
def TP_CHANNEL_GROUP_CHANGE_REASON_NONE : Nat := 0
/-- Change reason `TP_CHANNEL_GROUP_CHANGE_REASON_INVITED` (telepathy-glib enum). -/
def TP_CHANNEL_GROUP_CHANGE_REASON_INVITED : Nat := 4
/-- Join error `MUC_CHANNEL_JOIN_ERROR_NONE` of `idle-muc-channel.h`. -/
def MUC_CHANNEL_JOIN_ERROR_NONE : Nat := 0

/-- Bitwise complement `~x` of a `guint`. -/
def guint_not (x : Nat) : Nat := 4294967295 ^^^ x

/-- A queued message `IdleMUCPendingMessage`. -/
structure IdleMUCPendingMessage where
  id : Nat
  timestamp : Nat
  sender : Nat
  type : Nat
  text : List Nat
  deriving DecidableEq, Repr

/-- What the channel does to the outside: the signals of the signal enum
(`g_signal_emit`), a line handed to `_idle_connection_send`, and the reply
`dbus_g_method_return` to a parked ProvidePassword call.  Arrays made by
`tp_intset_to_array` are kept as the sets they enumerate. -/
inductive Effect where
  | CLOSED
  | GROUP_FLAGS_CHANGED (add remove : Nat)
  | LOST_MESSAGE
  | MEMBERS_CHANGED (message : List Nat) (added removed local_pending remote_pending : Finset Nat)
      (actor reason : Nat)
  | PASSWORD_FLAGS_CHANGED (add remove : Nat)
  | PROPERTIES_CHANGED (props : List (Nat × GValue))
  | PROPERTY_FLAGS_CHANGED (props : List (Nat × Nat))
  | RECEIVED (id timestamp sender type flags : Nat) (text : List Nat)
  | SEND_ERROR (err timestamp type : Nat) (text : List Nat)
  | SENT (timestamp type : Nat) (text : List Nat)
  | JOIN_READY (err : Nat)
  | connection_send (cmd : List Nat)
  | method_return (ctx : Nat) (success : Bool)
  deriving DecidableEq

/-- The instance data `IdleMUCChannelPrivate`, together with the trace of
everything the channel has emitted so far (oldest first). -/
structure IdleMUCChannelPrivate where
  handle : Nat
  channel_name : List Nat
  own_handle : Nat
  recv_id : Nat
  pending_messages : List IdleMUCPendingMessage
  local_pending : Finset Nat
  remote_pending : Finset Nat
  current_members : Finset Nat
  state : IdleMUCState
  mode_state : IRCChannelModeState
  group_flags : Nat
  password_flags : Nat
  properties : List TPProperty
  passwd_ctx : Option Nat
  join_ready : Bool
  closed : Bool
  dispose_has_run : Bool
  trace : List Effect

/-- Append one effect to the trace. -/
def emit (priv : IdleMUCChannelPrivate) (e : Effect) : IdleMUCChannelPrivate :=
  { priv with trace := priv.trace ++ [e] }

/-- Function `muc_channel_tp_properties_init`: every property zero of its type, flags 0. -/
def muc_channel_tp_properties_init : List TPProperty :=
  property_signatures.map fun t => { value := g_value_init t, flags := 0 }

/-- A freshly constructed channel: `idle_muc_channel_init` on zeroed instance
data, then `idle_muc_channel_constructor` for room `handle` named
`channel_name` with the connection's self handle `own_handle`. -/
def idle_muc_channel_init (handle : Nat) (channel_name : List Nat) (own_handle : Nat) :
    IdleMUCChannelPrivate :=
  { handle := handle
    channel_name := channel_name
    own_handle := own_handle
    recv_id := 0
    pending_messages := []
    local_pending := ∅
    remote_pending := ∅
    current_members := ∅
    state := .MUC_STATE_CREATED
    mode_state := { flags := 0, limit := 0, topic := none, key := none,
                    topic_touched := 0, topic_toucher := 0 }
    group_flags := 0
    password_flags := 0
    properties := muc_channel_tp_properties_init
    passwd_ctx := none
    join_ready := false
    closed := false
    dispose_has_run := false
    trace := [] }

/-- Function `g_value_compare`: equal types and equal contents. -/
def g_value_compare (v1 v2 : GValue) : Bool :=
  if v1.type ≠ v2.type then false
  else
    match v1, v2 with
    | .boolean a, .boolean b => a == b
    | .uint a, .uint b => a == b
    | .string none, .string none => true
    | .string (some a), .string (some b) => a == b
    | _, _ => false

/-- glib's `g_value_copy (src, dest)`: refuses a destination of another type. -/
def g_value_copy (src dest : GValue) : GValue :=
  if src.type = dest.type then src else dest

/-- The loop of `set_tp_property_flags` over the ids `props`: the new bag and
the `(id, flags)` pairs collected in `changed_props`. -/
def set_tp_property_flags_loop (add remove : Nat) :
    List Nat → List TPProperty → List TPProperty × List (Nat × Nat)
  | [], properties => (properties, [])
  | prop_id :: rest, properties =>
    let curr_flags := (properties.getD prop_id ⟨.uint 0, 0⟩).flags
    let flags := (curr_flags ||| add) &&& guint_not remove
    if curr_flags ≠ flags then
      let r := set_tp_property_flags_loop add remove rest
        (properties.modify (fun p => { p with flags := flags }) prop_id)
      (r.1, (prop_id, flags) :: r.2)
    else set_tp_property_flags_loop add remove rest properties

/-- Function `set_tp_property_flags`; `props = none` is the `NULL` array (all ten). -/
def set_tp_property_flags (priv : IdleMUCChannelPrivate) (props : Option (List Nat))
    (add remove : Nat) : IdleMUCChannelPrivate :=
  let ids := match props with
    | none => List.range LAST_TP_PROPERTY_ENUM
    | some l => l
  let r := set_tp_property_flags_loop add remove ids priv.properties
  let priv := { priv with properties := r.1 }
  if r.2.length > 0 then emit priv (.PROPERTY_FLAGS_CHANGED r.2) else priv

/-- The loop of `change_tp_properties`: the new bag, `changed_props` and `flags`. -/
def change_tp_properties_loop :
    List (Nat × GValue) → List TPProperty → List TPProperty × List (Nat × GValue) × List Nat
  | [], properties => (properties, [], [])
  | (prop_id, new_val) :: rest, properties =>
    if prop_id ≥ LAST_TP_PROPERTY_ENUM then change_tp_properties_loop rest properties
    else
      let curr_val := (properties.getD prop_id ⟨.uint 0, 0⟩).value
      if ¬ g_value_compare new_val curr_val then
        let r := change_tp_properties_loop rest
          (properties.modify (fun p => { p with value := g_value_copy new_val curr_val }) prop_id)
        (r.1, (prop_id, new_val) :: r.2.1, prop_id :: r.2.2)
      else change_tp_properties_loop rest properties

/-- Function `change_tp_properties`. -/
def change_tp_properties (priv : IdleMUCChannelPrivate) (props : List (Nat × GValue)) :
    IdleMUCChannelPrivate :=
  let r := change_tp_properties_loop props priv.properties
  let priv := { priv with properties := r.1 }
  let priv := if r.2.1.length > 0 then emit priv (.PROPERTIES_CHANGED r.2.1) else priv
  if r.2.2.length > 0 then set_tp_property_flags priv (some r.2.2) TP_PROPERTY_FLAG_READ 0
  else priv

/-- Function `change_password_flags`. -/
def change_password_flags (priv : IdleMUCChannelPrivate) (flag : Nat) (state : Bool) :
    IdleMUCChannelPrivate :=
  let add := if state then guint_not priv.password_flags &&& flag else 0
  let remove := if state then 0 else priv.password_flags &&& flag
  let priv := { priv with password_flags :=
    if state then priv.password_flags ||| flag else priv.password_flags &&& guint_not flag }
  if (add ||| remove) ≠ 0 then emit priv (.PASSWORD_FLAGS_CHANGED add remove) else priv

/-- Function `provide_password_reply`. -/
def provide_password_reply (priv : IdleMUCChannelPrivate) (success : Bool) :
    IdleMUCChannelPrivate :=
  let priv := match priv.passwd_ctx with
    | some ctx => { emit priv (.method_return ctx success) with passwd_ctx := none }
    | none => priv
  if success then change_password_flags priv TP_CHANNEL_PASSWORD_FLAG_PROVIDE false else priv

/-- Function `change_state`. -/
def change_state (priv : IdleMUCChannelPrivate) (state : IdleMUCState) :
    IdleMUCChannelPrivate :=
  let old := priv.state
  let priv :=
    if state.toNat > IdleMUCState.MUC_STATE_JOINING.toNat ∧ ¬ priv.join_ready then
      { emit priv (.JOIN_READY MUC_CHANNEL_JOIN_ERROR_NONE) with join_ready := true }
    else priv
  let priv :=
    if old = .MUC_STATE_NEED_PASSWORD ∧ state = .MUC_STATE_JOINED then
      provide_password_reply
        (change_password_flags priv TP_CHANNEL_PASSWORD_FLAG_PROVIDE false) true
    else priv
  let priv :=
    if old = .MUC_STATE_NEED_PASSWORD ∧ state = .MUC_STATE_NEED_PASSWORD then
      provide_password_reply priv false
    else priv
  let priv :=
    if old.toNat < IdleMUCState.MUC_STATE_NEED_PASSWORD.toNat
        ∧ state = .MUC_STATE_NEED_PASSWORD then
      change_password_flags priv TP_CHANNEL_PASSWORD_FLAG_PROVIDE true
    else priv
  { priv with state := state }

/-- Function `change_group_flags`. -/
def change_group_flags (priv : IdleMUCChannelPrivate) (add remove : Nat) :
    IdleMUCChannelPrivate :=
  let _add := guint_not priv.group_flags &&& add
  let _remove := priv.group_flags &&& remove
  let priv := { priv with group_flags := (priv.group_flags ||| add) &&& guint_not remove }
  if (_add ||| _remove) ≠ 0 then emit priv (.GROUP_FLAGS_CHANGED add remove) else priv

/-- Function `to_prop_id`. -/
def to_prop_id (flag : Nat) : Nat :=
  if flag = MODE_FLAG_INVITE_ONLY then TP_PROPERTY_INVITE_ONLY
  else if flag = MODE_FLAG_MODERATED then TP_PROPERTY_MODERATED
  else if flag = MODE_FLAG_PRIVATE ∨ flag = MODE_FLAG_SECRET then TP_PROPERTY_PRIVATE
  else if flag = MODE_FLAG_KEY then TP_PROPERTY_PASSWORD_REQUIRED
  else if flag = MODE_FLAG_USER_LIMIT then TP_PROPERTY_LIMITED
  else LAST_TP_PROPERTY_ENUM

/-- The privilege bits tested by `change_mode_state`:
`MODE_FLAG_OPERATOR_PRIVILEGE|MODE_FLAG_HALFOP_PRIVILEGE`. -/
def MODE_FLAGS_OP_OR_HALFOP : Nat :=
  MODE_FLAG_OPERATOR_PRIVILEGE ||| MODE_FLAG_HALFOP_PRIVILEGE

/-- The array `flags_helper` of `change_mode_state` (without its end marker). -/
def change_mode_state_flags_helper : List Nat :=
  [TP_PROPERTY_INVITE_ONLY, TP_PROPERTY_LIMIT, TP_PROPERTY_LIMITED, TP_PROPERTY_MODERATED,
   TP_PROPERTY_PASSWORD, TP_PROPERTY_PASSWORD_REQUIRED, TP_PROPERTY_PRIVATE,
   TP_PROPERTY_SUBJECT]

/-- The block `if (combined & (OPERATOR|HALFOP))` of `change_mode_state`: the
channel after the property-flag update, and the new `group_add`, `group_remove`. -/
def change_mode_state_privilege (priv : IdleMUCChannelPrivate)
    (add remove flags combined group_add group_remove : Nat) :
    IdleMUCChannelPrivate × Nat × Nat :=
  if combined &&& MODE_FLAGS_OP_OR_HALFOP ≠ 0 then
    if add &&& MODE_FLAGS_OP_OR_HALFOP ≠ 0 then
      (set_tp_property_flags priv (some change_mode_state_flags_helper) TP_PROPERTY_FLAG_WRITE 0,
       group_add ||| (TP_CHANNEL_GROUP_FLAG_CAN_ADD ||| TP_CHANNEL_GROUP_FLAG_CAN_REMOVE
         ||| TP_CHANNEL_GROUP_FLAG_MESSAGE_REMOVE),
       group_remove)
    else if remove &&& MODE_FLAGS_OP_OR_HALFOP ≠ 0 then
      (set_tp_property_flags priv (some change_mode_state_flags_helper) 0 TP_PROPERTY_FLAG_WRITE,
       group_add,
       (group_remove ||| (TP_CHANNEL_GROUP_FLAG_CAN_REMOVE
           ||| TP_CHANNEL_GROUP_FLAG_MESSAGE_REMOVE))
         ||| (if flags &&& MODE_FLAG_INVITE_ONLY ≠ 0 then TP_CHANNEL_GROUP_FLAG_CAN_ADD else 0))
    else (priv, group_add, group_remove)
  else (priv, group_add, group_remove)

/-- The values `i` takes in `for (i = 1; i < LAST_MODE_FLAG_ENUM; i = (i << 1))`. -/
def mode_flag_bits : List Nat :=
  [1, 2, 4, 8, 16, 32, 64, 128, 256, 512, 1024, 2048, 4096, 8192, 16384]

/-- What one round of that loop appends to `tp_props_to_change`. -/
def mode_flag_props (mode_state : IRCChannelModeState) (add combined i : Nat) :
    List (Nat × GValue) :=
  if combined &&& i ≠ 0 then
    let tp_prop_id := to_prop_id i
    if tp_prop_id < LAST_TP_PROPERTY_ENUM then
      if property_signatures.get? tp_prop_id ≠ some .G_TYPE_BOOLEAN then []
      else
        (tp_prop_id, GValue.boolean (decide (add &&& i ≠ 0))) ::
          (if add &&& i ≠ 0 then
            if i = MODE_FLAG_USER_LIMIT then [(TP_PROPERTY_LIMIT, GValue.uint mode_state.limit)]
            else if i = MODE_FLAG_KEY then [(TP_PROPERTY_PASSWORD, GValue.string mode_state.key)]
            else []
          else [])
    else []
  else []

/-- Function `change_mode_state`. -/
def change_mode_state (priv : IdleMUCChannelPrivate) (add remove : Nat) :
    IdleMUCChannelPrivate :=
  let remove := remove &&& guint_not add
  let flags := priv.mode_state.flags
  let add := add &&& guint_not flags
  let remove := remove &&& flags
  let flags := (flags ||| add) &&& guint_not remove
  let combined := add ||| remove
  let group_remove :=
    if add &&& MODE_FLAG_INVITE_ONLY ≠ 0 then
      (if flags &&& MODE_FLAGS_OP_OR_HALFOP = 0 then TP_CHANNEL_GROUP_FLAG_CAN_ADD else 0)
    else 0
  let group_add :=
    if add &&& MODE_FLAG_INVITE_ONLY ≠ 0 then 0
    else if remove &&& MODE_FLAG_INVITE_ONLY ≠ 0 then TP_CHANNEL_GROUP_FLAG_CAN_ADD
    else 0
  let r := change_mode_state_privilege priv add remove flags combined group_add group_remove
  let tp_props_to_change :=
    (mode_flag_bits.map (mode_flag_props priv.mode_state add combined)).flatten
  let priv := change_group_flags r.1 r.2.1 r.2.2
  let priv := change_tp_properties priv tp_props_to_change
  { priv with mode_state := { priv.mode_state with flags := flags } }

/-- Modelled from the spec: `idle_handle_set_update` of `idle-handle-set.c`
(the membership sets are "sets of contact handles with set algebra and change
diffs"): adds the handles of `add` to `set`; returns the new set and the
handles that were actually added. -/
def idle_handle_set_update (set add : Finset Nat) : Finset Nat × Finset Nat :=
  (set ∪ add, add \ set)

/-- Modelled from the spec: `idle_handle_set_difference_update` of
`idle-handle-set.c`: removes the handles of `remove` from `set`; returns the new
set and the handles that were actually removed. -/
def idle_handle_set_difference_update (set remove : Finset Nat) : Finset Nat × Finset Nat :=
  (set \ remove, set ∩ remove)

/-- Function `change_sets`; a `NULL` delta is `none`. -/
def change_sets (priv : IdleMUCChannelPrivate)
    (add_current remove_current add_local remove_local add_remote remove_remote :
      Option (Finset Nat))
    (actor reason : Nat) : IdleMUCChannelPrivate :=
  let add : Finset Nat := ∅
  let remove : Finset Nat := ∅
  let local_pending : Finset Nat := ∅
  let remote_pending : Finset Nat := ∅
  let r1 := match add_current with
    | some x => idle_handle_set_update priv.current_members x
    | none => (priv.current_members, ∅)
  let add := add ∪ r1.2
  let r2 := match remove_current with
    | some x => idle_handle_set_difference_update r1.1 x
    | none => (r1.1, ∅)
  let remove := remove ∪ r2.2
  let r3 := match add_local with
    | some x => idle_handle_set_update priv.local_pending x
    | none => (priv.local_pending, ∅)
  let local_pending := local_pending ∪ r3.2
  let r4 := match remove_local with
    | some x => idle_handle_set_difference_update r3.1 x
    | none => (r3.1, ∅)
  let remove := remove ∪ r4.2
  let r5 := match add_remote with
    | some x => idle_handle_set_update priv.remote_pending x
    | none => (priv.remote_pending, ∅)
  let remote_pending := remote_pending ∪ r5.2
  let r6 := match remove_remote with
    | some x => idle_handle_set_difference_update r5.1 x
    | none => (r5.1, ∅)
  let remove := remove ∪ r6.2
  let remove := remove \ add
  let remove := remove \ local_pending
  let remove := remove \ remote_pending
  let priv := { priv with current_members := r2.1, local_pending := r4.1, remote_pending := r6.1 }
  if add.card + remove.card + local_pending.card + remote_pending.card > 0 then
    emit priv (.MEMBERS_CHANGED [] add remove local_pending remote_pending actor reason)
  else priv

/-- Errors of the `TELEPATHY_ERRORS` domain raised by the channel. -/
inductive TelepathyError where
  | InvalidArgument
  | NotAvailable
  | PermissionDenied
  | InvalidHandle
  deriving DecidableEq, Repr

/-- The handle registry of the connection (`idle-handles.c`), which the channel
only calls: `idle_handle_for_contact` (0 for an invalid nick) and
`idle_handle_inspect` for contact and for room handles (`none` is `NULL`);
and glib's test `g_unichar_isalpha (g_utf8_get_char_validated (nick, -1))`. -/
structure IdleHandleStorage where
  idle_handle_for_contact : List Nat → Nat
  idle_handle_inspect_contact : Nat → Option (List Nat)
  idle_handle_inspect_room : Nat → Option (List Nat)
  first_char_isalpha : List Nat → Bool

/-- glib's `g_snprintf (buf, n, ...)` applied to the formatted text: at most
`n - 1` bytes are kept. -/
def g_snprintf (n : Nat) (formatted : List Nat) : List Nat := formatted.take (n - 1)

/-- Function `_idle_connection_send`: the line goes to the connection. -/
def _idle_connection_send (priv : IdleMUCChannelPrivate) (cmd : List Nat) :
    IdleMUCChannelPrivate :=
  emit priv (.connection_send cmd)

/-- Function `send_mode_query_request`. -/
def send_mode_query_request (priv : IdleMUCChannelPrivate) : IdleMUCChannelPrivate :=
  _idle_connection_send priv (g_snprintf (IRC_MSG_MAXLEN + 2) (ascii "MODE " ++ priv.channel_name))

/-- Function `_idle_muc_channel_join`. -/
def _idle_muc_channel_join (handles : IdleHandleStorage) (priv : IdleMUCChannelPrivate)
    (nick : List Nat) : IdleMUCChannelPrivate :=
  let handle := handles.idle_handle_for_contact nick
  if handle = 0 then priv
  else if handle = priv.own_handle then
    let priv := change_state priv .MUC_STATE_JOINED
    let set : Finset Nat := {handle}
    let priv := change_sets priv (some set) none none (some set) none (some set) handle
      TP_CHANNEL_GROUP_CHANGE_REASON_NONE
    let priv := change_group_flags priv TP_CHANNEL_GROUP_FLAG_CAN_ADD 0
    let priv := send_mode_query_request priv
    if priv.channel_name.head? = some 43 then
      change_mode_state priv MODE_FLAG_TOPIC_ONLY_SETTABLE_BY_OPS 0
    else priv
  else
    let set : Finset Nat := {handle}
    change_sets priv (some set) none none none none (some set) handle
      TP_CHANNEL_GROUP_CHANGE_REASON_NONE

/-- Function `_idle_muc_channel_handle_quit`. -/
def _idle_muc_channel_handle_quit (priv : IdleMUCChannelPrivate) (handle : Nat)
    (suppress : Bool) (actor reason : Nat) : IdleMUCChannelPrivate :=
  let set : Finset Nat := {handle}
  let priv := change_sets priv none (some set) none (some set) none (some set) actor reason
  if handle = priv.own_handle then
    let priv := change_state priv .MUC_STATE_PARTED
    if ¬ suppress then emit { priv with closed := true } .CLOSED else priv
  else priv

/-- Function `_idle_muc_channel_kick`. -/
def _idle_muc_channel_kick (handles : IdleHandleStorage) (priv : IdleMUCChannelPrivate)
    (nick kicker : List Nat) (reason : Nat) : IdleMUCChannelPrivate :=
  let handle := handles.idle_handle_for_contact nick
  if handle = 0 then priv
  else
    let kicker_handle := handles.idle_handle_for_contact kicker
    _idle_muc_channel_handle_quit priv handle false kicker_handle reason

/-- Function `_idle_muc_channel_part`. -/
def _idle_muc_channel_part (handles : IdleHandleStorage) (priv : IdleMUCChannelPrivate)
    (nick : List Nat) : IdleMUCChannelPrivate :=
  _idle_muc_channel_kick handles priv nick nick TP_CHANNEL_GROUP_CHANGE_REASON_NONE

/-- Function `_idle_muc_channel_invited`. -/
def _idle_muc_channel_invited (priv : IdleMUCChannelPrivate) (inviter : Nat) :
    IdleMUCChannelPrivate :=
  let handles_to_add : Finset Nat := {priv.own_handle}
  change_sets priv none none (some handles_to_add) none none none inviter
    TP_CHANNEL_GROUP_CHANGE_REASON_INVITED

/-- The `switch (own_mode)` of `_idle_muc_channel_names`: the mask `add` for
the sigil in front of the own nick (`@` operator, `&` half-operator, `+` voice). -/
def names_own_mode_add (own_mode : Nat) : Nat :=
  if own_mode = 64 then MODE_FLAG_OPERATOR_PRIVILEGE
  else if own_mode = 38 then MODE_FLAG_HALFOP_PRIVILEGE
  else if own_mode = 43 then MODE_FLAG_VOICE_PRIVILEGE
  else 0

/-- The loop of `_idle_muc_channel_names` over the listed names; carries the
channel and the set `handles_to_add`. -/
def _idle_muc_channel_names_loop (handles : IdleHandleStorage) :
    List (List Nat) → IdleMUCChannelPrivate → Finset Nat → IdleMUCChannelPrivate × Finset Nat
  | [], priv, handles_to_add => (priv, handles_to_add)
  | name :: rest, priv, handles_to_add =>
    let own_mode := if ¬ handles.first_char_isalpha name then name.headD 0 else 0
    let nick := if ¬ handles.first_char_isalpha name then name.drop 1 else name
    let handle := handles.idle_handle_for_contact nick
    if handle = 0 then _idle_muc_channel_names_loop handles rest priv handles_to_add
    else
      let priv :=
        if handle = priv.own_handle then
          let remove := MODE_FLAG_OPERATOR_PRIVILEGE ||| MODE_FLAG_VOICE_PRIVILEGE
            ||| MODE_FLAG_HALFOP_PRIVILEGE
          let add := names_own_mode_add own_mode
          change_mode_state priv add (remove &&& guint_not add)
        else priv
      _idle_muc_channel_names_loop handles rest priv (insert handle handles_to_add)

/-- Function `_idle_muc_channel_names`. -/
def _idle_muc_channel_names (handles : IdleHandleStorage) (priv : IdleMUCChannelPrivate)
    (names : List (List Nat)) : IdleMUCChannelPrivate :=
  let r := _idle_muc_channel_names_loop handles names priv ∅
  change_sets r.1 (some r.2) none none (some r.2) none (some r.2) 0
    TP_CHANNEL_GROUP_CHANGE_REASON_NONE

/-- Function `_idle_muc_channel_badchannelkey`. -/
def _idle_muc_channel_badchannelkey (priv : IdleMUCChannelPrivate) : IdleMUCChannelPrivate :=
  change_state priv .MUC_STATE_NEED_PASSWORD

/-- Function `_idle_muc_channel_join_error`. -/
def _idle_muc_channel_join_error (priv : IdleMUCChannelPrivate) (err : Nat) :
    IdleMUCChannelPrivate :=
  if ¬ priv.join_ready then emit { priv with join_ready := true } (.JOIN_READY err)
  else priv

/-- Function `_idle_muc_channel_rename`. -/
def _idle_muc_channel_rename (priv : IdleMUCChannelPrivate) (old new : Nat) :
    IdleMUCChannelPrivate :=
  let priv := if priv.own_handle = old then { priv with own_handle := new } else priv
  let e : Finset Nat := ∅
  let sets : Finset Nat × Finset Nat × Finset Nat × Finset Nat × Finset Nat × Finset Nat :=
    if old ∈ priv.current_members then ({new}, {old}, e, e, e, e)
    else if old ∈ priv.local_pending then (e, e, {new}, {old}, e, e)
    else if old ∈ priv.remote_pending then (e, e, e, e, {new}, {old})
    else (e, e, e, e, e, e)
  change_sets priv (some sets.1) (some sets.2.1) (some sets.2.2.1) (some sets.2.2.2.1)
    (some sets.2.2.2.2.1) (some sets.2.2.2.2.2) new TP_CHANNEL_GROUP_CHANGE_REASON_NONE

/-- Function `send_join_request`; `password = none` is `NULL`. -/
def send_join_request (priv : IdleMUCChannelPrivate) (password : Option (List Nat)) :
    IdleMUCChannelPrivate :=
  match password with
  | some pw =>
    _idle_connection_send priv
      (g_snprintf (IRC_MSG_MAXLEN + 1) (ascii "JOIN " ++ priv.channel_name ++ ascii " " ++ pw))
  | none =>
    _idle_connection_send priv (g_snprintf (IRC_MSG_MAXLEN + 1) (ascii "JOIN " ++ priv.channel_name))

/-- Function `send_invite_request`: the channel and `none` for `TRUE`, or the error. -/
def send_invite_request (handles : IdleHandleStorage) (priv : IdleMUCChannelPrivate)
    (handle : Nat) : IdleMUCChannelPrivate × Option TelepathyError :=
  match handles.idle_handle_inspect_contact handle with
  | none => (priv, some .InvalidHandle)
  | some [] => (priv, some .InvalidHandle)
  | some (c :: cs) =>
    (_idle_connection_send priv
      (g_snprintf (IRC_MSG_MAXLEN + 1)
        (ascii "INVITE " ++ (c :: cs) ++ ascii " " ++ priv.channel_name)), none)

/-- Function `send_kick_request`: the channel and `none` for `TRUE`, or the error. -/
def send_kick_request (handles : IdleHandleStorage) (priv : IdleMUCChannelPrivate)
    (handle : Nat) (msg : Option (List Nat)) : IdleMUCChannelPrivate × Option TelepathyError :=
  match handles.idle_handle_inspect_contact handle with
  | none => (priv, some .InvalidHandle)
  | some [] => (priv, some .InvalidHandle)
  | some (c :: cs) =>
    match msg with
    | some m =>
      (_idle_connection_send priv
        (g_snprintf (IRC_MSG_MAXLEN + 1)
          (ascii "KICK " ++ priv.channel_name ++ ascii " " ++ (c :: cs) ++ ascii " " ++ m)), none)
    | none =>
      (_idle_connection_send priv
        (g_snprintf (IRC_MSG_MAXLEN + 1)
          (ascii "KICK " ++ priv.channel_name ++ ascii " " ++ (c :: cs))), none)

/-- Function `add_member`: the channel and `none` for `TRUE`, or the error. -/
def add_member (handles : IdleHandleStorage) (priv : IdleMUCChannelPrivate) (handle : Nat) :
    IdleMUCChannelPrivate × Option TelepathyError :=
  if handle = priv.own_handle then
    if handle ∈ priv.current_members ∨ handle ∈ priv.remote_pending then
      (priv, some .NotAvailable)
    else
      let priv := send_join_request priv none
      let priv := change_state priv .MUC_STATE_JOINING
      let add_set : Finset Nat := {handle}
      (change_sets priv none none none none (some add_set) none 0
        TP_CHANNEL_GROUP_CHANGE_REASON_NONE, none)
  else
    if handle ∈ priv.current_members ∨ handle ∈ priv.remote_pending then
      (priv, some .NotAvailable)
    else
      match send_invite_request handles priv handle with
      | (priv, some invite_error) => (priv, some invite_error)
      | (priv, none) =>
        let add_set : Finset Nat := {handle}
        (change_sets priv none none none none (some add_set) none priv.own_handle
          TP_CHANNEL_GROUP_CHANGE_REASON_INVITED, none)

/-- Function `idle_muc_channel_add_members`: the channel and `none` for `TRUE`, or the error. -/
def idle_muc_channel_add_members (handles : IdleHandleStorage) :
    IdleMUCChannelPrivate → List Nat → IdleMUCChannelPrivate × Option TelepathyError
  | priv, [] => (priv, none)
  | priv, handle :: rest =>
    match add_member handles priv handle with
    | (priv, some add_error) => (priv, some add_error)
    | (priv, none) => idle_muc_channel_add_members handles priv rest

/-- Function `part_from_channel`; `msg = none` is `NULL`. -/
def part_from_channel (priv : IdleMUCChannelPrivate) (msg : Option (List Nat)) :
    IdleMUCChannelPrivate :=
  match msg with
  | some m =>
    _idle_connection_send priv
      (g_snprintf (IRC_MSG_MAXLEN + 1) (ascii "PART " ++ priv.channel_name ++ ascii " " ++ m))
  | none =>
    _idle_connection_send priv (g_snprintf (IRC_MSG_MAXLEN + 1) (ascii "PART " ++ priv.channel_name))

/-- Function `idle_muc_channel_close`; it always returns `TRUE`. -/
def idle_muc_channel_close (priv : IdleMUCChannelPrivate) : IdleMUCChannelPrivate :=
  let priv := if priv.state = .MUC_STATE_JOINED then part_from_channel priv none else priv
  if priv.state.toNat < IdleMUCState.MUC_STATE_JOINED.toNat then
    if ¬ priv.closed then { emit priv .CLOSED with closed := true } else priv
  else priv

/-- Function `idle_muc_channel_dispose` (the parent class's dispose emits nothing). -/
def idle_muc_channel_dispose (priv : IdleMUCChannelPrivate) : IdleMUCChannelPrivate :=
  if priv.dispose_has_run then priv
  else
    let priv := { priv with dispose_has_run := true }
    if ¬ priv.closed then { emit priv .CLOSED with closed := true } else priv

/-- Function `idle_muc_channel_remove_members`: the channel and `none` for `TRUE`, or the error. -/
def idle_muc_channel_remove_members (handles : IdleHandleStorage) (message : Option (List Nat)) :
    IdleMUCChannelPrivate → List Nat → IdleMUCChannelPrivate × Option TelepathyError
  | priv, [] => (priv, none)
  | priv, handle :: rest =>
    if handle = priv.own_handle then (part_from_channel priv message, none)
    else if handle ∉ priv.current_members then (priv, some .NotAvailable)
    else
      match send_kick_request handles priv handle message with
      | (priv, some _) => (priv, some .NotAvailable)
      | (priv, none) => idle_muc_channel_remove_members handles message priv rest

/-- The inbound events and client calls that touch membership and lifecycle. -/
inductive Call where
  | join (nick : List Nat)
  | part (nick : List Nat)
  | kick (nick kicker : List Nat) (reason : Nat)
  | handle_quit (handle : Nat) (suppress : Bool) (actor reason : Nat)
  | invited (inviter : Nat)
  | names (nicks : List (List Nat))
  | rename (old new : Nat)
  | badchannelkey
  | join_error (err : Nat)
  | add_members (contacts : List Nat)
  | remove_members (contacts : List Nat) (message : Option (List Nat))
  | close
  | dispose

/-- Deliver one event or call to the channel. -/
def Call.apply (handles : IdleHandleStorage) (priv : IdleMUCChannelPrivate) :
    Call → IdleMUCChannelPrivate
  | .join nick => _idle_muc_channel_join handles priv nick
  | .part nick => _idle_muc_channel_part handles priv nick
  | .kick nick kicker reason => _idle_muc_channel_kick handles priv nick kicker reason
  | .handle_quit handle suppress actor reason =>
    _idle_muc_channel_handle_quit priv handle suppress actor reason
  | .invited inviter => _idle_muc_channel_invited priv inviter
  | .names nicks => _idle_muc_channel_names handles priv nicks
  | .rename old new => _idle_muc_channel_rename priv old new
  | .badchannelkey => _idle_muc_channel_badchannelkey priv
  | .join_error err => _idle_muc_channel_join_error priv err
  | .add_members contacts => (idle_muc_channel_add_members handles priv contacts).1
  | .remove_members contacts message =>
    (idle_muc_channel_remove_members handles message priv contacts).1
  | .close => idle_muc_channel_close priv
  | .dispose => idle_muc_channel_dispose priv

/-- Deliver a sequence of events and calls, oldest first. -/
def run (handles : IdleHandleStorage) (priv : IdleMUCChannelPrivate) (calls : List Call) :
    IdleMUCChannelPrivate :=
  calls.foldl (Call.apply handles) priv

/-- The calls of the join-ready latch: `change_state` and
`_idle_muc_channel_join_error`. -/
inductive JoinReadyCall where
  | change_state (state : IdleMUCState)
  | join_error (err : Nat)

/-- Perform one call of the join-ready latch. -/
def JoinReadyCall.apply (priv : IdleMUCChannelPrivate) : JoinReadyCall → IdleMUCChannelPrivate
  | .change_state state => Idle.change_state priv state
  | .join_error err => _idle_muc_channel_join_error priv err

/-- Number of `join-ready` signals in a trace. -/
def count_join_ready (trace : List Effect) : Nat :=
  (trace.filter fun e => match e with | .JOIN_READY _ => true | _ => false).length

/-- Number of `closed` signals in a trace. -/
def count_closed (trace : List Effect) : Nat :=
  (trace.filter fun e => match e with | .CLOSED => true | _ => false).length

/-- Apply a sequence of `change_mode_state (add, remove)` calls, oldest first. -/
def change_mode_state_calls (priv : IdleMUCChannelPrivate) (calls : List (Nat × Nat)) :
    IdleMUCChannelPrivate :=
  calls.foldl (fun priv c => change_mode_state priv c.1 c.2) priv

/-- Apply a sequence of calls of the join-ready latch, oldest first. -/
def join_ready_calls (priv : IdleMUCChannelPrivate) (calls : List JoinReadyCall) :
    IdleMUCChannelPrivate :=
  calls.foldl JoinReadyCall.apply priv

/-- A small handle registry for worked examples: nick `me` is handle 1, nick
`bob` is handle 2, no other nick resolves. -/
def example_handles : IdleHandleStorage :=
  { idle_handle_for_contact := fun n =>
      if n = ascii "me" then 1 else if n = ascii "bob" then 2 else 0
    idle_handle_inspect_contact := fun h =>
      if h = 1 then some (ascii "me") else if h = 2 then some (ascii "bob") else none
    idle_handle_inspect_room := fun _ => some (ascii "#room")
    first_char_isalpha := fun n =>
      match n.head? with
      | some c => decide ((65 ≤ c ∧ c ≤ 90) ∨ (97 ≤ c ∧ c ≤ 122))
      | none => false }

/-- The three membership sets are pairwise disjoint. -/
def sets_pairwise_disjoint (priv : IdleMUCChannelPrivate) : Prop :=
  Disjoint priv.current_members priv.local_pending
    ∧ Disjoint priv.current_members priv.remote_pending
    ∧ Disjoint priv.local_pending priv.remote_pending

instance (priv : IdleMUCChannelPrivate) : Decidable (sets_pairwise_disjoint priv) := by
  unfold sets_pairwise_disjoint; infer_instance

/-- The latch invariant: nothing was emitted while `join_ready` is unset, and
never more than one `join-ready`. -/
def join_ready_inv (priv : IdleMUCChannelPrivate) : Prop :=
  (priv.join_ready = false → count_join_ready priv.trace = 0)
    ∧ count_join_ready priv.trace ≤ 1

/-- The WRITE bit of every property flag word is clear. -/
def no_write (properties : List TPProperty) : Prop :=
  ∀ (i : Nat) (p : TPProperty), properties[i]? = some p → p.flags.testBit 1 = false

/-- The WRITE bit is clear on the properties that `flags_helper` leaves out. -/
def no_write_tail (properties : List TPProperty) : Prop :=
  ∀ (i : Nat) (p : TPProperty), properties[i]? = some p → 8 ≤ i → p.flags.testBit 1 = false

/-- Invariant behind the WRITE flag: it is never set on the two properties
outside `flags_helper`, and on none at all while the own privilege bits
(operator, half-operator) are both clear. -/
def write_inv (priv : IdleMUCChannelPrivate) : Prop :=
  no_write_tail priv.properties
    ∧ ((priv.mode_state.flags.testBit 1 = false ∧ priv.mode_state.flags.testBit 14 = false) →
        no_write priv.properties)

/-! ## MUC channel: pending messages, properties and password calls -/

/-- Function `idle_pending_message_compare`: 0 when the message carries the id. -/
def idle_pending_message_compare (msg : IdleMUCPendingMessage) (id : Nat) : Nat :=
  if msg.id ≠ id then 1 else 0

/-- glib's `g_queue_find_custom` on the pending queue: position of the first
message for which the compare function returns 0, `none` for `NULL`. -/
def g_queue_find_custom (id : Nat) : List IdleMUCPendingMessage → Option Nat
  | [] => none
  | msg :: rest =>
    if idle_pending_message_compare msg id = 0 then some 0
    else (g_queue_find_custom id rest).map (· + 1)

/-- glib's `g_queue_delete_link`: unlink the node at that position. -/
def g_queue_delete_link (queue : List IdleMUCPendingMessage) (node : Nat) :
    List IdleMUCPendingMessage :=
  queue.eraseIdx node

/-- Function `idle_muc_channel_acknowledge_pending_messages`: the channel and
`none` for `TRUE`, or the error. -/
def idle_muc_channel_acknowledge_pending_messages :
    IdleMUCChannelPrivate → List Nat → IdleMUCChannelPrivate × Option TelepathyError
  | priv, [] => (priv, none)
  | priv, id :: rest =>
    match g_queue_find_custom id priv.pending_messages with
    | none => (priv, some .InvalidArgument)
    | some node =>
      idle_muc_channel_acknowledge_pending_messages
        { priv with pending_messages := g_queue_delete_link priv.pending_messages node } rest

/-- The first loop of `idle_muc_channel_get_properties`: the error of the first
requested id that is unknown or not readable. -/
def get_properties_check (properties : List TPProperty) : List Nat → Option TelepathyError
  | [] => none
  | prop :: rest =>
    if prop ≥ LAST_TP_PROPERTY_ENUM then some .InvalidArgument
    else if (properties.getD prop ⟨.uint 0, 0⟩).flags &&& TP_PROPERTY_FLAG_READ = 0 then
      some .PermissionDenied
    else get_properties_check properties rest

/-- Function `idle_muc_channel_get_properties`: the channel as the call leaves it
and either the error or the array `*ret` of `(id, value)` pairs. -/
def idle_muc_channel_get_properties (priv : IdleMUCChannelPrivate) (properties : List Nat) :
    IdleMUCChannelPrivate × Except TelepathyError (List (Nat × GValue)) :=
  match get_properties_check priv.properties properties with
  | some e => (priv, .error e)
  | none =>
    (priv, .ok (properties.map fun prop =>
      (prop, (priv.properties.getD prop ⟨.uint 0, 0⟩).value)))

/-- Function `idle_muc_channel_provide_password`; `context` names the parked
method invocation.  The channel and `none` for `TRUE`, or the error sent back. -/
def idle_muc_channel_provide_password (priv : IdleMUCChannelPrivate) (password : List Nat)
    (context : Nat) : IdleMUCChannelPrivate × Option TelepathyError :=
  if priv.password_flags &&& TP_CHANNEL_PASSWORD_FLAG_PROVIDE = 0 ∨ priv.passwd_ctx ≠ none then
    (priv, some .NotAvailable)
  else
    (send_join_request { priv with passwd_ctx := some context } (some password), none)

/-- glib's `g_value_get_boolean` (FALSE for a value of another type). -/
def g_value_get_boolean : GValue → Bool
  | .boolean b => b
  | _ => false

/-- glib's `g_value_get_uint` (0 for a value of another type). -/
def g_value_get_uint : GValue → Nat
  | .uint n => n
  | _ => 0

/-- glib's `g_value_get_string` (`NULL` for a value of another type). -/
def g_value_get_string : GValue → Option (List Nat)
  | .string s => s
  | _ => none

/-- The conversion `%s` of `g_snprintf`; a `NULL` string prints as `(null)`. -/
def printf_s (s : Option (List Nat)) : List Nat :=
  match s with
  | some t => t
  | none => ascii "(null)"

/-- The conversion `%u` of `g_snprintf`: decimal digits. -/
def printf_u (n : Nat) : List Nat := ascii (Nat.repr n)

/-- Function `to_irc_mode`: the mode letter of a property, 0 for none. -/
def to_irc_mode (prop_id : Nat) : Nat :=
  if prop_id = TP_PROPERTY_INVITE_ONLY then 105
  else if prop_id = TP_PROPERTY_MODERATED then 109
  else if prop_id = TP_PROPERTY_PRIVATE then 115
  else 0

/-- Function `prop_arr_find`: index of the first entry with that id, `none` for -1. -/
def prop_arr_find : List (Nat × GValue) → Nat → Option Nat
  | [], _ => none
  | (prop_id, _) :: rest, needle =>
    if prop_id = needle then some 0 else (prop_arr_find rest needle).map (· + 1)

/-- The first loop of `send_properties_request`.  `cmd` is the header
`MODE <chan> ` as formatted into the 512-byte buffer and `body` the text
currently stored behind it; carries the channel, `body` and the array
`waiting`.  `none` is a failed `g_assert` or a write past the end of `cmd`. -/
def send_properties_first_loop (cmd : List Nat) :
    List (Nat × GValue) → IdleMUCChannelPrivate → List Nat → List (Nat × GValue) →
      Option (IdleMUCChannelPrivate × List Nat × List (Nat × GValue))
  | [], priv, body, waiting => some (priv, body, waiting)
  | (prop_id, prop_val) :: rest, priv, body, waiting =>
    if to_irc_mode prop_id ≠ 0 then
      if prop_val.type ≠ .G_TYPE_BOOLEAN then none
      else if cmd.length + 3 > IRC_MSG_MAXLEN + 2 then none
      else
        let body := [if g_value_get_boolean prop_val then 43 else 45, to_irc_mode prop_id]
        send_properties_first_loop cmd rest (_idle_connection_send priv (cmd ++ body)) body
          waiting
    else if prop_id = TP_PROPERTY_SUBJECT then
      send_properties_first_loop cmd rest
        (_idle_connection_send priv
          (g_snprintf (IRC_MSG_MAXLEN + 2)
            (ascii "TOPIC " ++ priv.channel_name ++ ascii " :"
              ++ printf_s (g_value_get_string prop_val))))
        body waiting
    else send_properties_first_loop cmd rest priv body (waiting ++ [(prop_id, prop_val)])

/-- Exchange the entries at positions `i` and `j` of `waiting`. -/
def swap_waiting (waiting : List (Nat × GValue)) (i j : Nat) : List (Nat × GValue) :=
  (waiting.set i (waiting.getD j (0, .uint 0))).set j (waiting.getD i (0, .uint 0))

/-- The reordering block of `send_properties_request`: put `limit` in front of
`limited` and `password` in front of `password-required`. -/
def reorder_waiting (waiting : List (Nat × GValue)) : List (Nat × GValue) :=
  let waiting :=
    match prop_arr_find waiting TP_PROPERTY_LIMITED, prop_arr_find waiting TP_PROPERTY_LIMIT with
    | some i, some j => if i < j then swap_waiting waiting i j else waiting
    | _, _ => waiting
  match prop_arr_find waiting TP_PROPERTY_PASSWORD_REQUIRED,
      prop_arr_find waiting TP_PROPERTY_PASSWORD with
  | some i, some j => if i < j then swap_waiting waiting i j else waiting
  | _, _ => waiting

/-- The call `g_snprintf (body, IRC_MSG_MAXLEN-len, ...)` of the second loop:
the new text behind the header, `none` when it is written past the end of `cmd`. -/
def body_write (len : Nat) (body formatted : List Nat) : Option (List Nat) :=
  if gsize_sub IRC_MSG_MAXLEN len = 0 then some body
  else if len + (g_snprintf (gsize_sub IRC_MSG_MAXLEN len) formatted).length + 1
      ≤ IRC_MSG_MAXLEN + 2 then
    some (g_snprintf (gsize_sub IRC_MSG_MAXLEN len) formatted)
  else none

/-- One round of the second loop of `send_properties_request` up to the send:
the channel (a `limit` or `password` value is copied into the bag) and the
text handed to `g_snprintf`, if any. -/
def waiting_entry (waiting : List (Nat × GValue)) (priv : IdleMUCChannelPrivate)
    (prop_id : Nat) (prop_val : GValue) : IdleMUCChannelPrivate × Option (List Nat) :=
  if prop_id = TP_PROPERTY_LIMIT ∨ prop_id = TP_PROPERTY_PASSWORD then
    let priv := { priv with properties :=
      (priv.properties.modify (fun p => { p with value := g_value_copy prop_val p.value })
        prop_id) }
    match prop_arr_find waiting (prop_id + 1) with
    | none =>
      if prop_id = TP_PROPERTY_LIMIT ∧ priv.mode_state.flags &&& MODE_FLAG_USER_LIMIT ≠ 0 then
        (priv, some (ascii "+l " ++ printf_u (g_value_get_uint prop_val)))
      else if prop_id = TP_PROPERTY_PASSWORD ∧ priv.mode_state.flags &&& MODE_FLAG_KEY ≠ 0 then
        (priv, some (ascii "+k " ++ printf_s (g_value_get_string prop_val)))
      else (priv, none)
    | some _ => (priv, none)
  else if prop_id = TP_PROPERTY_LIMITED then
    let limit := g_value_get_uint (priv.properties.getD TP_PROPERTY_LIMIT ⟨.uint 0, 0⟩).value
    if g_value_get_boolean prop_val then
      if limit ≠ 0 then (priv, some (ascii "+l " ++ printf_u limit)) else (priv, none)
    else (priv, some (ascii "-l"))
  else if prop_id = TP_PROPERTY_PASSWORD_REQUIRED then
    let key := g_value_get_string (priv.properties.getD TP_PROPERTY_PASSWORD ⟨.uint 0, 0⟩).value
    if g_value_get_boolean prop_val then
      match key with
      | some k => (priv, some (ascii "+k " ++ k))
      | none => (priv, none)
    else (priv, some (ascii "-k"))
  else (priv, none)

/-- The second loop of `send_properties_request`, over the reordered array
`waiting`; every round ends by sending `cmd` with whatever text is behind the
header.  `none` is a failed `g_assert` or a write past the end of `cmd`. -/
def send_properties_waiting_loop (cmd : List Nat) (waiting : List (Nat × GValue)) :
    List (Nat × GValue) → IdleMUCChannelPrivate → List Nat → Option IdleMUCChannelPrivate
  | [], priv, _ => some priv
  | (prop_id, prop_val) :: rest, priv, body =>
    if prop_id ≥ LAST_TP_PROPERTY_ENUM then none
    else
      match (waiting_entry waiting priv prop_id prop_val).2 with
      | none =>
        send_properties_waiting_loop cmd waiting rest
          (_idle_connection_send (waiting_entry waiting priv prop_id prop_val).1 (cmd ++ body))
          body
      | some formatted =>
        match body_write cmd.length body formatted with
        | none => none
        | some body =>
          send_properties_waiting_loop cmd waiting rest
            (_idle_connection_send (waiting_entry waiting priv prop_id prop_val).1
              (cmd ++ body))
            body

/-- Function `send_properties_request`. -/
def send_properties_request (priv : IdleMUCChannelPrivate) (properties : List (Nat × GValue)) :
    Option IdleMUCChannelPrivate :=
  let cmd := g_snprintf (IRC_MSG_MAXLEN + 2) (ascii "MODE " ++ priv.channel_name ++ ascii " ")
  match send_properties_first_loop cmd properties priv [] [] with
  | none => none
  | some r =>
    send_properties_waiting_loop cmd (reorder_waiting r.2.2) (reorder_waiting r.2.2) r.1 r.2.1

/-- glib's `g_value_type_compatible` on the three fundamental types. -/
def g_value_type_compatible (src dest : GType) : Bool := decide (src = dest)

/-- The loop of `idle_muc_channel_set_properties`: the error of the first
entry that is refused, else the array `to_change`. -/
def set_properties_loop (properties : List TPProperty) :
    List (Nat × GValue) → Except TelepathyError (List (Nat × GValue))
  | [] => .ok []
  | (prop_id, prop_val) :: rest =>
    if prop_id ≥ LAST_TP_PROPERTY_ENUM then .error .InvalidArgument
    else if (properties.getD prop_id ⟨.uint 0, 0⟩).flags &&& TP_PROPERTY_FLAG_WRITE = 0 then
      .error .PermissionDenied
    else if ¬ g_value_type_compatible prop_val.type
        (property_signatures.getD prop_id .G_TYPE_UINT) then
      .error .InvalidArgument
    else
      match set_properties_loop properties rest with
      | .error e => .error e
      | .ok to_change =>
        if ¬ g_value_compare prop_val (properties.getD prop_id ⟨.uint 0, 0⟩).value then
          .ok ((prop_id, prop_val) :: to_change)
        else .ok to_change

/-- Function `idle_muc_channel_set_properties`: the channel and `none` for
`TRUE`, or the error; the outer `none` is undefined behaviour inside
`send_properties_request`. -/
def idle_muc_channel_set_properties (priv : IdleMUCChannelPrivate)
    (properties : List (Nat × GValue)) :
    Option (IdleMUCChannelPrivate × Option TelepathyError) :=
  match set_properties_loop priv.properties properties with
  | .error e => some (priv, some e)
  | .ok to_change =>
    match send_properties_request priv to_change with
    | none => none
    | some priv => some (priv, none)

/-- The refusal the claim on `set_properties` names for one entry, checked in
this order: unknown id (InvalidArgument), WRITE flag missing
(PermissionDenied), value of another type than the property
(InvalidArgument); `none` for an entry that is accepted. -/
def set_property_refusal (properties : List TPProperty) (entry : Nat × GValue) :
    Option TelepathyError :=
  if entry.1 ≥ LAST_TP_PROPERTY_ENUM then some .InvalidArgument
  else if (properties.getD entry.1 ⟨.uint 0, 0⟩).flags &&& TP_PROPERTY_FLAG_WRITE = 0 then
    some .PermissionDenied
  else if entry.2.type ≠ property_signatures.getD entry.1 .G_TYPE_UINT then
    some .InvalidArgument
  else none

/-- The entry carries another value than the property bag holds for its id. -/
def property_differs (properties : List TPProperty) (entry : Nat × GValue) : Bool :=
  !g_value_compare entry.2 (properties.getD entry.1 ⟨.uint 0, 0⟩).value

/-- The line expected for a changed entry of invite-only, moderated, private
or subject: `MODE <chan> +X` or `MODE <chan> -X` with X = i, m, s, and for
subject `TOPIC <chan> :<text>` cut to the 511 bytes of the command buffer (an
absent text prints as `(null)`). -/
def expected_property_line (channel_name : List Nat) (entry : Nat × GValue) : List Nat :=
  if entry.1 = TP_PROPERTY_SUBJECT then
    (ascii "TOPIC " ++ channel_name ++ ascii " :"
      ++ (match entry.2 with
          | .string (some text) => text
          | _ => ascii "(null)")).take 511
  else
    ascii "MODE " ++ channel_name ++ ascii " "
      ++ [if entry.2 = .boolean true then 43 else 45,
          if entry.1 = TP_PROPERTY_INVITE_ONLY then 105
          else if entry.1 = TP_PROPERTY_MODERATED then 109 else 115]

/-- The effects of the join, password and close life cycle: join-ready,
password-flags-changed, the reply to a parked ProvidePassword call, a line
handed to the connection and closed. -/
def is_lifecycle_effect : Effect → Bool
  | .JOIN_READY _ => true
  | .PASSWORD_FLAGS_CHANGED _ _ => true
  | .method_return _ _ => true
  | .connection_send _ => true
  | .CLOSED => true
  | _ => false

/-- The life-cycle effects of a trace, oldest first. -/
def lifecycle_effects (trace : List Effect) : List Effect := trace.filter is_lifecycle_effect

/-- Channel `q` agrees with `p` on the life-cycle data (state, continuation,
password flags, the two latches, name and self handle) and has emitted the same
life-cycle effects. -/
def same_lifecycle (p q : IdleMUCChannelPrivate) : Prop :=
  q.state = p.state ∧ q.passwd_ctx = p.passwd_ctx ∧ q.password_flags = p.password_flags
    ∧ q.join_ready = p.join_ready ∧ q.closed = p.closed ∧ q.channel_name = p.channel_name
    ∧ q.own_handle = p.own_handle ∧ lifecycle_effects q.trace = lifecycle_effects p.trace

/-! ## MUC channel: inbound messages, inbound modes and the send call -/

/-- Function `_idle_muc_channel_receive`; `timestamp` is the value of `time (NULL)`.
The counter `recv_id` is a `guint`, and the `received` signal carries the
timestamp as a `guint` (`G_TYPE_UINT`), its low 32 bits. -/
def _idle_muc_channel_receive (priv : IdleMUCChannelPrivate) (type sender : Nat)
    (text : List Nat) (timestamp : Nat) : IdleMUCChannelPrivate :=
  let msg : IdleMUCPendingMessage :=
    { id := priv.recv_id, timestamp := timestamp, sender := sender, type := type, text := text }
  emit { priv with
          recv_id := (priv.recv_id + 1) % 4294967296
          pending_messages := priv.pending_messages ++ [msg] }
    (.RECEIVED msg.id (msg.timestamp % 4294967296) msg.sender msg.type 0 msg.text)

/-- Function `idle_muc_channel_list_pending_messages`: the channel and the array
`*ret` of `(id, timestamp, sender, type, 0, text)` rows (the timestamp stored as
a `guint`); the call always returns `TRUE`. -/
def idle_muc_channel_list_pending_messages (priv : IdleMUCChannelPrivate) (clear : Bool) :
    IdleMUCChannelPrivate × List (Nat × Nat × Nat × Nat × Nat × List Nat) :=
  ({ priv with pending_messages := if clear then [] else priv.pending_messages },
   priv.pending_messages.map fun msg =>
     (msg.id, msg.timestamp % 4294967296, msg.sender, msg.type, 0, msg.text))

/-- The tokens of a non-empty string between its spaces. -/
def split_at_spaces : List Nat → List (List Nat)
  | [] => [[]]
  | c :: rest =>
    if c = 32 then [] :: split_at_spaces rest
    else
      match split_at_spaces rest with
      | [] => [[c]]
      | token :: tokens => (c :: token) :: tokens

/-- glib's `g_strsplit_set (string, " ", -1)`: the tokens between the spaces;
the empty string gives the empty vector. -/
def g_strsplit_set (string : List Nat) : List (List Nat) :=
  if string = [] then [] else split_at_spaces string

/-- The read `mode_argv[i]` of the `NULL`-terminated vector: a token, the
terminating `NULL` (`some none`), or a read past the end of the vector (`none`). -/
def mode_argv_read (mode_argv : List (List Nat)) (i : Nat) : Option (Option (List Nat)) :=
  if i < mode_argv.length then some (mode_argv.get? i)
  else if i = mode_argv.length then some none
  else none

/-- glib's deprecated `g_strncasecmp (s1, s2, n)`, in the C locale: compares at
most `n` bytes ignoring ASCII case. -/
def g_strncasecmp (s1 s2 : List Nat) (n : Nat) : Int := g_ascii_strncasecmp s1 s2 n

/-- The test `isspace (c)` in the C locale. -/
def isspace (c : Nat) : Bool := decide (c = 32 ∨ (9 ≤ c ∧ c ≤ 13))

/-- The value of the leading decimal digits of a string, continuing from `acc`. -/
def atoi_digits : List Nat → Nat → Nat
  | [], acc => acc
  | c :: rest, acc => if 48 ≤ c ∧ c ≤ 57 then atoi_digits rest (acc * 10 + (c - 48)) else acc

/-- The C library's `atoi`: skips white space, reads an optional sign and the
leading digits; `none` when the value does not fit an `int` (undefined). -/
def atoi (nptr : List Nat) : Option Int :=
  let s := nptr.dropWhile isspace
  let value : Int :=
    match s with
    | 45 :: digits => - (atoi_digits digits 0 : Int)
    | 43 :: digits => (atoi_digits digits 0 : Int)
    | _ => (atoi_digits s 0 : Int)
  if -2147483648 ≤ value ∧ value ≤ 2147483647 then some value else none

/-- The conversion of an `int` to `guint`. -/
def to_guint (x : Int) : Nat := (x % 4294967296).toNat

/-- The cases of `switch (*operation)` in `_idle_muc_channel_mode` that take no
argument: the flag of the letter, 0 for a letter that is not understood. -/
def mode_letter_flag (c : Nat) : Nat :=
  if c = 97 then MODE_FLAG_ANONYMOUS
  else if c = 105 then MODE_FLAG_INVITE_ONLY
  else if c = 109 then MODE_FLAG_MODERATED
  else if c = 110 then MODE_FLAG_NO_OUTSIDE_MESSAGES
  else if c = 113 then MODE_FLAG_QUIET
  else if c = 112 then MODE_FLAG_PRIVATE
  else if c = 115 then MODE_FLAG_SECRET
  else if c = 114 then MODE_FLAG_SERVER_REOP
  else if c = 116 then MODE_FLAG_TOPIC_ONLY_SETTABLE_BY_OPS
  else 0

/-- The cases `o`, `h`, `v` of that switch: the privilege the letter stands for. -/
def mode_letter_privilege (c : Nat) : Nat :=
  if c = 111 then MODE_FLAG_OPERATOR_PRIVILEGE
  else if c = 104 then MODE_FLAG_HALFOP_PRIVILEGE
  else MODE_FLAG_VOICE_PRIVILEGE

/-- The loop `while (*operation != '\0')` of `_idle_muc_channel_mode` over the
letters behind the sign; carries the argument index `i`, `mode_accum`, `limit`
and `key`.  `none` is undefined behaviour: a `NULL` string handed to
`g_strncasecmp` or `atoi`, a read past the end of `mode_argv`, or a limit that
does not fit an `int`. -/
def mode_letters (own_nick : Option (List Nat)) (mode_argv : List (List Nat)) :
    List Nat → Nat → Nat → Nat → Option (List Nat) → Option (Nat × Nat × Option (List Nat))
  | [], _, mode_accum, limit, key => some (mode_accum, limit, key)
  | c :: operation, i, mode_accum, limit, key =>
    if c = 111 ∨ c = 104 ∨ c = 118 then
      match own_nick, mode_argv_read mode_argv i with
      | some nick, some (some arg) =>
        if g_strncasecmp nick arg 4294967295 = 0 then
          mode_letters own_nick mode_argv operation (i + 1)
            (mode_accum ||| mode_letter_privilege c) limit key
        else mode_letters own_nick mode_argv operation (i + 1) mode_accum limit key
      | _, _ => none
    else if c = 108 then
      match mode_argv_read mode_argv i with
      | some (some arg) =>
        match atoi arg with
        | some n =>
          mode_letters own_nick mode_argv operation (i + 1)
            (mode_accum ||| MODE_FLAG_USER_LIMIT) (to_guint n) key
        | none => none
      | _ => none
    else if c = 107 then
      match mode_argv_read mode_argv i with
      | some arg =>
        mode_letters own_nick mode_argv operation (i + 1) (mode_accum ||| MODE_FLAG_KEY) limit arg
      | none => none
    else
      mode_letters own_nick mode_argv operation i (mode_accum ||| mode_letter_flag c) limit key

/-- The array `flags_helper` of `_idle_muc_channel_mode` (without its end marker). -/
def mode_flags_helper : List Nat :=
  [TP_PROPERTY_INVITE_ONLY, TP_PROPERTY_LIMITED, TP_PROPERTY_MODERATED,
   TP_PROPERTY_PASSWORD_REQUIRED, TP_PROPERTY_PRIVATE]

/-- Function `_idle_muc_channel_mode`; `none` is undefined behaviour inside the
letter loop. -/
def _idle_muc_channel_mode (handles : IdleHandleStorage) (priv : IdleMUCChannelPrivate)
    (mode_str : List Nat) : Option IdleMUCChannelPrivate :=
  match g_strsplit_set mode_str with
  | [] => some priv
  | token :: args =>
    if token.head? ≠ some 43 ∧ token.head? ≠ some 45 then some priv
    else
      let remove := decide (token.head? = some 45)
      match mode_letters (handles.idle_handle_inspect_contact priv.own_handle) (token :: args)
          (token.drop 1) 1 0 0 none with
      | none => none
      | some (mode_accum, limit, key) =>
        let priv :=
          if mode_accum &&& MODE_FLAG_KEY ≠ 0 then
            { priv with mode_state := { priv.mode_state with key := key } }
          else priv
        let priv :=
          if mode_accum &&& MODE_FLAG_USER_LIMIT ≠ 0 then
            { priv with mode_state := { priv.mode_state with limit := limit } }
          else priv
        let priv := set_tp_property_flags priv (some mode_flags_helper) TP_PROPERTY_FLAG_READ 0
        if ¬ remove then some (change_mode_state priv mode_accum 0)
        else some (change_mode_state priv 0 mode_accum)

/-- Deliver a sequence of inbound MODE strings, oldest first. -/
def mode_events (handles : IdleHandleStorage) :
    IdleMUCChannelPrivate → List (List Nat) → Option IdleMUCChannelPrivate
  | priv, [] => some priv
  | priv, mode_str :: rest =>
    match _idle_muc_channel_mode handles priv mode_str with
    | none => none
    | some priv => mode_events handles priv rest

/-- Send error `TP_CHANNEL_TEXT_SEND_ERROR_PERMISSION_DENIED` (telepathy-glib enum). -/
def TP_CHANNEL_TEXT_SEND_ERROR_PERMISSION_DENIED : Nat := 3

/-- glib's `g_strlcpy (dest, src, dest_size)`: what ends up in `dest`. -/
def g_strlcpy (src : List Nat) (dest_size : Nat) : List Nat := src.take (dest_size - 1)

/-- The `switch (type)` of `idle_muc_channel_send`: the header formatted into
`msg`, `none` for the `default:` branch. -/
def send_header (type : Nat) (recipient : List Nat) : Option (List Nat) :=
  if type = TP_CHANNEL_TEXT_MESSAGE_TYPE_NORMAL then
    some (g_snprintf IRC_MSG_MAXLEN (ascii "PRIVMSG " ++ recipient ++ ascii " :"))
  else if type = TP_CHANNEL_TEXT_MESSAGE_TYPE_ACTION then
    some (g_snprintf IRC_MSG_MAXLEN (ascii "PRIVMSG " ++ recipient ++ ascii " :\x01ACTION "))
  else if type = TP_CHANNEL_TEXT_MESSAGE_TYPE_NOTICE then
    some (g_snprintf IRC_MSG_MAXLEN (ascii "NOTICE " ++ recipient ++ ascii " :"))
  else none

/-- The loop `while (part < final_text+len)` of `idle_muc_channel_send`; `part`
is the offset of the pointer from `final_text`, moved with the address
arithmetic of a 64-bit target (`len -= 1` on a zero `size_t` wraps, and `part +=
len` then steps back by one).  `none` when the loop is still running after `fuel`
iterations. -/
def send_loop (type : Nat) (header text : List Nat) :
    Nat → Nat → IdleMUCChannelPrivate → Option IdleMUCChannelPrivate
  | 0, part, priv => if part < text.length then none else some priv
  | fuel + 1, part, priv =>
    if part < text.length then
      let br := strchr 10 (text.drop part)
      let len := gsize_sub IRC_MSG_MAXLEN header.length
      let len :=
        match br with
        | some k => if len < k then len else k
        | none => len
      let body :=
        if type = TP_CHANNEL_TEXT_MESSAGE_TYPE_ACTION then
          g_snprintf (len + 1) (text.drop part ++ ascii "\x01")
        else g_strlcpy (text.drop part) (len + 1)
      let len := if type = TP_CHANNEL_TEXT_MESSAGE_TYPE_ACTION then gsize_sub len 1 else len
      let part := (part + len) % 18446744073709551616
      let part :=
        match br with
        | some _ => (part + 1) % 18446744073709551616
        | none => part
      send_loop type header text fuel part (_idle_connection_send priv (header ++ body))
    else some priv

/-- Function `idle_muc_channel_send`; `fuel` bounds the number of loop
iterations and `timestamp` is the value of `time (NULL)`, which the signals
carry as a `guint` (its low 32 bits).  The channel and `none` for `TRUE`, or
the error. -/
def idle_muc_channel_send (handles : IdleHandleStorage) (fuel : Nat)
    (priv : IdleMUCChannelPrivate) (type : Nat) (text : List Nat) (timestamp : Nat) :
    Outcome (IdleMUCChannelPrivate × Option TelepathyError) :=
  match handles.idle_handle_inspect_room priv.handle with
  | none => .ok (priv, some .NotAvailable)
  | some [] => .ok (priv, some .NotAvailable)
  | some (c :: cs) =>
    match send_header type (c :: cs) with
    | none => .ok (priv, some .InvalidArgument)
    | some header =>
      match send_loop type header text fuel 0 priv with
      | none => .timeout
      | some priv =>
        if priv.mode_state.flags &&& MODE_FLAG_MODERATED ≠ 0
            ∧ priv.mode_state.flags &&& (MODE_FLAG_OPERATOR_PRIVILEGE
                ||| MODE_FLAG_HALFOP_PRIVILEGE ||| MODE_FLAG_VOICE_PRIVILEGE) = 0 then
          .ok (emit priv (.SEND_ERROR TP_CHANNEL_TEXT_SEND_ERROR_PERMISSION_DENIED
            (timestamp % 4294967296) type text), none)
        else .ok (emit priv (.SENT (timestamp % 4294967296) type text), none)

/-- The calls that touch the pending-message queue. -/
inductive PendingCall where
  | receive (type sender : Nat) (text : List Nat) (timestamp : Nat)
  | acknowledge (ids : List Nat)
  | list (clear : Bool)

/-- Perform one call on the pending-message queue. -/
def PendingCall.apply (priv : IdleMUCChannelPrivate) : PendingCall → IdleMUCChannelPrivate
  | .receive type sender text timestamp => _idle_muc_channel_receive priv type sender text timestamp
  | .acknowledge ids => (idle_muc_channel_acknowledge_pending_messages priv ids).1
  | .list clear => (idle_muc_channel_list_pending_messages priv clear).1

/-- Perform a sequence of calls on the pending-message queue, oldest first. -/
def pending_calls (priv : IdleMUCChannelPrivate) (calls : List PendingCall) :
    IdleMUCChannelPrivate :=
  calls.foldl PendingCall.apply priv

/-- Number of receives among the calls. -/
def count_receives (calls : List PendingCall) : Nat :=
  (calls.filter fun c => match c with | .receive _ _ _ _ => true | _ => false).length

/-- The ids carried by the `received` signals of a trace, oldest first. -/
def received_ids (trace : List Effect) : List Nat :=
  trace.filterMap fun e => match e with | .RECEIVED id _ _ _ _ _ => some id | _ => none

/-! ## Notions used by the statements -/

/-- Channel `q` has the membership sets and the closed latch of `p`, and its
trace is that of `p` followed by effects other than closed. -/
def keeps_members (p q : IdleMUCChannelPrivate) : Prop :=
  q.current_members = p.current_members ∧ q.local_pending = p.local_pending
    ∧ q.remote_pending = p.remote_pending ∧ q.closed = p.closed
    ∧ q.own_handle = p.own_handle
    ∧ ∃ effects : List Effect, q.trace = p.trace ++ effects ∧ Effect.CLOSED ∉ effects

/-- The state of the pending-message bookkeeping after `n` receives: the
counter stands at `n`, the `received` signals so far carry the ids `0 .. n-1`
in this order, and the queued ids are strictly increasing and below `n`. -/
def pending_inv (priv : IdleMUCChannelPrivate) (n : Nat) : Prop :=
  priv.recv_id = n ∧ received_ids priv.trace = List.range n
    ∧ (priv.pending_messages.map (·.id)).Pairwise (· < ·)
    ∧ ∀ id ∈ priv.pending_messages.map (·.id), id < n

/-- The text behind the channel name in a `PART` or `KICK` line: a space and
the message, or nothing for a `NULL` message. -/
def optional_message (message : Option (List Nat)) : List Nat :=
  match message with
  | some m => 32 :: m
  | none => []

/-- The ids a call of `set_tp_property_flags` targets: the given array, or all
ten properties for `NULL`. -/
def targeted_ids (props : Option (List Nat)) : List Nat :=
  match props with
  | none => List.range LAST_TP_PROPERTY_ENUM
  | some l => l

/-- The flag word stored for a property. -/
def flags_at (properties : List TPProperty) (prop_id : Nat) : Nat :=
  (properties.getD prop_id ⟨.uint 0, 0⟩).flags

/-- The value stored for a property. -/
def value_at (properties : List TPProperty) (prop_id : Nat) : GValue :=
  (properties.getD prop_id ⟨.uint 0, 0⟩).value

/-- The entries of a change list with id below 10 whose new value differs from
the stored value at their turn; `stored` gives the stored values and takes the
new value of every entry that differed. -/
def changed_entries (stored : Nat → GValue) : List (Nat × GValue) → List (Nat × GValue)
  | [] => []
  | (prop_id, new_val) :: rest =>
    if prop_id ≥ LAST_TP_PROPERTY_ENUM then changed_entries stored rest
    else if new_val ≠ stored prop_id then
      (prop_id, new_val) :: changed_entries (Function.update stored prop_id new_val) rest
    else changed_entries stored rest

/-- The value of the last entry of a list that names the property, if any. -/
def last_listed (entries : List (Nat × GValue)) (prop_id : Nat) : Option GValue :=
  ((entries.filter fun e => e.1 = prop_id).getLast?).map (·.2)

/-! ## MUC channel: the topic event and sequences of inbound events -/

/-- Function `_idle_muc_channel_topic_full`; `none` is the failed
`g_assert (toucher != 0)`.  The function builds a single boxed struct (`prop`,
here the cell at address 0 of `heap`): every `dbus_g_type_struct_set` writes
into that struct in place, and `g_value_get_boxed (&prop)` hands out the pointer
to it without a copy.  So `arr` holds the same pointer twice, and
`change_tp_properties` reads through it the struct as the last
`dbus_g_type_struct_set` left it; no `g_ptr_array_add` follows that last call. -/
def _idle_muc_channel_topic_full (priv : IdleMUCChannelPrivate) (toucher timestamp : Nat)
    (topic : List Nat) : Option IdleMUCChannelPrivate :=
  if toucher = 0 then none
  else
    let prop : Nat := 0
    let heap : Nat → Nat × GValue := fun _ => (0, GValue.uint 0)
    let arr : List Nat := []
    let heap := Function.update heap prop (TP_PROPERTY_SUBJECT_CONTACT, GValue.uint toucher)
    let arr := arr ++ [prop]
    let heap := Function.update heap prop (TP_PROPERTY_SUBJECT_TIMESTAMP, GValue.uint timestamp)
    let arr := arr ++ [prop]
    let heap := Function.update heap prop (TP_PROPERTY_SUBJECT, GValue.string (some topic))
    some (change_tp_properties priv (arr.map heap))

/-- An inbound MODE or NAMES event. -/
inductive InboundEvent where
  | mode (mode_str : List Nat)
  | names (nicks : List (List Nat))

/-- Deliver one inbound MODE or NAMES event; `none` is undefined behaviour
inside `_idle_muc_channel_mode`. -/
def InboundEvent.apply (handles : IdleHandleStorage) (priv : IdleMUCChannelPrivate) :
    InboundEvent → Option IdleMUCChannelPrivate
  | .mode mode_str => _idle_muc_channel_mode handles priv mode_str
  | .names nicks => some (_idle_muc_channel_names handles priv nicks)

/-- Deliver a sequence of inbound MODE and NAMES events, oldest first. -/
def inbound_events (handles : IdleHandleStorage) :
    IdleMUCChannelPrivate → List InboundEvent → Option IdleMUCChannelPrivate
  | priv, [] => some priv
  | priv, event :: rest =>
    match event.apply handles priv with
    | none => none
    | some priv => inbound_events handles priv rest

/-! ## Notions used by the statements on texts and pushed lines -/

/-- The lines handed to the connection in a trace, oldest first. -/
def pushed_lines (trace : List Effect) : List (List Nat) :=
  trace.filterMap fun e => match e with | .connection_send cmd => some cmd | _ => none

/-- The byte is a UTF-8 continuation byte (`10xxxxxx`), the test of
`g_utf8_find_prev_char`. -/
def is_continuation_byte (b : Nat) : Prop := b &&& 0xc0 = 0x80

instance (b : Nat) : Decidable (is_continuation_byte b) := by
  unfold is_continuation_byte; infer_instance

/-- The text begins with `\001ACTION `, compared without regard to ASCII case. -/
def begins_with_action (text : List Nat) : Prop :=
  (text.take 8).map g_ascii_tolower = ascii "\x01action "

instance (text : List Nat) : Decidable (begins_with_action text) := by
  unfold begins_with_action; infer_instance

/-- Number of bytes still owed to the code point the decoder is inside of. -/
def utf8_pending : Utf8State → Nat
  | .boundary => 0
  | .inside _ _ more => more + 1

/-! ## Theorems -/

/-! ### Helper lemmas: the join-ready latch -/

theorem count_join_ready_append (t : List Effect) (e : Effect) :
    count_join_ready (t ++ [e])
      = count_join_ready t + (match e with | .JOIN_READY _ => 1 | _ => 0) := by
  unfold count_join_ready
  rw [List.filter_append, List.length_append]
  cases e <;> simp

theorem change_password_flags_join_ready (priv : IdleMUCChannelPrivate) (flag : Nat)
    (state : Bool) :
    (change_password_flags priv flag state).join_ready = priv.join_ready
      ∧ count_join_ready (change_password_flags priv flag state).trace
          = count_join_ready priv.trace := by
  unfold change_password_flags
  simp only [emit]
  split_ifs <;> simp [count_join_ready_append]

theorem provide_password_reply_join_ready (priv : IdleMUCChannelPrivate) (success : Bool) :
    (provide_password_reply priv success).join_ready = priv.join_ready
      ∧ count_join_ready (provide_password_reply priv success).trace
          = count_join_ready priv.trace := by
  unfold provide_password_reply
  cases hctx : priv.passwd_ctx <;> cases success <;>
    simp [emit, count_join_ready_append, change_password_flags_join_ready]

theorem change_state_join_ready (priv : IdleMUCChannelPrivate) (state : IdleMUCState) :
    ((change_state priv state).join_ready
        = (priv.join_ready || decide (state.toNat > IdleMUCState.MUC_STATE_JOINING.toNat)))
      ∧ count_join_ready (change_state priv state).trace
          = count_join_ready priv.trace
            + (if state.toNat > IdleMUCState.MUC_STATE_JOINING.toNat ∧ ¬ priv.join_ready
                then 1 else 0) := by
  unfold change_state
  simp only []
  split_ifs <;>
    simp_all [emit, count_join_ready_append, change_password_flags_join_ready,
      provide_password_reply_join_ready]

theorem join_error_join_ready (priv : IdleMUCChannelPrivate) (err : Nat) :
    (_idle_muc_channel_join_error priv err).join_ready = true
      ∧ count_join_ready (_idle_muc_channel_join_error priv err).trace
          = count_join_ready priv.trace + (if ¬ priv.join_ready then 1 else 0) := by
  unfold _idle_muc_channel_join_error
  split_ifs <;> simp_all [emit, count_join_ready_append]

theorem join_ready_inv_apply (priv : IdleMUCChannelPrivate) (call : JoinReadyCall)
    (h : join_ready_inv priv) : join_ready_inv (call.apply priv) := by
  obtain ⟨h0, h1⟩ := h
  cases call with
  | change_state state =>
    obtain ⟨hj, hc⟩ := change_state_join_ready priv state
    simp only [JoinReadyCall.apply, join_ready_inv, hj, hc]
    cases hjr : priv.join_ready
    · simp_all
      split_ifs <;> simp_all
    · simp_all
  | join_error err =>
    obtain ⟨hj, hc⟩ := join_error_join_ready priv err
    simp only [JoinReadyCall.apply, join_ready_inv, hj, hc]
    cases hjr : priv.join_ready <;> simp_all

theorem join_ready_inv_foldl (calls : List JoinReadyCall) (priv : IdleMUCChannelPrivate)
    (h : join_ready_inv priv) : join_ready_inv (join_ready_calls priv calls) := by
  unfold join_ready_calls
  induction calls generalizing priv with
  | nil => exact h
  | cons c cs ih => exact ih _ (join_ready_inv_apply priv c h)

theorem join_ready_inv_init (handle : Nat) (channel_name : List Nat) (own_handle : Nat) :
    join_ready_inv (idle_muc_channel_init handle channel_name own_handle) := by
  simp [join_ready_inv, idle_muc_channel_init, count_join_ready]

/-! ### Helper lemmas: flag words and the property bag -/

theorem and_two_eq_zero_iff (x : Nat) : x &&& 2 = 0 ↔ x.testBit 1 = false := by
  have h := Nat.and_two_pow x 1
  simp only [pow_one] at h
  rw [h]
  cases x.testBit 1 <;> simp

theorem and_op_or_halfop_eq_zero_iff (x : Nat) :
    x &&& MODE_FLAGS_OP_OR_HALFOP = 0 ↔ (x.testBit 1 = false ∧ x.testBit 14 = false) := by
  have e : MODE_FLAGS_OP_OR_HALFOP = 2 ^ 1 ||| 2 ^ 14 := by decide
  rw [e, Nat.and_or_distrib_left, Nat.and_two_pow, Nat.and_two_pow]
  constructor
  · intro h
    have h1 := congrArg (fun n => n.testBit 1) h
    have h14 := congrArg (fun n => n.testBit 14) h
    simp only [Nat.testBit_or, Nat.zero_testBit] at h1 h14
    cases hx1 : x.testBit 1 <;> cases hx14 : x.testBit 14 <;> simp_all
  · rintro ⟨h1, h14⟩
    simp [h1, h14]

theorem guint_not_testBit (x i : Nat) (hi : i < 32) :
    (guint_not x).testBit i = !x.testBit i := by
  have e : (4294967295 : Nat) = 2 ^ 32 - 1 := by decide
  unfold guint_not
  rw [Nat.testBit_xor, e, Nat.testBit_two_pow_sub_one]
  simp [hi]

theorem flag_update_idem (x add remove : Nat) :
    ((((x ||| add) &&& guint_not remove) ||| add) &&& guint_not remove)
      = (x ||| add) &&& guint_not remove := by
  apply Nat.eq_of_testBit_eq
  intro i
  simp only [Nat.testBit_and, Nat.testBit_or]
  cases x.testBit i <;> cases add.testBit i <;> cases (guint_not remove).testBit i <;> rfl

/-- The flag word `(old | add) & ~remove` computed by `set_tp_property_flags`. -/
theorem set_tp_property_flags_loop_getElem? (add remove : Nat) (ids : List Nat) :
    ∀ (properties : List TPProperty) (i : Nat),
      (set_tp_property_flags_loop add remove ids properties).1[i]?
        = (properties[i]?).map fun p =>
            if i ∈ ids then { p with flags := (p.flags ||| add) &&& guint_not remove } else p := by
  induction ids with
  | nil => intro properties i; simp [set_tp_property_flags_loop]
  | cons id rest ih =>
    intro properties i
    unfold set_tp_property_flags_loop
    simp only [List.getD_eq_getElem?_getD]
    by_cases hne : (properties[id]?.getD ⟨.uint 0, 0⟩).flags
        = ((properties[id]?.getD ⟨.uint 0, 0⟩).flags ||| add) &&& guint_not remove
    · rw [if_neg (not_not.mpr hne), ih]
      cases hp : properties[i]? with
      | none => rfl
      | some p =>
        simp only [Option.map_some', Option.some.injEq, List.mem_cons]
        by_cases hid : i = id
        · subst hid
          rw [hp, Option.getD_some] at hne
          simp only [true_or, if_true]
          by_cases hr : i ∈ rest
          · rw [if_pos hr]
          · rw [if_neg hr, ← hne]
        · simp only [hid, false_or]
    · rw [if_pos hne]
      simp only []
      rw [ih, List.getElem?_modify]
      cases hp : properties[i]? with
      | none => rfl
      | some p =>
        simp only [Option.map_some', Option.some.injEq, List.mem_cons, Functor.map]
        by_cases hid : i = id
        · subst hid
          rw [hp, Option.getD_some]
          simp only [true_or, if_true, flag_update_idem, ite_self]
        · have hid' : ¬ id = i := fun h => hid h.symm
          simp only [hid, hid', false_or, if_false]

theorem modify_value_map_flags (g : TPProperty → TPProperty) (hg : ∀ p, (g p).flags = p.flags) :
    ∀ (l : List TPProperty) (n : Nat), (l.modify g n).map (·.flags) = l.map (·.flags) := by
  intro l
  induction l with
  | nil => intro n; simp
  | cons a l ih =>
    intro n
    cases n with
    | zero => simp [hg]
    | succ n => simp [ih]

theorem change_tp_properties_loop_flags (props : List (Nat × GValue)) :
    ∀ properties : List TPProperty,
      (change_tp_properties_loop props properties).1.map (·.flags) = properties.map (·.flags) := by
  induction props with
  | nil => intro properties; simp [change_tp_properties_loop]
  | cons pr rest ih =>
    intro properties
    obtain ⟨prop_id, new_val⟩ := pr
    unfold change_tp_properties_loop
    by_cases h1 : prop_id ≥ LAST_TP_PROPERTY_ENUM
    · rw [if_pos h1]; exact ih _
    · rw [if_neg h1]
      simp only []
      by_cases h2 : ¬ g_value_compare new_val
          (properties.getD prop_id ⟨.uint 0, 0⟩).value = true
      · rw [if_pos h2]
        simp only []
        rw [ih, modify_value_map_flags]
        intro p; rfl
      · rw [if_neg h2]; exact ih _

theorem flags_of_getElem? {l l' : List TPProperty} (h : l'.map (·.flags) = l.map (·.flags))
    (i : Nat) : (l'[i]?).map (·.flags) = (l[i]?).map (·.flags) := by
  have := congrArg (fun m : List Nat => m[i]?) h
  simpa [List.getElem?_map] using this

theorem set_tp_property_flags_properties (priv : IdleMUCChannelPrivate)
    (props : Option (List Nat)) (add remove : Nat) :
    (set_tp_property_flags priv props add remove).properties
        = (set_tp_property_flags_loop add remove
            (match props with | none => List.range LAST_TP_PROPERTY_ENUM | some l => l)
            priv.properties).1
      ∧ (set_tp_property_flags priv props add remove).mode_state = priv.mode_state := by
  unfold set_tp_property_flags
  simp only [emit]
  split_ifs <;> simp

theorem change_tp_properties_write (priv : IdleMUCChannelPrivate) (props : List (Nat × GValue))
    (i : Nat) :
    ((change_tp_properties priv props).properties[i]?).map (fun p : TPProperty => p.flags.testBit 1)
        = (priv.properties[i]?).map (fun p : TPProperty => p.flags.testBit 1)
      ∧ (change_tp_properties priv props).mode_state = priv.mode_state := by
  have hl := flags_of_getElem? (change_tp_properties_loop_flags props priv.properties) i
  unfold change_tp_properties
  have key : ∀ q : IdleMUCChannelPrivate,
      q.properties = (change_tp_properties_loop props priv.properties).1 →
      q.mode_state = priv.mode_state →
      ((if (change_tp_properties_loop props priv.properties).2.2.length > 0 then
          set_tp_property_flags q (some (change_tp_properties_loop props priv.properties).2.2)
            TP_PROPERTY_FLAG_READ 0
        else q).properties[i]?).map (fun p : TPProperty => p.flags.testBit 1)
        = (priv.properties[i]?).map (fun p : TPProperty => p.flags.testBit 1)
      ∧ (if (change_tp_properties_loop props priv.properties).2.2.length > 0 then
          set_tp_property_flags q (some (change_tp_properties_loop props priv.properties).2.2)
            TP_PROPERTY_FLAG_READ 0
        else q).mode_state = priv.mode_state := by
    intro q hq hm
    have hbit : ∀ p : TPProperty, ((p.flags ||| TP_PROPERTY_FLAG_READ) &&& guint_not 0).testBit 1
        = p.flags.testBit 1 := by
      intro p
      rw [Nat.testBit_and, Nat.testBit_or, guint_not_testBit _ _ (by decide)]
      have h11 : Nat.testBit 1 1 = false := by decide
      simp [TP_PROPERTY_FLAG_READ, h11]
    split_ifs
    · obtain ⟨h1, h2⟩ := set_tp_property_flags_properties q
        (some (change_tp_properties_loop props priv.properties).2.2) TP_PROPERTY_FLAG_READ 0
      rw [h1, h2, hm, set_tp_property_flags_loop_getElem?, hq]
      refine ⟨?_, rfl⟩
      cases hp : (change_tp_properties_loop props priv.properties).1[i]? with
      | none =>
        rw [hp] at hl
        cases hp0 : priv.properties[i]? with
        | none => rfl
        | some p0 => rw [hp0] at hl; simp at hl
      | some p =>
        rw [hp] at hl
        cases hp0 : priv.properties[i]? with
        | none => rw [hp0] at hl; simp at hl
        | some p0 =>
          rw [hp0] at hl
          simp only [Option.map_some', Option.some.injEq] at hl
          simp only [Option.map_some', Option.some.injEq]
          split_ifs
          · rw [hbit, hl]
          · rw [hl]
    · rw [hq, hm]
      refine ⟨?_, rfl⟩
      have := congrArg (fun o => Option.map (fun f : Nat => f.testBit 1) o) hl
      simpa [Option.map_map, Function.comp] using this
  exact key _ (by split_ifs <;> rfl) (by split_ifs <;> rfl)

theorem change_group_flags_properties (priv : IdleMUCChannelPrivate) (add remove : Nat) :
    (change_group_flags priv add remove).properties = priv.properties
      ∧ (change_group_flags priv add remove).mode_state = priv.mode_state := by
  unfold change_group_flags
  simp only [emit]
  split_ifs <;> simp

theorem helper_mem_lt (i : Nat) (h : i ∈ change_mode_state_flags_helper) : i < 8 := by
  simp only [change_mode_state_flags_helper, TP_PROPERTY_INVITE_ONLY, TP_PROPERTY_LIMIT,
    TP_PROPERTY_LIMITED, TP_PROPERTY_MODERATED, TP_PROPERTY_PASSWORD,
    TP_PROPERTY_PASSWORD_REQUIRED, TP_PROPERTY_PRIVATE, TP_PROPERTY_SUBJECT, List.mem_cons,
    List.mem_singleton, List.not_mem_nil, or_false] at h
  omega

theorem helper_mem_of_lt (i : Nat) (h : i < 8) : i ∈ change_mode_state_flags_helper := by
  simp only [change_mode_state_flags_helper, TP_PROPERTY_INVITE_ONLY, TP_PROPERTY_LIMIT,
    TP_PROPERTY_LIMITED, TP_PROPERTY_MODERATED, TP_PROPERTY_PASSWORD,
    TP_PROPERTY_PASSWORD_REQUIRED, TP_PROPERTY_PRIVATE, TP_PROPERTY_SUBJECT, List.mem_cons,
    List.mem_singleton, List.not_mem_nil, or_false]
  omega

theorem set_write_no_write_tail (priv : IdleMUCChannelPrivate) (add remove : Nat)
    (h : no_write_tail priv.properties) :
    no_write_tail
      (set_tp_property_flags priv (some change_mode_state_flags_helper) add remove).properties := by
  intro i p hp hi
  rw [(set_tp_property_flags_properties priv _ add remove).1,
    set_tp_property_flags_loop_getElem?] at hp
  cases hp0 : priv.properties[i]? with
  | none => rw [hp0] at hp; simp at hp
  | some p0 =>
    rw [hp0] at hp
    have hni : i ∉ change_mode_state_flags_helper := fun hm => by
      have := helper_mem_lt i hm; omega
    simp only [Option.map_some', hni, if_false, Option.some.injEq] at hp
    subst hp
    exact h i p0 hp0 hi

theorem clear_write_no_write (priv : IdleMUCChannelPrivate)
    (h : no_write_tail priv.properties) :
    no_write
      (set_tp_property_flags priv (some change_mode_state_flags_helper) 0
        TP_PROPERTY_FLAG_WRITE).properties := by
  intro i p hp
  by_cases hi : 8 ≤ i
  · exact set_write_no_write_tail priv 0 TP_PROPERTY_FLAG_WRITE h i p hp hi
  · rw [(set_tp_property_flags_properties priv _ 0 TP_PROPERTY_FLAG_WRITE).1,
      set_tp_property_flags_loop_getElem?] at hp
    cases hp0 : priv.properties[i]? with
    | none => rw [hp0] at hp; simp at hp
    | some p0 =>
      rw [hp0] at hp
      have hmi : i ∈ change_mode_state_flags_helper := helper_mem_of_lt i (by omega)
      simp only [Option.map_some', hmi, if_true, Option.some.injEq] at hp
      subst hp
      simp only [Nat.testBit_and, guint_not_testBit _ 1 (by decide), TP_PROPERTY_FLAG_WRITE]
      have h21 : Nat.testBit 2 1 = true := by decide
      simp [h21]

theorem change_mode_state_privilege_fst (priv : IdleMUCChannelPrivate)
    (add remove flags group_add group_remove : Nat) :
    (change_mode_state_privilege priv add remove flags (add ||| remove) group_add group_remove).1
      = if add &&& MODE_FLAGS_OP_OR_HALFOP ≠ 0 then
          set_tp_property_flags priv (some change_mode_state_flags_helper)
            TP_PROPERTY_FLAG_WRITE 0
        else if remove &&& MODE_FLAGS_OP_OR_HALFOP ≠ 0 then
          set_tp_property_flags priv (some change_mode_state_flags_helper) 0
            TP_PROPERTY_FLAG_WRITE
        else priv := by
  unfold change_mode_state_privilege
  have hor : (add ||| remove) &&& MODE_FLAGS_OP_OR_HALFOP = 0 →
      add &&& MODE_FLAGS_OP_OR_HALFOP = 0 ∧ remove &&& MODE_FLAGS_OP_OR_HALFOP = 0 := by
    intro h0
    rw [and_op_or_halfop_eq_zero_iff] at h0
    rw [and_op_or_halfop_eq_zero_iff, and_op_or_halfop_eq_zero_iff]
    simp only [Nat.testBit_or, Bool.or_eq_false_iff] at h0
    exact ⟨⟨h0.1.1, h0.2.1⟩, ⟨h0.1.2, h0.2.2⟩⟩
  by_cases hc : (add ||| remove) &&& MODE_FLAGS_OP_OR_HALFOP = 0
  · obtain ⟨ha, hr⟩ := hor hc
    simp [hc, ha, hr]
  · by_cases ha : add &&& MODE_FLAGS_OP_OR_HALFOP = 0
    · by_cases hr : remove &&& MODE_FLAGS_OP_OR_HALFOP = 0
      · simp [hc, ha, hr]
      · simp [hc, ha, hr]
    · simp [hc, ha]

theorem change_mode_state_result (priv : IdleMUCChannelPrivate) (add remove : Nat) (i : Nat) :
    (change_mode_state priv add remove).mode_state.flags
        = (priv.mode_state.flags ||| (add &&& guint_not priv.mode_state.flags))
            &&& guint_not ((remove &&& guint_not add) &&& priv.mode_state.flags)
      ∧ ((change_mode_state priv add remove).properties[i]?).map
            (fun p : TPProperty => p.flags.testBit 1)
          = ((if (add &&& guint_not priv.mode_state.flags) &&& MODE_FLAGS_OP_OR_HALFOP ≠ 0 then
                set_tp_property_flags priv (some change_mode_state_flags_helper)
                  TP_PROPERTY_FLAG_WRITE 0
              else if ((remove &&& guint_not add) &&& priv.mode_state.flags)
                  &&& MODE_FLAGS_OP_OR_HALFOP ≠ 0 then
                set_tp_property_flags priv (some change_mode_state_flags_helper) 0
                  TP_PROPERTY_FLAG_WRITE
              else priv).properties[i]?).map (fun p : TPProperty => p.flags.testBit 1) := by
  unfold change_mode_state
  refine ⟨rfl, ?_⟩
  simp only []
  rw [(change_tp_properties_write _ _ i).1, (change_group_flags_properties _ _ _).1,
    change_mode_state_privilege_fst]

theorem write_inv_change_mode_state (priv : IdleMUCChannelPrivate) (add remove : Nat)
    (h : write_inv priv) : write_inv (change_mode_state priv add remove) := by
  obtain ⟨htail, hall⟩ := h
  have hres := fun i => change_mode_state_result priv add remove i
  have transfer : ∀ (q : IdleMUCChannelPrivate) (P : Nat → Prop),
      (∀ i : Nat, ((change_mode_state priv add remove).properties[i]?).map (fun p : TPProperty => p.flags.testBit 1)
          = (q.properties[i]?).map (fun p : TPProperty => p.flags.testBit 1)) →
      (∀ (i : Nat) (p : TPProperty), q.properties[i]? = some p → P i → p.flags.testBit 1 = false) →
      ∀ (i : Nat) (p : TPProperty), (change_mode_state priv add remove).properties[i]? = some p →
        P i → p.flags.testBit 1 = false := by
    intro q P heq hq i p hp hPi
    have := heq i
    rw [hp] at this
    cases hq0 : q.properties[i]? with
    | none => rw [hq0] at this; simp at this
    | some p0 =>
      rw [hq0] at this
      simp only [Option.map_some', Option.some.injEq] at this
      rw [this]
      exact hq i p0 hq0 hPi
  have f1 := guint_not_testBit ((remove &&& guint_not add) &&& priv.mode_state.flags) 1
    (by decide)
  have f14 := guint_not_testBit ((remove &&& guint_not add) &&& priv.mode_state.flags) 14
    (by decide)
  have g1 := guint_not_testBit priv.mode_state.flags 1 (by decide)
  have g14 := guint_not_testBit priv.mode_state.flags 14 (by decide)
  have n1 := guint_not_testBit add 1 (by decide)
  have n14 := guint_not_testBit add 14 (by decide)
  by_cases ha : (add &&& guint_not priv.mode_state.flags) &&& MODE_FLAGS_OP_OR_HALFOP ≠ 0
  · simp only [if_pos ha] at hres
    refine ⟨?_, ?_⟩
    · exact fun i p hp hi => transfer _ (fun i => 8 ≤ i) (fun i => (hres i).2)
        (set_write_no_write_tail priv _ _ htail) i p hp hi
    · intro hf
      exfalso
      apply ha
      rw [and_op_or_halfop_eq_zero_iff]
      rw [(hres 0).1] at hf
      simp only [Nat.testBit_and, Nat.testBit_or, f1, f14, g1, g14, n1, n14] at hf ⊢
      revert hf
      cases priv.mode_state.flags.testBit 1 <;> cases priv.mode_state.flags.testBit 14 <;>
        cases add.testBit 1 <;> cases add.testBit 14 <;>
        cases remove.testBit 1 <;> cases remove.testBit 14 <;> simp
  · simp only [if_neg ha] at hres
    by_cases hr : ((remove &&& guint_not add) &&& priv.mode_state.flags)
        &&& MODE_FLAGS_OP_OR_HALFOP ≠ 0
    · simp only [if_pos hr] at hres
      have hnw := clear_write_no_write priv htail
      refine ⟨?_, ?_⟩
      · exact fun i p hp hi => transfer _ (fun _ => True) (fun i => (hres i).2)
          (fun i p hp _ => hnw i p hp) i p hp trivial
      · intro _ i p hp
        exact transfer _ (fun _ => True) (fun i => (hres i).2)
          (fun i p hp _ => hnw i p hp) i p hp trivial
    · simp only [if_neg hr] at hres
      refine ⟨?_, ?_⟩
      · exact fun i p hp hi => transfer priv (fun i => 8 ≤ i) (fun i => (hres i).2) htail i p hp hi
      · intro hf i p hp
        have hold : priv.mode_state.flags.testBit 1 = false
            ∧ priv.mode_state.flags.testBit 14 = false := by
          rw [(hres 0).1] at hf
          simp only [ne_eq, Decidable.not_not] at ha hr
          rw [and_op_or_halfop_eq_zero_iff] at ha hr
          simp only [Nat.testBit_and, Nat.testBit_or, f1, f14, g1, g14, n1, n14] at hf ha hr ⊢
          revert hf ha hr
          cases priv.mode_state.flags.testBit 1 <;> cases priv.mode_state.flags.testBit 14 <;>
            cases add.testBit 1 <;> cases add.testBit 14 <;>
            cases remove.testBit 1 <;> cases remove.testBit 14 <;> simp
        exact transfer priv (fun _ => True) (fun i => (hres i).2)
          (fun i p hp _ => hall hold i p hp) i p hp trivial

theorem write_inv_init (handle : Nat) (channel_name : List Nat) (own_handle : Nat) :
    write_inv (idle_muc_channel_init handle channel_name own_handle) := by
  have h : no_write (idle_muc_channel_init handle channel_name own_handle).properties := by
    intro i p hp
    have hm : p ∈ (idle_muc_channel_init handle channel_name own_handle).properties :=
      List.getElem?_mem hp
    simp only [idle_muc_channel_init, muc_channel_tp_properties_init, List.mem_map] at hm
    obtain ⟨t, -, rfl⟩ := hm
    exact Nat.zero_testBit 1
  exact ⟨fun i p hp _ => h i p hp, fun _ => h⟩

theorem write_inv_calls (calls : List (Nat × Nat)) (priv : IdleMUCChannelPrivate)
    (h : write_inv priv) : write_inv (change_mode_state_calls priv calls) := by
  unfold change_mode_state_calls
  induction calls generalizing priv with
  | nil => exact h
  | cons c cs ih => exact ih _ (write_inv_change_mode_state priv c.1 c.2 h)

/-! ### Helper lemmas: the splitting loop -/

theorem strchr_some (c : Nat) : ∀ (l : List Nat) (k : Nat), strchr c l = some k →
    k < l.length ∧ l.get? k = some c ∧ c ∉ l.take k := by
  intro l
  induction l with
  | nil => intro k h; simp [strchr] at h
  | cons b r ih =>
    intro k h
    unfold strchr at h
    by_cases hb : b = c
    · rw [if_pos hb] at h
      cases h
      simp [hb]
    · rw [if_neg hb] at h
      cases hr : strchr c r with
      | none => rw [hr] at h; simp at h
      | some j =>
        rw [hr] at h
        simp only [Option.map_some', Option.some.injEq] at h
        subst h
        obtain ⟨h1, h2, h3⟩ := ih j hr
        refine ⟨by simp; omega, by simpa using h2, ?_⟩
        simp only [List.take_succ_cons, List.mem_cons, not_or]
        exact ⟨fun e => hb e.symm, h3⟩

theorem strchr_none (c : Nat) : ∀ (l : List Nat), strchr c l = none → c ∉ l := by
  intro l
  induction l with
  | nil => intro _; simp
  | cons b r ih =>
    intro h
    unfold strchr at h
    by_cases hb : b = c
    · rw [if_pos hb] at h; cases h
    · rw [if_neg hb] at h
      cases hr : strchr c r with
      | none =>
        simp only [List.mem_cons, not_or]
        exact ⟨fun e => hb e.symm, ih hr⟩
      | some j => rw [hr] at h; simp at h

theorem g_utf8_find_prev_char_some (str : List Nat) : ∀ (p e : Nat),
    g_utf8_find_prev_char str p = some e → e < p ∧ (str.getD e 0) &&& 0xc0 ≠ 0x80 := by
  intro p
  induction p with
  | zero => intro e h; simp [g_utf8_find_prev_char] at h
  | succ p ih =>
    intro e h
    unfold g_utf8_find_prev_char at h
    by_cases hc : (str.getD p 0) &&& 0xc0 ≠ 0x80
    · rw [if_pos hc] at h
      cases h
      exact ⟨Nat.lt_succ_self _, hc⟩
    · rw [if_neg hc] at h
      obtain ⟨h1, h2⟩ := ih e h
      exact ⟨by omega, h2⟩

theorem to_gint_le (x : Nat) : to_gint x ≤ (x : Int) := by
  unfold to_gint
  split_ifs <;> omega

theorem not_mem_take_of_le {c : Nat} {l : List Nat} {e k : Nat} (hek : e ≤ k)
    (h : c ∉ l.take k) : c ∉ l.take e := by
  intro hc
  apply h
  have : l.take e = (l.take k).take e := by
    rw [List.take_take, Nat.min_eq_left hek]
  rw [this] at hc
  exact List.mem_of_mem_take hc

theorem to_gint_of_lt (x : Nat) (h : x < 2147483648) : to_gint x = (x : Int) := by
  unfold to_gint
  have : x % 4294967296 = x := Nat.mod_eq_of_lt (by omega)
  rw [this, if_pos h]

theorem to_gint_range (x : Nat) : -2147483648 ≤ to_gint x ∧ to_gint x < 2147483648 := by
  unfold to_gint
  split_ifs <;> omega

theorem to_gint_le_unsigned (x : Nat) : to_gint x ≤ (to_unsigned x : Int) := by
  unfold to_gint to_unsigned
  split_ifs <;> omega

theorem to_unsigned_le (x : Nat) : to_unsigned x ≤ x := by
  unfold to_unsigned
  exact Nat.mod_le _ _

theorem to_unsigned_of_lt (x : Nat) (h : x < 4294967296) : to_unsigned x = x := by
  unfold to_unsigned
  exact Nat.mod_eq_of_lt h

/-- An offset below 2^32 that `(int)` keeps non-negative is kept as it is. -/
theorem to_gint_toNat (x : Nat) (hx : x < 4294967296) (h0 : 0 ≤ to_gint x) :
    (to_gint x).toNat = x := by
  unfold to_gint at h0 ⊢
  have hmod : x % 4294967296 = x := Nat.mod_eq_of_lt hx
  rw [hmod] at h0 ⊢
  split_ifs at h0 ⊢ <;> omega

theorem to_gint_toNat_le (x : Nat) : (to_gint x).toNat ≤ x := by
  have := to_gint_le x
  omega

/-- The body `g_strndup (remaining_text, len)` for `len = (int) offset`: the
first `len` bytes, and no return for a negative `len`. -/
theorem g_strndup_to_gsize (s : List Nat) (x : Nat) :
    g_strndup s (to_gsize (to_gint x))
      = if 0 ≤ to_gint x then some (s.take (to_gint x).toNat) else none := by
  obtain ⟨h1, h2⟩ := to_gint_range x
  unfold g_strndup to_gsize
  by_cases h0 : 0 ≤ to_gint x
  · have e1 : (to_gint x % 18446744073709551616).toNat = (to_gint x).toNat := by omega
    have e2 : (to_gint x).toNat % 18446744073709551616 = (to_gint x).toNat := by omega
    rw [if_pos h0, e1, e2, if_pos (by omega)]
  · have e1 : (to_gint x % 18446744073709551616).toNat % 18446744073709551616
        ≥ 9223372036854775808 := by omega
    rw [if_neg h0, if_neg (by omega)]

theorem g_strndup_of_lt (s : List Nat) (n : Nat) (h : n < 9223372036854775808) :
    g_strndup s n = some (s.take n) := by
  unfold g_strndup
  have e : n % 18446744073709551616 = n := by omega
  rw [e, if_pos h]

theorem printf_precision_s_nonneg (len : Int) (s : List Nat) (h : 0 ≤ len) :
    printf_precision_s len s = s.take len.toNat := by
  unfold printf_precision_s
  rw [if_neg (by omega)]

/-- What one choice of `end_iter` guarantees: it lies inside the text, the
length `(int) end_iter` kept of it lies inside the byte budget, the text before
it has no newline, and it does not point at a UTF-8 continuation byte. -/
theorem end_iter_spec (max_bytes : Nat) (rem : List Nat) (e : Nat)
    (h : end_iter max_bytes rem = some e) :
    e ≤ rem.length ∧ to_gint e ≤ (max_bytes : Int) ∧ 10 ∉ rem.take e
      ∧ (e < rem.length → (rem.getD e 0) &&& 0xc0 ≠ 0x80) := by
  unfold end_iter at h
  simp only [] at h
  have no_nl : ∀ (hnl : ∀ k, strchr 10 rem = some k → max_bytes ≤ k),
      (if (rem.length : Int) > to_gint max_bytes then
        (if max_bytes ≤ rem.length then g_utf8_find_prev_char rem max_bytes else none)
       else some rem.length) = some e →
      e ≤ rem.length ∧ to_gint e ≤ (max_bytes : Int) ∧ 10 ∉ rem.take e
        ∧ (e < rem.length → (rem.getD e 0) &&& 0xc0 ≠ 0x80) := by
    intro hnl h
    by_cases hlong : (rem.length : Int) > to_gint max_bytes
    · rw [if_pos hlong] at h
      by_cases hin : max_bytes ≤ rem.length
      · rw [if_pos hin] at h
        obtain ⟨h1, h2⟩ := g_utf8_find_prev_char_some rem max_bytes e h
        have hge := to_gint_le e
        refine ⟨by omega, by omega, ?_, fun _ => h2⟩
        cases hs : strchr 10 rem with
        | none => exact fun hm => strchr_none 10 rem hs (List.mem_of_mem_take hm)
        | some k =>
          have := hnl k hs
          exact not_mem_take_of_le (by omega) (strchr_some 10 rem k hs).2.2
      · rw [if_neg hin] at h; cases h
    · rw [if_neg hlong] at h
      cases h
      have hle := to_gint_le max_bytes
      have hge := to_gint_le rem.length
      refine ⟨le_refl _, by omega, ?_, fun hlt => absurd hlt (lt_irrefl _)⟩
      cases hs : strchr 10 rem with
      | none => exact fun hm => strchr_none 10 rem hs (List.mem_of_mem_take hm)
      | some k =>
        have := hnl k hs
        have := (strchr_some 10 rem k hs).1
        omega
  cases hs : strchr 10 rem with
  | none =>
    rw [hs] at h
    exact no_nl (fun k hk => by rw [hs] at hk; cases hk) h
  | some k =>
    rw [hs] at h
    simp only [] at h
    by_cases hk : to_unsigned k < max_bytes
    · rw [if_pos hk] at h
      cases h
      obtain ⟨h1, h2, h3⟩ := strchr_some 10 rem e hs
      have hu := to_gint_le_unsigned e
      refine ⟨by omega, by omega, h3, fun _ => ?_⟩
      have : rem.getD e 0 = 10 := by
        rw [List.getD_eq_getElem?_getD]
        rw [List.get?_eq_getElem?] at h2
        rw [h2]; rfl
      rw [this]; decide
    · rw [if_neg hk] at h
      have hu := to_unsigned_le k
      exact no_nl (fun j hj => by rw [hs] at hj; cases hj; omega) h

/-- With a byte budget below 2^31 the length `(int) end_iter` is not negative. -/
theorem end_iter_len_nonneg (max_bytes : Nat) (rem : List Nat) (e : Nat)
    (hmax : max_bytes < 2147483648) (h : end_iter max_bytes rem = some e) :
    0 ≤ to_gint e := by
  unfold end_iter at h
  simp only [] at h
  have no_nl : (if (rem.length : Int) > to_gint max_bytes then
        (if max_bytes ≤ rem.length then g_utf8_find_prev_char rem max_bytes else none)
       else some rem.length) = some e → 0 ≤ to_gint e := by
    intro h
    rw [to_gint_of_lt _ hmax] at h
    by_cases hlong : (rem.length : Int) > (max_bytes : Int)
    · rw [if_pos hlong] at h
      by_cases hin : max_bytes ≤ rem.length
      · rw [if_pos hin] at h
        obtain ⟨h1, -⟩ := g_utf8_find_prev_char_some rem max_bytes e h
        rw [to_gint_of_lt _ (by omega)]
        omega
      · rw [if_neg hin] at h; cases h
    · rw [if_neg hlong] at h
      cases h
      rw [to_gint_of_lt _ (by omega)]
      omega
  cases hs : strchr 10 rem with
  | none =>
    rw [hs] at h
    exact no_nl h
  | some k =>
    rw [hs] at h
    simp only [] at h
    by_cases hk : to_unsigned k < max_bytes
    · rw [if_pos hk] at h
      cases h
      unfold to_unsigned at hk
      unfold to_gint
      rw [if_pos (by omega)]
      omega
    · rw [if_neg hk] at h
      exact no_nl h

theorem split_loop_nil (header footer : List Nat) (max_bytes fuel : Nat) :
    split_loop header footer max_bytes fuel [] = .ok ([], []) := by
  cases fuel <;> rfl

/-- One successful iteration of the loop, unfolded: the line and the body take
the first `(int) end_iter` bytes, the loop goes on from `end_iter`. -/
theorem split_loop_cons (header footer : List Nat) (max_bytes fuel : Nat) (b : Nat)
    (r : List Nat) (messages bodies : List (List Nat))
    (h : split_loop header footer max_bytes fuel (b :: r) = .ok (messages, bodies)) :
    ∃ fuel' e messages' bodies', fuel = fuel' + 1 ∧ end_iter max_bytes (b :: r) = some e
      ∧ 0 ≤ to_gint e
      ∧ split_loop header footer max_bytes fuel'
          (if (b :: r).get? e = some 10 then (b :: r).drop (e + 1) else (b :: r).drop e)
            = .ok (messages', bodies')
      ∧ messages = (header ++ (b :: r).take (to_gint e).toNat ++ footer) :: messages'
      ∧ bodies = (b :: r).take (to_gint e).toNat :: bodies' := by
  cases fuel with
  | zero => simp [split_loop] at h
  | succ fuel' =>
    unfold split_loop at h
    cases he : end_iter max_bytes (b :: r) with
    | none => rw [he] at h; simp at h
    | some e =>
      rw [he] at h
      simp only [] at h
      rw [g_strndup_to_gsize] at h
      by_cases h0 : 0 ≤ to_gint e
      · rw [if_pos h0, printf_precision_s_nonneg _ _ h0] at h
        simp only [] at h
        cases hrec : split_loop header footer max_bytes fuel'
            (if (b :: r).get? e = some 10 then (b :: r).drop (e + 1) else (b :: r).drop e) with
        | ok p =>
          obtain ⟨ms, bs⟩ := p
          rw [hrec] at h
          simp only [Outcome.ok.injEq, Prod.mk.injEq] at h
          exact ⟨fuel', e, ms, bs, rfl, rfl, h0, hrec, h.1.symm, h.2.symm⟩
        | error c => rw [hrec] at h; simp at h
        | undefined => rw [hrec] at h; simp at h
        | timeout => rw [hrec] at h; simp at h
      · rw [if_neg h0] at h
        simp at h

/-- One successful iteration on a text shorter than 2^32 bytes: the line and
the body are the text up to `end_iter`. -/
theorem split_loop_cons_exact (header footer : List Nat) (max_bytes fuel : Nat) (b : Nat)
    (r : List Nat) (messages bodies : List (List Nat))
    (hlen : (b :: r).length < 4294967296)
    (h : split_loop header footer max_bytes fuel (b :: r) = .ok (messages, bodies)) :
    ∃ fuel' e messages' bodies', fuel = fuel' + 1 ∧ end_iter max_bytes (b :: r) = some e
      ∧ split_loop header footer max_bytes fuel'
          (if (b :: r).get? e = some 10 then (b :: r).drop (e + 1) else (b :: r).drop e)
            = .ok (messages', bodies')
      ∧ messages = (header ++ (b :: r).take e ++ footer) :: messages'
      ∧ bodies = (b :: r).take e :: bodies' := by
  obtain ⟨fuel', e, ms, bs, hf, he, h0, hrec, hm, hb⟩ := split_loop_cons _ _ _ _ _ _ _ _ h
  obtain ⟨hle, -, -, -⟩ := end_iter_spec _ _ _ he
  rw [to_gint_toNat e (by omega) h0] at hm hb
  exact ⟨fuel', e, ms, bs, hf, he, hrec, hm, hb⟩

theorem next_remaining_length (rem : List Nat) (e : Nat) :
    (if rem.get? e = some 10 then rem.drop (e + 1) else rem.drop e).length ≤ rem.length := by
  split_ifs <;> rw [List.length_drop] <;> omega

/-- Every line is its body framed by header and footer. -/
theorem split_loop_frames (header footer : List Nat) (max_bytes : Nat) :
    ∀ (fuel : Nat) (rem : List Nat) (messages bodies : List (List Nat)),
      split_loop header footer max_bytes fuel rem = .ok (messages, bodies) →
      messages = bodies.map fun body => header ++ body ++ footer := by
  intro fuel
  induction fuel with
  | zero =>
    intro rem messages bodies h
    cases rem with
    | nil => rw [split_loop_nil] at h; cases h; rfl
    | cons b r => simp [split_loop] at h
  | succ fuel ih =>
    intro rem messages bodies h
    cases rem with
    | nil => rw [split_loop_nil] at h; cases h; rfl
    | cons b r =>
      obtain ⟨fuel', e, ms, bs, hf, -, -, hrec, hm, hb⟩ := split_loop_cons _ _ _ _ _ _ _ _ h
      cases hf
      rw [hm, hb, List.map_cons, ← ih _ _ _ hrec]

/-- Every body fits the byte budget. -/
theorem split_loop_body_length (header footer : List Nat) (max_bytes : Nat) :
    ∀ (fuel : Nat) (rem : List Nat) (messages bodies : List (List Nat)),
      split_loop header footer max_bytes fuel rem = .ok (messages, bodies) →
      ∀ body ∈ bodies, body.length ≤ max_bytes := by
  intro fuel
  induction fuel with
  | zero =>
    intro rem messages bodies h
    cases rem with
    | nil => rw [split_loop_nil] at h; cases h; simp
    | cons b r => simp [split_loop] at h
  | succ fuel ih =>
    intro rem messages bodies h
    cases rem with
    | nil => rw [split_loop_nil] at h; cases h; simp
    | cons b r =>
      obtain ⟨fuel', e, ms, bs, hf, he, h0, hrec, -, hb⟩ := split_loop_cons _ _ _ _ _ _ _ _ h
      cases hf
      intro body hbody
      rw [hb, List.mem_cons] at hbody
      rcases hbody with rfl | hbody
      · have := (end_iter_spec _ _ _ he).2.1
        rw [List.length_take]; omega
      · exact ih _ _ _ hrec body hbody

/-- No body contains a newline, whatever the length of the text. -/
theorem split_loop_no_newline (header footer : List Nat) (max_bytes : Nat) :
    ∀ (fuel : Nat) (rem : List Nat) (messages bodies : List (List Nat)),
      split_loop header footer max_bytes fuel rem = .ok (messages, bodies) →
      ∀ body ∈ bodies, 10 ∉ body := by
  intro fuel
  induction fuel with
  | zero =>
    intro rem messages bodies h
    cases rem with
    | nil => rw [split_loop_nil] at h; cases h; simp
    | cons b r => simp [split_loop] at h
  | succ fuel ih =>
    intro rem messages bodies h
    cases rem with
    | nil => rw [split_loop_nil] at h; cases h; simp
    | cons b r =>
      obtain ⟨fuel', e, ms, bs, hf, he, h0, hrec, -, hb⟩ := split_loop_cons _ _ _ _ _ _ _ _ h
      cases hf
      obtain ⟨-, -, hnl, -⟩ := end_iter_spec _ _ _ he
      intro body hbody
      rw [hb, List.mem_cons] at hbody
      rcases hbody with rfl | hbody
      · exact not_mem_take_of_le (to_gint_toNat_le e) hnl
      · exact ih _ _ _ hrec body hbody

theorem filter_ne_of_not_mem (l : List Nat) (h : 10 ∉ l) :
    l.filter (fun b => decide (b ≠ 10)) = l := by
  rw [List.filter_eq_self]
  intro a ha
  simp only [ne_eq, decide_not, Bool.not_eq_true', decide_eq_false_iff_not]
  rintro rfl
  exact h ha

/-- On a text shorter than 2^32 bytes the bodies are the text cut at, and
stripped of, its newlines. -/
theorem split_loop_bodies (header footer : List Nat) (max_bytes : Nat) :
    ∀ (fuel : Nat) (rem : List Nat) (messages bodies : List (List Nat)),
      rem.length < 4294967296 →
      split_loop header footer max_bytes fuel rem = .ok (messages, bodies) →
      (∀ body ∈ bodies, 10 ∉ body)
        ∧ bodies.flatten = rem.filter (fun b => decide (b ≠ 10)) := by
  intro fuel
  induction fuel with
  | zero =>
    intro rem messages bodies _ h
    cases rem with
    | nil => rw [split_loop_nil] at h; cases h; simp
    | cons b r => simp [split_loop] at h
  | succ fuel ih =>
    intro rem messages bodies hlen h
    cases rem with
    | nil => rw [split_loop_nil] at h; cases h; simp
    | cons b r =>
      obtain ⟨fuel', e, ms, bs, hf, he, hrec, -, hb⟩ :=
        split_loop_cons_exact _ _ _ _ _ _ _ _ hlen h
      cases hf
      obtain ⟨-, -, hnl, -⟩ := end_iter_spec _ _ _ he
      obtain ⟨ih1, ih2⟩ := ih _ _ _
        (lt_of_le_of_lt (next_remaining_length (b :: r) e) hlen) hrec
      refine ⟨?_, ?_⟩
      · intro body hbody
        rw [hb, List.mem_cons] at hbody
        rcases hbody with rfl | hbody
        · exact hnl
        · exact ih1 body hbody
      · rw [hb, List.flatten_cons, ih2]
        conv_rhs => rw [← List.take_append_drop e (b :: r), List.filter_append,
          filter_ne_of_not_mem _ hnl]
        congr 1
        by_cases h10 : (b :: r).get? e = some 10
        · rw [if_pos h10]
          rw [List.get?_eq_getElem?] at h10
          have hd : (b :: r).drop e = 10 :: (b :: r).drop (e + 1) := by
            obtain ⟨hlt, hget⟩ := List.getElem?_eq_some.mp h10
            rw [← hget]
            exact List.drop_eq_getElem_cons hlt
          rw [hd]
          simp
        · rw [if_neg h10]

/-! ### Helper lemmas: UTF-8 -/

theorem continuation_byte (b : Nat) (h1 : 0x80 ≤ b) (h2 : b ≤ 0xBF) : b &&& 0xc0 = 0x80 := by
  interval_cases b <;> rfl

theorem utf8_step_ok (s s' : Utf8State) (b : Nat) (h : utf8_step s b = some s') :
    utf8_state_ok s' := by
  cases s with
  | boundary =>
    simp only [utf8_step] at h
    split_ifs at h <;> cases h <;> simp [utf8_state_ok]
  | inside lo hi more =>
    simp only [utf8_step] at h
    split_ifs at h <;> cases h <;> simp [utf8_state_ok]

theorem utf8_run_ok : ∀ (l : List Nat) (s s' : Utf8State), utf8_state_ok s →
    utf8_run s l = some s' → utf8_state_ok s' := by
  intro l
  induction l with
  | nil => intro s s' hs h; simp only [utf8_run, Option.some.injEq] at h; subst h; exact hs
  | cons b r ih =>
    intro s s' _ h
    unfold utf8_run at h
    cases hstep : utf8_step s b with
    | none => rw [hstep] at h; cases h
    | some t =>
      rw [hstep] at h
      exact ih t s' (utf8_step_ok s t b hstep) h

theorem utf8_run_append : ∀ (l1 l2 : List Nat) (s : Utf8State),
    utf8_run s (l1 ++ l2) = (utf8_run s l1).bind fun t => utf8_run t l2 := by
  intro l1
  induction l1 with
  | nil => intro l2 s; rfl
  | cons b r ih =>
    intro l2 s
    simp only [List.cons_append, utf8_run]
    cases utf8_step s b with
    | none => rfl
    | some t => exact ih l2 t

/-- A valid text cut in front of a byte that is not a continuation byte (or at
its end) gives two valid texts. -/
theorem utf8_valid_split (text : List Nat) (e : Nat) (hv : utf8_valid text)
    (hb : e < text.length → (text.getD e 0) &&& 0xc0 ≠ 0x80) :
    utf8_valid (text.take e) ∧ utf8_valid (text.drop e) := by
  unfold utf8_valid at hv ⊢
  rw [← List.take_append_drop e text, utf8_run_append] at hv
  cases hs : utf8_run .boundary (text.take e) with
  | none => rw [hs] at hv; cases hv
  | some s =>
    rw [hs] at hv
    simp only [Option.bind] at hv
    have hok := utf8_run_ok (text.take e) .boundary s trivial hs
    cases s with
    | boundary => exact ⟨rfl, hv⟩
    | inside lo hi more =>
      exfalso
      cases hd : text.drop e with
      | nil => rw [hd] at hv; cases hv
      | cons b r =>
        rw [hd] at hv
        have hlt : e < text.length := by
          by_contra hge
          rw [List.drop_eq_nil_of_le (by omega)] at hd
          cases hd
        have hbyte : text.getD e 0 = b := by
          have : (text.drop e)[0]? = some b := by rw [hd]; simp
          rw [List.getElem?_drop] at this
          rw [List.getD_eq_getElem?_getD]
          simp only [Nat.add_zero] at this
          rw [this]; rfl
        have hnc := hb hlt
        rw [hbyte] at hnc
        unfold utf8_run at hv
        cases hstep : utf8_step (.inside lo hi more) b with
        | none => rw [hstep] at hv; cases hv
        | some t =>
          simp only [utf8_step] at hstep
          by_cases hr : lo ≤ b ∧ b ≤ hi
          · exact hnc (continuation_byte b (le_trans hok.1 hr.1) (le_trans hr.2 hok.2))
          · rw [if_neg hr] at hstep; cases hstep

theorem utf8_valid_tail_newline (r : List Nat) (h : utf8_valid (10 :: r)) : utf8_valid r := by
  unfold utf8_valid at h ⊢
  exact h

/-- On valid UTF-8 of less than 2^32 bytes the loop only ever cuts at
code-point boundaries. -/
theorem split_loop_utf8 (header footer : List Nat) (max_bytes : Nat) :
    ∀ (fuel : Nat) (rem : List Nat) (messages bodies : List (List Nat)),
      utf8_valid rem → rem.length < 4294967296 →
      split_loop header footer max_bytes fuel rem = .ok (messages, bodies) →
      ∀ body ∈ bodies, utf8_valid body := by
  intro fuel
  induction fuel with
  | zero =>
    intro rem messages bodies _ _ h
    cases rem with
    | nil => rw [split_loop_nil] at h; cases h; simp
    | cons b r => simp [split_loop] at h
  | succ fuel ih =>
    intro rem messages bodies hv hlen h
    cases rem with
    | nil => rw [split_loop_nil] at h; cases h; simp
    | cons b r =>
      obtain ⟨fuel', e, ms, bs, hf, he, hrec, -, hb⟩ :=
        split_loop_cons_exact _ _ _ _ _ _ _ _ hlen h
      cases hf
      obtain ⟨-, -, -, hnc⟩ := end_iter_spec _ _ _ he
      obtain ⟨hv1, hv2⟩ := utf8_valid_split _ e hv hnc
      intro body hbody
      rw [hb, List.mem_cons] at hbody
      rcases hbody with rfl | hbody
      · exact hv1
      · refine ih _ _ _ ?_ (lt_of_le_of_lt (next_remaining_length (b :: r) e) hlen) hrec
          body hbody
        by_cases h10 : (b :: r).get? e = some 10
        · rw [if_pos h10]
          rw [List.get?_eq_getElem?] at h10
          have hd : (b :: r).drop e = 10 :: (b :: r).drop (e + 1) := by
            obtain ⟨hlt, hget⟩ := List.getElem?_eq_some.mp h10
            rw [← hget]
            exact List.drop_eq_getElem_cons hlt
          rw [hd] at hv2
          exact utf8_valid_tail_newline _ hv2
        · rw [if_neg h10]; exact hv2

/-! ### Helper lemmas: framing and single-line sends -/

theorem gsize_sub_le (a b : Nat) (h : b ≤ a) : gsize_sub a b + b ≤ a := by
  unfold gsize_sub
  omega

theorem header_footer_no_newline (type : Nat) (recipient header footer : List Nat)
    (h : header_footer type recipient = some (header, footer)) (hr : 10 ∉ recipient) :
    10 ∉ header ∧ 10 ∉ footer := by
  unfold header_footer at h
  split_ifs at h <;> cases h <;> simp [ascii, hr]

theorem strchr_of_not_mem (c : Nat) : ∀ (l : List Nat), c ∉ l → strchr c l = none := by
  intro l
  induction l with
  | nil => intro _; rfl
  | cons b r ih =>
    intro h
    simp only [List.mem_cons, not_or] at h
    unfold strchr
    rw [if_neg (fun e => h.1 e.symm), ih h.2]
    rfl

/-- A non-empty text without newline that fits the byte budget is sent as one line. -/
theorem split_loop_single (header footer : List Nat) (max_bytes fuel : Nat) (text : List Nat)
    (hne : text ≠ []) (hnl : 10 ∉ text) (hfit : text.length ≤ max_bytes)
    (hmax : max_bytes < 2147483648) :
    split_loop header footer max_bytes (fuel + 1) text
      = .ok ([header ++ text ++ footer], [text]) := by
  cases text with
  | nil => exact absurd rfl hne
  | cons b r =>
    have he : end_iter max_bytes (b :: r) = some (b :: r).length := by
      unfold end_iter
      rw [strchr_of_not_mem 10 _ hnl, to_gint_of_lt _ hmax]
      simp only []
      rw [if_neg (by omega)]
    have hlen : to_gint (b :: r).length = ((b :: r).length : Int) :=
      to_gint_of_lt _ (by omega)
    have hnat : (to_gint (b :: r).length).toNat = (b :: r).length := by omega
    unfold split_loop
    rw [he]
    simp only []
    rw [g_strndup_to_gsize, if_pos (by omega), printf_precision_s_nonneg _ _ (by omega), hnat]
    simp only [List.take_length]
    have hget : (b :: r).get? (b :: r).length = none := by
      rw [List.get?_eq_getElem?]
      exact List.getElem?_eq_none (le_refl _)
    rw [hget]
    simp only [reduceCtorEq, if_false, List.drop_length, split_loop_nil]

theorem encode_frames (fuel type : Nat) (recipient text : List Nat) (max_msg_len : Nat)
    (header footer : List Nat) (messages bodies : List (List Nat))
    (htype : header_footer type recipient = some (header, footer))
    (hret : idle_text_encode_and_split fuel type recipient text max_msg_len
      = .ok (messages, bodies)) :
    messages.length = bodies.length
      ∧ ∀ i : Nat, messages[i]? = (bodies[i]?).map fun body => header ++ body ++ footer := by
  unfold idle_text_encode_and_split at hret
  rw [htype] at hret
  have hframes := split_loop_frames _ _ _ _ _ _ _ hret
  subst hframes
  exact ⟨List.length_map _ _, fun i => List.getElem?_map _ _ _⟩

/-! ### Helper lemmas: mode flags as 32-bit words -/

theorem guint_not_testBit_general (x i : Nat) :
    (guint_not x).testBit i = (decide (i < 32) ^^ x.testBit i) := by
  have e : (4294967295 : Nat) = 2 ^ 32 - 1 := by decide
  unfold guint_not
  rw [Nat.testBit_xor, e, Nat.testBit_two_pow_sub_one]

theorem testBit_of_lt_guint (x i : Nat) (hx : x < 4294967296) (hi : 32 ≤ i) :
    x.testBit i = false := by
  apply Nat.testBit_lt_two_pow
  calc x < 2 ^ 32 := by simpa using hx
    _ ≤ 2 ^ i := Nat.pow_le_pow_right (by decide) hi

/-- Adding a mask and then removing it clears the bits of the mask. -/
theorem add_then_remove_flags (priv : IdleMUCChannelPrivate) (add : Nat)
    (hflags : priv.mode_state.flags < 4294967296) :
    (change_mode_state (change_mode_state priv add 0) 0 add).mode_state.flags
      = priv.mode_state.flags &&& guint_not add := by
  rw [(change_mode_state_result _ 0 add 0).1, (change_mode_state_result priv add 0 0).1]
  apply Nat.eq_of_testBit_eq
  intro i
  simp only [Nat.testBit_and, Nat.testBit_or, guint_not_testBit_general, Nat.zero_testBit]
  by_cases hi : i < 32
  · simp only [hi, decide_True]
    cases priv.mode_state.flags.testBit i <;> cases add.testBit i <;> rfl
  · have hf := testBit_of_lt_guint _ i hflags (by omega)
    simp only [hi, decide_False, hf]
    cases add.testBit i <;> rfl

theorem and_guint_not_of_disjoint (flags add : Nat) (hflags : flags < 4294967296)
    (h : add &&& flags = 0) : flags &&& guint_not add = flags := by
  apply Nat.eq_of_testBit_eq
  intro i
  have hi := congrArg (fun n => n.testBit i) h
  simp only [Nat.testBit_and, Nat.zero_testBit] at hi
  simp only [Nat.testBit_and, guint_not_testBit_general]
  by_cases h32 : i < 32
  · cases hf : flags.testBit i <;> cases ha : add.testBit i <;> simp_all
  · have hf := testBit_of_lt_guint _ i hflags (by omega)
    simp [hf]

/-! ### Helper lemmas: the pending queue -/

theorem g_queue_find_custom_some (id : Nat) : ∀ (queue : List IdleMUCPendingMessage)
    (node : Nat), g_queue_find_custom id queue = some node →
    ∃ msg, msg.id = id ∧ queue.Perm (msg :: g_queue_delete_link queue node)
      ∧ (g_queue_delete_link queue node).Sublist queue := by
  intro queue
  induction queue with
  | nil => intro node h; simp [g_queue_find_custom] at h
  | cons m q ih =>
    intro node h
    unfold g_queue_find_custom idle_pending_message_compare at h
    by_cases hm : m.id = id
    · simp only [hm, ne_eq, not_true_eq_false, if_false, if_true, Option.some.injEq] at h
      subst h
      exact ⟨m, hm, by simp [g_queue_delete_link], by simp [g_queue_delete_link]⟩
    · simp only [ne_eq, hm, not_false_eq_true, if_true, Nat.succ_ne_zero, if_false] at h
      cases hq : g_queue_find_custom id q with
      | none => rw [hq] at h; simp at h
      | some j =>
        rw [hq] at h
        simp only [Option.map_some', Option.some.injEq] at h
        subst h
        obtain ⟨msg, h1, h2, h3⟩ := ih j hq
        refine ⟨msg, h1, ?_, ?_⟩
        · simp only [g_queue_delete_link, List.eraseIdx_cons_succ] at h2 ⊢
          exact (List.Perm.cons m h2).trans (List.Perm.swap msg m _)
        · simp only [g_queue_delete_link, List.eraseIdx_cons_succ] at h3 ⊢
          exact List.Sublist.cons₂ m h3

theorem g_queue_find_custom_none (id : Nat) : ∀ (queue : List IdleMUCPendingMessage),
    g_queue_find_custom id queue = none → id ∉ queue.map (·.id) := by
  intro queue
  induction queue with
  | nil => intro _; simp
  | cons m q ih =>
    intro h
    unfold g_queue_find_custom idle_pending_message_compare at h
    by_cases hm : m.id = id
    · simp [hm] at h
    · simp only [ne_eq, hm, not_false_eq_true, if_true, Nat.succ_ne_zero, if_false] at h
      cases hq : g_queue_find_custom id q with
      | none =>
        have := ih hq
        simp only [List.map_cons, List.mem_cons, not_or]
        exact ⟨fun e => hm e.symm, this⟩
      | some j => rw [hq] at h; simp at h

/-- What an acknowledgement does: either every id was found at its turn and
the queue lost exactly one message per id, or it stopped at the first id that
was missing at its turn, keeping the removals made before it. -/
theorem acknowledge_spec : ∀ (ids : List Nat) (priv : IdleMUCChannelPrivate),
    (idle_muc_channel_acknowledge_pending_messages priv ids).1
        = { priv with pending_messages :=
              (idle_muc_channel_acknowledge_pending_messages priv ids).1.pending_messages }
      ∧ (((idle_muc_channel_acknowledge_pending_messages priv ids).2 = none
          ∧ ∃ removed : List IdleMUCPendingMessage, removed.map (·.id) = ids
              ∧ priv.pending_messages.Perm (removed ++
                  (idle_muc_channel_acknowledge_pending_messages priv ids).1.pending_messages)
              ∧ (idle_muc_channel_acknowledge_pending_messages priv ids).1.pending_messages.Sublist
                  priv.pending_messages)
        ∨ (∃ (pre : List Nat) (bad : Nat) (post : List Nat), ids = pre ++ bad :: post
            ∧ (idle_muc_channel_acknowledge_pending_messages priv ids).2
                = some TelepathyError.InvalidArgument
            ∧ (idle_muc_channel_acknowledge_pending_messages priv pre).2 = none
            ∧ (idle_muc_channel_acknowledge_pending_messages priv ids).1
                = (idle_muc_channel_acknowledge_pending_messages priv pre).1
            ∧ bad ∉ (idle_muc_channel_acknowledge_pending_messages priv pre).1.pending_messages.map
                (·.id))) := by
  intro ids
  induction ids with
  | nil =>
    intro priv
    refine ⟨rfl, Or.inl ⟨rfl, [], rfl, ?_, ?_⟩⟩
    · simp [idle_muc_channel_acknowledge_pending_messages]
    · simp [idle_muc_channel_acknowledge_pending_messages]
  | cons id rest ih =>
    intro priv
    cases hfind : g_queue_find_custom id priv.pending_messages with
    | none =>
      have hres : idle_muc_channel_acknowledge_pending_messages priv (id :: rest)
          = (priv, some .InvalidArgument) := by
        simp only [idle_muc_channel_acknowledge_pending_messages, hfind]
      rw [hres]
      refine ⟨rfl, Or.inr ⟨[], id, rest, rfl, rfl, rfl, rfl, ?_⟩⟩
      exact g_queue_find_custom_none id _ hfind
    | some node =>
      have hres : idle_muc_channel_acknowledge_pending_messages priv (id :: rest)
          = idle_muc_channel_acknowledge_pending_messages
              { priv with pending_messages := g_queue_delete_link priv.pending_messages node }
              rest := by
        simp only [idle_muc_channel_acknowledge_pending_messages, hfind]
      obtain ⟨msg, hid, hperm, hsub⟩ := g_queue_find_custom_some id _ node hfind
      obtain ⟨hframe, hcases⟩ := ih
        { priv with pending_messages := g_queue_delete_link priv.pending_messages node }
      rw [hres]
      refine ⟨?_, ?_⟩
      · rw [hframe]
      · rcases hcases with ⟨hok, removed, hmap, hp, hs⟩ | ⟨pre, bad, post, hids, herr, hpre, heq, hbad⟩
        · refine Or.inl ⟨hok, msg :: removed, by simp [hid, hmap], ?_, hs.trans hsub⟩
          exact hperm.trans (List.Perm.cons msg hp)
        · refine Or.inr ⟨id :: pre, bad, post, by simp [hids], herr, ?_, ?_, ?_⟩
          · simpa only [idle_muc_channel_acknowledge_pending_messages, hfind] using hpre
          · simpa only [idle_muc_channel_acknowledge_pending_messages, hfind] using heq
          · simpa only [idle_muc_channel_acknowledge_pending_messages, hfind] using hbad

/-! ### Helper lemmas: `set_properties` -/

theorem set_properties_loop_refused (properties : List TPProperty) :
    ∀ (pre : List (Nat × GValue)) (entry : Nat × GValue) (post : List (Nat × GValue))
      (err : TelepathyError),
      (∀ x ∈ pre, set_property_refusal properties x = none) →
      set_property_refusal properties entry = some err →
      set_properties_loop properties (pre ++ entry :: post) = .error err := by
  intro pre
  induction pre with
  | nil =>
    intro entry post err _ he
    obtain ⟨prop_id, prop_val⟩ := entry
    simp only [set_property_refusal] at he
    simp only [List.nil_append, set_properties_loop, g_value_type_compatible]
    split_ifs at he ⊢ <;> simp_all
  | cons x pre ih =>
    intro entry post err hpre he
    obtain ⟨prop_id, prop_val⟩ := x
    have hx := hpre (prop_id, prop_val) (List.mem_cons_self _ _)
    have hrest := ih entry post err (fun y hy => hpre y (List.mem_cons_of_mem _ hy)) he
    simp only [set_property_refusal] at hx
    simp only [List.cons_append, set_properties_loop, g_value_type_compatible, hrest]
    split_ifs at hx ⊢ <;> simp_all

theorem set_properties_loop_accepted (properties : List TPProperty) :
    ∀ (entries : List (Nat × GValue)),
      (∀ x ∈ entries, set_property_refusal properties x = none) →
      set_properties_loop properties entries
        = .ok (entries.filter (property_differs properties)) := by
  intro entries
  induction entries with
  | nil => intro _; rfl
  | cons x rest ih =>
    intro h
    obtain ⟨prop_id, prop_val⟩ := x
    have hx := h (prop_id, prop_val) (List.mem_cons_self _ _)
    have hrest := ih (fun y hy => h y (List.mem_cons_of_mem _ hy))
    simp only [set_property_refusal] at hx
    simp only [set_properties_loop, g_value_type_compatible, hrest, List.filter_cons,
      property_differs]
    split_ifs at hx ⊢ <;> simp_all

/-- Either some entry is refused, and there is a first one, or all are accepted. -/
theorem first_refusal (properties : List TPProperty) : ∀ (entries : List (Nat × GValue)),
    (∀ x ∈ entries, set_property_refusal properties x = none)
      ∨ ∃ (pre : List (Nat × GValue)) (entry : Nat × GValue) (post : List (Nat × GValue))
          (err : TelepathyError), entries = pre ++ entry :: post
            ∧ (∀ x ∈ pre, set_property_refusal properties x = none)
            ∧ set_property_refusal properties entry = some err := by
  intro entries
  induction entries with
  | nil => exact Or.inl (fun x hx => by simp at hx)
  | cons x rest ih =>
    cases hx : set_property_refusal properties x with
    | some err => exact Or.inr ⟨[], x, rest, err, rfl, fun y hy => by simp at hy, hx⟩
    | none =>
      rcases ih with hall | ⟨pre, entry, post, err, hsplit, hpre, he⟩
      · left
        intro y hy
        rcases List.mem_cons.mp hy with rfl | hy
        · exact hx
        · exact hall y hy
      · right
        refine ⟨x :: pre, entry, post, err, by simp [hsplit], ?_, he⟩
        intro y hy
        rcases List.mem_cons.mp hy with rfl | hy
        · exact hx
        · exact hpre y hy

/-! ### Helper lemmas: `send_properties_request` on mode letters and subject -/

theorem connection_send_eq (priv : IdleMUCChannelPrivate) (cmd : List Nat) :
    _idle_connection_send priv cmd = { priv with trace := priv.trace ++ [.connection_send cmd] } :=
  rfl

theorem g_snprintf_of_short (n : Nat) (formatted : List Nat)
    (h : (g_snprintf n formatted).length + 1 < n) : g_snprintf n formatted = formatted := by
  unfold g_snprintf at h ⊢
  rw [List.length_take] at h
  apply List.take_of_length_le
  omega

theorem set_property_refusal_none (properties : List TPProperty) (entry : Nat × GValue)
    (h : set_property_refusal properties entry = none) :
    entry.1 < LAST_TP_PROPERTY_ENUM
      ∧ entry.2.type = property_signatures.getD entry.1 .G_TYPE_UINT := by
  simp only [set_property_refusal] at h
  split_ifs at h with h1 h2 h3
  exact ⟨by omega, by simpa using h3⟩

theorem expected_property_line_subject (channel_name : List Nat) (prop_val : GValue)
    (ht : prop_val.type = .G_TYPE_STRING) :
    g_snprintf (IRC_MSG_MAXLEN + 2)
        (ascii "TOPIC " ++ channel_name ++ ascii " :" ++ printf_s (g_value_get_string prop_val))
      = expected_property_line channel_name (TP_PROPERTY_SUBJECT, prop_val) := by
  cases prop_val with
  | boolean b => simp [GValue.type] at ht
  | uint n => simp [GValue.type] at ht
  | string s =>
    cases s <;>
      simp [expected_property_line, g_snprintf, printf_s, g_value_get_string, IRC_MSG_MAXLEN]

theorem send_properties_first_loop_letters (channel_name : List Nat) :
    ∀ (entries : List (Nat × GValue)) (priv : IdleMUCChannelPrivate) (body : List Nat)
      (waiting : List (Nat × GValue))
      (r : IdleMUCChannelPrivate × List Nat × List (Nat × GValue)),
      priv.channel_name = channel_name →
      (∀ e ∈ entries, (e.1 = TP_PROPERTY_INVITE_ONLY ∨ e.1 = TP_PROPERTY_MODERATED
          ∨ e.1 = TP_PROPERTY_PRIVATE ∨ e.1 = TP_PROPERTY_SUBJECT)
        ∧ e.2.type = property_signatures.getD e.1 .G_TYPE_UINT) →
      send_properties_first_loop
          (g_snprintf (IRC_MSG_MAXLEN + 2) (ascii "MODE " ++ channel_name ++ ascii " "))
          entries priv body waiting = some r →
      r.1 = { priv with trace := (priv.trace ++ entries.map
                (fun e => .connection_send (expected_property_line channel_name e))) }
        ∧ r.2.2 = waiting := by
  intro entries
  induction entries with
  | nil =>
    intro priv body waiting r _ _ h
    simp only [send_properties_first_loop, Option.some.injEq] at h
    subst h
    simp
  | cons e rest ih =>
    intro priv body waiting r hchan hall h
    obtain ⟨prop_id, prop_val⟩ := e
    have he := hall (prop_id, prop_val) (List.mem_cons_self _ _)
    have hrest : ∀ e ∈ rest, (e.1 = TP_PROPERTY_INVITE_ONLY ∨ e.1 = TP_PROPERTY_MODERATED
          ∨ e.1 = TP_PROPERTY_PRIVATE ∨ e.1 = TP_PROPERTY_SUBJECT)
        ∧ e.2.type = property_signatures.getD e.1 .G_TYPE_UINT :=
      fun y hy => hall y (List.mem_cons_of_mem _ hy)
    obtain ⟨hid, htype⟩ := he
    simp only at hid htype
    by_cases hsub : prop_id = TP_PROPERTY_SUBJECT
    · subst hsub
      have ht : prop_val.type = .G_TYPE_STRING := by
        simpa [property_signatures, TP_PROPERTY_SUBJECT] using htype
      have hmode : to_irc_mode TP_PROPERTY_SUBJECT = 0 := by decide
      simp only [send_properties_first_loop, hmode, ne_eq, not_true_eq_false, if_false,
        if_true] at h
      rw [hchan, expected_property_line_subject channel_name prop_val ht] at h
      have := ih _ body waiting r (by simpa [_idle_connection_send, emit] using hchan) hrest h
      rw [this.1, this.2]
      simp [connection_send_eq]
    · have hletter : to_irc_mode prop_id ≠ 0 ∧ to_irc_mode prop_id
            = (if prop_id = TP_PROPERTY_INVITE_ONLY then 105
               else if prop_id = TP_PROPERTY_MODERATED then 109 else 115) := by
        rcases hid with h0 | h0 | h0 | h0
        · subst h0; decide
        · subst h0; decide
        · subst h0; decide
        · exact absurd h0 hsub
      have ht : prop_val.type = .G_TYPE_BOOLEAN := by
        rcases hid with h0 | h0 | h0 | h0
        · subst h0; simpa [property_signatures, TP_PROPERTY_INVITE_ONLY] using htype
        · subst h0; simpa [property_signatures, TP_PROPERTY_MODERATED] using htype
        · subst h0; simpa [property_signatures, TP_PROPERTY_PRIVATE] using htype
        · exact absurd h0 hsub
      simp only [send_properties_first_loop, if_pos hletter.1, ht, ne_eq, not_true_eq_false,
        if_false] at h
      by_cases hlen : (g_snprintf (IRC_MSG_MAXLEN + 2)
          (ascii "MODE " ++ channel_name ++ ascii " ")).length + 3 > IRC_MSG_MAXLEN + 2
      · simp only [if_pos hlen] at h
        exact absurd h (by simp)
      · simp only [if_neg hlen] at h
        have hcmd := g_snprintf_of_short (IRC_MSG_MAXLEN + 2)
          (ascii "MODE " ++ channel_name ++ ascii " ") (by omega)
        have := ih _ _ waiting r (by simpa [_idle_connection_send, emit] using hchan) hrest h
        rw [this.1, this.2]
        have hline : g_snprintf (IRC_MSG_MAXLEN + 2) (ascii "MODE " ++ channel_name ++ ascii " ")
              ++ [if g_value_get_boolean prop_val then 43 else 45, to_irc_mode prop_id]
            = expected_property_line channel_name (prop_id, prop_val) := by
          rw [hcmd, hletter.2]
          cases prop_val with
          | boolean b =>
            cases b <;> simp [expected_property_line, hsub, g_value_get_boolean]
          | uint n => simp [GValue.type] at ht
          | string s => simp [GValue.type] at ht
        rw [hline]
        simp [connection_send_eq]

theorem send_properties_request_letters (priv : IdleMUCChannelPrivate)
    (entries : List (Nat × GValue)) (priv2 : IdleMUCChannelPrivate)
    (hall : ∀ e ∈ entries, (e.1 = TP_PROPERTY_INVITE_ONLY ∨ e.1 = TP_PROPERTY_MODERATED
          ∨ e.1 = TP_PROPERTY_PRIVATE ∨ e.1 = TP_PROPERTY_SUBJECT)
        ∧ e.2.type = property_signatures.getD e.1 .G_TYPE_UINT)
    (h : send_properties_request priv entries = some priv2) :
    priv2 = { priv with trace := (priv.trace ++ entries.map
      (fun e => .connection_send (expected_property_line priv.channel_name e))) } := by
  unfold send_properties_request at h
  simp only at h
  cases hfirst : send_properties_first_loop
      (g_snprintf (IRC_MSG_MAXLEN + 2) (ascii "MODE " ++ priv.channel_name ++ ascii " "))
      entries priv [] [] with
  | none => rw [hfirst] at h; exact absurd h (by simp)
  | some r =>
    rw [hfirst] at h
    have hr := send_properties_first_loop_letters priv.channel_name entries priv [] [] r rfl
      hall hfirst
    simp only [hr.2, reorder_waiting, prop_arr_find, send_properties_waiting_loop,
      Option.some.injEq] at h
    rw [← h, hr.1]

/-! ### Helper lemmas: `get_properties` -/

theorem get_properties_check_prefix (properties : List TPProperty) :
    ∀ (pre rest : List Nat),
      (∀ id ∈ pre, id < LAST_TP_PROPERTY_ENUM
        ∧ (properties.getD id ⟨.uint 0, 0⟩).flags &&& TP_PROPERTY_FLAG_READ ≠ 0) →
      get_properties_check properties (pre ++ rest) = get_properties_check properties rest := by
  intro pre
  induction pre with
  | nil => intro rest _; rfl
  | cons id pre ih =>
    intro rest h
    have hid := h id (List.mem_cons_self _ _)
    have hrest := ih rest (fun y hy => h y (List.mem_cons_of_mem _ hy))
    simp only [List.cons_append, get_properties_check, List.append_eq]
    rw [if_neg (by omega), if_neg hid.2, hrest]

theorem get_properties_check_unreadable (properties : List TPProperty) :
    ∀ (ids : List Nat), (∀ id ∈ ids, id < LAST_TP_PROPERTY_ENUM) →
      (∃ id ∈ ids, (properties.getD id ⟨.uint 0, 0⟩).flags &&& TP_PROPERTY_FLAG_READ = 0) →
      get_properties_check properties ids = some .PermissionDenied := by
  intro ids
  induction ids with
  | nil => intro _ h; simp at h
  | cons id rest ih =>
    intro hknown hbad
    have hid := hknown id (List.mem_cons_self _ _)
    simp only [get_properties_check]
    rw [if_neg (by omega)]
    by_cases hr : (properties.getD id ⟨.uint 0, 0⟩).flags &&& TP_PROPERTY_FLAG_READ = 0
    · rw [if_pos hr]
    · rw [if_neg hr]
      apply ih (fun y hy => hknown y (List.mem_cons_of_mem _ hy))
      obtain ⟨bad, hmem, hflag⟩ := hbad
      rcases List.mem_cons.mp hmem with rfl | hmem
      · exact absurd hflag hr
      · exact ⟨bad, hmem, hflag⟩

/-! ### Helper lemmas: what leaves the life cycle alone -/

theorem same_lifecycle_refl (p : IdleMUCChannelPrivate) : same_lifecycle p p :=
  ⟨rfl, rfl, rfl, rfl, rfl, rfl, rfl, rfl⟩

theorem same_lifecycle_trans {p q r : IdleMUCChannelPrivate} (h1 : same_lifecycle p q)
    (h2 : same_lifecycle q r) : same_lifecycle p r := by
  obtain ⟨a1, a2, a3, a4, a5, a6, a7, a8⟩ := h1
  obtain ⟨b1, b2, b3, b4, b5, b6, b7, b8⟩ := h2
  exact ⟨b1.trans a1, b2.trans a2, b3.trans a3, b4.trans a4, b5.trans a5, b6.trans a6,
    b7.trans a7, b8.trans a8⟩

theorem set_tp_property_flags_lifecycle (priv : IdleMUCChannelPrivate)
    (props : Option (List Nat)) (add remove : Nat) :
    same_lifecycle priv (set_tp_property_flags priv props add remove) := by
  unfold set_tp_property_flags
  simp only []
  split_ifs <;> simp [same_lifecycle, emit, lifecycle_effects, is_lifecycle_effect]

theorem change_tp_properties_lifecycle (priv : IdleMUCChannelPrivate)
    (props : List (Nat × GValue)) : same_lifecycle priv (change_tp_properties priv props) := by
  unfold change_tp_properties
  simp only []
  split_ifs
  · refine same_lifecycle_trans ?_ (set_tp_property_flags_lifecycle _ _ _ _)
    simp [same_lifecycle, emit, lifecycle_effects, is_lifecycle_effect]
  · refine same_lifecycle_trans ?_ (set_tp_property_flags_lifecycle _ _ _ _)
    simp [same_lifecycle, emit, lifecycle_effects, is_lifecycle_effect]
  · simp [same_lifecycle, emit, lifecycle_effects, is_lifecycle_effect]
  · simp [same_lifecycle, emit, lifecycle_effects, is_lifecycle_effect]

theorem change_group_flags_lifecycle (priv : IdleMUCChannelPrivate) (add remove : Nat) :
    same_lifecycle priv (change_group_flags priv add remove) := by
  unfold change_group_flags
  simp only []
  split_ifs <;> simp [same_lifecycle, emit, lifecycle_effects, is_lifecycle_effect]

theorem change_sets_lifecycle (priv : IdleMUCChannelPrivate)
    (add_current remove_current add_local remove_local add_remote remove_remote :
      Option (Finset Nat)) (actor reason : Nat) :
    same_lifecycle priv (change_sets priv add_current remove_current add_local remove_local
      add_remote remove_remote actor reason) := by
  unfold change_sets
  simp only []
  split_ifs <;> simp [same_lifecycle, emit, lifecycle_effects, is_lifecycle_effect]

theorem change_mode_state_privilege_lifecycle (priv : IdleMUCChannelPrivate)
    (add remove flags combined group_add group_remove : Nat) :
    same_lifecycle priv
      (change_mode_state_privilege priv add remove flags combined group_add group_remove).1 := by
  unfold change_mode_state_privilege
  split_ifs <;>
    first
    | exact set_tp_property_flags_lifecycle _ _ _ _
    | exact same_lifecycle_refl _

theorem same_lifecycle_mode_state (priv q : IdleMUCChannelPrivate) (m : IRCChannelModeState)
    (h : same_lifecycle priv q) : same_lifecycle priv { q with mode_state := m } :=
  same_lifecycle_trans h ⟨rfl, rfl, rfl, rfl, rfl, rfl, rfl, rfl⟩

theorem change_mode_state_lifecycle (priv : IdleMUCChannelPrivate) (add remove : Nat) :
    same_lifecycle priv (change_mode_state priv add remove) := by
  unfold change_mode_state
  simp only []
  apply same_lifecycle_mode_state
  refine same_lifecycle_trans ?_ (change_tp_properties_lifecycle _ _)
  refine same_lifecycle_trans ?_ (change_group_flags_lifecycle _ _ _)
  exact change_mode_state_privilege_lifecycle priv _ _ _ _ _ _

theorem send_mode_query_request_lifecycle (priv : IdleMUCChannelPrivate) :
    (send_mode_query_request priv).state = priv.state
      ∧ (send_mode_query_request priv).passwd_ctx = priv.passwd_ctx
      ∧ (send_mode_query_request priv).password_flags = priv.password_flags
      ∧ (send_mode_query_request priv).join_ready = priv.join_ready
      ∧ (send_mode_query_request priv).closed = priv.closed
      ∧ (send_mode_query_request priv).channel_name = priv.channel_name
      ∧ (send_mode_query_request priv).own_handle = priv.own_handle
      ∧ lifecycle_effects (send_mode_query_request priv).trace
          = lifecycle_effects priv.trace
            ++ [.connection_send ((ascii "MODE " ++ priv.channel_name).take 511)] := by
  simp [send_mode_query_request, _idle_connection_send, emit, lifecycle_effects,
    is_lifecycle_effect, g_snprintf, IRC_MSG_MAXLEN]

theorem change_password_flags_fields (priv : IdleMUCChannelPrivate) (flag : Nat) (state : Bool) :
    (change_password_flags priv flag state).state = priv.state
      ∧ (change_password_flags priv flag state).passwd_ctx = priv.passwd_ctx
      ∧ (change_password_flags priv flag state).join_ready = priv.join_ready
      ∧ (change_password_flags priv flag state).closed = priv.closed
      ∧ (change_password_flags priv flag state).channel_name = priv.channel_name
      ∧ (change_password_flags priv flag state).own_handle = priv.own_handle := by
  unfold change_password_flags
  simp only []
  split_ifs <;> simp [emit]

theorem provide_password_reply_fields (priv : IdleMUCChannelPrivate) (success : Bool) :
    (provide_password_reply priv success).state = priv.state
      ∧ (provide_password_reply priv success).channel_name = priv.channel_name
      ∧ (provide_password_reply priv success).own_handle = priv.own_handle := by
  unfold provide_password_reply
  cases priv.passwd_ctx <;> cases success <;>
    simp [emit, change_password_flags_fields]

theorem change_state_fields (priv : IdleMUCChannelPrivate) (state : IdleMUCState) :
    (change_state priv state).state = state
      ∧ (change_state priv state).channel_name = priv.channel_name
      ∧ (change_state priv state).own_handle = priv.own_handle := by
  unfold change_state
  simp only []
  split_ifs <;>
    simp [emit, change_password_flags_fields, provide_password_reply_fields]

/-- The inbound join of the own nick: `change_state` to JOINED decides the life
cycle, the rest adds only the mode query. -/
theorem join_self_lifecycle (handles : IdleHandleStorage) (priv : IdleMUCChannelPrivate)
    (nick : List Nat) (hown : priv.own_handle ≠ 0)
    (hnick : handles.idle_handle_for_contact nick = priv.own_handle) :
    (_idle_muc_channel_join handles priv nick).state = .MUC_STATE_JOINED
      ∧ (_idle_muc_channel_join handles priv nick).passwd_ctx
          = (change_state priv .MUC_STATE_JOINED).passwd_ctx
      ∧ (_idle_muc_channel_join handles priv nick).password_flags
          = (change_state priv .MUC_STATE_JOINED).password_flags
      ∧ (_idle_muc_channel_join handles priv nick).join_ready
          = (change_state priv .MUC_STATE_JOINED).join_ready
      ∧ (_idle_muc_channel_join handles priv nick).closed
          = (change_state priv .MUC_STATE_JOINED).closed
      ∧ (_idle_muc_channel_join handles priv nick).channel_name = priv.channel_name
      ∧ (_idle_muc_channel_join handles priv nick).own_handle = priv.own_handle
      ∧ lifecycle_effects (_idle_muc_channel_join handles priv nick).trace
          = lifecycle_effects (change_state priv .MUC_STATE_JOINED).trace
            ++ [.connection_send ((ascii "MODE " ++ priv.channel_name).take 511)] := by
  have hcs := change_state_fields priv .MUC_STATE_JOINED
  have h1 := change_sets_lifecycle (change_state priv .MUC_STATE_JOINED)
    (some {priv.own_handle}) none none (some {priv.own_handle}) none (some {priv.own_handle})
    priv.own_handle TP_CHANNEL_GROUP_CHANGE_REASON_NONE
  have h2 := same_lifecycle_trans h1 (change_group_flags_lifecycle _ TP_CHANNEL_GROUP_FLAG_CAN_ADD 0)
  have h3 := send_mode_query_request_lifecycle
    (change_group_flags
      (change_sets (change_state priv .MUC_STATE_JOINED)
        (some {priv.own_handle}) none none (some {priv.own_handle}) none (some {priv.own_handle})
        priv.own_handle TP_CHANNEL_GROUP_CHANGE_REASON_NONE)
      TP_CHANNEL_GROUP_FLAG_CAN_ADD 0)
  have h4 := change_mode_state_lifecycle
    (send_mode_query_request
      (change_group_flags
        (change_sets (change_state priv .MUC_STATE_JOINED)
          (some {priv.own_handle}) none none (some {priv.own_handle}) none
          (some {priv.own_handle}) priv.own_handle TP_CHANNEL_GROUP_CHANGE_REASON_NONE)
        TP_CHANNEL_GROUP_FLAG_CAN_ADD 0))
    MODE_FLAG_TOPIC_ONLY_SETTABLE_BY_OPS 0
  obtain ⟨a1, a2, a3, a4, a5, a6, a7, a8⟩ := h2
  obtain ⟨b1, b2, b3, b4, b5, b6, b7, b8⟩ := h3
  obtain ⟨c1, c2, c3, c4, c5, c6, c7, c8⟩ := h4
  unfold _idle_muc_channel_join
  simp only [hnick, if_neg hown, if_true]
  split_ifs
  · refine ⟨?_, ?_, ?_, ?_, ?_, ?_, ?_, ?_⟩
    · rw [c1, b1, a1, hcs.1]
    · rw [c2, b2, a2]
    · rw [c3, b3, a3]
    · rw [c4, b4, a4]
    · rw [c5, b5, a5]
    · rw [c6, b6, a6, hcs.2.1]
    · rw [c7, b7, a7, hcs.2.2]
    · rw [c8, b8, a8, a6, hcs.2.1]
  · refine ⟨?_, ?_, ?_, ?_, ?_, ?_, ?_, ?_⟩
    · rw [b1, a1, hcs.1]
    · rw [b2, a2]
    · rw [b3, a3]
    · rw [b4, a4]
    · rw [b5, a5]
    · rw [b6, a6, hcs.2.1]
    · rw [b7, a7, hcs.2.2]
    · rw [b8, a8, a6, hcs.2.1]

/-! ### Helper lemmas: the password scenario -/

theorem and_provide_eq (x : Nat) :
    x &&& TP_CHANNEL_PASSWORD_FLAG_PROVIDE = (x.testBit 3).toNat * 8 := by
  have h := Nat.and_two_pow x 3
  simpa [TP_CHANNEL_PASSWORD_FLAG_PROVIDE] using h

theorem guint_not_and_provide (x : Nat) (h : x &&& TP_CHANNEL_PASSWORD_FLAG_PROVIDE = 0) :
    guint_not x &&& TP_CHANNEL_PASSWORD_FLAG_PROVIDE = 8 := by
  rw [and_provide_eq] at h ⊢
  rw [guint_not_testBit x 3 (by decide)]
  cases hx : x.testBit 3 <;> simp_all

theorem or_provide_and_provide (x : Nat) :
    (x ||| TP_CHANNEL_PASSWORD_FLAG_PROVIDE) &&& TP_CHANNEL_PASSWORD_FLAG_PROVIDE = 8 := by
  rw [and_provide_eq, Nat.testBit_or]
  have h8 : Nat.testBit TP_CHANNEL_PASSWORD_FLAG_PROVIDE 3 = true := by decide
  simp [h8]

theorem and_not_provide_and_provide (x : Nat) :
    (x &&& guint_not TP_CHANNEL_PASSWORD_FLAG_PROVIDE) &&& TP_CHANNEL_PASSWORD_FLAG_PROVIDE
      = 0 := by
  rw [and_provide_eq, Nat.testBit_and, guint_not_testBit _ 3 (by decide)]
  have h8 : Nat.testBit TP_CHANNEL_PASSWORD_FLAG_PROVIDE 3 = true := by decide
  simp [h8]

/-- A bad-key reply while joining: NEED_PASSWORD, join-ready and the PROVIDE flag. -/
theorem badchannelkey_joining (priv : IdleMUCChannelPrivate)
    (hstate : priv.state = .MUC_STATE_JOINING) (hready : priv.join_ready = false)
    (hflag : priv.password_flags &&& TP_CHANNEL_PASSWORD_FLAG_PROVIDE = 0) :
    _idle_muc_channel_badchannelkey priv
      = { priv with
          state := .MUC_STATE_NEED_PASSWORD
          join_ready := true
          password_flags := priv.password_flags ||| TP_CHANNEL_PASSWORD_FLAG_PROVIDE
          trace := (priv.trace ++ [.JOIN_READY MUC_CHANNEL_JOIN_ERROR_NONE,
            .PASSWORD_FLAGS_CHANGED TP_CHANNEL_PASSWORD_FLAG_PROVIDE 0]) } := by
  have hadd : guint_not priv.password_flags &&& 8 = 8 :=
    guint_not_and_provide priv.password_flags hflag
  simp [_idle_muc_channel_badchannelkey, change_state, hstate, hready, IdleMUCState.toNat,
    change_password_flags, emit, hadd, TP_CHANNEL_PASSWORD_FLAG_PROVIDE]

/-- The join echo while a ProvidePassword call is parked. -/
theorem change_state_joined_parked (priv : IdleMUCChannelPrivate) (context : Nat)
    (hstate : priv.state = .MUC_STATE_NEED_PASSWORD) (hready : priv.join_ready = true)
    (hflag : priv.password_flags &&& TP_CHANNEL_PASSWORD_FLAG_PROVIDE = 8)
    (hctx : priv.passwd_ctx = some context) :
    change_state priv .MUC_STATE_JOINED
      = { priv with
          state := .MUC_STATE_JOINED
          passwd_ctx := none
          password_flags := (priv.password_flags &&& guint_not TP_CHANNEL_PASSWORD_FLAG_PROVIDE)
            &&& guint_not TP_CHANNEL_PASSWORD_FLAG_PROVIDE
          trace := (priv.trace ++ [.PASSWORD_FLAGS_CHANGED 0 TP_CHANNEL_PASSWORD_FLAG_PROVIDE,
            .method_return context true]) } := by
  have hclear : (priv.password_flags &&& guint_not 8) &&& 8 = 0 :=
    and_not_provide_and_provide priv.password_flags
  have hset : priv.password_flags &&& 8 = 8 := hflag
  simp [change_state, hstate, hready, IdleMUCState.toNat, provide_password_reply,
    change_password_flags, emit, hset, hctx, hclear, TP_CHANNEL_PASSWORD_FLAG_PROVIDE]

/-- A second bad-key reply while a ProvidePassword call is parked. -/
theorem badchannelkey_parked (priv : IdleMUCChannelPrivate) (context : Nat)
    (hstate : priv.state = .MUC_STATE_NEED_PASSWORD) (hready : priv.join_ready = true)
    (hctx : priv.passwd_ctx = some context) :
    _idle_muc_channel_badchannelkey priv
      = { priv with
          passwd_ctx := none
          trace := (priv.trace ++ [.method_return context false]) } := by
  cases priv with
  | mk handle channel_name own_handle recv_id pending_messages local_pending remote_pending
      current_members state mode_state group_flags password_flags properties passwd_ctx
      join_ready closed dispose_has_run trace =>
    simp only at hstate hready hctx
    subst hstate hready hctx
    rfl

/-! ### Helper lemmas: the basic join scenario -/

theorem add_members_self_fresh (handles : IdleHandleStorage) (handle : Nat)
    (channel_name : List Nat) (own_handle : Nat) :
    idle_muc_channel_add_members handles (idle_muc_channel_init handle channel_name own_handle)
        [own_handle]
      = ({ idle_muc_channel_init handle channel_name own_handle with
            state := .MUC_STATE_JOINING
            remote_pending := {own_handle}
            trace := [.connection_send ((ascii "JOIN " ++ channel_name).take 510),
                      .MEMBERS_CHANGED [] ∅ ∅ ∅ {own_handle} 0
                        TP_CHANNEL_GROUP_CHANGE_REASON_NONE] }, none) := by
  simp [idle_muc_channel_add_members, add_member, idle_muc_channel_init, send_join_request,
    _idle_connection_send, emit, g_snprintf, change_state, change_sets, idle_handle_set_update,
    idle_handle_set_difference_update, IRC_MSG_MAXLEN, IdleMUCState.toNat]

theorem change_mode_state_topic_only (priv : IdleMUCChannelPrivate)
    (hflags : priv.mode_state.flags = 0) :
    change_mode_state priv MODE_FLAG_TOPIC_ONLY_SETTABLE_BY_OPS 0
      = { priv with
          group_flags := priv.group_flags &&& 4294967295
          mode_state := { priv.mode_state with flags := MODE_FLAG_TOPIC_ONLY_SETTABLE_BY_OPS } } := by
  have h1 : (2048 : Nat) &&& 4294967295 = 2048 := by decide
  have h2 : (2048 : Nat) &&& 16 = 0 := by decide
  have h3 : (2048 : Nat) &&& 16386 = 0 := by decide
  simp [change_mode_state, hflags, change_mode_state_privilege, change_group_flags,
    change_tp_properties, change_tp_properties_loop, mode_flag_bits, mode_flag_props, to_prop_id,
    guint_not, MODE_FLAG_TOPIC_ONLY_SETTABLE_BY_OPS, MODE_FLAG_INVITE_ONLY,
    MODE_FLAGS_OP_OR_HALFOP, MODE_FLAG_OPERATOR_PRIVILEGE, MODE_FLAG_HALFOP_PRIVILEGE, h1, h2, h3]

theorem join_after_add_members (handles : IdleHandleStorage) (handle : Nat)
    (channel_name nick : List Nat) (own_handle : Nat) (hown : own_handle ≠ 0)
    (hnick : handles.idle_handle_for_contact nick = own_handle) :
    ∃ flags : Nat,
    _idle_muc_channel_join handles
        (idle_muc_channel_add_members handles
          (idle_muc_channel_init handle channel_name own_handle) [own_handle]).1 nick
      = { idle_muc_channel_init handle channel_name own_handle with
            state := .MUC_STATE_JOINED
            current_members := {own_handle}
            group_flags := TP_CHANNEL_GROUP_FLAG_CAN_ADD
            join_ready := true
            mode_state := { (idle_muc_channel_init handle channel_name own_handle).mode_state with
              flags := flags }
            trace := [.connection_send ((ascii "JOIN " ++ channel_name).take 510),
                      .MEMBERS_CHANGED [] ∅ ∅ ∅ {own_handle} 0
                        TP_CHANNEL_GROUP_CHANGE_REASON_NONE,
                      .JOIN_READY MUC_CHANNEL_JOIN_ERROR_NONE,
                      .MEMBERS_CHANGED [] {own_handle} ∅ ∅ ∅ own_handle
                        TP_CHANNEL_GROUP_CHANGE_REASON_NONE,
                      .GROUP_FLAGS_CHANGED TP_CHANNEL_GROUP_FLAG_CAN_ADD 0,
                      .connection_send ((ascii "MODE " ++ channel_name).take 511)] } := by
  rw [add_members_self_fresh]
  by_cases hplus : channel_name.head? = some 43
  · refine ⟨MODE_FLAG_TOPIC_ONLY_SETTABLE_BY_OPS, ?_⟩
    have hjoin : ∀ p : IdleMUCChannelPrivate, p.own_handle = own_handle →
        p.channel_name = channel_name →
        _idle_muc_channel_join handles p nick
          = change_mode_state
              (send_mode_query_request
                (change_group_flags
                  (change_sets (change_state p .MUC_STATE_JOINED) (some {own_handle}) none none
                    (some {own_handle}) none (some {own_handle}) own_handle
                    TP_CHANNEL_GROUP_CHANGE_REASON_NONE)
                  TP_CHANNEL_GROUP_FLAG_CAN_ADD 0))
              MODE_FLAG_TOPIC_ONLY_SETTABLE_BY_OPS 0 := by
      intro p hp hc
      have hname : (send_mode_query_request
          (change_group_flags
            (change_sets (change_state p .MUC_STATE_JOINED) (some {own_handle}) none none
              (some {own_handle}) none (some {own_handle}) own_handle
              TP_CHANNEL_GROUP_CHANGE_REASON_NONE)
            TP_CHANNEL_GROUP_FLAG_CAN_ADD 0)).channel_name = channel_name := by
        rw [(send_mode_query_request_lifecycle _).2.2.2.2.2.1,
          (change_group_flags_lifecycle _ _ _).2.2.2.2.2.1,
          (change_sets_lifecycle _ _ _ _ _ _ _ _ _).2.2.2.2.2.1,
          (change_state_fields p .MUC_STATE_JOINED).2.1, hc]
      simp only [_idle_muc_channel_join, hnick, hp, if_neg hown, if_true, hname, hplus]
    rw [hjoin _ rfl rfl, change_mode_state_topic_only]
    · simp [idle_muc_channel_init, send_mode_query_request,
        _idle_connection_send, emit, g_snprintf, change_state, change_sets, idle_handle_set_update,
        idle_handle_set_difference_update, IRC_MSG_MAXLEN, IdleMUCState.toNat, change_group_flags,
        guint_not, TP_CHANNEL_GROUP_FLAG_CAN_ADD]
    · simp [idle_muc_channel_init, send_mode_query_request,
        _idle_connection_send, emit, g_snprintf, change_state, change_sets, idle_handle_set_update,
        idle_handle_set_difference_update, IRC_MSG_MAXLEN, IdleMUCState.toNat, change_group_flags,
        guint_not, TP_CHANNEL_GROUP_FLAG_CAN_ADD]
  · refine ⟨0, ?_⟩
    simp [_idle_muc_channel_join, hnick, hown, hplus, idle_muc_channel_init,
      send_mode_query_request,
      _idle_connection_send, emit, g_snprintf, change_state, change_sets, idle_handle_set_update,
      idle_handle_set_difference_update, IRC_MSG_MAXLEN, IdleMUCState.toNat, change_group_flags,
      guint_not, TP_CHANNEL_GROUP_FLAG_CAN_ADD]

/-! ### Helper lemmas: the exit paths -/

theorem keeps_members_refl (p : IdleMUCChannelPrivate) : keeps_members p p :=
  ⟨rfl, rfl, rfl, rfl, rfl, [], by simp, by simp⟩

theorem keeps_members_trans {p q r : IdleMUCChannelPrivate} (h1 : keeps_members p q)
    (h2 : keeps_members q r) : keeps_members p r := by
  obtain ⟨a1, a2, a3, a4, a5, e1, a6, a7⟩ := h1
  obtain ⟨b1, b2, b3, b4, b5, e2, b6, b7⟩ := h2
  refine ⟨b1.trans a1, b2.trans a2, b3.trans a3, b4.trans a4, b5.trans a5, e1 ++ e2, ?_, ?_⟩
  · rw [b6, a6, List.append_assoc]
  · simp [a7, b7]

theorem keeps_members_emit (p : IdleMUCChannelPrivate) (e : Effect) (he : e ≠ .CLOSED) :
    keeps_members p (emit p e) :=
  ⟨rfl, rfl, rfl, rfl, rfl, [e], rfl, by simpa using he.symm⟩

theorem change_password_flags_keeps_members (priv : IdleMUCChannelPrivate) (flag : Nat)
    (state : Bool) : keeps_members priv (change_password_flags priv flag state) := by
  unfold change_password_flags
  simp only []
  split_ifs <;>
    first
    | exact ⟨rfl, rfl, rfl, rfl, rfl, _, rfl, by simp⟩
    | exact ⟨rfl, rfl, rfl, rfl, rfl, [], by simp, by simp⟩

theorem provide_password_reply_keeps_members (priv : IdleMUCChannelPrivate) (success : Bool) :
    keeps_members priv (provide_password_reply priv success) := by
  unfold provide_password_reply
  have hctx : keeps_members priv
      (match priv.passwd_ctx with
        | some ctx => { emit priv (.method_return ctx success) with passwd_ctx := none }
        | none => priv) := by
    cases priv.passwd_ctx with
    | none => exact keeps_members_refl priv
    | some ctx => exact ⟨rfl, rfl, rfl, rfl, rfl, _, rfl, by simp⟩
  simp only []
  split_ifs
  · exact keeps_members_trans hctx (change_password_flags_keeps_members _ _ _)
  · exact hctx

theorem change_state_keeps_members (priv : IdleMUCChannelPrivate) (state : IdleMUCState) :
    keeps_members priv (change_state priv state) := by
  unfold change_state
  simp only []
  have h1 : keeps_members priv
      (if state.toNat > IdleMUCState.MUC_STATE_JOINING.toNat ∧ ¬ priv.join_ready then
        { emit priv (.JOIN_READY MUC_CHANNEL_JOIN_ERROR_NONE) with join_ready := true }
      else priv) := by
    split_ifs
    · exact ⟨rfl, rfl, rfl, rfl, rfl, _, rfl, by simp⟩
    · exact keeps_members_refl priv
  generalize (if state.toNat > IdleMUCState.MUC_STATE_JOINING.toNat ∧ ¬ priv.join_ready then
        { emit priv (.JOIN_READY MUC_CHANNEL_JOIN_ERROR_NONE) with join_ready := true }
      else priv) = p1 at h1 ⊢
  have h2 : keeps_members p1
      (if priv.state = .MUC_STATE_NEED_PASSWORD ∧ state = .MUC_STATE_JOINED then
        provide_password_reply
          (change_password_flags p1 TP_CHANNEL_PASSWORD_FLAG_PROVIDE false) true
      else p1) := by
    split_ifs
    · exact keeps_members_trans (change_password_flags_keeps_members _ _ _)
        (provide_password_reply_keeps_members _ _)
    · exact keeps_members_refl p1
  generalize (if priv.state = .MUC_STATE_NEED_PASSWORD ∧ state = .MUC_STATE_JOINED then
        provide_password_reply
          (change_password_flags p1 TP_CHANNEL_PASSWORD_FLAG_PROVIDE false) true
      else p1) = p2 at h2 ⊢
  have h3 : keeps_members p2
      (if priv.state = .MUC_STATE_NEED_PASSWORD ∧ state = .MUC_STATE_NEED_PASSWORD then
        provide_password_reply p2 false
      else p2) := by
    split_ifs
    · exact provide_password_reply_keeps_members _ _
    · exact keeps_members_refl p2
  generalize (if priv.state = .MUC_STATE_NEED_PASSWORD ∧ state = .MUC_STATE_NEED_PASSWORD then
        provide_password_reply p2 false
      else p2) = p3 at h3 ⊢
  have h4 : keeps_members p3
      (if priv.state.toNat < IdleMUCState.MUC_STATE_NEED_PASSWORD.toNat
          ∧ state = .MUC_STATE_NEED_PASSWORD then
        change_password_flags p3 TP_CHANNEL_PASSWORD_FLAG_PROVIDE true
      else p3) := by
    split_ifs
    · exact change_password_flags_keeps_members _ _ _
    · exact keeps_members_refl p3
  generalize (if priv.state.toNat < IdleMUCState.MUC_STATE_NEED_PASSWORD.toNat
          ∧ state = .MUC_STATE_NEED_PASSWORD then
        change_password_flags p3 TP_CHANNEL_PASSWORD_FLAG_PROVIDE true
      else p3) = p4 at h4 ⊢
  exact keeps_members_trans (keeps_members_trans (keeps_members_trans h1 h2)
    (keeps_members_trans h3 h4)) ⟨rfl, rfl, rfl, rfl, rfl, [], by simp, by simp⟩

theorem change_sets_remove_everywhere (priv : IdleMUCChannelPrivate) (set : Finset Nat)
    (actor reason : Nat) :
    (change_sets priv none (some set) none (some set) none (some set) actor
        reason).current_members = priv.current_members \ set
      ∧ (change_sets priv none (some set) none (some set) none (some set) actor
        reason).local_pending = priv.local_pending \ set
      ∧ (change_sets priv none (some set) none (some set) none (some set) actor
        reason).remote_pending = priv.remote_pending \ set
      ∧ (change_sets priv none (some set) none (some set) none (some set) actor
        reason).closed = priv.closed
      ∧ (change_sets priv none (some set) none (some set) none (some set) actor
        reason).own_handle = priv.own_handle
      ∧ ∃ effects : List Effect,
          (change_sets priv none (some set) none (some set) none (some set) actor reason).trace
            = priv.trace ++ effects ∧ Effect.CLOSED ∉ effects := by
  unfold change_sets
  simp only [idle_handle_set_difference_update]
  split_ifs
  · exact ⟨rfl, rfl, rfl, rfl, rfl, _, rfl, by simp⟩
  · exact ⟨rfl, rfl, rfl, rfl, rfl, [], by simp, by simp⟩

/-- The kick or part of the own nick: what `_idle_muc_channel_handle_quit` does
for the self handle without suppression. -/
theorem handle_quit_self (priv : IdleMUCChannelPrivate) (suppress : Bool) (actor reason : Nat) :
    (_idle_muc_channel_handle_quit priv priv.own_handle suppress actor reason).state
        = .MUC_STATE_PARTED
      ∧ priv.own_handle ∉ (_idle_muc_channel_handle_quit priv priv.own_handle suppress actor
          reason).current_members
      ∧ priv.own_handle ∉ (_idle_muc_channel_handle_quit priv priv.own_handle suppress actor
          reason).local_pending
      ∧ priv.own_handle ∉ (_idle_muc_channel_handle_quit priv priv.own_handle suppress actor
          reason).remote_pending
      ∧ (_idle_muc_channel_handle_quit priv priv.own_handle suppress actor reason).closed
          = (priv.closed || !suppress)
      ∧ ∃ effects : List Effect, Effect.CLOSED ∉ effects
          ∧ (_idle_muc_channel_handle_quit priv priv.own_handle suppress actor reason).trace
            = priv.trace ++ effects ++ (if suppress then [] else [.CLOSED]) := by
  obtain ⟨s1, s2, s3, s4, s5, e1, s6, s7⟩ :=
    change_sets_remove_everywhere priv {priv.own_handle} actor reason
  obtain ⟨c1, c2, c3, c4, c5, e2, c6, c7⟩ := change_state_keeps_members
    (change_sets priv none (some {priv.own_handle}) none (some {priv.own_handle}) none
      (some {priv.own_handle}) actor reason) .MUC_STATE_PARTED
  have hst := (change_state_fields
    (change_sets priv none (some {priv.own_handle}) none (some {priv.own_handle}) none
      (some {priv.own_handle}) actor reason) .MUC_STATE_PARTED).1
  unfold _idle_muc_channel_handle_quit
  simp only [s5, if_true]
  cases suppress
  · simp only [Bool.false_eq_true, not_false_eq_true, if_true, if_false, emit, Bool.not_false,
      Bool.or_true]
    refine ⟨hst, ?_, ?_, ?_, trivial, e1 ++ e2, by simp [s7, c7], ?_⟩
    · rw [c1, s1]; simp
    · rw [c2, s2]; simp
    · rw [c3, s3]; simp
    · rw [c6, s6]; simp
  · simp only [not_true_eq_false, if_false, if_true, Bool.not_true, Bool.or_false]
    refine ⟨hst, ?_, ?_, ?_, ?_, e1 ++ e2, by simp [s7, c7], ?_⟩
    · rw [c1, s1]; simp
    · rw [c2, s2]; simp
    · rw [c3, s3]; simp
    · rw [c4, s4]
    · rw [c6, s6]; simp

/-! ### Helper lemmas: the send loop -/

theorem strchr_of_mem (c : Nat) : ∀ (l : List Nat), c ∈ l → ∃ p, strchr c l = some p := by
  intro l
  induction l with
  | nil => intro h; simp at h
  | cons b r ih =>
    intro h
    by_cases hb : b = c
    · exact ⟨0, by simp [strchr, hb]⟩
    · have hr : c ∈ r := by
        rcases List.mem_cons.mp h with h | h
        · exact absurd h.symm hb
        · exact h
      obtain ⟨p, hp⟩ := ih hr
      exact ⟨p + 1, by simp [strchr, hb, hp]⟩

theorem strchr_lt_length (c : Nat) : ∀ (l : List Nat) (p : Nat), strchr c l = some p →
    p < l.length := by
  intro l
  induction l with
  | nil => intro p h; simp [strchr] at h
  | cons b r ih =>
    intro p h
    by_cases hb : b = c
    · simp [strchr, hb] at h
      subst h
      simp
    · simp only [strchr, if_neg hb, Option.map_eq_some'] at h
      obtain ⟨q, hq, rfl⟩ := h
      have := ih q hq
      simp
      omega

theorem strchr_drop (c : Nat) : ∀ (l : List Nat) (p part : Nat), strchr c l = some p →
    part ≤ p → strchr c (l.drop part) = some (p - part) := by
  intro l
  induction l with
  | nil => intro p part h; simp [strchr] at h
  | cons b r ih =>
    intro p part h hle
    cases part with
    | zero => simpa using h
    | succ part =>
      by_cases hb : b = c
      · simp [strchr, hb] at h
        omega
      · simp only [strchr, if_neg hb, Option.map_eq_some'] at h
        obtain ⟨q, hq, rfl⟩ := h
        have := ih q part hq (by omega)
        simpa using this

/-- An ACTION text is never sent past its first newline: the loop of
`idle_muc_channel_send` comes to rest on the newline and keeps running. -/
theorem send_loop_action_stuck (header text : List Nat) (p : Nat)
    (hp : strchr 10 text = some p) (hlen : text.length < 18446744073709551616) :
    ∀ (fuel part : Nat) (priv : IdleMUCChannelPrivate), part ≤ p →
      send_loop TP_CHANNEL_TEXT_MESSAGE_TYPE_ACTION header text fuel part priv = none := by
  have hpl := strchr_lt_length 10 text p hp
  intro fuel
  induction fuel with
  | zero =>
    intro part priv hle
    simp only [send_loop]
    rw [if_pos (by omega)]
  | succ fuel ih =>
    intro part priv hle
    simp only [send_loop]
    rw [if_pos (by omega), strchr_drop 10 text p part hp hle]
    simp only [if_true]
    apply ih
    generalize gsize_sub IRC_MSG_MAXLEN header.length = len0
    unfold gsize_sub
    split_ifs <;> omega

/-! ### Helper lemmas: pending-message ids -/

theorem acknowledge_sublist : ∀ (ids : List Nat) (priv : IdleMUCChannelPrivate),
    (idle_muc_channel_acknowledge_pending_messages priv ids).1.pending_messages.Sublist
        priv.pending_messages
      ∧ (idle_muc_channel_acknowledge_pending_messages priv ids).1.recv_id = priv.recv_id
      ∧ (idle_muc_channel_acknowledge_pending_messages priv ids).1.trace = priv.trace := by
  intro ids
  induction ids with
  | nil => intro priv; exact ⟨List.Sublist.refl _, rfl, rfl⟩
  | cons id rest ih =>
    intro priv
    simp only [idle_muc_channel_acknowledge_pending_messages]
    cases hfind : g_queue_find_custom id priv.pending_messages with
    | none => exact ⟨List.Sublist.refl _, rfl, rfl⟩
    | some node =>
      simp only []
      obtain ⟨h1, h2, h3⟩ := ih
        { priv with pending_messages := g_queue_delete_link priv.pending_messages node }
      exact ⟨h1.trans (List.eraseIdx_sublist _ _), h2, h3⟩

theorem pending_inv_sublist (priv q : IdleMUCChannelPrivate) (n : Nat) (h : pending_inv priv n)
    (hsub : q.pending_messages.Sublist priv.pending_messages) (hrecv : q.recv_id = priv.recv_id)
    (htrace : q.trace = priv.trace) : pending_inv q n := by
  obtain ⟨h1, h2, h3, h4⟩ := h
  have hmap := hsub.map (fun m : IdleMUCPendingMessage => m.id)
  exact ⟨hrecv.trans h1, htrace ▸ h2, h3.sublist hmap, fun id hid => h4 id (hmap.subset hid)⟩

theorem pending_inv_apply (priv : IdleMUCChannelPrivate) (n : Nat) (call : PendingCall)
    (h : pending_inv priv n) (hn : n + count_receives [call] < 4294967296) :
    pending_inv (call.apply priv) (n + count_receives [call]) := by
  cases call with
  | receive type sender text timestamp =>
    obtain ⟨h1, h2, h3, h4⟩ := h
    have hc : count_receives [PendingCall.receive type sender text timestamp] = 1 := rfl
    rw [hc] at hn ⊢
    refine ⟨?_, ?_, ?_, ?_⟩
    · simp only [PendingCall.apply, _idle_muc_channel_receive, emit, h1]
      omega
    · simp only [PendingCall.apply, _idle_muc_channel_receive, emit, received_ids,
        List.filterMap_append, h1]
      simp only [received_ids] at h2
      rw [h2, List.range_succ]
      rfl
    · simp only [PendingCall.apply, _idle_muc_channel_receive, emit, List.map_append,
        List.map_cons, List.map_nil, h1]
      rw [List.pairwise_append]
      refine ⟨h3, List.pairwise_singleton _ _, ?_⟩
      intro a ha b hb
      rw [List.mem_singleton] at hb
      subst hb
      exact h4 a ha
    · intro id hid
      simp only [PendingCall.apply, _idle_muc_channel_receive, emit, List.map_append,
        List.map_cons, List.map_nil, List.mem_append, List.mem_singleton, h1] at hid
      rcases hid with hid | hid
      · have := h4 id hid
        omega
      · omega
  | acknowledge ids =>
    have hc : count_receives [PendingCall.acknowledge ids] = 0 := rfl
    rw [hc, Nat.add_zero]
    obtain ⟨s1, s2, s3⟩ := acknowledge_sublist ids priv
    exact pending_inv_sublist priv _ n h s1 s2 s3
  | list clear =>
    have hc : count_receives [PendingCall.list clear] = 0 := rfl
    rw [hc, Nat.add_zero]
    refine pending_inv_sublist priv _ n h ?_ rfl rfl
    simp only [PendingCall.apply, idle_muc_channel_list_pending_messages]
    cases clear
    · exact List.Sublist.refl _
    · exact List.nil_sublist _

theorem count_receives_cons (call : PendingCall) (calls : List PendingCall) :
    count_receives (call :: calls) = count_receives [call] + count_receives calls := by
  unfold count_receives
  cases call <;> simp [List.filter_cons]
  all_goals omega

theorem pending_inv_calls : ∀ (calls : List PendingCall) (priv : IdleMUCChannelPrivate)
    (n : Nat), pending_inv priv n → n + count_receives calls < 4294967296 →
    pending_inv (pending_calls priv calls) (n + count_receives calls) := by
  intro calls
  induction calls with
  | nil => intro priv n h _; simpa [pending_calls, count_receives] using h
  | cons call rest ih =>
    intro priv n h hn
    rw [count_receives_cons] at hn ⊢
    have h1 := pending_inv_apply priv n call h (by omega)
    have h2 := ih (call.apply priv) (n + count_receives [call]) h1 (by omega)
    rw [Nat.add_assoc] at h2
    exact h2

theorem pending_inv_init (handle : Nat) (channel_name : List Nat) (own_handle : Nat) :
    pending_inv (idle_muc_channel_init handle channel_name own_handle) 0 := by
  refine ⟨rfl, rfl, ?_, ?_⟩
  · simp [idle_muc_channel_init]
  · simp [idle_muc_channel_init]

/-! ### Helper lemmas: `set_tp_property_flags` as a whole -/

theorem flags_at_modify (properties : List TPProperty) (g : TPProperty → TPProperty)
    (id i : Nat) (hid : id < properties.length) :
    flags_at (properties.modify g id) i
      = if i = id then (g (properties.getD id ⟨.uint 0, 0⟩)).flags else flags_at properties i := by
  unfold flags_at
  simp only [List.getD_eq_getElem?_getD, List.getElem?_modify]
  by_cases h : i = id
  · subst h
    simp [List.getElem?_eq_getElem hid]
  · have h' : ¬ id = i := fun e => h e.symm
    simp only [h, h', if_false]
    cases properties[i]? <;> rfl

theorem set_tp_property_flags_loop_changed (add remove : Nat) :
    ∀ (ids : List Nat) (properties : List TPProperty), (∀ id ∈ ids, id < properties.length) →
      (∀ (id f : Nat), (id, f) ∈ (set_tp_property_flags_loop add remove ids properties).2
          ↔ id ∈ ids ∧ f = (flags_at properties id ||| add) &&& guint_not remove
              ∧ flags_at properties id ≠ f)
        ∧ ((set_tp_property_flags_loop add remove ids properties).2.map Prod.fst).Nodup := by
  intro ids
  induction ids with
  | nil =>
    intro properties _
    simp [set_tp_property_flags_loop]
  | cons id0 rest ih =>
    intro properties hlt
    have hid0 := hlt id0 (List.mem_cons_self _ _)
    unfold set_tp_property_flags_loop
    simp only []
    by_cases hch : (properties.getD id0 ⟨.uint 0, 0⟩).flags
        ≠ ((properties.getD id0 ⟨.uint 0, 0⟩).flags ||| add) &&& guint_not remove
    · rw [if_pos hch]
      simp only []
      have hlen : ∀ id ∈ rest, id < (properties.modify (fun p => { p with flags :=
          ((properties.getD id0 ⟨.uint 0, 0⟩).flags ||| add) &&& guint_not remove }) id0).length := by
        intro id hmem
        rw [List.length_modify]
        exact hlt id (List.mem_cons_of_mem _ hmem)
      obtain ⟨ihm, ihn⟩ := ih _ hlen
      have hfm : ∀ i, flags_at (properties.modify (fun p => { p with flags :=
          ((properties.getD id0 ⟨.uint 0, 0⟩).flags ||| add) &&& guint_not remove }) id0) i
          = if i = id0 then (flags_at properties id0 ||| add) &&& guint_not remove
            else flags_at properties i := by
        intro i
        rw [flags_at_modify _ _ _ _ hid0]
        rfl
      constructor
      · intro id f
        rw [List.mem_cons, ihm, hfm]
        constructor
        · rintro (h | ⟨hmem, hf, hne⟩)
          · simp only [Prod.mk.injEq] at h
            obtain ⟨rfl, rfl⟩ := h
            exact ⟨List.mem_cons_self _ _, rfl, hch⟩
          · by_cases hi : id = id0
            · subst hi
              simp only [if_true] at hf hne
              rw [flag_update_idem] at hf
              exact absurd hf.symm hne
            · simp only [if_neg hi] at hf hne
              exact ⟨List.mem_cons_of_mem _ hmem, hf, hne⟩
        · rintro ⟨hmem, hf, hne⟩
          by_cases hi : id = id0
          · subst hi
            left
            rw [hf]
            rfl
          · right
            simp only [if_neg hi]
            rcases List.mem_cons.mp hmem with h | h
            · exact absurd h hi
            · exact ⟨h, hf, hne⟩
      · rw [List.map_cons, List.nodup_cons]
        refine ⟨?_, ihn⟩
        intro hmem
        rw [List.mem_map] at hmem
        obtain ⟨⟨id, f⟩, hpair, hfst⟩ := hmem
        simp only at hfst
        subst hfst
        rw [ihm, hfm] at hpair
        obtain ⟨_, hf, hne⟩ := hpair
        simp only [if_true] at hf hne
        rw [flag_update_idem] at hf
        exact hne hf.symm
    · rw [if_neg hch]
      obtain ⟨ihm, ihn⟩ := ih properties (fun id hmem => hlt id (List.mem_cons_of_mem _ hmem))
      refine ⟨?_, ihn⟩
      intro id f
      rw [ihm]
      constructor
      · rintro ⟨hmem, hf, hne⟩
        exact ⟨List.mem_cons_of_mem _ hmem, hf, hne⟩
      · rintro ⟨hmem, hf, hne⟩
        rcases List.mem_cons.mp hmem with h | h
        · subst h
          exfalso
          apply hch
          intro hx
          apply hne
          rw [hf]
          exact hx
        · exact ⟨h, hf, hne⟩

theorem set_tp_property_flags_loop_fixed (add remove : Nat) :
    ∀ (ids : List Nat) (properties : List TPProperty),
      (∀ id ∈ ids, flags_at properties id
        = (flags_at properties id ||| add) &&& guint_not remove) →
      set_tp_property_flags_loop add remove ids properties = (properties, []) := by
  intro ids
  induction ids with
  | nil => intro properties _; rfl
  | cons id0 rest ih =>
    intro properties h
    unfold set_tp_property_flags_loop
    simp only []
    have h0 := h id0 (List.mem_cons_self _ _)
    unfold flags_at at h0
    rw [if_neg (not_not.mpr h0)]
    exact ih properties (fun id hmem => h id (List.mem_cons_of_mem _ hmem))

theorem set_tp_property_flags_eq (priv : IdleMUCChannelPrivate) (props : Option (List Nat))
    (add remove : Nat) :
    set_tp_property_flags priv props add remove
      = { priv with
          properties :=
            (set_tp_property_flags_loop add remove (targeted_ids props) priv.properties).1
          trace := (priv.trace
            ++ (if (set_tp_property_flags_loop add remove (targeted_ids props)
                  priv.properties).2 = [] then []
                else [.PROPERTY_FLAGS_CHANGED
                  (set_tp_property_flags_loop add remove (targeted_ids props)
                    priv.properties).2])) } := by
  cases props with
  | none =>
    unfold set_tp_property_flags targeted_ids
    simp only []
    generalize set_tp_property_flags_loop add remove (List.range LAST_TP_PROPERTY_ENUM)
      priv.properties = r
    obtain ⟨bag, changed⟩ := r
    cases changed <;> simp [emit]
  | some l =>
    unfold set_tp_property_flags targeted_ids
    simp only []
    generalize set_tp_property_flags_loop add remove l priv.properties = r
    obtain ⟨bag, changed⟩ := r
    cases changed <;> simp [emit]

theorem flags_at_of_getElem? (properties : List TPProperty) (i : Nat) (p : TPProperty)
    (h : properties[i]? = some p) : flags_at properties i = p.flags := by
  unfold flags_at
  simp [List.getD_eq_getElem?_getD, h]

theorem set_tp_property_flags_loop_flags_at (add remove : Nat) (ids : List Nat)
    (properties : List TPProperty) (i : Nat) (hi : i < properties.length) :
    flags_at (set_tp_property_flags_loop add remove ids properties).1 i
      = if i ∈ ids then (flags_at properties i ||| add) &&& guint_not remove
        else flags_at properties i := by
  have h := set_tp_property_flags_loop_getElem? add remove ids properties i
  rw [List.getElem?_eq_getElem hi] at h
  simp only [Option.map_some'] at h
  rw [flags_at_of_getElem? _ i _ h, flags_at_of_getElem? properties i _
    (List.getElem?_eq_getElem hi)]
  split_ifs <;> rfl

theorem set_tp_property_flags_loop_value_at (add remove : Nat) (ids : List Nat)
    (properties : List TPProperty) (i : Nat) :
    value_at (set_tp_property_flags_loop add remove ids properties).1 i
      = value_at properties i := by
  have h := set_tp_property_flags_loop_getElem? add remove ids properties i
  unfold value_at
  simp only [List.getD_eq_getElem?_getD, h]
  cases properties[i]? with
  | none => rfl
  | some p =>
    simp only [Option.map_some', Option.getD_some]
    split_ifs <;> rfl

theorem set_tp_property_flags_loop_length (add remove : Nat) (ids : List Nat)
    (properties : List TPProperty) :
    (set_tp_property_flags_loop add remove ids properties).1.length = properties.length := by
  have h : ∀ i : Nat, (set_tp_property_flags_loop add remove ids properties).1[i]? = none
      ↔ properties[i]? = none := by
    intro i
    rw [set_tp_property_flags_loop_getElem?]
    cases properties[i]? <;> simp
  apply Nat.le_antisymm
  · have h1 := (h properties.length).mpr (List.getElem?_eq_none (Nat.le_refl _))
    exact List.getElem?_eq_none_iff.mp h1
  · have h2 := (h (set_tp_property_flags_loop add remove ids properties).1.length).mp
      (List.getElem?_eq_none (Nat.le_refl _))
    exact List.getElem?_eq_none_iff.mp h2

/-! ### Helper lemmas: `change_tp_properties` as a whole -/

theorem g_value_compare_iff (v w : GValue) : g_value_compare v w = true ↔ v = w := by
  cases v with
  | boolean a =>
    cases w <;> simp [g_value_compare, GValue.type]
  | uint a =>
    cases w <;> simp [g_value_compare, GValue.type]
  | string a =>
    cases w with
    | boolean b => simp [g_value_compare, GValue.type]
    | uint b => simp [g_value_compare, GValue.type]
    | string b => cases a <;> cases b <;> simp [g_value_compare, GValue.type]

theorem value_at_modify (properties : List TPProperty) (g : TPProperty → TPProperty)
    (id i : Nat) (hid : id < properties.length) :
    value_at (properties.modify g id) i
      = if i = id then (g (properties.getD id ⟨.uint 0, 0⟩)).value else value_at properties i := by
  unfold value_at
  simp only [List.getD_eq_getElem?_getD, List.getElem?_modify]
  by_cases h : i = id
  · subst h
    simp [List.getElem?_eq_getElem hid]
  · have h' : ¬ id = i := fun e => h e.symm
    simp only [h, h', if_false]
    cases properties[i]? <;> rfl

theorem last_listed_nil (id : Nat) : last_listed [] id = none := rfl

theorem last_listed_cons (e : Nat × GValue) (entries : List (Nat × GValue)) (id : Nat) :
    last_listed (e :: entries) id
      = match last_listed entries id with
        | some v => some v
        | none => if e.1 = id then some e.2 else none := by
  unfold last_listed
  by_cases h : e.1 = id
  · simp only [List.filter_cons, h, decide_True, if_true]
    cases hf : entries.filter (fun e => decide (e.1 = id)) with
    | nil => simp
    | cons a l =>
      rw [List.getLast?_cons_cons]
      cases hl : (a :: l).getLast? with
      | none => simp at hl
      | some b => simp
  · have hd : decide (e.1 = id) = false := by simp [h]
    rw [List.filter_cons, hd]
    simp only [Bool.false_eq_true, if_false]
    cases ((entries.filter fun e => decide (e.1 = id)).getLast?) <;> simp [h]

theorem change_tp_properties_loop_spec : ∀ (props : List (Nat × GValue))
    (properties : List TPProperty), properties.length = LAST_TP_PROPERTY_ENUM →
    (∀ e ∈ props, e.1 < LAST_TP_PROPERTY_ENUM → e.2.type = (value_at properties e.1).type) →
    (change_tp_properties_loop props properties).2.1
        = changed_entries (value_at properties) props
      ∧ (change_tp_properties_loop props properties).2.2
        = (change_tp_properties_loop props properties).2.1.map Prod.fst
      ∧ (change_tp_properties_loop props properties).1.length = LAST_TP_PROPERTY_ENUM
      ∧ (∀ id : Nat, value_at (change_tp_properties_loop props properties).1 id
          = (last_listed (change_tp_properties_loop props properties).2.1 id).getD
              (value_at properties id))
      ∧ ((change_tp_properties_loop props properties).2.1 = [] →
          (change_tp_properties_loop props properties).1 = properties) := by
  intro props
  induction props with
  | nil =>
    intro properties hlen _
    exact ⟨rfl, rfl, hlen, fun id => rfl, fun _ => rfl⟩
  | cons e rest ih =>
    intro properties hlen htype
    obtain ⟨id0, v0⟩ := e
    have hrest : ∀ e ∈ rest, e.1 < LAST_TP_PROPERTY_ENUM →
        e.2.type = (value_at properties e.1).type :=
      fun e he => htype e (List.mem_cons_of_mem _ he)
    unfold change_tp_properties_loop
    by_cases h1 : id0 ≥ LAST_TP_PROPERTY_ENUM
    · rw [if_pos h1]
      obtain ⟨a1, a2, a3, a4, a5⟩ := ih properties hlen hrest
      refine ⟨?_, a2, a3, a4, a5⟩
      rw [a1]
      simp only [changed_entries, if_pos h1]
    · rw [if_neg h1]
      simp only []
      have hid0 : id0 < properties.length := by omega
      have ht0 := htype (id0, v0) (List.mem_cons_self _ _) (by omega)
      simp only at ht0
      have hcur : (properties.getD id0 ⟨.uint 0, 0⟩).value = value_at properties id0 := rfl
      by_cases h2 : g_value_compare v0 (properties.getD id0 ⟨.uint 0, 0⟩).value = true
      · rw [if_neg (not_not.mpr h2)]
        obtain ⟨a1, a2, a3, a4, a5⟩ := ih properties hlen hrest
        refine ⟨?_, a2, a3, a4, a5⟩
        rw [a1]
        have heq : v0 = value_at properties id0 := (g_value_compare_iff _ _).mp h2
        simp only [changed_entries, if_neg h1]
        rw [if_neg (not_not.mpr heq)]
      · rw [if_pos h2]
        simp only []
        have hne : v0 ≠ value_at properties id0 := fun h => h2 ((g_value_compare_iff _ _).mpr h)
        have hcopy : g_value_copy v0 (properties.getD id0 ⟨.uint 0, 0⟩).value = v0 := by
          unfold g_value_copy
          rw [hcur, if_pos ht0]
        have hval : value_at (properties.modify (fun p => { p with value :=
            (g_value_copy v0 (properties.getD id0 ⟨.uint 0, 0⟩).value) }) id0)
            = Function.update (value_at properties) id0 v0 := by
          funext i
          rw [value_at_modify _ _ _ _ hid0]
          by_cases hi : i = id0
          · subst hi
            rw [if_pos rfl, Function.update_same]
            exact hcopy
          · rw [if_neg hi, Function.update_noteq hi]
        have hlen' : (properties.modify (fun p => { p with value :=
            (g_value_copy v0 (properties.getD id0 ⟨.uint 0, 0⟩).value) }) id0).length
            = LAST_TP_PROPERTY_ENUM := by
          rw [List.length_modify]; exact hlen
        have htype' : ∀ e ∈ rest, e.1 < LAST_TP_PROPERTY_ENUM →
            e.2.type = (value_at (properties.modify (fun p => { p with value :=
              (g_value_copy v0 (properties.getD id0 ⟨.uint 0, 0⟩).value) }) id0) e.1).type := by
          intro e he hlt
          rw [hval]
          by_cases hi : e.1 = id0
          · have h3 := hrest e he hlt
            rw [hi] at h3 ⊢
            rw [Function.update_same, h3, ht0]
          · rw [Function.update_noteq hi]
            exact hrest e he hlt
        obtain ⟨a1, a2, a3, a4, a5⟩ := ih _ hlen' htype'
        refine ⟨?_, ?_, a3, ?_, ?_⟩
        · rw [a1, hval]
          simp only [changed_entries, if_neg h1]
          rw [if_pos hne]
        · rw [a2]
          rfl
        · intro id
          rw [a4, last_listed_cons, hval]
          cases last_listed (change_tp_properties_loop rest (properties.modify (fun p =>
              { p with value := (g_value_copy v0 (properties.getD id0 ⟨.uint 0, 0⟩).value) })
              id0)).2.1 id with
          | some v => rfl
          | none =>
            by_cases hi : id0 = id
            · subst hi
              simp
            · have hi' : id ≠ id0 := fun h => hi h.symm
              simp [hi, Function.update_noteq hi']
        · intro h
          exact absurd h (by simp)

theorem changed_entries_lt : ∀ (props : List (Nat × GValue))
    (stored : Nat → GValue), ∀ e ∈ changed_entries stored props, e.1 < LAST_TP_PROPERTY_ENUM := by
  intro props
  induction props with
  | nil => intro stored e he; simp [changed_entries] at he
  | cons a rest ih =>
    intro stored e he
    obtain ⟨id0, v0⟩ := a
    simp only [changed_entries] at he
    split_ifs at he with h1 h2
    · exact ih stored e he
    · rcases List.mem_cons.mp he with h | h
      · rw [h]; simp only; omega
      · exact ih _ e h
    · exact ih stored e he

theorem read_bit_set (x : Nat) :
    ((x ||| TP_PROPERTY_FLAG_READ) &&& guint_not 0) &&& TP_PROPERTY_FLAG_READ ≠ 0 := by
  have h := Nat.and_two_pow ((x ||| TP_PROPERTY_FLAG_READ) &&& guint_not 0) 0
  simp only [pow_zero] at h
  have h1 : TP_PROPERTY_FLAG_READ = 1 := rfl
  rw [h1] at h ⊢
  rw [h, Nat.testBit_and, Nat.testBit_or, guint_not_testBit _ _ (by decide)]
  have h11 : Nat.testBit 1 0 = true := by decide
  simp [h11]

theorem change_tp_properties_loop_ids : ∀ (props : List (Nat × GValue))
    (properties : List TPProperty),
    (change_tp_properties_loop props properties).2.2
      = (change_tp_properties_loop props properties).2.1.map Prod.fst := by
  intro props
  induction props with
  | nil => intro properties; rfl
  | cons e rest ih =>
    intro properties
    obtain ⟨id0, v0⟩ := e
    unfold change_tp_properties_loop
    by_cases h1 : id0 ≥ LAST_TP_PROPERTY_ENUM
    · rw [if_pos h1]
      exact ih properties
    · rw [if_neg h1]
      simp only []
      by_cases h2 : ¬ g_value_compare v0 (properties.getD id0 ⟨.uint 0, 0⟩).value = true
      · rw [if_pos h2]
        simp only [List.map_cons]
        rw [ih]
      · rw [if_neg h2]
        exact ih properties

theorem change_tp_properties_eq (priv : IdleMUCChannelPrivate) (props : List (Nat × GValue)) :
    change_tp_properties priv props
      = { priv with
          properties :=
            (set_tp_property_flags_loop TP_PROPERTY_FLAG_READ 0
              (change_tp_properties_loop props priv.properties).2.2
              (change_tp_properties_loop props priv.properties).1).1
          trace := (priv.trace
            ++ (if (change_tp_properties_loop props priv.properties).2.1 = [] then []
                else [.PROPERTIES_CHANGED (change_tp_properties_loop props priv.properties).2.1])
            ++ (if (set_tp_property_flags_loop TP_PROPERTY_FLAG_READ 0
                    (change_tp_properties_loop props priv.properties).2.2
                    (change_tp_properties_loop props priv.properties).1).2 = [] then []
                else [.PROPERTY_FLAGS_CHANGED
                  (set_tp_property_flags_loop TP_PROPERTY_FLAG_READ 0
                    (change_tp_properties_loop props priv.properties).2.2
                    (change_tp_properties_loop props priv.properties).1).2])) } := by
  have hids := change_tp_properties_loop_ids props priv.properties
  unfold change_tp_properties
  simp only []
  generalize change_tp_properties_loop props priv.properties = r at hids ⊢
  obtain ⟨bag, changed, ids⟩ := r
  simp only at hids ⊢
  subst hids
  cases changed with
  | nil => simp [set_tp_property_flags_loop]
  | cons a l =>
    simp only [List.map_cons, List.length_cons, gt_iff_lt, Nat.zero_lt_succ, if_true]
    rw [set_tp_property_flags_eq]
    simp [emit, targeted_ids]

/-! ### Helper lemmas: gaining a privilege -/

theorem and_pow_ne_zero_of_testBit (x k : Nat) (h : x.testBit k = true) : x &&& 2 ^ k ≠ 0 := by
  rw [Nat.and_two_pow, h]
  simp

theorem change_group_flags_group_flags (priv : IdleMUCChannelPrivate) (add remove : Nat) :
    (change_group_flags priv add remove).group_flags
      = (priv.group_flags ||| add) &&& guint_not remove := by
  unfold change_group_flags
  simp only []
  split_ifs <;> rfl

/-- The privilege bits of the new mode flags when one of them is gained. -/
theorem gained_privilege_kept (flags add remove : Nat)
    (hgain : (add &&& guint_not flags) &&& MODE_FLAGS_OP_OR_HALFOP ≠ 0) :
    ((add &&& guint_not flags) ||| ((remove &&& guint_not add) &&& flags))
        &&& MODE_FLAGS_OP_OR_HALFOP ≠ 0
      ∧ ((flags ||| (add &&& guint_not flags))
          &&& guint_not ((remove &&& guint_not add) &&& flags)) &&& MODE_FLAGS_OP_OR_HALFOP ≠ 0 := by
  have f1 := guint_not_testBit ((remove &&& guint_not add) &&& flags) 1 (by decide)
  have f14 := guint_not_testBit ((remove &&& guint_not add) &&& flags) 14 (by decide)
  have g1 := guint_not_testBit flags 1 (by decide)
  have g14 := guint_not_testBit flags 14 (by decide)
  have n1 := guint_not_testBit add 1 (by decide)
  have n14 := guint_not_testBit add 14 (by decide)
  rw [ne_eq, and_op_or_halfop_eq_zero_iff] at hgain ⊢
  rw [ne_eq, and_op_or_halfop_eq_zero_iff]
  simp only [Nat.testBit_and, Nat.testBit_or, f1, f14, g1, g14, n1, n14] at hgain ⊢
  revert hgain
  cases flags.testBit 1 <;> cases flags.testBit 14 <;>
    cases add.testBit 1 <;> cases add.testBit 14 <;>
    cases remove.testBit 1 <;> cases remove.testBit 14 <;> simp

theorem change_mode_state_gain_group_flags (priv : IdleMUCChannelPrivate) (add remove : Nat)
    (hgain : (add &&& guint_not priv.mode_state.flags) &&& MODE_FLAGS_OP_OR_HALFOP ≠ 0) :
    ∃ group_add : Nat,
      (change_mode_state priv add remove).group_flags
        = (priv.group_flags
            ||| (group_add ||| (TP_CHANNEL_GROUP_FLAG_CAN_ADD ||| TP_CHANNEL_GROUP_FLAG_CAN_REMOVE
              ||| TP_CHANNEL_GROUP_FLAG_MESSAGE_REMOVE))) &&& guint_not 0 := by
  obtain ⟨hcomb, hnew⟩ := gained_privilege_kept priv.mode_state.flags add remove hgain
  unfold change_mode_state
  simp only []
  rw [change_tp_properties_eq]
  simp only []
  rw [change_group_flags_group_flags]
  unfold change_mode_state_privilege
  rw [if_pos hcomb, if_pos hgain]
  simp only []
  rw [set_tp_property_flags_eq]
  simp only []
  rw [if_neg hnew]
  simp only [ite_self]
  exact ⟨_, rfl⟩

theorem contains_group_flags (x group_add : Nat) :
    ((x ||| (group_add ||| (TP_CHANNEL_GROUP_FLAG_CAN_ADD ||| TP_CHANNEL_GROUP_FLAG_CAN_REMOVE
          ||| TP_CHANNEL_GROUP_FLAG_MESSAGE_REMOVE))) &&& guint_not 0)
        &&& TP_CHANNEL_GROUP_FLAG_CAN_ADD ≠ 0
      ∧ ((x ||| (group_add ||| (TP_CHANNEL_GROUP_FLAG_CAN_ADD ||| TP_CHANNEL_GROUP_FLAG_CAN_REMOVE
          ||| TP_CHANNEL_GROUP_FLAG_MESSAGE_REMOVE))) &&& guint_not 0)
        &&& TP_CHANNEL_GROUP_FLAG_CAN_REMOVE ≠ 0
      ∧ ((x ||| (group_add ||| (TP_CHANNEL_GROUP_FLAG_CAN_ADD ||| TP_CHANNEL_GROUP_FLAG_CAN_REMOVE
          ||| TP_CHANNEL_GROUP_FLAG_MESSAGE_REMOVE))) &&& guint_not 0)
        &&& TP_CHANNEL_GROUP_FLAG_MESSAGE_REMOVE ≠ 0 := by
  have e : TP_CHANNEL_GROUP_FLAG_CAN_ADD ||| TP_CHANNEL_GROUP_FLAG_CAN_REMOVE
      ||| TP_CHANNEL_GROUP_FLAG_MESSAGE_REMOVE = 19 := by decide
  have b0 : Nat.testBit 19 0 = true := by decide
  have b1 : Nat.testBit 19 1 = true := by decide
  have b4 : Nat.testBit 19 4 = true := by decide
  have e0 : TP_CHANNEL_GROUP_FLAG_CAN_ADD = 2 ^ 0 := by decide
  have e1 : TP_CHANNEL_GROUP_FLAG_CAN_REMOVE = 2 ^ 1 := by decide
  have e4 : TP_CHANNEL_GROUP_FLAG_MESSAGE_REMOVE = 2 ^ 4 := by decide
  rw [e]
  refine ⟨?_, ?_, ?_⟩
  · rw [e0]
    apply and_pow_ne_zero_of_testBit
    rw [Nat.testBit_and, Nat.testBit_or, Nat.testBit_or, guint_not_testBit _ _ (by decide), b0]
    simp
  · rw [e1]
    apply and_pow_ne_zero_of_testBit
    rw [Nat.testBit_and, Nat.testBit_or, Nat.testBit_or, guint_not_testBit _ _ (by decide), b1]
    simp
  · rw [e4]
    apply and_pow_ne_zero_of_testBit
    rw [Nat.testBit_and, Nat.testBit_or, Nat.testBit_or, guint_not_testBit _ _ (by decide), b4]
    simp

theorem and_write_eq (x : Nat) : x &&& TP_PROPERTY_FLAG_WRITE = (x.testBit 1).toNat * 2 := by
  have h := Nat.and_two_pow x 1
  simpa [TP_PROPERTY_FLAG_WRITE] using h

/-- The WRITE flags after a call of `change_mode_state` that gains a privilege. -/
theorem change_mode_state_gain_write (priv : IdleMUCChannelPrivate) (add remove : Nat)
    (hlen : priv.properties.length = LAST_TP_PROPERTY_ENUM)
    (hgain : (add &&& guint_not priv.mode_state.flags) &&& MODE_FLAGS_OP_OR_HALFOP ≠ 0)
    (i : Nat) (hi : i < LAST_TP_PROPERTY_ENUM) :
    flags_at (change_mode_state priv add remove).properties i &&& TP_PROPERTY_FLAG_WRITE
      = if i < 8 then TP_PROPERTY_FLAG_WRITE
        else flags_at priv.properties i &&& TP_PROPERTY_FLAG_WRITE := by
  have hres := (change_mode_state_result priv add remove i).2
  rw [if_pos hgain, (set_tp_property_flags_properties _ _ _ _).1,
    set_tp_property_flags_loop_getElem?] at hres
  have hp : priv.properties[i]? = some (priv.properties.getD i ⟨.uint 0, 0⟩) := by
    rw [List.getD_eq_getElem?_getD, List.getElem?_eq_getElem (by omega)]
    rfl
  rw [hp] at hres
  simp only [Option.map_some'] at hres
  cases hq : (change_mode_state priv add remove).properties[i]? with
  | none => rw [hq] at hres; simp at hres
  | some q =>
    rw [hq] at hres
    simp only [Option.map_some', Option.some.injEq] at hres
    rw [flags_at_of_getElem? _ i q hq, and_write_eq, hres]
    by_cases h8 : i < 8
    · rw [if_pos (helper_mem_of_lt i h8), if_pos h8]
      simp only []
      rw [Nat.testBit_and, Nat.testBit_or, guint_not_testBit _ _ (by decide)]
      have h21 : Nat.testBit TP_PROPERTY_FLAG_WRITE 1 = true := by decide
      rw [h21]
      simp [TP_PROPERTY_FLAG_WRITE]
    · have hnot : i ∉ change_mode_state_flags_helper := fun hmem => h8 (helper_mem_lt i hmem)
      rw [if_neg hnot, if_neg h8, and_write_eq]
      rfl

/-! ### Helper lemmas: privilege letters in an inbound mode string -/

theorem split_at_spaces_token : ∀ (token : List Nat), 32 ∉ token →
    split_at_spaces token = [token] := by
  intro token
  induction token with
  | nil => intro _; rfl
  | cons c rest ih =>
    intro h
    have hc : c ≠ 32 := fun e => h (by simp [e])
    have hrest : 32 ∉ rest := fun hm => h (List.mem_cons_of_mem _ hm)
    simp only [split_at_spaces, if_neg hc, ih hrest]

theorem g_strsplit_set_sign_letter (sign letter : Nat) (nick : List Nat)
    (hsign : sign ≠ 32) (hletter : letter ≠ 32) (hnick : 32 ∉ nick) :
    g_strsplit_set (sign :: letter :: 32 :: nick) = [[sign, letter], nick] := by
  unfold g_strsplit_set
  rw [if_neg (by simp)]
  simp only [split_at_spaces, if_neg hsign, if_neg hletter, if_true,
    split_at_spaces_token nick hnick]

theorem change_mode_state_nothing (priv : IdleMUCChannelPrivate)
    (hflags : priv.mode_state.flags < 4294967296) (hgroup : priv.group_flags < 4294967296) :
    change_mode_state priv 0 0 = priv := by
  have h1 : priv.group_flags &&& guint_not 0 = priv.group_flags :=
    and_guint_not_of_disjoint _ 0 hgroup (by simp)
  have h2 : priv.mode_state.flags &&& guint_not 0 = priv.mode_state.flags :=
    and_guint_not_of_disjoint _ 0 hflags (by simp)
  simp [change_mode_state, change_mode_state_privilege, change_group_flags,
    change_tp_properties, change_tp_properties_loop, mode_flag_bits, mode_flag_props, h1, h2]

theorem add_flags_result (flags add : Nat) (hflags : flags < 4294967296)
    (hadd : add < 4294967296) :
    (flags ||| (add &&& guint_not flags)) &&& guint_not ((0 &&& guint_not add) &&& flags)
      = flags ||| add := by
  apply Nat.eq_of_testBit_eq
  intro i
  simp only [Nat.testBit_and, Nat.testBit_or, guint_not_testBit_general, Nat.zero_testBit]
  by_cases hi : i < 32
  · simp only [hi, decide_True]
    cases flags.testBit i <;> cases add.testBit i <;> rfl
  · rw [testBit_of_lt_guint flags i hflags (by omega), testBit_of_lt_guint add i hadd (by omega)]
    simp

theorem remove_flags_result (flags remove : Nat) (hflags : flags < 4294967296) :
    (flags ||| (0 &&& guint_not flags)) &&& guint_not ((remove &&& guint_not 0) &&& flags)
      = flags &&& guint_not remove := by
  apply Nat.eq_of_testBit_eq
  intro i
  simp only [Nat.testBit_and, Nat.testBit_or, guint_not_testBit_general, Nat.zero_testBit]
  by_cases hi : i < 32
  · simp only [hi, decide_True]
    cases flags.testBit i <;> cases remove.testBit i <;> rfl
  · rw [testBit_of_lt_guint flags i hflags (by omega)]
    simp

theorem mode_letter_privilege_facts (letter : Nat) :
    mode_letter_privilege letter < 4294967296
      ∧ mode_letter_privilege letter &&& MODE_FLAG_KEY = 0
      ∧ mode_letter_privilege letter &&& MODE_FLAG_USER_LIMIT = 0 := by
  unfold mode_letter_privilege
  split_ifs <;> decide

/-- An inbound mode string made of a sign, one of the letters `o`, `h`, `v` and
a nick. -/
theorem mode_privilege_letter (handles : IdleHandleStorage) (priv : IdleMUCChannelPrivate)
    (sign letter : Nat) (nick own_nick : List Nat)
    (hsign : sign = 43 ∨ sign = 45) (hletter : letter = 111 ∨ letter = 104 ∨ letter = 118)
    (hnick : 32 ∉ nick)
    (hown : handles.idle_handle_inspect_contact priv.own_handle = some own_nick) :
    _idle_muc_channel_mode handles priv (sign :: letter :: 32 :: nick)
      = some (
          if sign = 43 then
            change_mode_state
              (set_tp_property_flags priv (some mode_flags_helper) TP_PROPERTY_FLAG_READ 0)
              (if g_strncasecmp own_nick nick 4294967295 = 0 then mode_letter_privilege letter
               else 0) 0
          else
            change_mode_state
              (set_tp_property_flags priv (some mode_flags_helper) TP_PROPERTY_FLAG_READ 0)
              0 (if g_strncasecmp own_nick nick 4294967295 = 0 then mode_letter_privilege letter
               else 0)) := by
  have hs32 : sign ≠ 32 := by rcases hsign with h | h <;> omega
  have hl32 : letter ≠ 32 := by rcases hletter with h | h | h <;> omega
  obtain ⟨_, hk, hl⟩ := mode_letter_privilege_facts letter
  unfold _idle_muc_channel_mode
  rw [g_strsplit_set_sign_letter sign letter nick hs32 hl32 hnick, hown]
  have hread : mode_argv_read [[sign, letter], nick] 1 = some (some nick) := rfl
  have hletters : mode_letters (some own_nick) [[sign, letter], nick] ([sign, letter].drop 1)
      1 0 0 none
      = some (if g_strncasecmp own_nick nick 4294967295 = 0 then mode_letter_privilege letter
          else 0, 0, none) := by
    simp only [List.drop_succ_cons, List.drop_zero, mode_letters, if_pos hletter, hread]
    split_ifs <;> simp
  simp only [hletters]
  by_cases hcmp : g_strncasecmp own_nick nick 4294967295 = 0
  · simp only [if_pos hcmp, hk, hl, ne_eq, not_true_eq_false, if_false]
    rcases hsign with h | h
    · simp [h]
    · simp [h]
  · simp only [if_neg hcmp]
    rcases hsign with h | h
    · simp [h, MODE_FLAG_KEY, MODE_FLAG_USER_LIMIT]
    · simp [h, MODE_FLAG_KEY, MODE_FLAG_USER_LIMIT]

/-! ### Helper lemmas: inbound modes and names on the mode flags -/

theorem change_sets_mode_state (priv : IdleMUCChannelPrivate)
    (add_current remove_current add_local remove_local add_remote remove_remote :
      Option (Finset Nat)) (actor reason : Nat) :
    (change_sets priv add_current remove_current add_local remove_local add_remote
      remove_remote actor reason).mode_state = priv.mode_state := by
  unfold change_sets
  simp only []
  split_ifs <;> rfl

/-- A call of `change_mode_state` that adds only flags already set changes nothing. -/
theorem change_mode_state_present (priv : IdleMUCChannelPrivate) (add : Nat)
    (hadd : add &&& guint_not priv.mode_state.flags = 0)
    (hflags : priv.mode_state.flags < 4294967296) (hgroup : priv.group_flags < 4294967296) :
    change_mode_state priv add 0 = priv := by
  have h : change_mode_state priv add 0 = change_mode_state priv 0 0 := by
    unfold change_mode_state
    simp only [hadd, Nat.zero_and]
  rw [h]
  exact change_mode_state_nothing priv hflags hgroup

theorem two_pow_and_guint_not (flags k : Nat) (hk : k < 32) (h : flags.testBit k = true) :
    2 ^ k &&& guint_not flags = 0 := by
  apply Nat.eq_of_testBit_eq
  intro i
  rw [Nat.testBit_and, Nat.testBit_two_pow, Nat.zero_testBit]
  by_cases hik : k = i
  · subst hik
    rw [guint_not_testBit _ _ hk, h]
    simp
  · simp [hik]

theorem testBit_of_and_pow_ne_zero (x k : Nat) (h : x &&& 2 ^ k ≠ 0) : x.testBit k = true := by
  rw [Nat.and_two_pow] at h
  cases hb : x.testBit k with
  | true => rfl
  | false => rw [hb] at h; simp at h

/-- The mode string `+l <arg>` split into its two tokens. -/
theorem mode_limit_letters (own_nick : Option (List Nat)) (arg : List Nat) (n : Int)
    (hatoi : atoi arg = some n) :
    mode_letters own_nick [[43, 108], arg] [108] 1 0 0 none
      = some (MODE_FLAG_USER_LIMIT, to_guint n, none) := by
  have hread : mode_argv_read [[43, 108], arg] 1 = some (some arg) := rfl
  simp [mode_letters, hread, hatoi]

/-! ### Helper lemmas: `change_tp_properties` on the properties it does not list -/

theorem change_tp_properties_loop_value_other (i : Nat) : ∀ (props : List (Nat × GValue))
    (properties : List TPProperty), (∀ e ∈ props, e.1 ≠ i) →
    value_at (change_tp_properties_loop props properties).1 i = value_at properties i := by
  intro props
  induction props with
  | nil => intro properties _; rfl
  | cons e rest ih =>
    intro properties h
    obtain ⟨prop_id, new_val⟩ := e
    have hne : prop_id ≠ i := h (prop_id, new_val) (List.mem_cons_self _ _)
    have hrest : ∀ e ∈ rest, e.1 ≠ i := fun e he => h e (List.mem_cons_of_mem _ he)
    unfold change_tp_properties_loop
    by_cases h1 : prop_id ≥ LAST_TP_PROPERTY_ENUM
    · rw [if_pos h1]
      exact ih properties hrest
    · rw [if_neg h1]
      simp only []
      by_cases h2 : ¬ g_value_compare new_val (properties.getD prop_id ⟨.uint 0, 0⟩).value = true
      · rw [if_pos h2]
        simp only []
        rw [ih _ hrest]
        unfold value_at
        rw [List.getD_eq_getElem?_getD, List.getD_eq_getElem?_getD, List.getElem?_modify]
        simp only [if_neg hne, List.getD_eq_getElem?_getD]
        cases properties[i]? <;> rfl
      · rw [if_neg h2]
        exact ih properties hrest

theorem change_tp_properties_loop_ids_subset : ∀ (props : List (Nat × GValue))
    (properties : List TPProperty) (id : Nat),
    id ∈ (change_tp_properties_loop props properties).2.2 → ∃ e ∈ props, e.1 = id := by
  intro props
  induction props with
  | nil => intro properties id h; simp [change_tp_properties_loop] at h
  | cons e rest ih =>
    intro properties id h
    obtain ⟨prop_id, new_val⟩ := e
    unfold change_tp_properties_loop at h
    by_cases h1 : prop_id ≥ LAST_TP_PROPERTY_ENUM
    · rw [if_pos h1] at h
      obtain ⟨e, he, hid⟩ := ih properties id h
      exact ⟨e, List.mem_cons_of_mem _ he, hid⟩
    · rw [if_neg h1] at h
      simp only [] at h
      by_cases h2 : ¬ g_value_compare new_val (properties.getD prop_id ⟨.uint 0, 0⟩).value = true
      · rw [if_pos h2] at h
        simp only [List.mem_cons] at h
        rcases h with h | h
        · exact ⟨(prop_id, new_val), List.mem_cons_self _ _, h.symm⟩
        · obtain ⟨e, he, hid⟩ := ih _ id h
          exact ⟨e, List.mem_cons_of_mem _ he, hid⟩
      · rw [if_neg h2] at h
        obtain ⟨e, he, hid⟩ := ih properties id h
        exact ⟨e, List.mem_cons_of_mem _ he, hid⟩

theorem change_tp_properties_loop_length : ∀ (props : List (Nat × GValue))
    (properties : List TPProperty),
    (change_tp_properties_loop props properties).1.length = properties.length := by
  intro props
  induction props with
  | nil => intro properties; rfl
  | cons e rest ih =>
    intro properties
    obtain ⟨prop_id, new_val⟩ := e
    unfold change_tp_properties_loop
    by_cases h1 : prop_id ≥ LAST_TP_PROPERTY_ENUM
    · rw [if_pos h1]
      exact ih properties
    · rw [if_neg h1]
      simp only []
      by_cases h2 : ¬ g_value_compare new_val (properties.getD prop_id ⟨.uint 0, 0⟩).value = true
      · rw [if_pos h2]
        simp only []
        rw [ih, List.length_modify]
      · rw [if_neg h2]
        exact ih properties

/-- A property that a change list does not name keeps its value and its flags. -/
theorem change_tp_properties_other (priv : IdleMUCChannelPrivate) (props : List (Nat × GValue))
    (i : Nat) (hi : i < priv.properties.length) (hother : ∀ e ∈ props, e.1 ≠ i) :
    value_at (change_tp_properties priv props).properties i = value_at priv.properties i
      ∧ flags_at (change_tp_properties priv props).properties i = flags_at priv.properties i := by
  rw [change_tp_properties_eq]
  simp only []
  constructor
  · rw [set_tp_property_flags_loop_value_at]
    exact change_tp_properties_loop_value_other i props priv.properties hother
  · rw [set_tp_property_flags_loop_flags_at _ _ _ _ _
      (by rw [change_tp_properties_loop_length]; exact hi)]
    have hnot : i ∉ (change_tp_properties_loop props priv.properties).2.2 := by
      intro hmem
      obtain ⟨e, he, hid⟩ := change_tp_properties_loop_ids_subset props priv.properties i hmem
      exact hother e he hid
    rw [if_neg hnot]
    have hf := change_tp_properties_loop_flags props priv.properties
    have hg := flags_of_getElem? hf i
    unfold flags_at
    rw [List.getD_eq_getElem?_getD, List.getD_eq_getElem?_getD]
    cases h1 : (change_tp_properties_loop props priv.properties).1[i]? with
    | none =>
      rw [h1] at hg
      cases h2 : priv.properties[i]? with
      | none => rfl
      | some q => rw [h2] at hg; simp at hg
    | some p =>
      rw [h1] at hg
      cases h2 : priv.properties[i]? with
      | none => rw [h2] at hg; simp at hg
      | some q =>
        rw [h2] at hg
        simpa using hg

/-! ### Helper lemmas: `send_properties_request` on a data property and its boolean -/

theorem printf_u_length (n : Nat) (h : n < 4294967296) : (printf_u n).length ≤ 10 := by
  unfold printf_u ascii
  rw [List.length_map]
  exact Nat.repr_length n 10 (by decide) (by omega)

theorem mode_cmd_eq (channel_name : List Nat) (h : channel_name.length ≤ 200) :
    g_snprintf (IRC_MSG_MAXLEN + 2) (ascii "MODE " ++ channel_name ++ ascii " ")
      = ascii "MODE " ++ channel_name ++ ascii " " := by
  unfold g_snprintf
  apply List.take_of_length_le
  have h1 : (ascii "MODE ").length = 5 := by decide
  have h2 : (ascii " ").length = 1 := by decide
  rw [List.length_append, List.length_append, h1, h2]
  simp only [IRC_MSG_MAXLEN]
  omega

/-- Writing a short text behind the header `MODE <chan> `. -/
theorem body_write_short (channel_name body formatted : List Nat)
    (hname : channel_name.length ≤ 200) (hshort : formatted.length ≤ 210) :
    body_write (ascii "MODE " ++ channel_name ++ ascii " ").length body formatted
      = some formatted := by
  have h1 : (ascii "MODE ").length = 5 := by decide
  have h2 : (ascii " ").length = 1 := by decide
  have hlen : (ascii "MODE " ++ channel_name ++ ascii " ").length = channel_name.length + 6 := by
    rw [List.length_append, List.length_append, h1, h2]; omega
  have hsub : gsize_sub IRC_MSG_MAXLEN (channel_name.length + 6) = 504 - channel_name.length := by
    unfold gsize_sub IRC_MSG_MAXLEN
    omega
  have htake : g_snprintf (504 - channel_name.length) formatted = formatted := by
    unfold g_snprintf
    apply List.take_of_length_le
    omega
  unfold body_write
  rw [hlen, hsub, htake]
  rw [if_neg (by omega), if_pos (by simp only [IRC_MSG_MAXLEN]; omega)]

/-- The second loop of `send_properties_request` on the array `limit`, `limited
= true`: the round of `limit` sends the command with nothing behind the header,
the round of `limited` sends `+l <N>`. -/
theorem send_properties_waiting_loop_limit_pair (priv : IdleMUCChannelPrivate) (n : Nat)
    (hlen : priv.properties.length = LAST_TP_PROPERTY_ENUM)
    (htype : (value_at priv.properties TP_PROPERTY_LIMIT).type = .G_TYPE_UINT)
    (hn : n ≠ 0) (hguint : n < 4294967296) (hname : priv.channel_name.length ≤ 200) :
    send_properties_waiting_loop (ascii "MODE " ++ priv.channel_name ++ ascii " ")
        [(TP_PROPERTY_LIMIT, .uint n), (TP_PROPERTY_LIMITED, .boolean true)]
        [(TP_PROPERTY_LIMIT, .uint n), (TP_PROPERTY_LIMITED, .boolean true)] priv []
      = some { priv with
          properties :=
            (priv.properties.modify (fun p => { p with value := .uint n }) TP_PROPERTY_LIMIT)
          trace := (priv.trace ++
            [.connection_send (ascii "MODE " ++ priv.channel_name ++ ascii " "),
             .connection_send (ascii "MODE " ++ priv.channel_name ++ ascii " " ++ ascii "+l "
               ++ printf_u n)]) } := by
  have hcopy : ∀ p : TPProperty, p ∈ priv.properties[TP_PROPERTY_LIMIT]? →
      g_value_copy (.uint n) p.value = .uint n := by
    intro p hp
    have : p = priv.properties.getD TP_PROPERTY_LIMIT ⟨.uint 0, 0⟩ := by
      rw [List.getD_eq_getElem?_getD]
      rw [Option.mem_def] at hp
      rw [hp]; rfl
    have ht : p.value.type = .G_TYPE_UINT := by rw [this]; exact htype
    unfold g_value_copy
    rw [if_pos (by rw [ht]; rfl)]
  have hmod : priv.properties.modify
      (fun p => { p with value := g_value_copy (.uint n) p.value }) TP_PROPERTY_LIMIT
      = priv.properties.modify (fun p => { p with value := .uint n }) TP_PROPERTY_LIMIT := by
    apply List.ext_getElem?
    intro i
    rw [List.getElem?_modify, List.getElem?_modify]
    by_cases hi : TP_PROPERTY_LIMIT = i
    · subst hi
      cases hp : priv.properties[TP_PROPERTY_LIMIT]? with
      | none => rfl
      | some p =>
        simp only [if_true, Option.map_eq_map, Option.map_some']
        rw [hcopy p (by rw [Option.mem_def]; exact hp)]
    · simp only [if_neg hi]
  have hget : ((priv.properties.modify (fun p => { p with value := .uint n })
      TP_PROPERTY_LIMIT).getD TP_PROPERTY_LIMIT ⟨.uint 0, 0⟩).value = .uint n := by
    rw [List.getD_eq_getElem?_getD, List.getElem?_modify]
    have h1 : TP_PROPERTY_LIMIT < priv.properties.length := by rw [hlen]; decide
    rw [List.getElem?_eq_getElem h1]
    simp
  have we1 : waiting_entry [(TP_PROPERTY_LIMIT, .uint n), (TP_PROPERTY_LIMITED, .boolean true)]
      priv TP_PROPERTY_LIMIT (.uint n)
      = ({ priv with properties :=
            (priv.properties.modify (fun p => { p with value := .uint n }) TP_PROPERTY_LIMIT) },
          none) := by
    unfold waiting_entry
    rw [if_pos (Or.inl rfl)]
    simp only [hmod]
    have hfind : prop_arr_find
        [(TP_PROPERTY_LIMIT, GValue.uint n), (TP_PROPERTY_LIMITED, GValue.boolean true)]
        (TP_PROPERTY_LIMIT + 1) = some 1 := by
      simp [prop_arr_find, TP_PROPERTY_LIMIT, TP_PROPERTY_LIMITED]
    rw [hfind]
  have we2 : ∀ q : IdleMUCChannelPrivate,
      q.properties = priv.properties.modify (fun p => { p with value := .uint n })
        TP_PROPERTY_LIMIT →
      waiting_entry [(TP_PROPERTY_LIMIT, .uint n), (TP_PROPERTY_LIMITED, .boolean true)]
        q TP_PROPERTY_LIMITED (.boolean true)
      = (q, some (ascii "+l " ++ printf_u n)) := by
    intro q hq
    unfold waiting_entry
    rw [if_neg (by decide), if_pos rfl]
    simp only [hq, hget, g_value_get_uint, g_value_get_boolean, if_true]
    rw [if_pos hn]
  have hshort : (ascii "+l " ++ printf_u n).length ≤ 210 := by
    have h3 : (ascii "+l ").length = 3 := by decide
    have := printf_u_length n hguint
    rw [List.length_append, h3]
    omega
  unfold send_properties_waiting_loop
  rw [if_neg (by decide)]
  simp only [we1]
  unfold send_properties_waiting_loop
  rw [if_neg (by decide)]
  rw [we2 _ (by rw [connection_send_eq])]
  simp only [body_write_short priv.channel_name [] _ hname hshort]
  unfold send_properties_waiting_loop
  simp only [connection_send_eq, List.append_nil, List.append_assoc, List.singleton_append]

/-- The second loop of `send_properties_request` on the array `password`,
`password-required = true`: the round of `password` sends the command with
nothing behind the header, the round of `password-required` sends `+k <key>`. -/
theorem send_properties_waiting_loop_password_pair (priv : IdleMUCChannelPrivate)
    (key : List Nat) (hlen : priv.properties.length = LAST_TP_PROPERTY_ENUM)
    (htype : (value_at priv.properties TP_PROPERTY_PASSWORD).type = .G_TYPE_STRING)
    (hkey : key.length ≤ 200) (hname : priv.channel_name.length ≤ 200) :
    send_properties_waiting_loop (ascii "MODE " ++ priv.channel_name ++ ascii " ")
        [(TP_PROPERTY_PASSWORD, .string (some key)),
         (TP_PROPERTY_PASSWORD_REQUIRED, .boolean true)]
        [(TP_PROPERTY_PASSWORD, .string (some key)),
         (TP_PROPERTY_PASSWORD_REQUIRED, .boolean true)] priv []
      = some { priv with
          properties :=
            (priv.properties.modify (fun p => { p with value := .string (some key) })
              TP_PROPERTY_PASSWORD)
          trace := (priv.trace ++
            [.connection_send (ascii "MODE " ++ priv.channel_name ++ ascii " "),
             .connection_send (ascii "MODE " ++ priv.channel_name ++ ascii " " ++ ascii "+k "
               ++ key)]) } := by
  have hcopy : ∀ p : TPProperty, p ∈ priv.properties[TP_PROPERTY_PASSWORD]? →
      g_value_copy (.string (some key)) p.value = .string (some key) := by
    intro p hp
    have : p = priv.properties.getD TP_PROPERTY_PASSWORD ⟨.uint 0, 0⟩ := by
      rw [List.getD_eq_getElem?_getD]
      rw [Option.mem_def] at hp
      rw [hp]; rfl
    have ht : p.value.type = .G_TYPE_STRING := by rw [this]; exact htype
    unfold g_value_copy
    rw [if_pos (by rw [ht]; rfl)]
  have hmod : priv.properties.modify
      (fun p => { p with value := g_value_copy (.string (some key)) p.value })
        TP_PROPERTY_PASSWORD
      = priv.properties.modify (fun p => { p with value := .string (some key) })
          TP_PROPERTY_PASSWORD := by
    apply List.ext_getElem?
    intro i
    rw [List.getElem?_modify, List.getElem?_modify]
    by_cases hi : TP_PROPERTY_PASSWORD = i
    · subst hi
      cases hp : priv.properties[TP_PROPERTY_PASSWORD]? with
      | none => rfl
      | some p =>
        simp only [if_true, Option.map_eq_map, Option.map_some']
        rw [hcopy p (by rw [Option.mem_def]; exact hp)]
    · simp only [if_neg hi]
  have hget : ((priv.properties.modify (fun p => { p with value := .string (some key) })
      TP_PROPERTY_PASSWORD).getD TP_PROPERTY_PASSWORD ⟨.uint 0, 0⟩).value
      = .string (some key) := by
    rw [List.getD_eq_getElem?_getD, List.getElem?_modify]
    have h1 : TP_PROPERTY_PASSWORD < priv.properties.length := by rw [hlen]; decide
    rw [List.getElem?_eq_getElem h1]
    simp
  have we1 : waiting_entry [(TP_PROPERTY_PASSWORD, .string (some key)),
        (TP_PROPERTY_PASSWORD_REQUIRED, .boolean true)]
      priv TP_PROPERTY_PASSWORD (.string (some key))
      = ({ priv with properties :=
            (priv.properties.modify (fun p => { p with value := .string (some key) })
              TP_PROPERTY_PASSWORD) },
          none) := by
    unfold waiting_entry
    rw [if_pos (Or.inr rfl)]
    simp only [hmod]
    have hfind : prop_arr_find
        [(TP_PROPERTY_PASSWORD, GValue.string (some key)),
         (TP_PROPERTY_PASSWORD_REQUIRED, GValue.boolean true)]
        (TP_PROPERTY_PASSWORD + 1) = some 1 := by
      simp [prop_arr_find, TP_PROPERTY_PASSWORD, TP_PROPERTY_PASSWORD_REQUIRED]
    rw [hfind]
  have we2 : ∀ q : IdleMUCChannelPrivate,
      q.properties = priv.properties.modify (fun p => { p with value := .string (some key) })
        TP_PROPERTY_PASSWORD →
      waiting_entry [(TP_PROPERTY_PASSWORD, .string (some key)),
          (TP_PROPERTY_PASSWORD_REQUIRED, .boolean true)]
        q TP_PROPERTY_PASSWORD_REQUIRED (.boolean true)
      = (q, some (ascii "+k " ++ key)) := by
    intro q hq
    unfold waiting_entry
    rw [if_neg (by decide), if_neg (by decide), if_pos rfl]
    simp only [hq, hget, g_value_get_string, g_value_get_boolean, if_true]
  have hshort : (ascii "+k " ++ key).length ≤ 210 := by
    have h3 : (ascii "+k ").length = 3 := by decide
    rw [List.length_append, h3]
    omega
  unfold send_properties_waiting_loop
  rw [if_neg (by decide)]
  simp only [we1]
  unfold send_properties_waiting_loop
  rw [if_neg (by decide)]
  rw [we2 _ (by rw [connection_send_eq])]
  simp only [body_write_short priv.channel_name [] _ hname hshort]
  unfold send_properties_waiting_loop
  simp only [connection_send_eq, List.append_nil, List.append_assoc, List.singleton_append]

/-- The text `send_properties_request` writes behind the header for a data
property with its boolean set: `+l <N>` for limit, `+k <key>` for password. -/
theorem pair_accepted (properties : List TPProperty) (prop_id : Nat) (prop_val : GValue)
    (hid : prop_id = TP_PROPERTY_LIMIT ∨ prop_id = TP_PROPERTY_PASSWORD)
    (hval : prop_val.type = property_signatures.getD prop_id .G_TYPE_UINT)
    (hw1 : flags_at properties prop_id &&& TP_PROPERTY_FLAG_WRITE ≠ 0)
    (hw2 : flags_at properties (prop_id + 1) &&& TP_PROPERTY_FLAG_WRITE ≠ 0)
    (hd1 : value_at properties prop_id ≠ prop_val)
    (hd2 : value_at properties (prop_id + 1) ≠ .boolean true)
    (entries : List (Nat × GValue))
    (horder : entries = [(prop_id, prop_val), (prop_id + 1, .boolean true)]
      ∨ entries = [(prop_id + 1, .boolean true), (prop_id, prop_val)]) :
    set_properties_loop properties entries = .ok entries := by
  have hr1 : set_property_refusal properties (prop_id, prop_val) = none := by
    unfold set_property_refusal
    unfold flags_at at hw1
    have h10 : ¬ prop_id ≥ LAST_TP_PROPERTY_ENUM := by
      rcases hid with h | h <;> rw [h] <;> decide
    rw [if_neg h10, if_neg hw1, if_neg (by simp [hval])]
  have hr2 : set_property_refusal properties (prop_id + 1, .boolean true) = none := by
    unfold set_property_refusal
    unfold flags_at at hw2
    have h10 : ¬ prop_id + 1 ≥ LAST_TP_PROPERTY_ENUM := by
      rcases hid with h | h <;> rw [h] <;> decide
    have hty : ¬ (GValue.boolean true).type ≠ property_signatures.getD (prop_id + 1) .G_TYPE_UINT := by
      rcases hid with h | h <;> rw [h] <;> decide
    rw [if_neg h10, if_neg hw2, if_neg hty]
  have hp1 : property_differs properties (prop_id, prop_val) = true := by
    unfold property_differs
    unfold value_at at hd1
    have : g_value_compare prop_val (properties.getD prop_id ⟨.uint 0, 0⟩).value = false := by
      rw [Bool.eq_false_iff, ne_eq, g_value_compare_iff]
      exact fun h => hd1 h.symm
    show (!g_value_compare prop_val (properties.getD prop_id ⟨.uint 0, 0⟩).value) = true
    rw [this]; rfl
  have hp2 : property_differs properties (prop_id + 1, .boolean true) = true := by
    unfold property_differs
    unfold value_at at hd2
    have : g_value_compare (.boolean true)
        (properties.getD (prop_id + 1) ⟨.uint 0, 0⟩).value = false := by
      rw [Bool.eq_false_iff, ne_eq, g_value_compare_iff]
      exact fun h => hd2 h.symm
    show (!g_value_compare (.boolean true)
      (properties.getD (prop_id + 1) ⟨.uint 0, 0⟩).value) = true
    rw [this]; rfl
  rw [set_properties_loop_accepted properties entries
    (by rcases horder with h | h <;> subst h <;> intro x hx <;> simp at hx <;>
        rcases hx with hx | hx <;> subst hx <;> assumption)]
  rcases horder with h | h <;> subst h <;> simp [List.filter, hp1, hp2]

/-! ### Helper lemmas: `idle_text_decode` -/

/-- Comparing against a string of at least `n` bytes without a NUL:
`g_ascii_strncasecmp` returns 0 exactly when the first `n` bytes agree up to
ASCII case. -/
theorem g_ascii_strncasecmp_eq_zero_iff : ∀ (n : Nat) (s1 s2 : List Nat),
    n ≤ s2.length → (∀ c ∈ s2, c ≠ 0) →
    (g_ascii_strncasecmp s1 s2 n = 0
      ↔ (s1.take n).map g_ascii_tolower = (s2.take n).map g_ascii_tolower) := by
  intro n
  induction n with
  | zero => intro s1 s2 _ _; simp [g_ascii_strncasecmp]
  | succ n ih =>
    intro s1 s2 hlen hnz
    cases s2 with
    | nil => simp at hlen
    | cons c2 r2 =>
      have hc2 : c2 ≠ 0 := hnz c2 (List.mem_cons_self _ _)
      have hr2 : ∀ c ∈ r2, c ≠ 0 := fun c hc => hnz c (List.mem_cons_of_mem _ hc)
      have hlen2 : n ≤ r2.length := by simpa using hlen
      cases s1 with
      | nil =>
        simp only [g_ascii_strncasecmp, List.take_nil, List.map_nil, List.take_succ_cons,
          List.map_cons]
        constructor
        · intro h; omega
        · intro h; simp at h
      | cons c1 r1 =>
        simp only [g_ascii_strncasecmp, List.take_succ_cons, List.map_cons, List.cons.injEq]
        by_cases hc : g_ascii_tolower c1 = g_ascii_tolower c2
        · simp only [hc, ne_eq, not_true_eq_false, if_false, true_and]
          exact ih r1 r2 hlen2 hr2
        · simp only [ne_eq, hc, not_false_eq_true, if_true, false_and, iff_false]
          omega

theorem decode_action_test (text : List Nat) :
    g_ascii_strncasecmp text (ascii "\x01ACTION ") (ascii "\x01ACTION ").length = 0
      ↔ begins_with_action text := by
  rw [g_ascii_strncasecmp_eq_zero_iff _ _ _ (Nat.le_refl _) (by decide)]
  unfold begins_with_action
  have h8 : (ascii "\x01ACTION ").length = 8 := by decide
  have hl : ((ascii "\x01ACTION ").take 8).map g_ascii_tolower = ascii "\x01action " := by decide
  rw [h8, hl]

/-- The copy `g_strndup (rest, strlen (rest) - 1)` of a text that is not
empty: the text without its last byte. -/
theorem g_strndup_all_but_last (rest : List Nat) (hne : rest ≠ [])
    (hlen : rest.length ≤ 9223372036854775808) :
    g_strndup rest (gsize_sub rest.length 1) = some rest.dropLast := by
  unfold g_strndup
  rw [List.dropLast_eq_take]
  have hpos : 0 < rest.length := List.length_pos.mpr hne
  have h1 : gsize_sub rest.length 1 = rest.length - 1 := by
    unfold gsize_sub
    omega
  have h2 : (rest.length - 1) % 18446744073709551616 = rest.length - 1 := by omega
  rw [h1, h2, if_pos (by omega)]

/-- The ACTION branch of `idle_text_decode` once the copy made by `g_strndup`
has returned. -/
theorem idle_text_decode_action (idle_ctcp_kill_blingbling : List Nat → List Nat)
    (text tmp : List Nat) (hfirst : text.head? = some 1)
    (hcmp : g_ascii_strncasecmp text (ascii "\x01ACTION ") (ascii "\x01ACTION ").length = 0)
    (hdup : g_strndup (text.drop 8) (gsize_sub (text.drop 8).length 1) = some tmp) :
    idle_text_decode idle_ctcp_kill_blingbling text
      = .ok (some (TP_CHANNEL_TEXT_MESSAGE_TYPE_ACTION, idle_ctcp_kill_blingbling tmp)) := by
  have h8 : (ascii "\x01ACTION ").length = 8 := by decide
  unfold idle_text_decode
  rw [if_neg (by rw [hfirst]; simp)]
  show (if _ then _ else _) = _
  rw [if_pos hcmp, h8]
  simp only []
  rw [hdup]

/-- On the empty text `strlen (rest) - 1` wraps to `SIZE_MAX` and `g_strndup`
does not return. -/
theorem g_strndup_of_empty : g_strndup [] (gsize_sub ([] : List Nat).length 1) = none := by
  decide

/-! ### Helper lemmas: where `g_utf8_find_prev_char` stops -/

theorem g_utf8_find_prev_char_max (str : List Nat) : ∀ (p e : Nat),
    g_utf8_find_prev_char str p = some e →
    ∀ e' : Nat, e < e' → e' < p → (str.getD e' 0) &&& 0xc0 = 0x80 := by
  intro p
  induction p with
  | zero => intro e h; simp [g_utf8_find_prev_char] at h
  | succ p ih =>
    intro e h e' h1 h2
    unfold g_utf8_find_prev_char at h
    by_cases hc : (str.getD p 0) &&& 0xc0 ≠ 0x80
    · rw [if_pos hc] at h
      cases h
      omega
    · rw [if_neg hc] at h
      by_cases hp : e' = p
      · subst hp
        exact not_not.mp hc
      · exact ih e h e' h1 (by omega)

theorem g_utf8_find_prev_char_of_max (str : List Nat) : ∀ (p e : Nat), e < p →
    (str.getD e 0) &&& 0xc0 ≠ 0x80 →
    (∀ e' : Nat, e < e' → e' < p → (str.getD e' 0) &&& 0xc0 = 0x80) →
    g_utf8_find_prev_char str p = some e := by
  intro p
  induction p with
  | zero => intro e h; omega
  | succ p ih =>
    intro e hlt hnc hmax
    unfold g_utf8_find_prev_char
    by_cases hp : e = p
    · subst hp
      rw [if_pos hnc]
    · have hc : ¬ (str.getD p 0) &&& 0xc0 ≠ 0x80 := by
        rw [not_not]
        exact hmax p (by omega) (by omega)
      rw [if_neg hc]
      exact ih e (by omega) hnc (fun e' h1 h2 => hmax e' h1 (by omega))

theorem g_utf8_find_prev_char_ge (str : List Nat) : ∀ (p e0 : Nat), e0 < p →
    (str.getD e0 0) &&& 0xc0 ≠ 0x80 →
    ∃ e, g_utf8_find_prev_char str p = some e ∧ e0 ≤ e := by
  intro p
  induction p with
  | zero => intro e0 h; omega
  | succ p ih =>
    intro e0 hlt hnc
    unfold g_utf8_find_prev_char
    by_cases hc : (str.getD p 0) &&& 0xc0 ≠ 0x80
    · rw [if_pos hc]
      exact ⟨p, rfl, by omega⟩
    · rw [if_neg hc]
      have hne : e0 ≠ p := fun h => hc (h ▸ hnc)
      exact ih e0 (by omega) hnc

/-- The choice of `end_iter` when no newline lies within the byte budget and
the remaining text is longer than the budget. -/
theorem end_iter_too_long (max_bytes : Nat) (rem : List Nat)
    (hnl : 10 ∉ rem.take max_bytes) (hlong : max_bytes < rem.length)
    (hmax : max_bytes < 2147483648) (hlen : rem.length < 4294967296) :
    end_iter max_bytes rem = g_utf8_find_prev_char rem max_bytes := by
  unfold end_iter
  simp only []
  have hgint : (rem.length : Int) > to_gint max_bytes := by
    rw [to_gint_of_lt _ hmax]
    omega
  rw [if_pos hgint, if_pos (by omega)]
  cases hs : strchr 10 rem with
  | none => rfl
  | some k =>
    simp only []
    obtain ⟨h1, h2, -⟩ := strchr_some 10 rem k hs
    have hk : ¬ to_unsigned k < max_bytes := by
      rw [to_unsigned_of_lt k (by omega)]
      intro hk
      apply hnl
      rw [List.get?_eq_getElem?] at h2
      obtain ⟨hlt, hget⟩ := List.getElem?_eq_some.mp h2
      rw [List.mem_iff_getElem]
      refine ⟨k, by rw [List.length_take]; omega, ?_⟩
      rw [List.getElem_take]
      exact hget
    rw [if_neg hk]

/-! ### Helper lemmas: continuation bytes in valid UTF-8 -/

theorem lead_byte_not_continuation (b : Nat) (h : b < 0x80 ∨ (0xC2 ≤ b ∧ b ≤ 0xF4)) :
    b &&& 0xc0 ≠ 0x80 := by
  rcases h with h | ⟨h1, h2⟩
  · interval_cases b <;> decide
  · interval_cases b <;> decide

theorem utf8_step_continuation (s s' : Utf8State) (b : Nat) (h : utf8_step s b = some s')
    (hb : b &&& 0xc0 = 0x80) : utf8_pending s' + 1 = utf8_pending s := by
  cases s with
  | boundary =>
    exfalso
    have hlead : b < 0x80 ∨ (0xC2 ≤ b ∧ b ≤ 0xF4) := by
      simp only [utf8_step] at h
      split_ifs at h <;> omega
    exact lead_byte_not_continuation b hlead hb
  | inside lo hi more =>
    simp only [utf8_step] at h
    split_ifs at h with h1 h2
    · cases h
      subst h2
      rfl
    · cases h
      simp only [utf8_pending]
      omega

theorem utf8_step_pending (s s' : Utf8State) (b : Nat) (h : utf8_step s b = some s')
    (hs : utf8_pending s ≤ 3) : utf8_pending s' ≤ 3 := by
  cases s with
  | boundary =>
    simp only [utf8_step] at h
    split_ifs at h <;> cases h <;> simp [utf8_pending]
  | inside lo hi more =>
    simp only [utf8_pending] at hs
    simp only [utf8_step] at h
    split_ifs at h <;> cases h <;> simp only [utf8_pending] <;> omega

theorem utf8_run_pending : ∀ (l : List Nat) (s s' : Utf8State), utf8_pending s ≤ 3 →
    utf8_run s l = some s' → utf8_pending s' ≤ 3 := by
  intro l
  induction l with
  | nil => intro s s' hs h; simp only [utf8_run, Option.some.injEq] at h; subst h; exact hs
  | cons b r ih =>
    intro s s' hs h
    unfold utf8_run at h
    cases hstep : utf8_step s b with
    | none => rw [hstep] at h; cases h
    | some t =>
      rw [hstep] at h
      exact ih t s' (utf8_step_pending s t b hstep hs) h

theorem utf8_run_continuation : ∀ (l : List Nat) (s s' : Utf8State),
    (∀ b ∈ l, b &&& 0xc0 = 0x80) → utf8_run s l = some s' →
    utf8_pending s' + l.length = utf8_pending s := by
  intro l
  induction l with
  | nil => intro s s' _ h; simp only [utf8_run, Option.some.injEq] at h; subst h; rfl
  | cons b r ih =>
    intro s s' hall h
    unfold utf8_run at h
    cases hstep : utf8_step s b with
    | none => rw [hstep] at h; cases h
    | some t =>
      rw [hstep] at h
      have h1 := utf8_step_continuation s t b hstep (hall b (List.mem_cons_self _ _))
      have h2 := ih t s' (fun c hc => hall c (List.mem_cons_of_mem _ hc)) h
      simp only [List.length_cons]
      omega

/-- In valid UTF-8 one of any four consecutive bytes is not a continuation byte. -/
theorem utf8_valid_lead_within_four (text : List Nat) (p : Nat) (hv : utf8_valid text)
    (hp4 : 4 ≤ p) (hp : p ≤ text.length) :
    ∃ e : Nat, p - 4 ≤ e ∧ e < p ∧ (text.getD e 0) &&& 0xc0 ≠ 0x80 := by
  by_contra hnone
  have hall : ∀ e : Nat, p - 4 ≤ e → e < p → (text.getD e 0) &&& 0xc0 = 0x80 := by
    intro e h1 h2
    by_contra hc
    exact hnone ⟨e, h1, h2, hc⟩
  unfold utf8_valid at hv
  have hsplit : text = text.take (p - 4) ++ ((text.drop (p - 4)).take 4
      ++ (text.drop (p - 4)).drop 4) := by
    rw [List.take_append_drop, List.take_append_drop]
  rw [hsplit, utf8_run_append] at hv
  cases hs : utf8_run .boundary (text.take (p - 4)) with
  | none => rw [hs] at hv; cases hv
  | some s =>
    rw [hs] at hv
    simp only [Option.bind] at hv
    rw [utf8_run_append] at hv
    have hpend := utf8_run_pending _ _ _ (by simp [utf8_pending]) hs
    cases hm : utf8_run s ((text.drop (p - 4)).take 4) with
    | none => rw [hm] at hv; cases hv
    | some t =>
      have hmid : ∀ b ∈ (text.drop (p - 4)).take 4, b &&& 0xc0 = 0x80 := by
        intro b hb
        rw [List.mem_iff_getElem] at hb
        obtain ⟨i, hi, hget⟩ := hb
        rw [List.length_take, List.length_drop] at hi
        have hi4 : i < 4 := by omega
        have := hall (p - 4 + i) (by omega) (by omega)
        rw [List.getElem_take, List.getElem_drop] at hget
        rw [List.getD_eq_getElem?_getD, List.getElem?_eq_getElem (by omega)] at this
        simp only [Option.getD_some] at this
        rw [← hget]
        exact this
      have hcount := utf8_run_continuation _ _ _ hmid hm
      have hlen : ((text.drop (p - 4)).take 4).length = 4 := by
        rw [List.length_take, List.length_drop]
        omega
      omega

/-! ### Helper lemmas: progress and termination of the splitting loop -/

/-- The text the splitting loop goes on with after cutting at offset `e`. -/
theorem next_remaining_shorter (rem : List Nat) (e : Nat) (he : e ≤ rem.length)
    (hne : rem ≠ []) (hadv : 1 ≤ e ∨ rem.get? e = some 10) :
    (if rem.get? e = some 10 then rem.drop (e + 1) else rem.drop e).length < rem.length := by
  have hpos : 0 < rem.length := List.length_pos.mpr hne
  by_cases h10 : rem.get? e = some 10
  · rw [if_pos h10, List.length_drop]
    rw [List.get?_eq_getElem?] at h10
    obtain ⟨hlt, -⟩ := List.getElem?_eq_some.mp h10
    omega
  · rw [if_neg h10, List.length_drop]
    rcases hadv with h | h
    · omega
    · exact absurd h h10

/-- One round of the splitting loop on valid UTF-8 with a budget of at least
five bytes: a cut is chosen, and it lies behind the first byte or on a newline. -/
theorem end_iter_progress (max_bytes : Nat) (rem : List Nat) (hv : utf8_valid rem)
    (hne : rem ≠ []) (h5 : 5 ≤ max_bytes) (hmax : max_bytes < 2147483648) :
    ∃ e : Nat, end_iter max_bytes rem = some e ∧ (1 ≤ e ∨ rem.get? e = some 10) := by
  have hpos : 0 < rem.length := List.length_pos.mpr hne
  have no_nl : (∀ k, strchr 10 rem = some k → max_bytes ≤ k) →
      ∃ e : Nat, (if (rem.length : Int) > to_gint max_bytes then
        (if max_bytes ≤ rem.length then g_utf8_find_prev_char rem max_bytes else none)
       else some rem.length) = some e ∧ (1 ≤ e ∨ rem.get? e = some 10) := by
    intro _
    rw [to_gint_of_lt _ hmax]
    by_cases hlong : (rem.length : Int) > (max_bytes : Int)
    · rw [if_pos hlong, if_pos (by omega)]
      obtain ⟨e0, h1, h2, h3⟩ := utf8_valid_lead_within_four rem max_bytes hv (by omega)
        (by omega)
      obtain ⟨e, he, hge⟩ := g_utf8_find_prev_char_ge rem max_bytes e0 h2 h3
      exact ⟨e, he, Or.inl (by omega)⟩
    · rw [if_neg hlong]
      exact ⟨rem.length, rfl, Or.inl (by omega)⟩
  unfold end_iter
  simp only []
  cases hs : strchr 10 rem with
  | none =>
    simp only []
    exact no_nl (fun k hk => by rw [hs] at hk; cases hk)
  | some k =>
    simp only []
    by_cases hk : to_unsigned k < max_bytes
    · rw [if_pos hk]
      exact ⟨k, rfl, Or.inr (strchr_some 10 rem k hs).2.1⟩
    · rw [if_neg hk]
      have hu := to_unsigned_le k
      exact no_nl (fun j hj => by rw [hs] at hj; cases hj; omega)

theorem next_remaining_valid (max_bytes : Nat) (rem : List Nat) (e : Nat)
    (hv : utf8_valid rem) (he : end_iter max_bytes rem = some e) :
    utf8_valid (if rem.get? e = some 10 then rem.drop (e + 1) else rem.drop e) := by
  obtain ⟨-, -, -, hnc⟩ := end_iter_spec _ _ _ he
  obtain ⟨-, hv2⟩ := utf8_valid_split _ e hv hnc
  by_cases h10 : rem.get? e = some 10
  · rw [if_pos h10]
    rw [List.get?_eq_getElem?] at h10
    have hd : rem.drop e = 10 :: rem.drop (e + 1) := by
      obtain ⟨hlt, hget⟩ := List.getElem?_eq_some.mp h10
      rw [← hget]
      exact List.drop_eq_getElem_cons hlt
    rw [hd] at hv2
    exact utf8_valid_tail_newline _ hv2
  · rw [if_neg h10]; exact hv2

/-- On valid UTF-8 with a budget between 5 and 2^31 - 1 bytes the loop
returns within as many rounds as the text has bytes. -/
theorem split_loop_terminates (header footer : List Nat) (max_bytes : Nat)
    (h5 : 5 ≤ max_bytes) (hmax : max_bytes < 2147483648) :
    ∀ (fuel : Nat) (rem : List Nat), utf8_valid rem → rem.length ≤ fuel →
      ∃ messages bodies, split_loop header footer max_bytes fuel rem = .ok (messages, bodies)
        ∧ messages.length ≤ rem.length := by
  intro fuel
  induction fuel with
  | zero =>
    intro rem _ hlen
    have : rem = [] := List.length_eq_zero.mp (by omega)
    subst this
    exact ⟨[], [], split_loop_nil _ _ _ _, le_refl _⟩
  | succ fuel ih =>
    intro rem hv hlen
    cases rem with
    | nil => exact ⟨[], [], split_loop_nil _ _ _ _, le_refl _⟩
    | cons b r =>
      obtain ⟨e, he, hadv⟩ := end_iter_progress max_bytes (b :: r) hv (by simp) h5 hmax
      obtain ⟨hle, -, -, -⟩ := end_iter_spec _ _ _ he
      have hshort := next_remaining_shorter (b :: r) e hle (by simp) hadv
      have hvalid := next_remaining_valid max_bytes (b :: r) e hv he
      have h0 := end_iter_len_nonneg _ _ _ hmax he
      obtain ⟨ms, bs, hrec, hcount⟩ := ih _ hvalid (by omega)
      refine ⟨(header ++ (b :: r).take (to_gint e).toNat ++ footer) :: ms,
        (b :: r).take (to_gint e).toNat :: bs, ?_, ?_⟩
      · unfold split_loop
        rw [he]
        simp only []
        rw [g_strndup_to_gsize, if_pos h0, printf_precision_s_nonneg _ _ h0]
        simp only [hrec]
      · simp only [List.length_cons] at hshort ⊢
        omega

/-- More rounds allowed do not change what the loop returns. -/
theorem split_loop_fuel_mono (header footer : List Nat) (max_bytes : Nat) :
    ∀ (fuel : Nat) (rem : List Nat) (result : List (List Nat) × List (List Nat)),
      split_loop header footer max_bytes fuel rem = .ok result →
      ∀ more : Nat, split_loop header footer max_bytes (fuel + more) rem = .ok result := by
  intro fuel
  induction fuel with
  | zero =>
    intro rem result h more
    cases rem with
    | nil => rw [split_loop_nil] at h ⊢; exact h
    | cons b r => simp [split_loop] at h
  | succ fuel ih =>
    intro rem result h more
    cases rem with
    | nil => rw [split_loop_nil] at h ⊢; exact h
    | cons b r =>
      obtain ⟨messages, bodies⟩ := result
      obtain ⟨fuel', e, ms, bs, hf, he, h0, hrec, hm, hb⟩ := split_loop_cons _ _ _ _ _ _ _ _ h
      cases hf
      have hrec2 := ih _ _ hrec more
      have hfuel : fuel + 1 + more = (fuel + more) + 1 := by omega
      rw [hfuel]
      unfold split_loop
      rw [he]
      simp only []
      rw [g_strndup_to_gsize, if_pos h0, printf_precision_s_nonneg _ _ h0]
      simp only [hrec2, hm, hb]

/-- With a budget of one byte the loop makes no progress on a text of two
letters: the cut found by `g_utf8_find_prev_char` is the start of the text. -/
theorem split_loop_budget_one_stuck (header footer : List Nat) :
    ∀ fuel : Nat, split_loop header footer 1 fuel (ascii "ab") = .timeout := by
  intro fuel
  induction fuel with
  | zero => rfl
  | succ fuel ih =>
    have he : end_iter 1 (ascii "ab") = some 0 := by decide
    have hrem : (if (ascii "ab").get? 0 = some 10 then (ascii "ab").drop (0 + 1)
        else (ascii "ab").drop 0) = ascii "ab" := by decide
    have hab : ascii "ab" = 97 :: [98] := by decide
    rw [hab] at he hrem ih ⊢
    have h0 : 0 ≤ to_gint 0 := by decide
    unfold split_loop
    rw [he]
    simp only []
    rw [g_strndup_to_gsize, if_pos h0]
    simp only []
    rw [hrem, ih]

/-! ### Helper lemmas: the send loop on NORMAL and NOTICE texts -/

theorem send_header_length (type : Nat) (recipient header : List Nat)
    (h : send_header type recipient = some header) : header.length ≤ 509 := by
  unfold send_header at h
  split_ifs at h <;> cases h <;> simp [g_snprintf, IRC_MSG_MAXLEN]

/-- Outside the ACTION branch every round of the send loop moves `part`
forward, so the loop is over within as many rounds as bytes are left. -/
theorem send_loop_terminates (type : Nat) (header text : List Nat)
    (htype : type ≠ TP_CHANNEL_TEXT_MESSAGE_TYPE_ACTION) (hheader : header.length ≤ 509)
    (hlen : text.length < 9223372036854775808) :
    ∀ (fuel part : Nat) (priv : IdleMUCChannelPrivate), text.length ≤ part + fuel →
      ∃ q : IdleMUCChannelPrivate, send_loop type header text fuel part priv = some q := by
  intro fuel
  induction fuel with
  | zero =>
    intro part priv h
    unfold send_loop
    rw [if_neg (by omega)]
    exact ⟨priv, rfl⟩
  | succ fuel ih =>
    intro part priv h
    unfold send_loop
    by_cases hp : part < text.length
    · rw [if_pos hp]
      simp only [if_neg htype]
      have hbudget : gsize_sub IRC_MSG_MAXLEN header.length = 510 - header.length := by
        unfold gsize_sub IRC_MSG_MAXLEN
        omega
      rw [hbudget]
      cases hbr : strchr 10 (text.drop part) with
      | none =>
        simp only []
        have hmod : (part + (510 - header.length)) % 18446744073709551616
            = part + (510 - header.length) := Nat.mod_eq_of_lt (by omega)
        rw [hmod]
        exact ih _ _ (by omega)
      | some k =>
        simp only []
        by_cases hk : 510 - header.length < k
        · rw [if_pos hk]
          have hmod : (part + (510 - header.length)) % 18446744073709551616
              = part + (510 - header.length) := Nat.mod_eq_of_lt (by omega)
          have hmod2 : (part + (510 - header.length) + 1) % 18446744073709551616
              = part + (510 - header.length) + 1 := Nat.mod_eq_of_lt (by omega)
          rw [hmod, hmod2]
          exact ih _ _ (by omega)
        · rw [if_neg hk]
          have hmod : (part + k) % 18446744073709551616 = part + k :=
            Nat.mod_eq_of_lt (by omega)
          have hmod2 : (part + k + 1) % 18446744073709551616 = part + k + 1 :=
            Nat.mod_eq_of_lt (by omega)
          rw [hmod, hmod2]
          exact ih _ _ (by omega)
    · rw [if_neg hp]
      exact ⟨priv, rfl⟩

/-- On a NORMAL or NOTICE text `idle_muc_channel_send` returns when it is
allowed as many rounds as the text has bytes. -/
theorem send_returns (handles : IdleHandleStorage) (priv : IdleMUCChannelPrivate)
    (type : Nat) (text : List Nat) (timestamp fuel : Nat)
    (htype : type = TP_CHANNEL_TEXT_MESSAGE_TYPE_NORMAL
      ∨ type = TP_CHANNEL_TEXT_MESSAGE_TYPE_NOTICE)
    (hlen : text.length < 9223372036854775808) (hfuel : text.length ≤ fuel) :
    ∃ result : IdleMUCChannelPrivate × Option TelepathyError,
      idle_muc_channel_send handles fuel priv type text timestamp = .ok result := by
  have hna : type ≠ TP_CHANNEL_TEXT_MESSAGE_TYPE_ACTION := by
    rcases htype with h | h <;> rw [h] <;> decide
  unfold idle_muc_channel_send
  cases hroom : handles.idle_handle_inspect_room priv.handle with
  | none => exact ⟨_, rfl⟩
  | some recipient =>
    cases recipient with
    | nil => exact ⟨_, rfl⟩
    | cons c cs =>
      simp only []
      cases hh : send_header type (c :: cs) with
      | none => exact ⟨_, rfl⟩
      | some header =>
        simp only []
        obtain ⟨q, hq⟩ := send_loop_terminates type header text hna
          (send_header_length type (c :: cs) header hh) hlen fuel 0 priv (by omega)
        rw [hq]
        simp only []
        split_ifs <;> exact ⟨_, rfl⟩

/-! ### Helper lemmas: a newline whose offset does not fit 32 bits -/

theorem strchr_append (c : Nat) (chunk rest : List Nat) (h : c ∉ chunk) :
    strchr c (chunk ++ c :: rest) = some chunk.length := by
  induction chunk with
  | nil => simp [strchr]
  | cons b r ih =>
    have hb : b ≠ c := fun e => h (e ▸ List.mem_cons_self _ _)
    have hr : c ∉ r := fun hm => h (List.mem_cons_of_mem _ hm)
    show (if b = c then some 0 else (strchr c (r ++ c :: rest)).map (· + 1)) = _
    rw [if_neg hb, ih hr]
    rfl

/-- The newline branch is taken whenever the low 32 bits of the offset of the
first newline lie below the byte budget. -/
theorem end_iter_newline (max_bytes : Nat) (chunk rest : List Nat) (hnl : 10 ∉ chunk)
    (hk : to_unsigned chunk.length < max_bytes) :
    end_iter max_bytes (chunk ++ 10 :: rest) = some chunk.length := by
  unfold end_iter
  simp only []
  rw [strchr_append _ _ _ hnl]
  simp only []
  rw [if_pos hk]

/-- One round of the loop that takes the newline branch: line and body hold
the first `(int) offset` bytes of the text in front of the newline, and the
loop goes on behind the newline. -/
theorem split_loop_newline_round (header footer : List Nat) (max_bytes fuel : Nat)
    (chunk rest : List Nat) (messages bodies : List (List Nat)) (hnl : 10 ∉ chunk)
    (hk : to_unsigned chunk.length < max_bytes) (h0 : 0 ≤ to_gint chunk.length)
    (hrec : split_loop header footer max_bytes fuel rest = .ok (messages, bodies)) :
    split_loop header footer max_bytes (fuel + 1) (chunk ++ 10 :: rest)
      = .ok ((header ++ chunk.take (to_gint chunk.length).toNat ++ footer) :: messages,
          chunk.take (to_gint chunk.length).toNat :: bodies) := by
  have he := end_iter_newline max_bytes chunk rest hnl hk
  have htake : (chunk ++ 10 :: rest).take (to_gint chunk.length).toNat
      = chunk.take (to_gint chunk.length).toNat :=
    List.take_append_of_le_length (to_gint_toNat_le _)
  have hget : (chunk ++ 10 :: rest).get? chunk.length = some 10 := by
    rw [List.get?_eq_getElem?, List.getElem?_append_right (le_refl _), Nat.sub_self]
    exact List.getElem?_cons_zero
  have hdrop : (chunk ++ 10 :: rest).drop (chunk.length + 1) = rest := by
    rw [List.drop_append]
    rfl
  obtain ⟨b, r, hbr⟩ : ∃ b r, chunk ++ 10 :: rest = b :: r := by
    cases chunk with
    | nil => exact ⟨10, rest, rfl⟩
    | cons c cs => exact ⟨c, cs ++ 10 :: rest, rfl⟩
  rw [hbr] at he htake hget hdrop ⊢
  unfold split_loop
  rw [he]
  simp only []
  rw [g_strndup_to_gsize, if_pos h0, printf_precision_s_nonneg _ _ h0, htake]
  simp only []
  rw [hget, if_pos rfl, hdrop, hrec]

/-- A call of `idle_text_encode_and_split` on a single line that ends with a
newline, when the low 32 bits of the length of the line lie below the byte
budget. -/
theorem encode_newline_round (type : Nat) (recipient header footer : List Nat)
    (max_msg_len : Nat) (chunk : List Nat)
    (hhf : header_footer type recipient = some (header, footer)) (hnl : 10 ∉ chunk)
    (hk : to_unsigned chunk.length < gsize_sub max_msg_len (header.length + footer.length))
    (h0 : 0 ≤ to_gint chunk.length) :
    idle_text_encode_and_split 1 type recipient (chunk ++ [10]) max_msg_len
      = .ok ([header ++ chunk.take (to_gint chunk.length).toNat ++ footer],
          [chunk.take (to_gint chunk.length).toNat]) := by
  unfold idle_text_encode_and_split
  rw [hhf]
  simp only []
  exact split_loop_newline_round header footer _ 0 chunk [] [] [] hnl hk h0
    (split_loop_nil _ _ _ _)

theorem not_mem_replicate_a (n : Nat) : 10 ∉ List.replicate n 97 := by
  intro h
  have := (List.mem_replicate.mp h).2
  omega

theorem filter_replicate_ne_nil (n : Nat) (hn : n ≠ 0) (rest : List Nat) :
    (List.replicate n 97 ++ rest).filter (fun b => decide (b ≠ 10)) ≠ [] := by
  intro h
  have hm : 97 ∈ (List.replicate n 97 ++ rest).filter (fun b => decide (b ≠ 10)) :=
    List.mem_filter.mpr
      ⟨List.mem_append_left _ (List.mem_replicate.mpr ⟨hn, rfl⟩), by decide⟩
  rw [h] at hm
  cases hm

theorem utf8_run_replicate_a (n : Nat) :
    utf8_run .boundary (List.replicate n 97) = some .boundary := by
  induction n with
  | zero => rfl
  | succ n ih =>
    rw [List.replicate_succ]
    have hstep : utf8_step .boundary 97 = some .boundary := by decide
    simp only [utf8_run, hstep]
    exact ih

/-- The EURO SIGN followed by any number of letters `a` and a newline is valid
UTF-8. -/
theorem utf8_valid_euro_replicate (n : Nat) :
    utf8_valid (226 :: 130 :: 172 :: List.replicate n 97 ++ [10]) := by
  unfold utf8_valid
  have h1 : utf8_run .boundary [226, 130, 172] = some .boundary := by decide
  have h2 : utf8_run .boundary [10] = some .boundary := by decide
  have e : 226 :: 130 :: 172 :: List.replicate n 97 ++ [10]
      = [226, 130, 172] ++ (List.replicate n 97 ++ [10]) := rfl
  rw [e, utf8_run_append, h1, Option.some_bind, utf8_run_append, utf8_run_replicate_a,
    Option.some_bind, h2]

theorem not_mem_euro_replicate (n : Nat) : 10 ∉ 226 :: 130 :: 172 :: List.replicate n 97 := by
  intro h
  simp only [List.mem_cons] at h
  rcases h with h | h | h | h
  · omega
  · omega
  · omega
  · exact not_mem_replicate_a n h

/-! ### Helper lemmas: change lists as the callers of `change_tp_properties` build them -/

theorem changed_entries_mem : ∀ (props : List (Nat × GValue)) (stored : Nat → GValue),
    ∀ e ∈ changed_entries stored props, e ∈ props := by
  intro props
  induction props with
  | nil => intro stored e he; simp [changed_entries] at he
  | cons a rest ih =>
    intro stored e he
    obtain ⟨id0, v0⟩ := a
    simp only [changed_entries] at he
    split_ifs at he with h1 h2
    · exact List.mem_cons_of_mem _ (ih stored e he)
    · rcases List.mem_cons.mp he with h | h
      · rw [h]; exact List.mem_cons_self _ _
      · exact List.mem_cons_of_mem _ (ih _ e h)
    · exact List.mem_cons_of_mem _ (ih stored e he)

/-- In a list whose entries for one property all carry the same value, the
last entry listed for the property of an entry carries the value of that entry. -/
theorem last_listed_of_same (entries : List (Nat × GValue)) (e : Nat × GValue)
    (he : e ∈ entries)
    (hsame : ∀ a ∈ entries, ∀ b ∈ entries, a.1 = b.1 → a.2 = b.2) :
    last_listed entries e.1 = some e.2 := by
  unfold last_listed
  have hmem : e ∈ entries.filter (fun x => decide (x.1 = e.1)) :=
    List.mem_filter.mpr ⟨he, by simp⟩
  cases hl : (entries.filter (fun x => decide (x.1 = e.1))).getLast? with
  | none =>
    rw [List.getLast?_eq_none_iff] at hl
    rw [hl] at hmem
    cases hmem
  | some x =>
    have hx : x ∈ entries.filter (fun x => decide (x.1 = e.1)) := by
      obtain ⟨ys, hys⟩ := List.getLast?_eq_some_iff.mp hl
      rw [hys]
      exact List.mem_append_right _ (List.mem_singleton_self _)
    obtain ⟨hx1, hx2⟩ := List.mem_filter.mp hx
    have hid : x.1 = e.1 := by simpa using hx2
    simp only [Option.map_some']
    rw [hsame x hx1 e he hid]

theorem last_listed_of_not_mem (entries : List (Nat × GValue)) (id : Nat)
    (h : id ∉ entries.map Prod.fst) : last_listed entries id = none := by
  unfold last_listed
  have : entries.filter (fun x => decide (x.1 = id)) = [] := by
    rw [List.filter_eq_nil_iff]
    intro a ha hd
    apply h
    have : a.1 = id := by simpa using hd
    rw [← this]
    exact List.mem_map_of_mem _ ha
  rw [this]
  rfl

theorem mode_flag_props_entry (mode_state : IRCChannelModeState) (add combined i : Nat)
    (e : Nat × GValue) (hi : i ∈ mode_flag_bits)
    (he : e ∈ mode_flag_props mode_state add combined i) :
    e = (TP_PROPERTY_LIMIT, GValue.uint mode_state.limit)
      ∨ e = (TP_PROPERTY_PASSWORD, GValue.string mode_state.key)
      ∨ (e.2 = GValue.boolean (decide (add &&& i ≠ 0)) ∧ combined &&& i ≠ 0
          ∧ e.1 ≠ TP_PROPERTY_LIMIT ∧ e.1 ≠ TP_PROPERTY_PASSWORD) := by
  unfold mode_flag_props at he
  by_cases hc : combined &&& i ≠ 0
  · rw [if_pos hc] at he
    simp only [mode_flag_bits, List.mem_cons, List.mem_singleton, List.not_mem_nil, or_false] at hi
    rcases hi with rfl | rfl | rfl | rfl | rfl | rfl | rfl | rfl | rfl | rfl | rfl | rfl | rfl
      | rfl | rfl <;>
    simp [to_prop_id, MODE_FLAG_INVITE_ONLY, MODE_FLAG_MODERATED, MODE_FLAG_PRIVATE,
      MODE_FLAG_SECRET, MODE_FLAG_KEY, MODE_FLAG_USER_LIMIT, LAST_TP_PROPERTY_ENUM,
      TP_PROPERTY_INVITE_ONLY, TP_PROPERTY_MODERATED, TP_PROPERTY_PRIVATE,
      TP_PROPERTY_PASSWORD_REQUIRED, TP_PROPERTY_LIMITED, TP_PROPERTY_LIMIT, TP_PROPERTY_PASSWORD,
      property_signatures] at he ⊢ <;>
    aesop
  · rw [if_neg hc] at he
    cases he

/-- The change list that `change_mode_state` builds when its call only adds
(`combined = add`) or only removes (`add = 0`), as in the two calls made by
`_idle_muc_channel_mode`: entries that name the same property carry the same
value. -/
theorem mode_flag_props_same (mode_state : IRCChannelModeState) (add combined : Nat)
    (h : add = combined ∨ add = 0) :
    ∀ a ∈ (mode_flag_bits.map (mode_flag_props mode_state add combined)).flatten,
      ∀ b ∈ (mode_flag_bits.map (mode_flag_props mode_state add combined)).flatten,
        a.1 = b.1 → a.2 = b.2 := by
  have hentry : ∀ e ∈ (mode_flag_bits.map (mode_flag_props mode_state add combined)).flatten,
      e = (TP_PROPERTY_LIMIT, GValue.uint mode_state.limit)
        ∨ e = (TP_PROPERTY_PASSWORD, GValue.string mode_state.key)
        ∨ (e.2 = GValue.boolean (decide (add = combined)) ∧ e.1 ≠ TP_PROPERTY_LIMIT
            ∧ e.1 ≠ TP_PROPERTY_PASSWORD) := by
    intro e he
    obtain ⟨l, hl, hel⟩ := List.mem_flatten.mp he
    obtain ⟨i, hi, rfl⟩ := List.mem_map.mp hl
    rcases mode_flag_props_entry mode_state add combined i e hi hel with h1 | h1 | ⟨h1, h2, h3, h4⟩
    · exact Or.inl h1
    · exact Or.inr (Or.inl h1)
    · refine Or.inr (Or.inr ⟨?_, h3, h4⟩)
      rw [h1]
      rcases h with h | h
      · subst h
        simp [h2]
      · subst h
        by_cases hc : 0 = combined
        · subst hc
          simp at h2
        · simp [hc]
  intro a ha b hb hab
  rcases hentry a ha with h1 | h1 | ⟨h1, h2, h3⟩ <;>
    rcases hentry b hb with h4 | h4 | ⟨h4, h5, h6⟩
  · rw [h1, h4]
  · rw [h1, h4] at hab
    exact absurd hab (show TP_PROPERTY_LIMIT ≠ TP_PROPERTY_PASSWORD by decide)
  · rw [h1] at hab; exact absurd hab.symm h5
  · rw [h1, h4] at hab
    exact absurd hab (show TP_PROPERTY_PASSWORD ≠ TP_PROPERTY_LIMIT by decide)
  · rw [h1, h4]
  · rw [h1] at hab; exact absurd hab.symm h6
  · rw [h4] at hab; exact absurd hab h2
  · rw [h4] at hab; exact absurd hab h3
  · rw [h1, h4]

/-- The change list that `change_mode_state` builds when only privilege flags
change (the call made by `_idle_muc_channel_names`) is empty: no privilege
flag is mirrored by a property. -/
theorem mode_flag_props_privilege_only (mode_state : IRCChannelModeState) (add c : Nat) :
    (mode_flag_bits.map (mode_flag_props mode_state add
      (c &&& (MODE_FLAG_OPERATOR_PRIVILEGE ||| MODE_FLAG_VOICE_PRIVILEGE
        ||| MODE_FLAG_HALFOP_PRIVILEGE)))).flatten = [] := by
  rw [List.flatten_eq_nil_iff]
  intro l hl
  obtain ⟨i, hi, rfl⟩ := List.mem_map.mp hl
  simp only [mode_flag_bits, List.mem_cons, List.mem_singleton, List.not_mem_nil, or_false] at hi
  rcases hi with rfl | rfl | rfl | rfl | rfl | rfl | rfl | rfl | rfl | rfl | rfl | rfl | rfl
    | rfl | rfl <;>
  simp [mode_flag_props, to_prop_id, MODE_FLAG_INVITE_ONLY, MODE_FLAG_MODERATED,
    MODE_FLAG_PRIVATE, MODE_FLAG_SECRET, MODE_FLAG_KEY, MODE_FLAG_USER_LIMIT,
    LAST_TP_PROPERTY_ENUM, MODE_FLAG_OPERATOR_PRIVILEGE, MODE_FLAG_VOICE_PRIVILEGE,
    MODE_FLAG_HALFOP_PRIVILEGE, Nat.and_assoc, (by decide : 16390 &&& 16 = 0),
    (by decide : 16390 &&& 32 = 0), (by decide : 16390 &&& 256 = 0),
    (by decide : 16390 &&& 512 = 0), (by decide : 16390 &&& 4096 = 0),
    (by decide : 16390 &&& 8192 = 0)]

/-- The change list of a call `change_mode_state (obj, add, remove)` in which
`add` or `remove` is zero: entries that name the same property carry the same
value. -/
theorem change_mode_state_props_same (mode_state : IRCChannelModeState) (add remove : Nat)
    (h : add = 0 ∨ remove = 0) :
    ∀ a ∈ (mode_flag_bits.map (mode_flag_props mode_state
        (add &&& guint_not mode_state.flags)
        (add &&& guint_not mode_state.flags
          ||| (remove &&& guint_not add) &&& mode_state.flags))).flatten,
      ∀ b ∈ (mode_flag_bits.map (mode_flag_props mode_state
          (add &&& guint_not mode_state.flags)
          (add &&& guint_not mode_state.flags
            ||| (remove &&& guint_not add) &&& mode_state.flags))).flatten,
        a.1 = b.1 → a.2 = b.2 := by
  apply mode_flag_props_same
  rcases h with h | h
  · right
    rw [h, Nat.zero_and]
  · left
    rw [h, Nat.zero_and, Nat.zero_and, Nat.or_zero]

/-! ## The claims -/

/-- C1 (evaluated at the failing input): on a fresh channel whose self handle
is 1, an inbound invite followed by the client accepting it with
`add_members [self]` leaves the self handle in local-pending and in
remote-pending at once, so the three membership sets are not pairwise
disjoint. -/
theorem C1_invite_then_accept_overlaps :
    1 ∈ (run example_handles (idle_muc_channel_init 7 (ascii "#room") 1)
          [.invited 2, .add_members [1]]).local_pending
      ∧ 1 ∈ (run example_handles (idle_muc_channel_init 7 (ascii "#room") 1)
          [.invited 2, .add_members [1]]).remote_pending
      ∧ ¬ sets_pairwise_disjoint
          (run example_handles (idle_muc_channel_init 7 (ascii "#room") 1)
            [.invited 2, .add_members [1]]) := by
  decide

/-- C2: whatever the prior membership state and the six deltas, a
`members-changed` signal emitted by `change_sets` carries a net-removed set
that shares no handle with its net-added, net-local-pending and
net-remote-pending sets. -/
theorem C2_net_removed_disjoint (priv : IdleMUCChannelPrivate)
    (add_current remove_current add_local remove_local add_remote remove_remote :
      Option (Finset Nat)) (actor reason : Nat)
    (message : List Nat) (added removed local_pending remote_pending : Finset Nat)
    (actor' reason' : Nat)
    (h : Effect.MEMBERS_CHANGED message added removed local_pending remote_pending actor' reason'
      ∈ (change_sets priv add_current remove_current add_local remove_local add_remote
          remove_remote actor reason).trace.drop priv.trace.length) :
    Disjoint removed added ∧ Disjoint removed local_pending
      ∧ Disjoint removed remote_pending := by
  unfold change_sets at h
  simp only [emit] at h
  split_ifs at h with hc
  · simp only [List.drop_left, List.mem_singleton, Effect.MEMBERS_CHANGED.injEq] at h
    obtain ⟨-, ha, hr, hl, hrp, -, -⟩ := h
    subst ha hr hl hrp
    refine ⟨?_, ?_, ?_⟩ <;> rw [Finset.disjoint_left] <;> intro x hx <;>
      simp only [Finset.mem_sdiff] at hx <;> tauto
  · simp at h

/-- C2 at a concrete call: handle 2 is a current member and is moved to
remote-pending while handle 3 is added; the signal lists 3 as added, 2 as
remote-pending and nothing as removed. -/
theorem C2_witness :
    Effect.MEMBERS_CHANGED [] {3} ∅ ∅ {2} 0 0
        ∈ (change_sets
            (run example_handles (idle_muc_channel_init 7 (ascii "#room") 1) [.join (ascii "bob")])
            (some {3}) (some {2}) none none (some {2}) none 0 0).trace.drop
          (run example_handles (idle_muc_channel_init 7 (ascii "#room") 1)
            [.join (ascii "bob")]).trace.length
      ∧ (Disjoint (∅ : Finset Nat) {3} ∧ Disjoint (∅ : Finset Nat) ∅
          ∧ Disjoint (∅ : Finset Nat) {2}) :=
  ⟨by decide,
    C2_net_removed_disjoint
      (run example_handles (idle_muc_channel_init 7 (ascii "#room") 1) [.join (ascii "bob")])
      (some {3}) (some {2}) none none (some {2}) none 0 0 [] {3} ∅ ∅ {2} 0 0 (by decide)⟩

/-- C3 (evaluated at the failing input): the client asks to join, closes the
channel before the server answers, the server's JOIN echo arrives and later a
KICK of the self nick; the `closed` signal is emitted twice. -/
theorem C3_closed_emitted_twice :
    count_closed
        (run example_handles (idle_muc_channel_init 7 (ascii "#room") 1)
          [.add_members [1], .close]).trace = 1
      ∧ count_closed
        (run example_handles (idle_muc_channel_init 7 (ascii "#room") 1)
          [.add_members [1], .close, .join (ascii "me"),
            .kick (ascii "me") (ascii "bob") 0]).trace = 2 := by
  decide

/-- C4: over every sequence of `change_state` and `join_error` calls on a
fresh channel the `join-ready` signal is emitted at most once; and in any
state whose `join_ready` latch is set, neither call emits it again nor resets
the latch. -/
theorem C4_join_ready_at_most_once :
    (∀ (handle : Nat) (channel_name : List Nat) (own_handle : Nat) (calls : List JoinReadyCall),
      count_join_ready
        (join_ready_calls (idle_muc_channel_init handle channel_name own_handle) calls).trace
          ≤ 1)
    ∧ (∀ (priv : IdleMUCChannelPrivate) (call : JoinReadyCall), priv.join_ready = true →
        (call.apply priv).join_ready = true
          ∧ count_join_ready (call.apply priv).trace = count_join_ready priv.trace) := by
  constructor
  · intro handle channel_name own_handle calls
    exact (join_ready_inv_foldl calls _
      (join_ready_inv_init handle channel_name own_handle)).2
  · intro priv call hjr
    cases call with
    | change_state state =>
      obtain ⟨hj, hc⟩ := change_state_join_ready priv state
      simp [JoinReadyCall.apply, hj, hc, hjr]
    | join_error err =>
      obtain ⟨hj, hc⟩ := join_error_join_ready priv err
      simp [JoinReadyCall.apply, hj, hc, hjr]

/-- C4 at a concrete run: after the channel reached JOINED (one `join-ready`),
a later join error with code 2 emits nothing more. -/
theorem C4_witness :
    (join_ready_calls (idle_muc_channel_init 7 (ascii "#room") 1)
        [.change_state .MUC_STATE_JOINING, .change_state .MUC_STATE_JOINED]).join_ready = true
      ∧ count_join_ready
          (join_ready_calls (idle_muc_channel_init 7 (ascii "#room") 1)
            [.change_state .MUC_STATE_JOINING, .change_state .MUC_STATE_JOINED]).trace = 1
      ∧ ((JoinReadyCall.join_error 2).apply
            (join_ready_calls (idle_muc_channel_init 7 (ascii "#room") 1)
              [.change_state .MUC_STATE_JOINING, .change_state .MUC_STATE_JOINED])).join_ready
          = true
      ∧ count_join_ready ((JoinReadyCall.join_error 2).apply
            (join_ready_calls (idle_muc_channel_init 7 (ascii "#room") 1)
              [.change_state .MUC_STATE_JOINING, .change_state .MUC_STATE_JOINED])).trace
          = count_join_ready
              (join_ready_calls (idle_muc_channel_init 7 (ascii "#room") 1)
                [.change_state .MUC_STATE_JOINING, .change_state .MUC_STATE_JOINED]).trace :=
  ⟨by decide, by decide,
    C4_join_ready_at_most_once.2
      (join_ready_calls (idle_muc_channel_init 7 (ascii "#room") 1)
        [.change_state .MUC_STATE_JOINING, .change_state .MUC_STATE_JOINED])
      (.join_error 2) (by decide)⟩

/-- C5: in every state reached from a fresh channel by a sequence of
`change_mode_state` calls, if `mode_state.flags` holds neither OPERATOR nor
HALFOP then no property has its WRITE flag set. -/
theorem C5_no_privilege_no_write (handle : Nat) (channel_name : List Nat) (own_handle : Nat)
    (calls : List (Nat × Nat))
    (hflags :
      (change_mode_state_calls (idle_muc_channel_init handle channel_name own_handle)
          calls).mode_state.flags
        &&& (MODE_FLAG_OPERATOR_PRIVILEGE ||| MODE_FLAG_HALFOP_PRIVILEGE) = 0) :
    ∀ p ∈ (change_mode_state_calls (idle_muc_channel_init handle channel_name own_handle)
        calls).properties,
      p.flags &&& TP_PROPERTY_FLAG_WRITE = 0 := by
  intro p hp
  have hinv := write_inv_calls calls _ (write_inv_init handle channel_name own_handle)
  have hb := (and_op_or_halfop_eq_zero_iff _).mp hflags
  obtain ⟨i, hi, hget⟩ := List.getElem_of_mem hp
  have hnw := hinv.2 hb i p (by rw [List.getElem?_eq_getElem hi, hget])
  exact (and_two_eq_zero_iff _).mpr hnw

/-- C5 at a concrete run: operator is gained (WRITE granted on eight
properties) and lost again; afterwards no property is writable. -/
theorem C5_witness :
    (change_mode_state_calls (idle_muc_channel_init 7 (ascii "#room") 1)
        [(MODE_FLAG_OPERATOR_PRIVILEGE, 0)]).properties.map (·.flags)
        = [2, 2, 2, 2, 2, 2, 2, 2, 0, 0]
      ∧ ∀ p ∈ (change_mode_state_calls (idle_muc_channel_init 7 (ascii "#room") 1)
          [(MODE_FLAG_OPERATOR_PRIVILEGE, 0), (0, MODE_FLAG_OPERATOR_PRIVILEGE)]).properties,
        p.flags &&& TP_PROPERTY_FLAG_WRITE = 0 :=
  ⟨by decide,
    C5_no_privilege_no_write 7 (ascii "#room") 1
      [(MODE_FLAG_OPERATOR_PRIVILEGE, 0), (0, MODE_FLAG_OPERATOR_PRIVILEGE)] (by decide)⟩

/-- C6: for a supported message type (its header and footer exist) and a
`max_msg_len` of at least `len(header) + len(footer)`, every line returned by
`idle_text_encode_and_split` has at most `max_msg_len` bytes. -/
theorem C6_line_length_bound (fuel type : Nat) (recipient text : List Nat)
    (max_msg_len : Nat) (header footer : List Nat) (messages bodies : List (List Nat))
    (htype : header_footer type recipient = some (header, footer))
    (hlen : header.length + footer.length ≤ max_msg_len)
    (hret : idle_text_encode_and_split fuel type recipient text max_msg_len
      = .ok (messages, bodies)) :
    ∀ line ∈ messages, line.length ≤ max_msg_len := by
  unfold idle_text_encode_and_split at hret
  rw [htype] at hret
  simp only [] at hret
  have hframes := split_loop_frames _ _ _ _ _ _ _ hret
  have hbody := split_loop_body_length _ _ _ _ _ _ _ hret
  have hsub := gsize_sub_le max_msg_len (header.length + footer.length) hlen
  intro line hline
  rw [hframes, List.mem_map] at hline
  obtain ⟨body, hb, rfl⟩ := hline
  have := hbody body hb
  simp only [List.length_append]
  omega

/-- C6 at a concrete call: `max_msg_len` 20, recipient `#r`, a ten-byte text
with a three-byte code point; both lines have at most 20 bytes. -/
theorem C6_witness :
    idle_text_encode_and_split 10 TP_CHANNEL_TEXT_MESSAGE_TYPE_NORMAL (ascii "#r")
        (ascii "ABCDE" ++ [226, 130, 172] ++ ascii "FG") 20
      = .ok ([ascii "PRIVMSG #r :ABCDE", ascii "PRIVMSG #r :" ++ [226, 130, 172] ++ ascii "FG"],
          [ascii "ABCDE", [226, 130, 172] ++ ascii "FG"])
      ∧ ∀ line ∈ [ascii "PRIVMSG #r :ABCDE",
            ascii "PRIVMSG #r :" ++ [226, 130, 172] ++ ascii "FG"],
          line.length ≤ 20 :=
  ⟨by decide,
    C6_line_length_bound 10 TP_CHANNEL_TEXT_MESSAGE_TYPE_NORMAL (ascii "#r")
      (ascii "ABCDE" ++ [226, 130, 172] ++ ascii "FG") 20 (ascii "PRIVMSG #r :") []
      [ascii "PRIVMSG #r :ABCDE", ascii "PRIVMSG #r :" ++ [226, 130, 172] ++ ascii "FG"]
      [ascii "ABCDE", [226, 130, 172] ++ ascii "FG"] (by decide) (by decide) (by decide)⟩

/-- C7, as stated, fails on a line of 2^32 bytes: the text of 2^32 letters `a`
and a newline, sent as NORMAL to `#r` with `max_msg_len` 20 (a budget of 8
bytes), returns one line with one empty body, because the newline test and the
length both keep only the low 32 bits of the offset of the newline; the text
without its newline is not empty. -/
theorem C7_counterexample :
    idle_text_encode_and_split 1 TP_CHANNEL_TEXT_MESSAGE_TYPE_NORMAL (ascii "#r")
        (List.replicate 4294967296 97 ++ [10]) 20
      = .ok ([ascii "PRIVMSG #r :"], [[]])
    ∧ ([[]] : List (List Nat)).flatten
        ≠ (List.replicate 4294967296 97 ++ [10]).filter (fun b => decide (b ≠ 10)) := by
  constructor
  · have h := encode_newline_round TP_CHANNEL_TEXT_MESSAGE_TYPE_NORMAL (ascii "#r")
      (ascii "PRIVMSG #r :") [] 20 (List.replicate 4294967296 97) (by decide)
      (not_mem_replicate_a _) (by rw [List.length_replicate]; decide)
      (by rw [List.length_replicate]; decide)
    rw [List.length_replicate] at h
    have e : (to_gint 4294967296).toNat = 0 := by decide
    rw [e, List.take_zero] at h
    exact h
  · intro h
    exact filter_replicate_ne_nil 4294967296 (by decide) [10] h.symm

/-- C7 (amended): whenever `idle_text_encode_and_split` returns, no body
contains a newline byte (nor does any line, the recipient having none), and
for a text shorter than 2^32 bytes the bodies concatenated in order are the
text with every newline byte deleted. -/
theorem C7_bodies_are_text_without_newlines (fuel type : Nat) (recipient text : List Nat)
    (max_msg_len : Nat) (messages bodies : List (List Nat))
    (hret : idle_text_encode_and_split fuel type recipient text max_msg_len
      = .ok (messages, bodies)) :
    (∀ body ∈ bodies, 10 ∉ body)
      ∧ (10 ∉ recipient → ∀ line ∈ messages, 10 ∉ line)
      ∧ (text.length < 4294967296 →
          bodies.flatten = text.filter (fun b => decide (b ≠ 10))) := by
  unfold idle_text_encode_and_split at hret
  cases hhf : header_footer type recipient with
  | none => rw [hhf] at hret; cases hret
  | some hf =>
    obtain ⟨header, footer⟩ := hf
    rw [hhf] at hret
    simp only [] at hret
    have hframes := split_loop_frames _ _ _ _ _ _ _ hret
    have h1 := split_loop_no_newline _ _ _ _ _ _ _ hret
    refine ⟨h1, ?_, fun hlen => (split_loop_bodies _ _ _ _ _ _ _ hlen hret).2⟩
    intro hr line hline
    obtain ⟨hh, hf⟩ := header_footer_no_newline _ _ _ _ hhf hr
    rw [hframes, List.mem_map] at hline
    obtain ⟨body, hb, rfl⟩ := hline
    simp only [List.mem_append, not_or]
    exact ⟨⟨hh, h1 body hb⟩, hf⟩

/-- C7 (amended) at a concrete call: a text with three newlines, two of them
adjacent, is sent as four bodies (one empty) whose concatenation is `ABCDE`. -/
theorem C7_witness :
    idle_text_encode_and_split 10 TP_CHANNEL_TEXT_MESSAGE_TYPE_NOTICE (ascii "#r")
        (ascii "AB\nCD\n\nE") 20
      = .ok ([ascii "NOTICE #r :AB", ascii "NOTICE #r :CD", ascii "NOTICE #r :",
            ascii "NOTICE #r :E"], [ascii "AB", ascii "CD", [], ascii "E"])
      ∧ (ascii "AB\nCD\n\nE").length < 4294967296
      ∧ ((∀ body ∈ [ascii "AB", ascii "CD", [], ascii "E"], 10 ∉ body)
        ∧ (10 ∉ ascii "#r" → ∀ line ∈ [ascii "NOTICE #r :AB", ascii "NOTICE #r :CD",
            ascii "NOTICE #r :", ascii "NOTICE #r :E"], 10 ∉ line)
        ∧ ((ascii "AB\nCD\n\nE").length < 4294967296 →
            [ascii "AB", ascii "CD", [], ascii "E"].flatten
              = (ascii "AB\nCD\n\nE").filter (fun b => decide (b ≠ 10)))) :=
  ⟨by decide, by decide,
    C7_bodies_are_text_without_newlines 10 TP_CHANNEL_TEXT_MESSAGE_TYPE_NOTICE (ascii "#r")
      (ascii "AB\nCD\n\nE") 20
      [ascii "NOTICE #r :AB", ascii "NOTICE #r :CD", ascii "NOTICE #r :", ascii "NOTICE #r :E"]
      [ascii "AB", ascii "CD", [], ascii "E"] (by decide)⟩

/-- C8, as stated, fails on a line of 2^32 + 1 bytes: the valid UTF-8 text
EURO SIGN (E2 82 AC) + 2^32 - 2 letters `a` + newline, sent as NORMAL to `#r`
with `max_msg_len` 20 (a budget of 8 bytes), has its newline at offset
2^32 + 1, whose low 32 bits are 1; the call returns the single body `E2`, the
first byte of the EURO SIGN, which is not valid UTF-8. -/
theorem C8_counterexample :
    utf8_valid (226 :: 130 :: 172 :: List.replicate 4294967294 97 ++ [10])
      ∧ idle_text_encode_and_split 1 TP_CHANNEL_TEXT_MESSAGE_TYPE_NORMAL (ascii "#r")
          (226 :: 130 :: 172 :: List.replicate 4294967294 97 ++ [10]) 20
        = .ok ([ascii "PRIVMSG #r :" ++ [226]], [[226]])
      ∧ ¬ utf8_valid [226] := by
  refine ⟨utf8_valid_euro_replicate _, ?_, by decide⟩
  have hlen : (226 :: 130 :: 172 :: List.replicate 4294967294 97).length = 4294967297 := by
    rw [List.length_cons, List.length_cons, List.length_cons, List.length_replicate]
  have h := encode_newline_round TP_CHANNEL_TEXT_MESSAGE_TYPE_NORMAL (ascii "#r")
    (ascii "PRIVMSG #r :") [] 20 (226 :: 130 :: 172 :: List.replicate 4294967294 97)
    (by decide) (not_mem_euro_replicate _) (by rw [hlen]; decide) (by rw [hlen]; decide)
  rw [hlen] at h
  have e : (to_gint 4294967297).toNat = 1 := by decide
  rw [e, List.take_succ_cons, List.take_zero, List.append_nil] at h
  exact h

/-- C8 (amended): for a valid UTF-8 text shorter than 2^32 bytes, every body
returned by `idle_text_encode_and_split` is valid UTF-8: the text is only ever
cut at a code-point boundary. -/
theorem C8_bodies_valid_utf8 (fuel type : Nat) (recipient text : List Nat)
    (max_msg_len : Nat) (messages bodies : List (List Nat))
    (hvalid : utf8_valid text) (hlen : text.length < 4294967296)
    (hret : idle_text_encode_and_split fuel type recipient text max_msg_len
      = .ok (messages, bodies)) :
    ∀ body ∈ bodies, utf8_valid body := by
  unfold idle_text_encode_and_split at hret
  cases hhf : header_footer type recipient with
  | none => rw [hhf] at hret; cases hret
  | some hf =>
    obtain ⟨header, footer⟩ := hf
    rw [hhf] at hret
    exact split_loop_utf8 _ _ _ _ _ _ _ hvalid hlen hret

/-- C8 (amended) at a concrete call: budget 8, text `ABCDE` + EURO SIGN (three
bytes) + `FG`; the cut falls in front of the EURO SIGN and both bodies are
valid. -/
theorem C8_witness :
    utf8_valid (ascii "ABCDE" ++ [226, 130, 172] ++ ascii "FG")
      ∧ (ascii "ABCDE" ++ [226, 130, 172] ++ ascii "FG").length < 4294967296
      ∧ idle_text_encode_and_split 10 TP_CHANNEL_TEXT_MESSAGE_TYPE_NORMAL (ascii "#r")
          (ascii "ABCDE" ++ [226, 130, 172] ++ ascii "FG") 20
        = .ok ([ascii "PRIVMSG #r :ABCDE",
              ascii "PRIVMSG #r :" ++ [226, 130, 172] ++ ascii "FG"],
            [ascii "ABCDE", [226, 130, 172] ++ ascii "FG"])
      ∧ ∀ body ∈ [ascii "ABCDE", [226, 130, 172] ++ ascii "FG"], utf8_valid body :=
  ⟨by decide, by decide, by decide,
    C8_bodies_valid_utf8 10 TP_CHANNEL_TEXT_MESSAGE_TYPE_NORMAL (ascii "#r")
      (ascii "ABCDE" ++ [226, 130, 172] ++ ascii "FG") 20
      [ascii "PRIVMSG #r :ABCDE", ascii "PRIVMSG #r :" ++ [226, 130, 172] ++ ascii "FG"]
      [ascii "ABCDE", [226, 130, 172] ++ ascii "FG"] (by decide) (by decide) (by decide)⟩

/-- C9: `idle_text_encode_and_split` returns as many lines as bodies and the
i-th line is `header ++ bodies[i] ++ footer`, with header `PRIVMSG <rcpt> :`
for NORMAL, `PRIVMSG <rcpt> :\001ACTION ` for ACTION, `NOTICE <rcpt> :` for
NOTICE, and footer `\001` for ACTION only; any other type yields the error
NotImplemented and no lines. -/
theorem C9_lines_are_framed_bodies (fuel : Nat) (recipient text : List Nat)
    (max_msg_len : Nat) :
    (∀ messages bodies : List (List Nat),
        idle_text_encode_and_split fuel TP_CHANNEL_TEXT_MESSAGE_TYPE_NORMAL recipient text
          max_msg_len = .ok (messages, bodies) →
        messages.length = bodies.length
          ∧ ∀ i : Nat, messages[i]? = (bodies[i]?).map fun body =>
              ascii "PRIVMSG " ++ recipient ++ ascii " :" ++ body)
    ∧ (∀ messages bodies : List (List Nat),
        idle_text_encode_and_split fuel TP_CHANNEL_TEXT_MESSAGE_TYPE_ACTION recipient text
          max_msg_len = .ok (messages, bodies) →
        messages.length = bodies.length
          ∧ ∀ i : Nat, messages[i]? = (bodies[i]?).map fun body =>
              ascii "PRIVMSG " ++ recipient ++ ascii " :\x01ACTION " ++ body ++ ascii "\x01")
    ∧ (∀ messages bodies : List (List Nat),
        idle_text_encode_and_split fuel TP_CHANNEL_TEXT_MESSAGE_TYPE_NOTICE recipient text
          max_msg_len = .ok (messages, bodies) →
        messages.length = bodies.length
          ∧ ∀ i : Nat, messages[i]? = (bodies[i]?).map fun body =>
              ascii "NOTICE " ++ recipient ++ ascii " :" ++ body)
    ∧ (∀ type : Nat, type ≠ TP_CHANNEL_TEXT_MESSAGE_TYPE_NORMAL →
        type ≠ TP_CHANNEL_TEXT_MESSAGE_TYPE_ACTION →
        type ≠ TP_CHANNEL_TEXT_MESSAGE_TYPE_NOTICE →
        idle_text_encode_and_split fuel type recipient text max_msg_len
          = .error TP_ERROR_NOT_IMPLEMENTED) := by
  refine ⟨?_, ?_, ?_, ?_⟩
  · intro messages bodies h
    have := encode_frames _ _ _ _ _ _ _ _ _ (by rfl) h
    simpa using this
  · intro messages bodies h
    exact encode_frames _ _ _ _ _ _ _ _ _ (by rfl) h
  · intro messages bodies h
    have := encode_frames _ _ _ _ _ _ _ _ _ (by rfl) h
    simpa using this
  · intro type h0 h1 h2
    unfold idle_text_encode_and_split header_footer
    rw [if_neg h0, if_neg h1, if_neg h2]

/-- C9 at a concrete call: an ACTION with a newline gives two framed lines;
message type 3 gives the error. -/
theorem C9_witness :
    idle_text_encode_and_split 10 TP_CHANNEL_TEXT_MESSAGE_TYPE_ACTION (ascii "#r")
        (ascii "a\nb") 510
      = .ok ([ascii "PRIVMSG #r :\x01ACTION a\x01", ascii "PRIVMSG #r :\x01ACTION b\x01"],
          [ascii "a", ascii "b"])
      ∧ ([ascii "PRIVMSG #r :\x01ACTION a\x01", ascii "PRIVMSG #r :\x01ACTION b\x01"].length
            = [ascii "a", ascii "b"].length
          ∧ ∀ i : Nat,
            [ascii "PRIVMSG #r :\x01ACTION a\x01", ascii "PRIVMSG #r :\x01ACTION b\x01"][i]?
              = ([ascii "a", ascii "b"][i]?).map fun body =>
                  ascii "PRIVMSG " ++ ascii "#r" ++ ascii " :\x01ACTION " ++ body ++ ascii "\x01")
      ∧ idle_text_encode_and_split 10 3 (ascii "#r") (ascii "a\nb") 510
          = .error TP_ERROR_NOT_IMPLEMENTED :=
  ⟨by decide,
    (C9_lines_are_framed_bodies 10 (ascii "#r") (ascii "a\nb") 510).2.1
      [ascii "PRIVMSG #r :\x01ACTION a\x01", ascii "PRIVMSG #r :\x01ACTION b\x01"]
      [ascii "a", ascii "b"] (by decide),
    (C9_lines_are_framed_bodies 10 (ascii "#r") (ascii "a\nb") 510).2.2.2 3
      (by decide) (by decide) (by decide)⟩

/-- C10 as stated fails: with the filter the identity, (1) a body with a
newline is sent as two ACTION lines that decode to its two halves, (2) an
empty body produces no line at all, (3) a body over the byte budget (here 3)
is sent as several lines, and (4) when `max_msg_len` is below the framing
length or does not fit a `gint` the function does not return. -/
theorem C10_counterexample :
    (idle_text_encode_and_split 10 TP_CHANNEL_TEXT_MESSAGE_TYPE_ACTION (ascii "#r")
          (ascii "a\nb") 510
        = .ok ([ascii "PRIVMSG #r :" ++ ascii "\x01ACTION a\x01",
              ascii "PRIVMSG #r :" ++ ascii "\x01ACTION b\x01"], [ascii "a", ascii "b"])
      ∧ idle_text_decode id (ascii "\x01ACTION a\x01")
          = .ok (some (TP_CHANNEL_TEXT_MESSAGE_TYPE_ACTION, ascii "a"))
      ∧ idle_text_decode id (ascii "\x01ACTION b\x01")
          = .ok (some (TP_CHANNEL_TEXT_MESSAGE_TYPE_ACTION, ascii "b"))
      ∧ ascii "a" ≠ ascii "a\nb" ∧ ascii "b" ≠ ascii "a\nb")
    ∧ idle_text_encode_and_split 10 TP_CHANNEL_TEXT_MESSAGE_TYPE_ACTION (ascii "#r") [] 510
        = .ok ([], [])
    ∧ idle_text_encode_and_split 10 TP_CHANNEL_TEXT_MESSAGE_TYPE_ACTION (ascii "#r")
          (ascii "abcdef") 24
        = .ok ([ascii "PRIVMSG #r :" ++ ascii "\x01ACTION ab\x01",
              ascii "PRIVMSG #r :" ++ ascii "\x01ACTION cd\x01",
              ascii "PRIVMSG #r :" ++ ascii "\x01ACTION ef\x01"],
            [ascii "ab", ascii "cd", ascii "ef"])
    ∧ idle_text_encode_and_split 10 TP_CHANNEL_TEXT_MESSAGE_TYPE_ACTION (ascii "#r")
          (ascii "a") 5 = .undefined
    ∧ idle_text_encode_and_split 10 TP_CHANNEL_TEXT_MESSAGE_TYPE_ACTION (ascii "#r")
          (ascii "a") 2147483748 = .undefined := by
  refine ⟨⟨?_, ?_, ?_, ?_, ?_⟩, ?_, ?_, ?_, ?_⟩ <;> decide

/-- C10 as amended: for every non-empty body without newline that fits
`max_msg_len` together with the ACTION header and footer, `max_msg_len` being
below 2^31 and the filter leaving the body unchanged, encoding the body as
ACTION returns exactly one line, `PRIVMSG <rcpt> :` followed by a payload, and
decoding that payload yields type ACTION and the original body. -/
theorem C10_action_round_trip (idle_ctcp_kill_blingbling : List Nat → List Nat) (fuel : Nat)
    (recipient body : List Nat) (max_msg_len : Nat)
    (hne : body ≠ []) (hnl : 10 ∉ body)
    (hfit : (ascii "PRIVMSG " ++ recipient ++ ascii " :\x01ACTION ").length + body.length
      + (ascii "\x01").length ≤ max_msg_len)
    (hmax : max_msg_len < 2147483648)
    (hkill : idle_ctcp_kill_blingbling body = body) :
    ∃ payload : List Nat,
      idle_text_encode_and_split (fuel + 1) TP_CHANNEL_TEXT_MESSAGE_TYPE_ACTION recipient body
          max_msg_len
        = .ok ([ascii "PRIVMSG " ++ recipient ++ ascii " :" ++ payload], [body])
      ∧ idle_text_decode idle_ctcp_kill_blingbling payload
        = .ok (some (TP_CHANNEL_TEXT_MESSAGE_TYPE_ACTION, body)) := by
  refine ⟨ascii "\x01ACTION " ++ body ++ ascii "\x01", ?_, ?_⟩
  · unfold idle_text_encode_and_split
    have hhf : header_footer TP_CHANNEL_TEXT_MESSAGE_TYPE_ACTION recipient
        = some (ascii "PRIVMSG " ++ recipient ++ ascii " :\x01ACTION ", ascii "\x01") := rfl
    rw [hhf]
    simp only []
    have hsub := gsize_sub_le max_msg_len
      ((ascii "PRIVMSG " ++ recipient ++ ascii " :\x01ACTION ").length + (ascii "\x01").length)
      (by omega)
    have hsub2 : body.length ≤ gsize_sub max_msg_len
        ((ascii "PRIVMSG " ++ recipient ++ ascii " :\x01ACTION ").length
          + (ascii "\x01").length) := by
      unfold gsize_sub
      omega
    rw [split_loop_single _ _ _ _ _ hne hnl hsub2 (by omega)]
    have e : ascii " :\x01ACTION " = ascii " :" ++ ascii "\x01ACTION " := by decide
    rw [e]
    simp only [List.append_assoc]
  · have hhead : (ascii "\x01ACTION " ++ body ++ ascii "\x01").head? = some 1 := rfl
    have hcmp : g_ascii_strncasecmp (ascii "\x01ACTION " ++ body ++ ascii "\x01")
        (ascii "\x01ACTION ") (ascii "\x01ACTION ").length = 0 := by
      simp [ascii, g_ascii_strncasecmp, g_ascii_tolower]
    have hdrop : (ascii "\x01ACTION " ++ body ++ ascii "\x01").drop 8
        = body ++ ascii "\x01" := by
      rw [List.append_assoc]
      exact List.drop_left (ascii "\x01ACTION ") _
    have hl : (body ++ ascii "\x01").length = body.length + 1 := by
      rw [List.length_append]; rfl
    have hlen : gsize_sub (body ++ ascii "\x01").length 1 = body.length := by
      rw [hl]
      unfold gsize_sub
      omega
    have hdup : g_strndup ((ascii "\x01ACTION " ++ body ++ ascii "\x01").drop 8)
        (gsize_sub ((ascii "\x01ACTION " ++ body ++ ascii "\x01").drop 8).length 1)
        = some body := by
      rw [hdrop, hlen, g_strndup_of_lt _ _ (by omega), List.take_left]
    rw [idle_text_decode_action _ _ _ hhead hcmp hdup, hkill]

/-- C10 as amended, at a concrete call: the body `waves` sent to `#r` with
`max_msg_len` 510 comes back as ACTION `waves`. -/
theorem C10_witness :
    ascii "waves" ≠ [] ∧ 10 ∉ ascii "waves"
      ∧ (ascii "PRIVMSG " ++ ascii "#r" ++ ascii " :\x01ACTION ").length + (ascii "waves").length
          + (ascii "\x01").length ≤ 510
      ∧ ∃ payload : List Nat,
          idle_text_encode_and_split (0 + 1) TP_CHANNEL_TEXT_MESSAGE_TYPE_ACTION (ascii "#r")
              (ascii "waves") 510
            = .ok ([ascii "PRIVMSG " ++ ascii "#r" ++ ascii " :" ++ payload], [ascii "waves"])
          ∧ idle_text_decode id payload
            = .ok (some (TP_CHANNEL_TEXT_MESSAGE_TYPE_ACTION, ascii "waves")) :=
  ⟨by decide, by decide, by decide,
    C10_action_round_trip id 0 (ascii "#r") (ascii "waves") 510 (by decide) (by decide)
      (by decide) (by decide) rfl⟩

/-- C11 as stated fails: with the filter the identity and `max_msg_len` 510,
(1) the body `\001ACTION hi\001` has no newline and fits, is sent as one
NORMAL line, and decodes to type ACTION with body `hi`; (2) the body
`\001VERSION\001` is sent as one line that `idle_text_decode` refuses;
(3) an empty body produces no line; (4) when `max_msg_len` does not fit a
`gint` the function does not return. -/
theorem C11_counterexample :
    (idle_text_encode_and_split 10 TP_CHANNEL_TEXT_MESSAGE_TYPE_NORMAL (ascii "#r")
          (ascii "\x01ACTION hi\x01") 510
        = .ok ([ascii "PRIVMSG #r :" ++ ascii "\x01ACTION hi\x01"], [ascii "\x01ACTION hi\x01"])
      ∧ idle_text_decode id (ascii "\x01ACTION hi\x01")
          = .ok (some (TP_CHANNEL_TEXT_MESSAGE_TYPE_ACTION, ascii "hi")))
    ∧ (idle_text_encode_and_split 10 TP_CHANNEL_TEXT_MESSAGE_TYPE_NORMAL (ascii "#r")
          (ascii "\x01VERSION\x01") 510
        = .ok ([ascii "PRIVMSG #r :" ++ ascii "\x01VERSION\x01"], [ascii "\x01VERSION\x01"])
      ∧ idle_text_decode id (ascii "\x01VERSION\x01") = .ok none)
    ∧ idle_text_encode_and_split 10 TP_CHANNEL_TEXT_MESSAGE_TYPE_NORMAL (ascii "#r") [] 510
        = .ok ([], [])
    ∧ idle_text_encode_and_split 10 TP_CHANNEL_TEXT_MESSAGE_TYPE_NORMAL (ascii "#r")
          (ascii "a") 2147483748 = .undefined := by
  refine ⟨⟨?_, ?_⟩, ⟨?_, ?_⟩, ?_, ?_⟩ <;> decide

/-- C11 as amended: for every non-empty body without newline whose first byte
is not `\001` and that fits `max_msg_len` together with the header
`PRIVMSG <rcpt> :`, `max_msg_len` being below 2^31 and the filter leaving the
body unchanged, encoding the body as NORMAL returns exactly one line, the
header followed by the body, and decoding that payload yields type NORMAL and
the original body. -/
theorem C11_normal_round_trip (idle_ctcp_kill_blingbling : List Nat → List Nat) (fuel : Nat)
    (recipient body : List Nat) (max_msg_len : Nat)
    (hne : body ≠ []) (hnl : 10 ∉ body) (hctcp : body.head? ≠ some 1)
    (hfit : (ascii "PRIVMSG " ++ recipient ++ ascii " :").length + body.length ≤ max_msg_len)
    (hmax : max_msg_len < 2147483648)
    (hkill : idle_ctcp_kill_blingbling body = body) :
    idle_text_encode_and_split (fuel + 1) TP_CHANNEL_TEXT_MESSAGE_TYPE_NORMAL recipient body
        max_msg_len
      = .ok ([ascii "PRIVMSG " ++ recipient ++ ascii " :" ++ body], [body])
    ∧ idle_text_decode idle_ctcp_kill_blingbling body
      = .ok (some (TP_CHANNEL_TEXT_MESSAGE_TYPE_NORMAL, body)) := by
  constructor
  · unfold idle_text_encode_and_split
    have hhf : header_footer TP_CHANNEL_TEXT_MESSAGE_TYPE_NORMAL recipient
        = some (ascii "PRIVMSG " ++ recipient ++ ascii " :", []) := rfl
    rw [hhf]
    simp only []
    have hsub2 : body.length ≤ gsize_sub max_msg_len
        ((ascii "PRIVMSG " ++ recipient ++ ascii " :").length + ([] : List Nat).length) := by
      unfold gsize_sub
      simp only [List.length_nil]
      omega
    have hsub := gsize_sub_le max_msg_len
      ((ascii "PRIVMSG " ++ recipient ++ ascii " :").length + ([] : List Nat).length)
      (by simp only [List.length_nil]; omega)
    rw [split_loop_single _ _ _ _ _ hne hnl hsub2 (by omega)]
    simp only [List.append_nil]
  · unfold idle_text_decode
    rw [if_pos hctcp, hkill]

/-- C11 as amended, at a concrete call: the body `hello` sent to `#r` with
`max_msg_len` 510 comes back as NORMAL `hello`. -/
theorem C11_witness :
    ascii "hello" ≠ [] ∧ 10 ∉ ascii "hello" ∧ (ascii "hello").head? ≠ some 1
      ∧ idle_text_encode_and_split (0 + 1) TP_CHANNEL_TEXT_MESSAGE_TYPE_NORMAL (ascii "#r")
            (ascii "hello") 510
          = .ok ([ascii "PRIVMSG " ++ ascii "#r" ++ ascii " :" ++ ascii "hello"], [ascii "hello"])
      ∧ idle_text_decode id (ascii "hello")
          = .ok (some (TP_CHANNEL_TEXT_MESSAGE_TYPE_NORMAL, ascii "hello")) :=
  ⟨by decide, by decide, by decide,
    C11_normal_round_trip id 0 (ascii "#r") (ascii "hello") 510 (by decide) (by decide)
      (by decide) (by decide) (by decide) rfl⟩

/-- C12 as stated fails: on a channel whose mode flags already hold
INVITE_ONLY, `change_mode_state (INVITE_ONLY, 0)` followed by
`change_mode_state (0, INVITE_ONLY)` leaves the flags at 0, not at INVITE_ONLY. -/
theorem C12_counterexample :
    (change_mode_state_calls (idle_muc_channel_init 7 (ascii "#room") 1)
        [(MODE_FLAG_INVITE_ONLY, 0)]).mode_state.flags = MODE_FLAG_INVITE_ONLY
      ∧ (change_mode_state
          (change_mode_state
            (change_mode_state_calls (idle_muc_channel_init 7 (ascii "#room") 1)
              [(MODE_FLAG_INVITE_ONLY, 0)])
            MODE_FLAG_INVITE_ONLY 0)
          0 MODE_FLAG_INVITE_ONLY).mode_state.flags = 0 := by
  decide

/-- C12 as amended: for every channel state whose mode flags are a 32-bit word
and every mask `add`, `change_mode_state (add, 0)` followed by
`change_mode_state (0, add)` leaves `mode_state.flags` at its previous value
with the bits of `add` cleared; so the previous value is restored whenever
`add` shares no bit with it. -/
theorem C12_add_then_remove (priv : IdleMUCChannelPrivate) (add : Nat)
    (hflags : priv.mode_state.flags < 4294967296) :
    (change_mode_state (change_mode_state priv add 0) 0 add).mode_state.flags
        = priv.mode_state.flags &&& guint_not add
      ∧ (add &&& priv.mode_state.flags = 0 →
          (change_mode_state (change_mode_state priv add 0) 0 add).mode_state.flags
            = priv.mode_state.flags) := by
  refine ⟨add_then_remove_flags priv add hflags, fun h => ?_⟩
  rw [add_then_remove_flags priv add hflags, and_guint_not_of_disjoint _ _ hflags h]

/-- C12 as amended, at a concrete call: on a channel with MODERATED set, adding
and then removing INVITE_ONLY restores the flags. -/
theorem C12_witness :
    (change_mode_state_calls (idle_muc_channel_init 7 (ascii "#room") 1)
        [(MODE_FLAG_MODERATED, 0)]).mode_state.flags < 4294967296
      ∧ MODE_FLAG_INVITE_ONLY
          &&& (change_mode_state_calls (idle_muc_channel_init 7 (ascii "#room") 1)
            [(MODE_FLAG_MODERATED, 0)]).mode_state.flags = 0
      ∧ (change_mode_state
          (change_mode_state
            (change_mode_state_calls (idle_muc_channel_init 7 (ascii "#room") 1)
              [(MODE_FLAG_MODERATED, 0)])
            MODE_FLAG_INVITE_ONLY 0)
          0 MODE_FLAG_INVITE_ONLY).mode_state.flags
        = (change_mode_state_calls (idle_muc_channel_init 7 (ascii "#room") 1)
            [(MODE_FLAG_MODERATED, 0)]).mode_state.flags :=
  ⟨by decide, by decide,
    (C12_add_then_remove
      (change_mode_state_calls (idle_muc_channel_init 7 (ascii "#room") 1)
        [(MODE_FLAG_MODERATED, 0)])
      MODE_FLAG_INVITE_ONLY (by decide)).2 (by decide)⟩

/-- C13: `acknowledge_pending_messages` changes nothing but the queue and
handles the ids left to right.  Either every id was in the queue at its turn:
it succeeds, the queue lost exactly one message per id (the original queue is
a rearrangement of the removed messages followed by the new queue) and the
rest kept its order (the new queue is a sublist of the original).  Or
`ids = pre ++ bad :: post` where `bad` is the first id missing at its turn: it
fails with InvalidArgument and the channel is exactly as the successful
acknowledgement of `pre` left it, whatever `post` holds.  With ids 0, 1, 2
queued, acknowledging `[1, 5]` fails and leaves ids 0 and 2. -/
theorem C13_acknowledge_left_to_right :
    (∀ (priv : IdleMUCChannelPrivate) (ids : List Nat),
      (idle_muc_channel_acknowledge_pending_messages priv ids).1
          = { priv with pending_messages :=
                (idle_muc_channel_acknowledge_pending_messages priv ids).1.pending_messages }
        ∧ (((idle_muc_channel_acknowledge_pending_messages priv ids).2 = none
            ∧ ∃ removed : List IdleMUCPendingMessage, removed.map (·.id) = ids
                ∧ priv.pending_messages.Perm (removed ++
                    (idle_muc_channel_acknowledge_pending_messages priv ids).1.pending_messages)
                ∧ (idle_muc_channel_acknowledge_pending_messages priv
                    ids).1.pending_messages.Sublist priv.pending_messages)
          ∨ (∃ (pre : List Nat) (bad : Nat) (post : List Nat), ids = pre ++ bad :: post
              ∧ (idle_muc_channel_acknowledge_pending_messages priv ids).2
                  = some TelepathyError.InvalidArgument
              ∧ (idle_muc_channel_acknowledge_pending_messages priv pre).2 = none
              ∧ (idle_muc_channel_acknowledge_pending_messages priv ids).1
                  = (idle_muc_channel_acknowledge_pending_messages priv pre).1
              ∧ bad ∉ (idle_muc_channel_acknowledge_pending_messages priv
                  pre).1.pending_messages.map (·.id))))
    ∧ (idle_muc_channel_acknowledge_pending_messages
          { idle_muc_channel_init 7 (ascii "#room") 1 with
            pending_messages := [⟨0, 100, 2, 0, ascii "a"⟩, ⟨1, 101, 2, 0, ascii "b"⟩,
              ⟨2, 102, 2, 0, ascii "c"⟩] } [1, 5]).2 = some TelepathyError.InvalidArgument
    ∧ (idle_muc_channel_acknowledge_pending_messages
          { idle_muc_channel_init 7 (ascii "#room") 1 with
            pending_messages := [⟨0, 100, 2, 0, ascii "a"⟩, ⟨1, 101, 2, 0, ascii "b"⟩,
              ⟨2, 102, 2, 0, ascii "c"⟩] } [1, 5]).1.pending_messages
        = [⟨0, 100, 2, 0, ascii "a"⟩, ⟨2, 102, 2, 0, ascii "c"⟩] := by
  refine ⟨fun priv ids => acknowledge_spec ids priv, ?_, ?_⟩ <;> decide

/-- C14: `set_properties` fails exactly when some entry is refused, where an
entry is refused for an id of 10 or more (InvalidArgument), for a property
without the WRITE flag (PermissionDenied) or for a value of another type than
the property (InvalidArgument); the first refused entry decides the error, and
a failing call leaves the channel as it was: no line is pushed and nothing is
emitted. -/
theorem C14_set_properties_refusal (priv : IdleMUCChannelPrivate)
    (entries : List (Nat × GValue)) :
    (∀ (pre : List (Nat × GValue)) (entry : Nat × GValue) (post : List (Nat × GValue))
        (err : TelepathyError),
        entries = pre ++ entry :: post →
        (∀ x ∈ pre, set_property_refusal priv.properties x = none) →
        set_property_refusal priv.properties entry = some err →
        idle_muc_channel_set_properties priv entries = some (priv, some err))
      ∧ ((∃ (priv2 : IdleMUCChannelPrivate) (err : TelepathyError),
            idle_muc_channel_set_properties priv entries = some (priv2, some err))
          ↔ ∃ entry ∈ entries, set_property_refusal priv.properties entry ≠ none)
      ∧ (∀ (priv2 : IdleMUCChannelPrivate) (err : TelepathyError),
          idle_muc_channel_set_properties priv entries = some (priv2, some err) →
          priv2 = priv) := by
  have hfail : ∀ (pre : List (Nat × GValue)) (entry : Nat × GValue) (post : List (Nat × GValue))
      (err : TelepathyError),
      entries = pre ++ entry :: post →
      (∀ x ∈ pre, set_property_refusal priv.properties x = none) →
      set_property_refusal priv.properties entry = some err →
      idle_muc_channel_set_properties priv entries = some (priv, some err) := by
    intro pre entry post err hsplit hpre he
    unfold idle_muc_channel_set_properties
    rw [hsplit, set_properties_loop_refused priv.properties pre entry post err hpre he]
  have hok : (∀ x ∈ entries, set_property_refusal priv.properties x = none) →
      ∀ (priv2 : IdleMUCChannelPrivate) (err : TelepathyError),
        idle_muc_channel_set_properties priv entries ≠ some (priv2, some err) := by
    intro hall priv2 err h
    unfold idle_muc_channel_set_properties at h
    rw [set_properties_loop_accepted priv.properties entries hall] at h
    simp only at h
    cases hsend : send_properties_request priv (entries.filter (property_differs priv.properties))
      with
    | none => rw [hsend] at h; simp at h
    | some p => rw [hsend] at h; simp at h
  refine ⟨hfail, ⟨?_, ?_⟩, ?_⟩
  · rintro ⟨priv2, err, h⟩
    rcases first_refusal priv.properties entries with hall | ⟨pre, entry, post, e, hsplit, _, he⟩
    · exact absurd h (hok hall priv2 err)
    · exact ⟨entry, by simp [hsplit], by simp [he]⟩
  · rintro ⟨entry, hmem, hne⟩
    rcases first_refusal priv.properties entries with hall | ⟨pre, e, post, err, hsplit, hpre, he⟩
    · exact absurd (hall entry hmem) hne
    · exact ⟨priv, err, hfail pre e post err hsplit hpre he⟩
  · intro priv2 err h
    rcases first_refusal priv.properties entries with hall | ⟨pre, e, post, err2, hsplit, hpre, he⟩
    · exact absurd h (hok hall priv2 err)
    · have h2 := hfail pre e post err2 hsplit hpre he
      rw [h2] at h
      simp only [Option.some.injEq, Prod.mk.injEq] at h
      exact h.1.symm

/-- C14, on a channel whose user is operator: the entry with id 10 behind an
accepted entry fails the call with InvalidArgument and the channel is as before. -/
theorem C14_witness :
    idle_muc_channel_set_properties
        (change_mode_state (idle_muc_channel_init 7 (ascii "#room") 1)
          MODE_FLAG_OPERATOR_PRIVILEGE 0)
        [(TP_PROPERTY_INVITE_ONLY, .boolean true), (10, .uint 1)]
      = some (change_mode_state (idle_muc_channel_init 7 (ascii "#room") 1)
          MODE_FLAG_OPERATOR_PRIVILEGE 0, some .InvalidArgument) :=
  (C14_set_properties_refusal
      (change_mode_state (idle_muc_channel_init 7 (ascii "#room") 1)
        MODE_FLAG_OPERATOR_PRIVILEGE 0)
      [(TP_PROPERTY_INVITE_ONLY, .boolean true), (10, .uint 1)]).1
    [(TP_PROPERTY_INVITE_ONLY, .boolean true)] (10, .uint 1) [] .InvalidArgument rfl
    (by decide) (by decide)

set_option maxRecDepth 100000 in
/-- C15, as stated, fails on a long subject: the line pushed for a subject of
600 bytes is the first 511 bytes of `TOPIC #room :<text>`, not that line. -/
theorem C15_counterexample :
    (idle_muc_channel_set_properties
        (change_mode_state (idle_muc_channel_init 7 (ascii "#room") 1)
          MODE_FLAG_OPERATOR_PRIVILEGE 0)
        [(TP_PROPERTY_SUBJECT, .string (some (List.replicate 600 97)))]).map
        (fun r => (r.1.trace.getLast?, r.2))
      = some (some (.connection_send
          ((ascii "TOPIC #room :" ++ List.replicate 600 97).take 511)), none)
    ∧ (ascii "TOPIC #room :" ++ List.replicate 600 97).take 511
        ≠ ascii "TOPIC #room :" ++ List.replicate 600 97 := by
  refine ⟨?_, ?_⟩
  · decide
  · intro h
    have hlen := congrArg List.length h
    rw [List.length_take, List.length_append, List.length_replicate] at hlen
    have hascii : (ascii "TOPIC #room :").length = 13 := by decide
    rw [hascii] at hlen
    omega

/-- C15 (amended): a successful `set_properties` whose entries are all among
invite-only, moderated, private and subject pushes, in the order of the
entries and for exactly those whose value differs from the current one,
`MODE <chan> +X` for true and `MODE <chan> -X` for false with X = i, m, s, and
for subject `TOPIC <chan> :<text>` cut to 511 bytes; nothing else of the
channel changes. -/
theorem C15_mode_letter_and_topic_lines (priv : IdleMUCChannelPrivate)
    (entries : List (Nat × GValue)) (priv2 : IdleMUCChannelPrivate)
    (hids : ∀ e ∈ entries, e.1 = TP_PROPERTY_INVITE_ONLY ∨ e.1 = TP_PROPERTY_MODERATED
      ∨ e.1 = TP_PROPERTY_PRIVATE ∨ e.1 = TP_PROPERTY_SUBJECT)
    (h : idle_muc_channel_set_properties priv entries = some (priv2, none)) :
    priv2 = { priv with trace := (priv.trace
      ++ (entries.filter (property_differs priv.properties)).map
          (fun e => .connection_send (expected_property_line priv.channel_name e))) } := by
  rcases first_refusal priv.properties entries with hall | ⟨pre, e, post, err, hsplit, hpre, he⟩
  · unfold idle_muc_channel_set_properties at h
    rw [set_properties_loop_accepted priv.properties entries hall] at h
    simp only at h
    cases hsend : send_properties_request priv (entries.filter (property_differs priv.properties))
      with
    | none => rw [hsend] at h; simp at h
    | some p =>
      rw [hsend] at h
      simp only [Option.some.injEq, Prod.mk.injEq, and_true] at h
      subst h
      refine send_properties_request_letters priv _ p ?_ hsend
      intro x hx
      have hmem := (List.mem_filter.mp hx).1
      exact ⟨hids x hmem, (set_property_refusal_none priv.properties x (hall x hmem)).2⟩
  · unfold idle_muc_channel_set_properties at h
    rw [hsplit, set_properties_loop_refused priv.properties pre e post err hpre he] at h
    simp at h

/-- C15, on a channel whose user is operator: invite-only and private are
switched on and a subject is set, moderated stays off and sends nothing. -/
theorem C15_witness :
    { change_mode_state (idle_muc_channel_init 7 (ascii "#room") 1)
          MODE_FLAG_OPERATOR_PRIVILEGE 0 with
        trace := (change_mode_state (idle_muc_channel_init 7 (ascii "#room") 1)
            MODE_FLAG_OPERATOR_PRIVILEGE 0).trace
          ++ [Effect.connection_send (ascii "MODE #room +i"),
              Effect.connection_send (ascii "TOPIC #room :hi"),
              Effect.connection_send (ascii "MODE #room +s")] }
      = { change_mode_state (idle_muc_channel_init 7 (ascii "#room") 1)
          MODE_FLAG_OPERATOR_PRIVILEGE 0 with
        trace := ((change_mode_state (idle_muc_channel_init 7 (ascii "#room") 1)
            MODE_FLAG_OPERATOR_PRIVILEGE 0).trace
          ++ ([(TP_PROPERTY_INVITE_ONLY, GValue.boolean true),
               (TP_PROPERTY_SUBJECT, GValue.string (some (ascii "hi"))),
               (TP_PROPERTY_MODERATED, GValue.boolean false),
               (TP_PROPERTY_PRIVATE, GValue.boolean true)].filter
              (property_differs (change_mode_state (idle_muc_channel_init 7 (ascii "#room") 1)
                MODE_FLAG_OPERATOR_PRIVILEGE 0).properties)).map
            (fun e => Effect.connection_send (expected_property_line
              (change_mode_state (idle_muc_channel_init 7 (ascii "#room") 1)
                MODE_FLAG_OPERATOR_PRIVILEGE 0).channel_name e))) } :=
  C15_mode_letter_and_topic_lines
    (change_mode_state (idle_muc_channel_init 7 (ascii "#room") 1) MODE_FLAG_OPERATOR_PRIVILEGE 0)
    [(TP_PROPERTY_INVITE_ONLY, .boolean true), (TP_PROPERTY_SUBJECT, .string (some (ascii "hi"))),
     (TP_PROPERTY_MODERATED, .boolean false), (TP_PROPERTY_PRIVATE, .boolean true)]
    _ (by decide) (by rfl)

/-- C16, as stated, fails when an unreadable id precedes the unknown one: on a
fresh channel no property is readable, and the request `[0, 10]` fails with
PermissionDenied, not with InvalidArgument. -/
theorem C16_counterexample :
    (idle_muc_channel_get_properties (idle_muc_channel_init 7 (ascii "#room") 1)
        [TP_PROPERTY_INVITE_ONLY, 10]).2 = .error .PermissionDenied := by
  rfl

/-- C16 (amended): `get_properties` never modifies the channel; when every
requested id is known (below 10) and readable it returns, in request order,
each id paired with its current value; when every id is known and some id
lacks READ it fails with PermissionDenied; and in general the first offending
id decides the error: behind known, readable ids a known id that lacks READ
fails with PermissionDenied, whatever follows it, and an id of 10 or more
fails with InvalidArgument. -/
theorem C16_get_properties (priv : IdleMUCChannelPrivate) (ids : List Nat) :
    (idle_muc_channel_get_properties priv ids).1 = priv
      ∧ ((∀ id ∈ ids, id < LAST_TP_PROPERTY_ENUM
            ∧ (priv.properties.getD id ⟨.uint 0, 0⟩).flags &&& TP_PROPERTY_FLAG_READ ≠ 0) →
          (idle_muc_channel_get_properties priv ids).2
            = .ok (ids.map fun id => (id, (priv.properties.getD id ⟨.uint 0, 0⟩).value)))
      ∧ ((∀ id ∈ ids, id < LAST_TP_PROPERTY_ENUM) →
          (∃ id ∈ ids,
            (priv.properties.getD id ⟨.uint 0, 0⟩).flags &&& TP_PROPERTY_FLAG_READ = 0) →
          (idle_muc_channel_get_properties priv ids).2 = .error .PermissionDenied)
      ∧ (∀ (pre : List Nat) (bad : Nat) (post : List Nat), ids = pre ++ bad :: post →
          (∀ id ∈ pre, id < LAST_TP_PROPERTY_ENUM
            ∧ (priv.properties.getD id ⟨.uint 0, 0⟩).flags &&& TP_PROPERTY_FLAG_READ ≠ 0) →
          bad < LAST_TP_PROPERTY_ENUM →
          (priv.properties.getD bad ⟨.uint 0, 0⟩).flags &&& TP_PROPERTY_FLAG_READ = 0 →
          (idle_muc_channel_get_properties priv ids).2 = .error .PermissionDenied)
      ∧ (∀ (pre : List Nat) (bad : Nat) (post : List Nat), ids = pre ++ bad :: post →
          (∀ id ∈ pre, id < LAST_TP_PROPERTY_ENUM
            ∧ (priv.properties.getD id ⟨.uint 0, 0⟩).flags &&& TP_PROPERTY_FLAG_READ ≠ 0) →
          bad ≥ LAST_TP_PROPERTY_ENUM →
          (idle_muc_channel_get_properties priv ids).2 = .error .InvalidArgument) := by
  refine ⟨?_, ?_, ?_, ?_, ?_⟩
  · unfold idle_muc_channel_get_properties
    cases get_properties_check priv.properties ids <;> rfl
  · intro h
    have hcheck : get_properties_check priv.properties ids = none := by
      have := get_properties_check_prefix priv.properties ids [] h
      simpa [get_properties_check] using this
    unfold idle_muc_channel_get_properties
    rw [hcheck]
  · intro hknown hbad
    unfold idle_muc_channel_get_properties
    rw [get_properties_check_unreadable priv.properties ids hknown hbad]
  · intro pre bad post hsplit hpre hknown hflag
    unfold idle_muc_channel_get_properties
    rw [hsplit, get_properties_check_prefix priv.properties pre (bad :: post) hpre]
    simp only [get_properties_check]
    rw [if_neg (by omega), if_pos hflag]
  · intro pre bad post hsplit hpre hbad
    unfold idle_muc_channel_get_properties
    rw [hsplit, get_properties_check_prefix priv.properties pre (bad :: post) hpre]
    simp only [get_properties_check]
    rw [if_pos hbad]

/-- C16 (amended), on a channel whose modes were reported as invite-only: the
property invite-only is readable and is returned with its value; the request
`[invite-only, limit, 10]` fails with PermissionDenied, because the unreadable
property limit comes first, and `[invite-only, 10, limit]` fails with
InvalidArgument. -/
theorem C16_witness :
    (idle_muc_channel_get_properties
        (change_mode_state (idle_muc_channel_init 7 (ascii "#room") 1) MODE_FLAG_INVITE_ONLY 0)
        [TP_PROPERTY_INVITE_ONLY]).2
      = .ok [(TP_PROPERTY_INVITE_ONLY, .boolean true)]
    ∧ (idle_muc_channel_get_properties
        (change_mode_state (idle_muc_channel_init 7 (ascii "#room") 1) MODE_FLAG_INVITE_ONLY 0)
        [TP_PROPERTY_INVITE_ONLY, TP_PROPERTY_LIMIT, 10]).2 = .error .PermissionDenied
    ∧ (idle_muc_channel_get_properties
        (change_mode_state (idle_muc_channel_init 7 (ascii "#room") 1) MODE_FLAG_INVITE_ONLY 0)
        [TP_PROPERTY_INVITE_ONLY, 10, TP_PROPERTY_LIMIT]).2 = .error .InvalidArgument :=
  ⟨(C16_get_properties
      (change_mode_state (idle_muc_channel_init 7 (ascii "#room") 1) MODE_FLAG_INVITE_ONLY 0)
      [TP_PROPERTY_INVITE_ONLY]).2.1 (by decide),
   (C16_get_properties
      (change_mode_state (idle_muc_channel_init 7 (ascii "#room") 1) MODE_FLAG_INVITE_ONLY 0)
      [TP_PROPERTY_INVITE_ONLY, TP_PROPERTY_LIMIT, 10]).2.2.2.1
      [TP_PROPERTY_INVITE_ONLY] TP_PROPERTY_LIMIT [10] rfl (by decide) (by decide) (by decide),
   (C16_get_properties
      (change_mode_state (idle_muc_channel_init 7 (ascii "#room") 1) MODE_FLAG_INVITE_ONLY 0)
      [TP_PROPERTY_INVITE_ONLY, 10, TP_PROPERTY_LIMIT]).2.2.2.2
      [TP_PROPERTY_INVITE_ONLY] 10 [TP_PROPERTY_LIMIT] rfl (by decide) (by decide)⟩

set_option maxRecDepth 100000 in
/-- C17, as stated, fails on a long key: after a bad-key reply the call with a
key of 600 bytes pushes the first 510 bytes of `JOIN #room <key>`, not that
line. -/
theorem C17_counterexample :
    (idle_muc_channel_provide_password
        (_idle_muc_channel_badchannelkey
          (idle_muc_channel_add_members example_handles
            (idle_muc_channel_init 7 (ascii "#room") 1) [1]).1)
        (List.replicate 600 97) 42).1.trace.getLast?
      = some (.connection_send ((ascii "JOIN #room " ++ List.replicate 600 97).take 510))
    ∧ (ascii "JOIN #room " ++ List.replicate 600 97).take 510
        ≠ ascii "JOIN #room " ++ List.replicate 600 97 := by
  refine ⟨?_, ?_⟩
  · decide
  · intro h
    have hlen := congrArg List.length h
    rw [List.length_take, List.length_append, List.length_replicate] at hlen
    have hascii : (ascii "JOIN #room ").length = 11 := by decide
    rw [hascii] at hlen
    omega

/-- C17 (amended): `provide_password` fails with NotAvailable and leaves the
channel as it was (nothing pushed) when the PROVIDE flag is clear or a reply is
outstanding; otherwise it succeeds, pushes exactly the first 510 bytes of
`JOIN <chan> <key>`, records the continuation and changes nothing else, and a
second call on the resulting channel fails with NotAvailable. -/
theorem C17_provide_password (priv : IdleMUCChannelPrivate) (key : List Nat) (context : Nat) :
    ((priv.password_flags &&& TP_CHANNEL_PASSWORD_FLAG_PROVIDE = 0 ∨ priv.passwd_ctx ≠ none) →
        idle_muc_channel_provide_password priv key context = (priv, some .NotAvailable))
      ∧ (¬ (priv.password_flags &&& TP_CHANNEL_PASSWORD_FLAG_PROVIDE = 0
            ∨ priv.passwd_ctx ≠ none) →
          idle_muc_channel_provide_password priv key context
              = ({ priv with
                    passwd_ctx := some context
                    trace := (priv.trace ++ [.connection_send
                      ((ascii "JOIN " ++ priv.channel_name ++ ascii " " ++ key).take 510)]) },
                 none)
            ∧ ∀ (key2 : List Nat) (context2 : Nat),
                idle_muc_channel_provide_password
                    (idle_muc_channel_provide_password priv key context).1 key2 context2
                  = ((idle_muc_channel_provide_password priv key context).1,
                     some .NotAvailable)) := by
  refine ⟨?_, ?_⟩
  · intro h
    unfold idle_muc_channel_provide_password
    rw [if_pos h]
  · intro h
    have h1 : idle_muc_channel_provide_password priv key context
        = ({ priv with
              passwd_ctx := some context
              trace := (priv.trace ++ [.connection_send
                ((ascii "JOIN " ++ priv.channel_name ++ ascii " " ++ key).take 510)]) },
           none) := by
      unfold idle_muc_channel_provide_password
      rw [if_neg h]
      rfl
    refine ⟨h1, ?_⟩
    intro key2 context2
    rw [h1]
    unfold idle_muc_channel_provide_password
    rw [if_pos (Or.inr (by simp))]

/-- C17, after a bad-key reply on a joining channel: the key is sent and the
continuation recorded. -/
theorem C17_witness :
    idle_muc_channel_provide_password
        (_idle_muc_channel_badchannelkey
          (idle_muc_channel_add_members example_handles
            (idle_muc_channel_init 7 (ascii "#room") 1) [1]).1)
        (ascii "hunter2") 42
      = ({ _idle_muc_channel_badchannelkey
            (idle_muc_channel_add_members example_handles
              (idle_muc_channel_init 7 (ascii "#room") 1) [1]).1 with
            passwd_ctx := some 42
            trace := ((_idle_muc_channel_badchannelkey
                (idle_muc_channel_add_members example_handles
                  (idle_muc_channel_init 7 (ascii "#room") 1) [1]).1).trace
              ++ [.connection_send
                ((ascii "JOIN " ++ (_idle_muc_channel_badchannelkey
                    (idle_muc_channel_add_members example_handles
                      (idle_muc_channel_init 7 (ascii "#room") 1) [1]).1).channel_name
                  ++ ascii " " ++ ascii "hunter2").take 510)]) },
         none) :=
  ((C17_provide_password
      (_idle_muc_channel_badchannelkey
        (idle_muc_channel_add_members example_handles
          (idle_muc_channel_init 7 (ascii "#room") 1) [1]).1)
      (ascii "hunter2") 42).2 (by decide)).1

set_option maxRecDepth 100000 in
/-- C18, as stated, fails on a long channel name and on the self handle 0: with
a channel name of 506 bytes the line pushed by `add_members([self])` is the
first 510 bytes of `JOIN <chan>`, which lacks the last byte of the name; and
with self handle 0 an inbound join whose nick resolves to 0 is dropped, so the
channel stays JOINING. -/
theorem C18_counterexample :
    (idle_muc_channel_add_members example_handles
        (idle_muc_channel_init 7 (35 :: List.replicate 505 97) 1) [1]).1.trace.head?
      = some (.connection_send ((ascii "JOIN " ++ 35 :: List.replicate 505 97).take 510))
    ∧ (ascii "JOIN " ++ 35 :: List.replicate 505 97).take 510
        ≠ ascii "JOIN " ++ 35 :: List.replicate 505 97
    ∧ example_handles.idle_handle_for_contact (ascii "nobody") = 0
    ∧ (_idle_muc_channel_join example_handles
        (idle_muc_channel_add_members example_handles
          (idle_muc_channel_init 7 (ascii "#room") 0) [0]).1 (ascii "nobody")).state
      = .MUC_STATE_JOINING := by
  refine ⟨?_, ?_, ?_, ?_⟩
  · decide
  · intro h
    have hlen := congrArg List.length h
    rw [List.length_take, List.length_append, List.length_cons, List.length_replicate] at hlen
    have hascii : (ascii "JOIN ").length = 5 := by decide
    rw [hascii] at hlen
    omega
  · decide
  · decide

/-- C18 (amended): for every channel name and every non-zero self handle, on a
fresh channel `add_members([self])` succeeds, pushes the first 510 bytes of
`JOIN <chan>`, sets state JOINING and puts self in remote-pending only; a
following inbound join whose nick resolves to self sets state JOINED, leaves
self in current and in neither pending set, sets group flag CAN_ADD and pushes
the first 511 bytes of `MODE <chan>`; the whole run emits exactly the six
effects listed, among them one join-ready, with code NONE. -/
theorem C18_join_scenario (handles : IdleHandleStorage) (handle : Nat)
    (channel_name nick : List Nat) (own_handle : Nat) (hown : own_handle ≠ 0)
    (hnick : handles.idle_handle_for_contact nick = own_handle) :
    idle_muc_channel_add_members handles (idle_muc_channel_init handle channel_name own_handle)
        [own_handle]
      = ({ idle_muc_channel_init handle channel_name own_handle with
            state := .MUC_STATE_JOINING
            remote_pending := {own_handle}
            trace := [.connection_send ((ascii "JOIN " ++ channel_name).take 510),
                      .MEMBERS_CHANGED [] ∅ ∅ ∅ {own_handle} 0
                        TP_CHANNEL_GROUP_CHANGE_REASON_NONE] }, none)
    ∧ (_idle_muc_channel_join handles
        (idle_muc_channel_add_members handles
          (idle_muc_channel_init handle channel_name own_handle) [own_handle]).1 nick).state
      = .MUC_STATE_JOINED
    ∧ (_idle_muc_channel_join handles
        (idle_muc_channel_add_members handles
          (idle_muc_channel_init handle channel_name own_handle) [own_handle]).1
        nick).current_members = {own_handle}
    ∧ (_idle_muc_channel_join handles
        (idle_muc_channel_add_members handles
          (idle_muc_channel_init handle channel_name own_handle) [own_handle]).1
        nick).local_pending = ∅
    ∧ (_idle_muc_channel_join handles
        (idle_muc_channel_add_members handles
          (idle_muc_channel_init handle channel_name own_handle) [own_handle]).1
        nick).remote_pending = ∅
    ∧ (_idle_muc_channel_join handles
        (idle_muc_channel_add_members handles
          (idle_muc_channel_init handle channel_name own_handle) [own_handle]).1
        nick).group_flags = TP_CHANNEL_GROUP_FLAG_CAN_ADD
    ∧ (_idle_muc_channel_join handles
        (idle_muc_channel_add_members handles
          (idle_muc_channel_init handle channel_name own_handle) [own_handle]).1 nick).trace
      = [.connection_send ((ascii "JOIN " ++ channel_name).take 510),
         .MEMBERS_CHANGED [] ∅ ∅ ∅ {own_handle} 0 TP_CHANNEL_GROUP_CHANGE_REASON_NONE,
         .JOIN_READY MUC_CHANNEL_JOIN_ERROR_NONE,
         .MEMBERS_CHANGED [] {own_handle} ∅ ∅ ∅ own_handle TP_CHANNEL_GROUP_CHANGE_REASON_NONE,
         .GROUP_FLAGS_CHANGED TP_CHANNEL_GROUP_FLAG_CAN_ADD 0,
         .connection_send ((ascii "MODE " ++ channel_name).take 511)] := by
  obtain ⟨flags, hjoin⟩ :=
    join_after_add_members handles handle channel_name nick own_handle hown hnick
  refine ⟨add_members_self_fresh handles handle channel_name own_handle, ?_⟩
  rw [hjoin]
  exact ⟨rfl, rfl, rfl, rfl, rfl, rfl⟩

/-- C18, for room `#room` and self handle 1 with nick `me`: the channel is
JOINED after the echo. -/
theorem C18_witness :
    (_idle_muc_channel_join example_handles
        (idle_muc_channel_add_members example_handles
          (idle_muc_channel_init 7 (ascii "#room") 1) [1]).1 (ascii "me")).state
      = .MUC_STATE_JOINED :=
  (C18_join_scenario example_handles 7 (ascii "#room") (ascii "me") 1 (by decide)
    (by decide)).2.1

set_option maxRecDepth 100000 in
/-- C19, as stated, fails on a long key and on a joining channel that already
reported a join error: a key of 600 bytes is pushed as the first 510 bytes of
`JOIN #room <key>`; and after a join error (code 2) in state JOINING the
latch is set, so the run bad key, provide_password, join emits no join-ready
at all and the only one in the trace carries code 2. -/
theorem C19_counterexample :
    (idle_muc_channel_provide_password
        (_idle_muc_channel_badchannelkey
          (idle_muc_channel_add_members example_handles
            (idle_muc_channel_init 7 (ascii "#room") 1) [1]).1)
        (List.replicate 600 98) 42).1.trace.getLast?
      = some (.connection_send ((ascii "JOIN #room " ++ List.replicate 600 98).take 510))
    ∧ (ascii "JOIN #room " ++ List.replicate 600 98).take 510
        ≠ ascii "JOIN #room " ++ List.replicate 600 98
    ∧ (_idle_muc_channel_join_error
        (idle_muc_channel_add_members example_handles
          (idle_muc_channel_init 7 (ascii "#room") 1) [1]).1 2).state = .MUC_STATE_JOINING
    ∧ (_idle_muc_channel_join example_handles
        (idle_muc_channel_provide_password
          (_idle_muc_channel_badchannelkey
            (_idle_muc_channel_join_error
              (idle_muc_channel_add_members example_handles
                (idle_muc_channel_init 7 (ascii "#room") 1) [1]).1 2))
          (ascii "hunter2") 42).1 (ascii "me")).trace.filter
          (fun e => match e with | .JOIN_READY _ => true | _ => false)
      = [.JOIN_READY 2] := by
  refine ⟨?_, ?_, ?_, ?_⟩
  · decide
  · intro h
    have hlen := congrArg List.length h
    rw [List.length_take, List.length_append, List.length_replicate] at hlen
    have hascii : (ascii "JOIN #room ").length = 11 := by decide
    rw [hascii] at hlen
    omega
  · decide
  · decide

/-- C19 (amended): for every key, from a JOINING channel whose join-ready latch
is unset, whose PROVIDE flag is clear and which has no parked reply, a bad-key
reply sets state NEED_PASSWORD and emits join-ready with code NONE and
password-flags-changed(add=PROVIDE); `provide_password(key)` then succeeds,
pushes the first 510 bytes of `JOIN <chan> <key>` and parks the reply; a
following inbound join for self sets state JOINED, clears PROVIDE and the
parked reply, and the life-cycle effects of the whole run are exactly:
join-ready(NONE), password-flags-changed(add=PROVIDE), the JOIN line,
password-flags-changed(remove=PROVIDE), the reply with success, and the first
511 bytes of `MODE <chan>`; a second bad-key reply instead keeps
NEED_PASSWORD, clears the parked reply and emits only the reply with failure. -/
theorem C19_password_scenario (handles : IdleHandleStorage) (priv : IdleMUCChannelPrivate)
    (nick key : List Nat) (context : Nat)
    (hstate : priv.state = .MUC_STATE_JOINING) (hready : priv.join_ready = false)
    (hflag : priv.password_flags &&& TP_CHANNEL_PASSWORD_FLAG_PROVIDE = 0)
    (hctx : priv.passwd_ctx = none) (hown : priv.own_handle ≠ 0)
    (hnick : handles.idle_handle_for_contact nick = priv.own_handle) :
    _idle_muc_channel_badchannelkey priv
      = { priv with
          state := .MUC_STATE_NEED_PASSWORD
          join_ready := true
          password_flags := priv.password_flags ||| TP_CHANNEL_PASSWORD_FLAG_PROVIDE
          trace := (priv.trace ++ [.JOIN_READY MUC_CHANNEL_JOIN_ERROR_NONE,
            .PASSWORD_FLAGS_CHANGED TP_CHANNEL_PASSWORD_FLAG_PROVIDE 0]) }
    ∧ idle_muc_channel_provide_password (_idle_muc_channel_badchannelkey priv) key context
      = ({ priv with
            state := .MUC_STATE_NEED_PASSWORD
            join_ready := true
            password_flags := priv.password_flags ||| TP_CHANNEL_PASSWORD_FLAG_PROVIDE
            passwd_ctx := some context
            trace := (priv.trace ++ [.JOIN_READY MUC_CHANNEL_JOIN_ERROR_NONE,
              .PASSWORD_FLAGS_CHANGED TP_CHANNEL_PASSWORD_FLAG_PROVIDE 0,
              .connection_send
                ((ascii "JOIN " ++ priv.channel_name ++ ascii " " ++ key).take 510)]) }, none)
    ∧ (_idle_muc_channel_join handles
        (idle_muc_channel_provide_password (_idle_muc_channel_badchannelkey priv) key
          context).1 nick).state = .MUC_STATE_JOINED
    ∧ (_idle_muc_channel_join handles
        (idle_muc_channel_provide_password (_idle_muc_channel_badchannelkey priv) key
          context).1 nick).passwd_ctx = none
    ∧ (_idle_muc_channel_join handles
        (idle_muc_channel_provide_password (_idle_muc_channel_badchannelkey priv) key
          context).1 nick).password_flags &&& TP_CHANNEL_PASSWORD_FLAG_PROVIDE = 0
    ∧ lifecycle_effects (_idle_muc_channel_join handles
        (idle_muc_channel_provide_password (_idle_muc_channel_badchannelkey priv) key
          context).1 nick).trace
      = lifecycle_effects priv.trace
        ++ [.JOIN_READY MUC_CHANNEL_JOIN_ERROR_NONE,
            .PASSWORD_FLAGS_CHANGED TP_CHANNEL_PASSWORD_FLAG_PROVIDE 0,
            .connection_send ((ascii "JOIN " ++ priv.channel_name ++ ascii " " ++ key).take 510),
            .PASSWORD_FLAGS_CHANGED 0 TP_CHANNEL_PASSWORD_FLAG_PROVIDE,
            .method_return context true,
            .connection_send ((ascii "MODE " ++ priv.channel_name).take 511)]
    ∧ _idle_muc_channel_badchannelkey
        (idle_muc_channel_provide_password (_idle_muc_channel_badchannelkey priv) key
          context).1
      = { priv with
          state := .MUC_STATE_NEED_PASSWORD
          join_ready := true
          password_flags := priv.password_flags ||| TP_CHANNEL_PASSWORD_FLAG_PROVIDE
          passwd_ctx := none
          trace := (priv.trace ++ [.JOIN_READY MUC_CHANNEL_JOIN_ERROR_NONE,
            .PASSWORD_FLAGS_CHANGED TP_CHANNEL_PASSWORD_FLAG_PROVIDE 0,
            .connection_send
              ((ascii "JOIN " ++ priv.channel_name ++ ascii " " ++ key).take 510),
            .method_return context false]) } := by
  have h1 := badchannelkey_joining priv hstate hready hflag
  have hset : (priv.password_flags ||| 8) &&& 8 = 8 := or_provide_and_provide priv.password_flags
  have h2 : idle_muc_channel_provide_password (_idle_muc_channel_badchannelkey priv) key context
      = ({ priv with
            state := .MUC_STATE_NEED_PASSWORD
            join_ready := true
            password_flags := priv.password_flags ||| TP_CHANNEL_PASSWORD_FLAG_PROVIDE
            passwd_ctx := some context
            trace := (priv.trace ++ [.JOIN_READY MUC_CHANNEL_JOIN_ERROR_NONE,
              .PASSWORD_FLAGS_CHANGED TP_CHANNEL_PASSWORD_FLAG_PROVIDE 0,
              .connection_send
                ((ascii "JOIN " ++ priv.channel_name ++ ascii " " ++ key).take 510)]) },
          none) := by
    rw [h1]
    simp [idle_muc_channel_provide_password, hset, hctx, send_join_request,
      _idle_connection_send, emit, g_snprintf, IRC_MSG_MAXLEN, TP_CHANNEL_PASSWORD_FLAG_PROVIDE]
  refine ⟨h1, h2, ?_⟩
  rw [h2]
  have hj := join_self_lifecycle handles
    { priv with
      state := .MUC_STATE_NEED_PASSWORD
      join_ready := true
      password_flags := priv.password_flags ||| TP_CHANNEL_PASSWORD_FLAG_PROVIDE
      passwd_ctx := some context
      trace := (priv.trace ++ [.JOIN_READY MUC_CHANNEL_JOIN_ERROR_NONE,
        .PASSWORD_FLAGS_CHANGED TP_CHANNEL_PASSWORD_FLAG_PROVIDE 0,
        .connection_send
          ((ascii "JOIN " ++ priv.channel_name ++ ascii " " ++ key).take 510)]) }
    nick hown hnick
  have hcs := change_state_joined_parked
    { priv with
      state := .MUC_STATE_NEED_PASSWORD
      join_ready := true
      password_flags := priv.password_flags ||| TP_CHANNEL_PASSWORD_FLAG_PROVIDE
      passwd_ctx := some context
      trace := (priv.trace ++ [.JOIN_READY MUC_CHANNEL_JOIN_ERROR_NONE,
        .PASSWORD_FLAGS_CHANGED TP_CHANNEL_PASSWORD_FLAG_PROVIDE 0,
        .connection_send
          ((ascii "JOIN " ++ priv.channel_name ++ ascii " " ++ key).take 510)]) }
    context rfl rfl (or_provide_and_provide priv.password_flags) rfl
  rw [hcs] at hj
  obtain ⟨j1, j2, j3, _, _, _, _, j8⟩ := hj
  refine ⟨j1, j2, ?_, ?_, ?_⟩
  · rw [j3]
    exact and_not_provide_and_provide _
  · rw [j8]
    simp [lifecycle_effects, is_lifecycle_effect, List.filter_append]
  · rw [badchannelkey_parked
      { priv with
        state := .MUC_STATE_NEED_PASSWORD
        join_ready := true
        password_flags := priv.password_flags ||| TP_CHANNEL_PASSWORD_FLAG_PROVIDE
        passwd_ctx := some context
        trace := (priv.trace ++ [.JOIN_READY MUC_CHANNEL_JOIN_ERROR_NONE,
          .PASSWORD_FLAGS_CHANGED TP_CHANNEL_PASSWORD_FLAG_PROVIDE 0,
          .connection_send
            ((ascii "JOIN " ++ priv.channel_name ++ ascii " " ++ key).take 510)]) }
      context rfl rfl rfl]
    simp

/-- C19, for the channel `#room` after `add_members([self])`, key `hunter2`:
the join echo leaves the channel JOINED. -/
theorem C19_witness :
    (_idle_muc_channel_join example_handles
        (idle_muc_channel_provide_password
          (_idle_muc_channel_badchannelkey
            (idle_muc_channel_add_members example_handles
              (idle_muc_channel_init 7 (ascii "#room") 1) [1]).1)
          (ascii "hunter2") 42).1 (ascii "me")).state = .MUC_STATE_JOINED :=
  (C19_password_scenario example_handles
    (idle_muc_channel_add_members example_handles
      (idle_muc_channel_init 7 (ascii "#room") 1) [1]).1
    (ascii "me") (ascii "hunter2") 42 (by decide) (by decide) (by decide) (by decide)
    (by decide) (by decide)).2.2.1

set_option maxRecDepth 100000 in
/-- C20, as stated, fails on a long channel name: in state JOINED with a channel
name of 506 bytes `close` pushes the first 510 bytes of `PART <chan>`, which
lacks the last byte of the name. -/
theorem C20_counterexample :
    (_idle_muc_channel_join example_handles
        (idle_muc_channel_add_members example_handles
          (idle_muc_channel_init 7 (35 :: List.replicate 505 97) 1) [1]).1
        (ascii "me")).state = .MUC_STATE_JOINED
    ∧ (idle_muc_channel_close
        (_idle_muc_channel_join example_handles
          (idle_muc_channel_add_members example_handles
            (idle_muc_channel_init 7 (35 :: List.replicate 505 97) 1) [1]).1
          (ascii "me"))).trace.getLast?
      = some (.connection_send ((ascii "PART " ++ 35 :: List.replicate 505 97).take 510))
    ∧ (ascii "PART " ++ 35 :: List.replicate 505 97).take 510
        ≠ ascii "PART " ++ 35 :: List.replicate 505 97 := by
  refine ⟨?_, ?_, ?_⟩
  · decide
  · decide
  · intro h
    have hlen := congrArg List.length h
    rw [List.length_take, List.length_append, List.length_cons, List.length_replicate] at hlen
    have hascii : (ascii "PART ").length = 5 := by decide
    rw [hascii] at hlen
    omega

/-- C20 (amended): `close` (which has no failing return) in state JOINED pushes
exactly the first 510 bytes of `PART <chan>` and changes nothing else: no
closed event, same state, same latch; in a state before JOINED it pushes
nothing, and sets the latch and emits closed when the latch was unset, and does
nothing when it was set; in PARTED it does nothing. -/
theorem C20_close (priv : IdleMUCChannelPrivate) :
    (priv.state = .MUC_STATE_JOINED →
        idle_muc_channel_close priv
          = { priv with trace := (priv.trace
                ++ [.connection_send ((ascii "PART " ++ priv.channel_name).take 510)]) })
      ∧ (priv.state.toNat < IdleMUCState.MUC_STATE_JOINED.toNat → priv.closed = false →
          idle_muc_channel_close priv
            = { priv with closed := true, trace := (priv.trace ++ [.CLOSED]) })
      ∧ (priv.state.toNat < IdleMUCState.MUC_STATE_JOINED.toNat → priv.closed = true →
          idle_muc_channel_close priv = priv)
      ∧ (priv.state = .MUC_STATE_PARTED → idle_muc_channel_close priv = priv) := by
  cases priv with
  | mk handle channel_name own_handle recv_id pending_messages local_pending remote_pending
      current_members state mode_state group_flags password_flags properties passwd_ctx
      join_ready closed dispose_has_run trace =>
    refine ⟨?_, ?_, ?_, ?_⟩
    · intro h
      simp only at h
      subst h
      rfl
    · intro h hc
      simp only at h hc
      subst hc
      cases state
      · rfl
      · rfl
      · rfl
      · exact absurd h (by decide)
      · exact absurd h (by decide)
    · intro h hc
      simp only at h hc
      subst hc
      cases state
      · rfl
      · rfl
      · rfl
      · exact absurd h (by decide)
      · exact absurd h (by decide)
    · intro h
      simp only at h
      subst h
      rfl

/-- C20, on a fresh channel: `close` latches and emits closed, and pushes
nothing. -/
theorem C20_witness :
    idle_muc_channel_close (idle_muc_channel_init 7 (ascii "#room") 1)
      = { idle_muc_channel_init 7 (ascii "#room") 1 with
          closed := true
          trace := ((idle_muc_channel_init 7 (ascii "#room") 1).trace ++ [.CLOSED]) } :=
  (C20_close (idle_muc_channel_init 7 (ascii "#room") 1)).2.1 (by decide) rfl

/-- C21, as stated, fails on every self kick: the kick handler passes
`suppress = FALSE`, so on a joined channel the kick of the own nick `me` by
`bob` latches closed and emits the closed event as its last effect. -/
theorem C21_counterexample :
    (_idle_muc_channel_kick example_handles
        (run example_handles (idle_muc_channel_init 7 (ascii "#room") 1)
          [.add_members [1], .join (ascii "me")])
        (ascii "me") (ascii "bob") 0).state = .MUC_STATE_PARTED
    ∧ (_idle_muc_channel_kick example_handles
        (run example_handles (idle_muc_channel_init 7 (ascii "#room") 1)
          [.add_members [1], .join (ascii "me")])
        (ascii "me") (ascii "bob") 0).trace.getLast? = some .CLOSED
    ∧ count_closed (run example_handles (idle_muc_channel_init 7 (ascii "#room") 1)
          [.add_members [1], .join (ascii "me")]).trace = 0
    ∧ count_closed (_idle_muc_channel_kick example_handles
        (run example_handles (idle_muc_channel_init 7 (ascii "#room") 1)
          [.add_members [1], .join (ascii "me")])
        (ascii "me") (ascii "bob") 0).trace = 1 := by
  refine ⟨?_, ?_, ?_, ?_⟩ <;> decide

/-- C21 (amended): for every channel state that is not closed yet and has a
non-zero self handle, an inbound kick whose target nick resolves to the self
handle moves the state to PARTED, removes self from all three membership
sets, sets the closed latch (which moves from false to true) and emits the
closed event as the last effect of the call (exactly one closed event is added
to the trace). -/
theorem C21_self_kick (handles : IdleHandleStorage) (priv : IdleMUCChannelPrivate)
    (nick kicker : List Nat) (reason : Nat) (hopen : priv.closed = false)
    (hown : priv.own_handle ≠ 0)
    (hnick : handles.idle_handle_for_contact nick = priv.own_handle) :
    (_idle_muc_channel_kick handles priv nick kicker reason).state = .MUC_STATE_PARTED
      ∧ priv.own_handle ∉ (_idle_muc_channel_kick handles priv nick kicker
          reason).current_members
      ∧ priv.own_handle ∉ (_idle_muc_channel_kick handles priv nick kicker
          reason).local_pending
      ∧ priv.own_handle ∉ (_idle_muc_channel_kick handles priv nick kicker
          reason).remote_pending
      ∧ (_idle_muc_channel_kick handles priv nick kicker reason).closed = true
      ∧ (_idle_muc_channel_kick handles priv nick kicker reason).closed ≠ priv.closed
      ∧ ∃ effects : List Effect, Effect.CLOSED ∉ effects
          ∧ (_idle_muc_channel_kick handles priv nick kicker reason).trace
            = priv.trace ++ effects ++ [.CLOSED] := by
  have main : (_idle_muc_channel_kick handles priv nick kicker reason).state = .MUC_STATE_PARTED
      ∧ priv.own_handle ∉ (_idle_muc_channel_kick handles priv nick kicker
          reason).current_members
      ∧ priv.own_handle ∉ (_idle_muc_channel_kick handles priv nick kicker
          reason).local_pending
      ∧ priv.own_handle ∉ (_idle_muc_channel_kick handles priv nick kicker
          reason).remote_pending
      ∧ (_idle_muc_channel_kick handles priv nick kicker reason).closed = true
      ∧ ∃ effects : List Effect, Effect.CLOSED ∉ effects
          ∧ (_idle_muc_channel_kick handles priv nick kicker reason).trace
            = priv.trace ++ effects ++ [.CLOSED] := by
    have h := handle_quit_self priv false (handles.idle_handle_for_contact kicker) reason
    unfold _idle_muc_channel_kick
    simp only [hnick, if_neg hown]
    obtain ⟨h1, h2, h3, h4, h5, effects, h6, h7⟩ := h
    refine ⟨h1, h2, h3, h4, ?_, effects, h6, ?_⟩
    · rw [h5]; simp
    · rw [h7]; simp
  obtain ⟨c1, c2, c3, c4, c5, c6⟩ := main
  refine ⟨c1, c2, c3, c4, c5, ?_, c6⟩
  rw [c5, hopen]
  decide

/-- C21 (amended), for the joined channel `#room`, not closed, and the kick
of `me` by `bob`: the channel is PARTED and closed. -/
theorem C21_witness :
    (run example_handles (idle_muc_channel_init 7 (ascii "#room") 1)
        [.add_members [1], .join (ascii "me")]).closed = false
    ∧ (_idle_muc_channel_kick example_handles
        (run example_handles (idle_muc_channel_init 7 (ascii "#room") 1)
          [.add_members [1], .join (ascii "me")])
        (ascii "me") (ascii "bob") 0).state = .MUC_STATE_PARTED
    ∧ (_idle_muc_channel_kick example_handles
        (run example_handles (idle_muc_channel_init 7 (ascii "#room") 1)
          [.add_members [1], .join (ascii "me")])
        (ascii "me") (ascii "bob") 0).closed = true :=
  ⟨by decide,
   (C21_self_kick example_handles
    (run example_handles (idle_muc_channel_init 7 (ascii "#room") 1)
      [.add_members [1], .join (ascii "me")])
    (ascii "me") (ascii "bob") 0 (by decide) (by decide) (by decide)).1,
   (C21_self_kick example_handles
    (run example_handles (idle_muc_channel_init 7 (ascii "#room") 1)
      [.add_members [1], .join (ascii "me")])
    (ascii "me") (ascii "bob") 0 (by decide) (by decide) (by decide)).2.2.2.2.1⟩

set_option maxRecDepth 100000 in
/-- C22, as stated, fails on a long message: `remove_members([self], msg)` with a
message of 600 bytes pushes the first 510 bytes of `PART #room <msg>`, not
that line. -/
theorem C22_counterexample :
    (idle_muc_channel_remove_members example_handles (some (List.replicate 600 97))
        (idle_muc_channel_init 7 (ascii "#room") 1) [1]).1.trace
      = [.connection_send ((ascii "PART #room " ++ List.replicate 600 97).take 510)]
    ∧ (ascii "PART #room " ++ List.replicate 600 97).take 510
        ≠ ascii "PART #room " ++ List.replicate 600 97 := by
  refine ⟨?_, ?_⟩
  · decide
  · intro h
    have hlen := congrArg List.length h
    rw [List.length_take, List.length_append, List.length_replicate] at hlen
    have hascii : (ascii "PART #room ").length = 11 := by decide
    rw [hascii] at hlen
    omega

/-- C22 (amended): for every state and single-handle list `[h]`,
`remove_members([h], msg)` changes nothing of the channel but the lines pushed
and emits no event.  If `h` is self it pushes the first 510 bytes of
`PART <chan> [msg]` and succeeds; otherwise, if `h` is not in current it fails
with NotAvailable and pushes nothing; otherwise, if the handle has a
non-empty nick it pushes the first 510 bytes of `KICK <chan> <nick> [msg]` and
succeeds, and if it has none it fails with NotAvailable and pushes nothing. -/
theorem C22_remove_single_member (handles : IdleHandleStorage) (priv : IdleMUCChannelPrivate)
    (h : Nat) (message : Option (List Nat)) :
    (h = priv.own_handle →
        idle_muc_channel_remove_members handles message priv [h]
          = ({ priv with trace := (priv.trace ++ [.connection_send
                ((ascii "PART " ++ priv.channel_name ++ optional_message message).take 510)]) },
             none))
      ∧ (h ≠ priv.own_handle → h ∉ priv.current_members →
          idle_muc_channel_remove_members handles message priv [h]
            = (priv, some .NotAvailable))
      ∧ (h ≠ priv.own_handle → h ∈ priv.current_members →
          ∀ nick : List Nat, handles.idle_handle_inspect_contact h = some nick → nick ≠ [] →
          idle_muc_channel_remove_members handles message priv [h]
            = ({ priv with trace := (priv.trace ++ [.connection_send
                  ((ascii "KICK " ++ priv.channel_name ++ ascii " " ++ nick
                    ++ optional_message message).take 510)]) },
               none))
      ∧ (h ≠ priv.own_handle → h ∈ priv.current_members →
          (handles.idle_handle_inspect_contact h = none
            ∨ handles.idle_handle_inspect_contact h = some []) →
          idle_muc_channel_remove_members handles message priv [h]
            = (priv, some .NotAvailable)) := by
  refine ⟨?_, ?_, ?_, ?_⟩
  · intro hself
    simp only [idle_muc_channel_remove_members, if_pos hself]
    cases message <;>
      simp [part_from_channel, _idle_connection_send, emit, g_snprintf, IRC_MSG_MAXLEN,
        optional_message, ascii]
  · intro hself hcur
    simp only [idle_muc_channel_remove_members, if_neg hself, if_pos hcur]
  · intro hself hcur nick hnick hne
    cases nick with
    | nil => exact absurd rfl hne
    | cons c cs =>
      simp only [idle_muc_channel_remove_members, if_neg hself, hcur, not_true_eq_false,
        if_false, send_kick_request, hnick]
      cases message <;>
        simp [_idle_connection_send, emit, g_snprintf, IRC_MSG_MAXLEN, optional_message, ascii]
  · intro hself hcur hnone
    rcases hnone with hnone | hnone <;>
      simp only [idle_muc_channel_remove_members, if_neg hself, hcur, not_true_eq_false,
        if_false, send_kick_request, hnone]

/-- C22, on the joined channel `#room` with `bob` a member: removing `bob` with
the message `bye` pushes `KICK #room bob bye`. -/
theorem C22_witness :
    (idle_muc_channel_remove_members example_handles (some (ascii "bye"))
        (run example_handles (idle_muc_channel_init 7 (ascii "#room") 1)
          [.add_members [1], .join (ascii "me"), .join (ascii "bob")]) [2]).1.trace.getLast?
      = some (.connection_send (ascii "KICK #room bob bye")) := by
  have h := (C22_remove_single_member example_handles
    (run example_handles (idle_muc_channel_init 7 (ascii "#room") 1)
      [.add_members [1], .join (ascii "me"), .join (ascii "bob")]) 2 (some (ascii "bye"))).2.2.1
    (by decide) (by decide) (ascii "bob") (by decide) (by decide)
  rw [h]
  decide

/-- C23: an ACTION text that contains a newline is never sent to the end:
`idle_muc_channel_send` does not return, whatever the number of iterations
allowed, for every channel with a valid room name and every such text (a string
of less than 2^64 bytes). -/
theorem C23_action_with_newline_never_returns (handles : IdleHandleStorage)
    (priv : IdleMUCChannelPrivate) (recipient text : List Nat) (timestamp : Nat)
    (hroom : handles.idle_handle_inspect_room priv.handle = some recipient)
    (hvalid : recipient ≠ []) (hnl : 10 ∈ text) (hlen : text.length < 18446744073709551616) :
    ∀ fuel : Nat,
      idle_muc_channel_send handles fuel priv TP_CHANNEL_TEXT_MESSAGE_TYPE_ACTION text timestamp
        = .timeout := by
  intro fuel
  obtain ⟨p, hp⟩ := strchr_of_mem 10 text hnl
  unfold idle_muc_channel_send
  rw [hroom]
  cases recipient with
  | nil => exact absurd rfl hvalid
  | cons c cs =>
    have hh : send_header TP_CHANNEL_TEXT_MESSAGE_TYPE_ACTION (c :: cs)
        = some (g_snprintf IRC_MSG_MAXLEN
            (ascii "PRIVMSG " ++ (c :: cs) ++ ascii " :\x01ACTION ")) := rfl
    simp only [hh]
    rw [send_loop_action_stuck _ text p hp hlen fuel 0 priv (Nat.zero_le _)]

/-- C23, for the ACTION text `a`, newline, `b` on the channel `#room`: the text
contains a newline and the call is still running after a million iterations. -/
theorem C23_witness :
    10 ∈ ascii "a\nb"
      ∧ idle_muc_channel_send example_handles 1000000
          (idle_muc_channel_init 7 (ascii "#room") 1)
          TP_CHANNEL_TEXT_MESSAGE_TYPE_ACTION (ascii "a\nb") 99 = .timeout :=
  ⟨by decide, C23_action_with_newline_never_returns example_handles
    (idle_muc_channel_init 7 (ascii "#room") 1) (ascii "#room") (ascii "a\nb") 99 rfl
    (by decide) (by decide) (by decide) 1000000⟩

/-- C24: in every state reached from a fresh channel by receives,
acknowledgements and listings with fewer than 2^32 receives, the `received`
signals carry the ids 0, 1, 2, ... in this order (the k-th received message
has id k-1, whatever was acknowledged in between), and the ids in the pending
queue are strictly increasing from head to tail and below the number of
receives. -/
theorem C24_pending_ids_strictly_increasing (handle : Nat) (channel_name : List Nat)
    (own_handle : Nat) (calls : List PendingCall)
    (hcount : count_receives calls < 4294967296) :
    received_ids (pending_calls (idle_muc_channel_init handle channel_name own_handle)
        calls).trace = List.range (count_receives calls)
      ∧ ((pending_calls (idle_muc_channel_init handle channel_name own_handle)
          calls).pending_messages.map (·.id)).Pairwise (· < ·)
      ∧ ((pending_calls (idle_muc_channel_init handle channel_name own_handle)
          calls).pending_messages.map (·.id)).Nodup
      ∧ ∀ id ∈ (pending_calls (idle_muc_channel_init handle channel_name own_handle)
          calls).pending_messages.map (·.id), id < count_receives calls := by
  have h := pending_inv_calls calls (idle_muc_channel_init handle channel_name own_handle) 0
    (pending_inv_init handle channel_name own_handle) (by omega)
  rw [Nat.zero_add] at h
  obtain ⟨_, h2, h3, h4⟩ := h
  exact ⟨h2, h3, h3.imp (fun hlt => Nat.ne_of_lt hlt), h4⟩

/-- C24, for two receives, an acknowledgement of id 0, a third receive and a
listing: the signals carry ids 0, 1, 2 and the queue holds ids 1 and 2. -/
theorem C24_witness :
    received_ids (pending_calls (idle_muc_channel_init 7 (ascii "#room") 1)
        [.receive 0 2 (ascii "a") 5, .receive 0 2 (ascii "b") 6, .acknowledge [0],
         .receive 0 2 (ascii "c") 7, .list false]).trace = [0, 1, 2]
    ∧ (pending_calls (idle_muc_channel_init 7 (ascii "#room") 1)
        [.receive 0 2 (ascii "a") 5, .receive 0 2 (ascii "b") 6, .acknowledge [0],
         .receive 0 2 (ascii "c") 7, .list false]).pending_messages.map (·.id) = [1, 2] :=
  ⟨(C24_pending_ids_strictly_increasing 7 (ascii "#room") 1
      [.receive 0 2 (ascii "a") 5, .receive 0 2 (ascii "b") 6, .acknowledge [0],
       .receive 0 2 (ascii "c") 7, .list false] (by decide)).1,
   by decide⟩

/-- C25: for every bag of ten properties and every change list as the callers
of the static function `change_tp_properties` build it (every value has the
type of the property it names, and entries that name the same property carry
the same value), `change_tp_properties` changes only the bag and the trace; it
emits at most one properties-changed event, which lists exactly the entries
with id below 10 whose new value differed from the stored value at their
turn, followed by at most one property-flags-changed event; immediately after
the call every property listed in the event has the READ flag set and stores
the new value; the properties not listed keep their value and their flags,
and a list without a differing entry changes nothing. -/
theorem C25_change_tp_properties (priv : IdleMUCChannelPrivate) (props : List (Nat × GValue))
    (hlen : priv.properties.length = LAST_TP_PROPERTY_ENUM)
    (htype : ∀ e ∈ props, e.1 < LAST_TP_PROPERTY_ENUM →
      e.2.type = (value_at priv.properties e.1).type)
    (hsame : ∀ a ∈ props, ∀ b ∈ props, a.1 = b.1 → a.2 = b.2) :
    (∃ flagged : List (Nat × Nat),
      change_tp_properties priv props
        = { priv with
            properties := (change_tp_properties priv props).properties
            trace := (priv.trace
              ++ (if changed_entries (value_at priv.properties) props = [] then []
                  else [.PROPERTIES_CHANGED (changed_entries (value_at priv.properties) props)])
              ++ (if flagged = [] then [] else [.PROPERTY_FLAGS_CHANGED flagged])) })
      ∧ (∀ e ∈ changed_entries (value_at priv.properties) props,
          e.1 < LAST_TP_PROPERTY_ENUM
            ∧ flags_at (change_tp_properties priv props).properties e.1
                &&& TP_PROPERTY_FLAG_READ ≠ 0
            ∧ value_at (change_tp_properties priv props).properties e.1 = e.2)
      ∧ (∀ id : Nat,
          id ∉ (changed_entries (value_at priv.properties) props).map Prod.fst →
          value_at (change_tp_properties priv props).properties id
            = value_at priv.properties id)
      ∧ (∀ id : Nat, id < LAST_TP_PROPERTY_ENUM →
          id ∉ (changed_entries (value_at priv.properties) props).map Prod.fst →
          flags_at (change_tp_properties priv props).properties id
            = flags_at priv.properties id)
      ∧ (changed_entries (value_at priv.properties) props = [] →
          change_tp_properties priv props = priv) := by
  obtain ⟨a1, a2, a3, a4, a5⟩ := change_tp_properties_loop_spec props priv.properties hlen htype
  have heq := change_tp_properties_eq priv props
  have hprops : (change_tp_properties priv props).properties
      = (set_tp_property_flags_loop TP_PROPERTY_FLAG_READ 0
          (change_tp_properties_loop props priv.properties).2.2
          (change_tp_properties_loop props priv.properties).1).1 := by
    rw [heq]
  have hflags0 : ∀ id : Nat, flags_at (change_tp_properties_loop props priv.properties).1 id
      = flags_at priv.properties id := by
    intro id
    have h := flags_of_getElem? (change_tp_properties_loop_flags props priv.properties) id
    unfold flags_at
    simp only [List.getD_eq_getElem?_getD]
    cases h1 : (change_tp_properties_loop props priv.properties).1[id]? with
    | none =>
      rw [h1] at h
      cases h2 : priv.properties[id]? with
      | none => rfl
      | some p => rw [h2] at h; simp at h
    | some q =>
      rw [h1] at h
      cases h2 : priv.properties[id]? with
      | none => rw [h2] at h; simp at h
      | some p =>
        rw [h2] at h
        simpa using h
  refine ⟨⟨(set_tp_property_flags_loop TP_PROPERTY_FLAG_READ 0
      (change_tp_properties_loop props priv.properties).2.2
      (change_tp_properties_loop props priv.properties).1).2, ?_⟩, ?_, ?_, ?_, ?_⟩
  · rw [← a1, hprops]
    exact heq
  · intro e he
    have hlt := changed_entries_lt props (value_at priv.properties) e he
    refine ⟨hlt, ?_, ?_⟩
    · rw [hprops, set_tp_property_flags_loop_flags_at _ _ _ _ _ (by omega)]
      have hmem : e.1 ∈ (change_tp_properties_loop props priv.properties).2.2 := by
        rw [a2, a1]
        exact List.mem_map_of_mem _ he
      rw [if_pos hmem]
      exact read_bit_set _
    · have hsame2 : ∀ a ∈ changed_entries (value_at priv.properties) props,
          ∀ b ∈ changed_entries (value_at priv.properties) props, a.1 = b.1 → a.2 = b.2 :=
        fun a ha b hb hab =>
          hsame a (changed_entries_mem _ _ a ha) b (changed_entries_mem _ _ b hb) hab
      rw [hprops, set_tp_property_flags_loop_value_at, a4, a1,
        last_listed_of_same _ e he hsame2]
      rfl
  · intro id hnot
    rw [hprops, set_tp_property_flags_loop_value_at, a4, a1, last_listed_of_not_mem _ _ hnot]
    rfl
  · intro id hlt hnot
    rw [hprops, set_tp_property_flags_loop_flags_at _ _ _ _ _ (by omega)]
    have hmem : id ∉ (change_tp_properties_loop props priv.properties).2.2 := by
      rw [a2, a1]
      exact hnot
    rw [if_neg hmem, hflags0]
  · intro hnil
    rw [← a1] at hnil
    have hids : (change_tp_properties_loop props priv.properties).2.2 = [] := by
      rw [a2, hnil]; rfl
    rw [heq, hids, hnil, a5 hnil]
    simp [set_tp_property_flags_loop]

/-- C25, on a fresh channel and the change list that `change_mode_state`
builds for the inbound modes `+ps` (the property private, twice, with the
value true): the properties-changed event lists the first entry only, and the
property private is readable and stores true. -/
theorem C25_witness :
    (mode_flag_bits.map (mode_flag_props (idle_muc_channel_init 7 (ascii "#room") 1).mode_state
        (MODE_FLAG_PRIVATE ||| MODE_FLAG_SECRET) (MODE_FLAG_PRIVATE ||| MODE_FLAG_SECRET))).flatten
      = [(TP_PROPERTY_PRIVATE, .boolean true), (TP_PROPERTY_PRIVATE, .boolean true)]
    ∧ changed_entries (value_at (idle_muc_channel_init 7 (ascii "#room") 1).properties)
        [(TP_PROPERTY_PRIVATE, .boolean true), (TP_PROPERTY_PRIVATE, .boolean true)]
      = [(TP_PROPERTY_PRIVATE, .boolean true)]
    ∧ (TP_PROPERTY_PRIVATE < LAST_TP_PROPERTY_ENUM
      ∧ flags_at (change_tp_properties (idle_muc_channel_init 7 (ascii "#room") 1)
          [(TP_PROPERTY_PRIVATE, .boolean true),
           (TP_PROPERTY_PRIVATE, .boolean true)]).properties TP_PROPERTY_PRIVATE
            &&& TP_PROPERTY_FLAG_READ ≠ 0
      ∧ value_at (change_tp_properties (idle_muc_channel_init 7 (ascii "#room") 1)
          [(TP_PROPERTY_PRIVATE, .boolean true),
           (TP_PROPERTY_PRIVATE, .boolean true)]).properties TP_PROPERTY_PRIVATE
          = .boolean true) :=
  ⟨by decide, by decide,
   (C25_change_tp_properties (idle_muc_channel_init 7 (ascii "#room") 1)
    [(TP_PROPERTY_PRIVATE, .boolean true), (TP_PROPERTY_PRIVATE, .boolean true)]
    (by decide) (by decide) (by decide)).2.1 (TP_PROPERTY_PRIVATE, .boolean true) (by decide)⟩

/-- C26: for every bag of ten properties, masks `add` and `remove` and target
(a list of ids below 10, or all ten), `set_tp_property_flags` changes only
the bag and the trace; every targeted property gets the flag word
`(old | add) & ~remove`, every other flag word and every value stays; at most
one property-flags-changed event is emitted, and it carries, once each, exactly
the targeted ids whose flag word changed together with the new word; repeating
the call changes and emits nothing. -/
theorem C26_set_tp_property_flags (priv : IdleMUCChannelPrivate) (props : Option (List Nat))
    (add remove : Nat) (hlen : priv.properties.length = LAST_TP_PROPERTY_ENUM)
    (hids : ∀ id ∈ targeted_ids props, id < LAST_TP_PROPERTY_ENUM) :
    ∃ changed : List (Nat × Nat),
      set_tp_property_flags priv props add remove
          = { priv with
              properties := (set_tp_property_flags priv props add remove).properties
              trace := (priv.trace
                ++ (if changed = [] then [] else [.PROPERTY_FLAGS_CHANGED changed])) }
        ∧ (∀ id : Nat, id < LAST_TP_PROPERTY_ENUM →
            flags_at (set_tp_property_flags priv props add remove).properties id
              = if id ∈ targeted_ids props then
                  (flags_at priv.properties id ||| add) &&& guint_not remove
                else flags_at priv.properties id)
        ∧ (∀ id : Nat, value_at (set_tp_property_flags priv props add remove).properties id
            = value_at priv.properties id)
        ∧ (set_tp_property_flags priv props add remove).properties.length
            = LAST_TP_PROPERTY_ENUM
        ∧ (∀ (id f : Nat), (id, f) ∈ changed
            ↔ id ∈ targeted_ids props
              ∧ f = (flags_at priv.properties id ||| add) &&& guint_not remove
              ∧ flags_at priv.properties id ≠ f)
        ∧ (changed.map Prod.fst).Nodup
        ∧ set_tp_property_flags (set_tp_property_flags priv props add remove) props add remove
            = set_tp_property_flags priv props add remove := by
  have heq := set_tp_property_flags_eq priv props add remove
  have hprops : (set_tp_property_flags priv props add remove).properties
      = (set_tp_property_flags_loop add remove (targeted_ids props) priv.properties).1 := by
    rw [heq]
  have hlt : ∀ id ∈ targeted_ids props, id < priv.properties.length := by
    intro id hid
    rw [hlen]
    exact hids id hid
  obtain ⟨hmem, hnodup⟩ :=
    set_tp_property_flags_loop_changed add remove (targeted_ids props) priv.properties hlt
  refine ⟨_, ?_, ?_, ?_, ?_, hmem, hnodup, ?_⟩
  · rw [hprops]
    exact heq
  · intro id hid
    rw [hprops, set_tp_property_flags_loop_flags_at _ _ _ _ _ (by omega)]
  · intro id
    rw [hprops, set_tp_property_flags_loop_value_at]
  · rw [hprops, set_tp_property_flags_loop_length, hlen]
  · have hfixed : set_tp_property_flags_loop add remove (targeted_ids props)
        (set_tp_property_flags priv props add remove).properties
        = ((set_tp_property_flags priv props add remove).properties, []) := by
      apply set_tp_property_flags_loop_fixed
      intro id hid
      rw [hprops, set_tp_property_flags_loop_flags_at _ _ _ _ _ (hlt id hid), if_pos hid,
        flag_update_idem]
    rw [set_tp_property_flags_eq (set_tp_property_flags priv props add remove) props add remove,
      hfixed]
    simp

/-- C26, on a fresh channel: setting READ on the ids 0, 3, 3 and repeating the
call gives the channel of the first call. -/
theorem C26_witness :
    set_tp_property_flags
        (set_tp_property_flags (idle_muc_channel_init 7 (ascii "#room") 1)
          (some [TP_PROPERTY_INVITE_ONLY, TP_PROPERTY_MODERATED, TP_PROPERTY_MODERATED])
          TP_PROPERTY_FLAG_READ 0)
        (some [TP_PROPERTY_INVITE_ONLY, TP_PROPERTY_MODERATED, TP_PROPERTY_MODERATED])
        TP_PROPERTY_FLAG_READ 0
      = set_tp_property_flags (idle_muc_channel_init 7 (ascii "#room") 1)
          (some [TP_PROPERTY_INVITE_ONLY, TP_PROPERTY_MODERATED, TP_PROPERTY_MODERATED])
          TP_PROPERTY_FLAG_READ 0 :=
  (C26_set_tp_property_flags (idle_muc_channel_init 7 (ascii "#room") 1)
    (some [TP_PROPERTY_INVITE_ONLY, TP_PROPERTY_MODERATED, TP_PROPERTY_MODERATED])
    TP_PROPERTY_FLAG_READ 0 (by decide) (by decide)).elim fun _ h => h.2.2.2.2.2.2

/-- C27, as stated, fails on its own scenario S3: on the joined channel
`#room` where self (`me`) is operator and `+t` is set, the inbound MODE string
`+im-t` leaves TOPIC_ONLY_SETTABLE_BY_OPS set. -/
theorem C27_counterexample :
    ((mode_events example_handles
        (_idle_muc_channel_names example_handles
          (run example_handles (idle_muc_channel_init 7 (ascii "#room") 1)
            [.add_members [1], .join (ascii "me")]) [ascii "@me"])
        [ascii "+t"]).map fun priv => (priv.state, priv.mode_state.flags))
      = some (.MUC_STATE_JOINED,
          MODE_FLAG_OPERATOR_PRIVILEGE ||| MODE_FLAG_TOPIC_ONLY_SETTABLE_BY_OPS)
    ∧ ((mode_events example_handles
        (_idle_muc_channel_names example_handles
          (run example_handles (idle_muc_channel_init 7 (ascii "#room") 1)
            [.add_members [1], .join (ascii "me")]) [ascii "@me"])
        [ascii "+t", ascii "+im-t"]).map fun priv =>
          priv.mode_state.flags &&& MODE_FLAG_TOPIC_ONLY_SETTABLE_BY_OPS)
      = some MODE_FLAG_TOPIC_ONLY_SETTABLE_BY_OPS := by
  refine ⟨?_, ?_⟩ <;> decide

/-- C27 (amended): `_idle_muc_channel_mode` reads the sign once, from the first
character of the MODE string, and skips a `-` inside the letter token as an
unknown letter, so for every channel `+im-t` does what `+imt` does.  In
scenario S3 (self is operator, `+t` is set) the string `+im-t` leaves
INVITE_ONLY, MODERATED and TOPIC_ONLY_SETTABLE_BY_OPS all set, emits one
properties-changed event with invite-only and moderated true and nothing
else, leaves READ set on the five mirrored booleans, and keeps WRITE on the
properties 0 to 7 and the group flag CAN_ADD. -/
theorem C27_sign_is_read_once :
    (∀ (handles : IdleHandleStorage) (priv : IdleMUCChannelPrivate),
        _idle_muc_channel_mode handles priv (ascii "+im-t")
          = _idle_muc_channel_mode handles priv (ascii "+imt"))
    ∧ ((mode_events example_handles
        (_idle_muc_channel_names example_handles
          (run example_handles (idle_muc_channel_init 7 (ascii "#room") 1)
            [.add_members [1], .join (ascii "me")]) [ascii "@me"])
        [ascii "+t", ascii "+im-t"]).map fun priv => priv.mode_state.flags)
      = some (MODE_FLAG_OPERATOR_PRIVILEGE ||| MODE_FLAG_TOPIC_ONLY_SETTABLE_BY_OPS
          ||| MODE_FLAG_INVITE_ONLY ||| MODE_FLAG_MODERATED)
    ∧ ((mode_events example_handles
        (_idle_muc_channel_names example_handles
          (run example_handles (idle_muc_channel_init 7 (ascii "#room") 1)
            [.add_members [1], .join (ascii "me")]) [ascii "@me"])
        [ascii "+t", ascii "+im-t"]).map fun priv => priv.trace)
      = ((mode_events example_handles
        (_idle_muc_channel_names example_handles
          (run example_handles (idle_muc_channel_init 7 (ascii "#room") 1)
            [.add_members [1], .join (ascii "me")]) [ascii "@me"])
        [ascii "+t"]).map fun priv => priv.trace ++
          [.PROPERTIES_CHANGED [(TP_PROPERTY_INVITE_ONLY, .boolean true),
            (TP_PROPERTY_MODERATED, .boolean true)]])
    ∧ (∀ priv ∈ mode_events example_handles
        (_idle_muc_channel_names example_handles
          (run example_handles (idle_muc_channel_init 7 (ascii "#room") 1)
            [.add_members [1], .join (ascii "me")]) [ascii "@me"])
        [ascii "+t", ascii "+im-t"],
        (∀ id ∈ mode_flags_helper,
            flags_at priv.properties id &&& TP_PROPERTY_FLAG_READ ≠ 0)
          ∧ (∀ id ∈ change_mode_state_flags_helper,
            flags_at priv.properties id &&& TP_PROPERTY_FLAG_WRITE ≠ 0)
          ∧ priv.group_flags &&& TP_CHANNEL_GROUP_FLAG_CAN_ADD ≠ 0) := by
  refine ⟨?_, ?_, ?_, ?_⟩
  · intro handles priv
    rfl
  · decide
  · decide
  · decide

/-- C27 (amended), on the fresh channel `#room`: `+im-t` and `+imt` give the
same channel, with INVITE_ONLY, MODERATED and TOPIC_ONLY_SETTABLE_BY_OPS set. -/
theorem C27_witness :
    _idle_muc_channel_mode example_handles (idle_muc_channel_init 7 (ascii "#room") 1)
        (ascii "+im-t")
      = _idle_muc_channel_mode example_handles (idle_muc_channel_init 7 (ascii "#room") 1)
          (ascii "+imt")
    ∧ (_idle_muc_channel_mode example_handles (idle_muc_channel_init 7 (ascii "#room") 1)
        (ascii "+imt")).map (fun priv => priv.mode_state.flags)
      = some (MODE_FLAG_INVITE_ONLY ||| MODE_FLAG_MODERATED
          ||| MODE_FLAG_TOPIC_ONLY_SETTABLE_BY_OPS) :=
  ⟨C27_sign_is_read_once.1 example_handles (idle_muc_channel_init 7 (ascii "#room") 1),
   by decide⟩

/-- C28: for every channel whose self handle has a nick, every sign (`+` or
`-`), every letter among `o`, `h`, `v` and every nick argument (a token
without a space), the inbound MODE string `<sign><letter> <nick>` does the
following.  If the nick differs from the self nick under the ASCII
case-insensitive comparison, only READ is marked on the five mirrored
properties: `mode_state` and the group flags are unchanged and the only
effect that can be emitted is one property-flags-changed (no
properties-changed, no group-flags-changed).  If the nick equals the self nick
up to ASCII case, the privilege flag of the letter is added to
`mode_state.flags` for `+` and removed for `-`. -/
theorem C28_privilege_letters_concern_self_only (handles : IdleHandleStorage)
    (priv : IdleMUCChannelPrivate) (sign letter : Nat) (nick own_nick : List Nat)
    (hsign : sign = 43 ∨ sign = 45) (hletter : letter = 111 ∨ letter = 104 ∨ letter = 118)
    (hnick : 32 ∉ nick)
    (hown : handles.idle_handle_inspect_contact priv.own_handle = some own_nick)
    (hflags : priv.mode_state.flags < 4294967296) (hgroup : priv.group_flags < 4294967296) :
    (g_strncasecmp own_nick nick 4294967295 ≠ 0 →
        _idle_muc_channel_mode handles priv (sign :: letter :: 32 :: nick)
            = some (set_tp_property_flags priv (some mode_flags_helper) TP_PROPERTY_FLAG_READ 0)
          ∧ (set_tp_property_flags priv (some mode_flags_helper)
              TP_PROPERTY_FLAG_READ 0).mode_state = priv.mode_state
          ∧ (set_tp_property_flags priv (some mode_flags_helper)
              TP_PROPERTY_FLAG_READ 0).group_flags = priv.group_flags
          ∧ ∃ flagged : List (Nat × Nat),
              (set_tp_property_flags priv (some mode_flags_helper) TP_PROPERTY_FLAG_READ 0).trace
                = priv.trace ++ (if flagged = [] then [] else [.PROPERTY_FLAGS_CHANGED flagged]))
      ∧ (g_strncasecmp own_nick nick 4294967295 = 0 →
          ∃ q : IdleMUCChannelPrivate,
            _idle_muc_channel_mode handles priv (sign :: letter :: 32 :: nick) = some q
              ∧ q.mode_state.flags
                = if sign = 43 then priv.mode_state.flags ||| mode_letter_privilege letter
                  else priv.mode_state.flags &&& guint_not (mode_letter_privilege letter)) := by
  have hmode := mode_privilege_letter handles priv sign letter nick own_nick hsign hletter
    hnick hown
  have heq := set_tp_property_flags_eq priv (some mode_flags_helper) TP_PROPERTY_FLAG_READ 0
  have hms : (set_tp_property_flags priv (some mode_flags_helper)
      TP_PROPERTY_FLAG_READ 0).mode_state = priv.mode_state := by rw [heq]
  have hgf : (set_tp_property_flags priv (some mode_flags_helper)
      TP_PROPERTY_FLAG_READ 0).group_flags = priv.group_flags := by rw [heq]
  refine ⟨?_, ?_⟩
  · intro hne
    refine ⟨?_, hms, hgf, _, by rw [heq]⟩
    rw [hmode, if_neg hne, ite_self, change_mode_state_nothing _ (by rw [hms]; exact hflags)
      (by rw [hgf]; exact hgroup)]
  · intro hcmp
    refine ⟨_, hmode, ?_⟩
    rw [if_pos hcmp]
    obtain ⟨hlt, _, _⟩ := mode_letter_privilege_facts letter
    by_cases hs : sign = 43
    · rw [if_pos hs, if_pos hs, (change_mode_state_result _ _ _ 0).1, hms,
        add_flags_result _ _ hflags hlt]
    · rw [if_neg hs, if_neg hs, (change_mode_state_result _ _ _ 0).1, hms,
        remove_flags_result _ _ hflags]

/-- C28, for `+o alice` on the channel `#room` whose self nick is `bob`: the
mode flags and the group flags stay as they are. -/
theorem C28_witness :
    (_idle_muc_channel_mode example_handles (idle_muc_channel_init 7 (ascii "#room") 2)
        (ascii "+o alice")).map (fun q => (q.mode_state.flags, q.group_flags))
      = some (0, 0) := by
  have h := ((C28_privilege_letters_concern_self_only example_handles
    (idle_muc_channel_init 7 (ascii "#room") 2) 43 111 (ascii "alice") (ascii "bob")
    (by decide) (by decide) (by decide) (by decide) (by decide) (by decide)).1 (by decide))
  have h1 : ascii "+o alice" = 43 :: 111 :: 32 :: ascii "alice" := by decide
  rw [h1, h.1, Option.map_some', h.2.1, h.2.2.1]
  rfl

/-- C29, as stated, fails for subject-timestamp and subject-contact: on a fresh
channel the call `change_mode_state (OPERATOR, 0)` gains the privilege, and
afterwards the properties 8 and 9 still have no WRITE flag. -/
theorem C29_counterexample :
    (MODE_FLAG_OPERATOR_PRIVILEGE
        &&& guint_not (idle_muc_channel_init 7 (ascii "#room") 1).mode_state.flags)
        &&& MODE_FLAGS_OP_OR_HALFOP ≠ 0
    ∧ flags_at (change_mode_state (idle_muc_channel_init 7 (ascii "#room") 1)
        MODE_FLAG_OPERATOR_PRIVILEGE 0).properties TP_PROPERTY_SUBJECT_TIMESTAMP
        &&& TP_PROPERTY_FLAG_WRITE = 0
    ∧ flags_at (change_mode_state (idle_muc_channel_init 7 (ascii "#room") 1)
        MODE_FLAG_OPERATOR_PRIVILEGE 0).properties TP_PROPERTY_SUBJECT_CONTACT
        &&& TP_PROPERTY_FLAG_WRITE = 0 := by
  refine ⟨?_, ?_, ?_⟩ <;> decide

/-- C29 (amended): for every state with its ten properties, after a
`change_mode_state` call in which OPERATOR or HALFOP is newly gained, the group
flags contain CAN_ADD, CAN_REMOVE and MESSAGE_REMOVE and each of the eight
properties with ids 0 to 7 has its WRITE flag set; the WRITE flags of
subject-timestamp and subject-contact (ids 8 and 9) are what they were. -/
theorem C29_privilege_gained (priv : IdleMUCChannelPrivate) (add remove : Nat)
    (hlen : priv.properties.length = LAST_TP_PROPERTY_ENUM)
    (hgain : (add &&& guint_not priv.mode_state.flags) &&& MODE_FLAGS_OP_OR_HALFOP ≠ 0) :
    (change_mode_state priv add remove).group_flags &&& TP_CHANNEL_GROUP_FLAG_CAN_ADD ≠ 0
      ∧ (change_mode_state priv add remove).group_flags &&& TP_CHANNEL_GROUP_FLAG_CAN_REMOVE ≠ 0
      ∧ (change_mode_state priv add remove).group_flags
          &&& TP_CHANNEL_GROUP_FLAG_MESSAGE_REMOVE ≠ 0
      ∧ (∀ id : Nat, id < 8 →
          flags_at (change_mode_state priv add remove).properties id
            &&& TP_PROPERTY_FLAG_WRITE ≠ 0)
      ∧ (∀ id : Nat, 8 ≤ id → id < LAST_TP_PROPERTY_ENUM →
          flags_at (change_mode_state priv add remove).properties id &&& TP_PROPERTY_FLAG_WRITE
            = flags_at priv.properties id &&& TP_PROPERTY_FLAG_WRITE) := by
  obtain ⟨group_add, hg⟩ := change_mode_state_gain_group_flags priv add remove hgain
  obtain ⟨c1, c2, c3⟩ := contains_group_flags priv.group_flags group_add
  rw [hg]
  refine ⟨c1, c2, c3, ?_, ?_⟩
  · intro id hid
    rw [change_mode_state_gain_write priv add remove hlen hgain id
      (by unfold LAST_TP_PROPERTY_ENUM; omega), if_pos hid]
    decide
  · intro id h8 hid
    rw [change_mode_state_gain_write priv add remove hlen hgain id hid, if_neg (by omega)]

/-- C29, on a fresh channel that gains OPERATOR: the group flags are
CAN_ADD, CAN_REMOVE and MESSAGE_REMOVE. -/
theorem C29_witness :
    (change_mode_state (idle_muc_channel_init 7 (ascii "#room") 1)
        MODE_FLAG_OPERATOR_PRIVILEGE 0).group_flags
      &&& TP_CHANNEL_GROUP_FLAG_CAN_ADD ≠ 0 :=
  (C29_privilege_gained (idle_muc_channel_init 7 (ascii "#room") 1)
    MODE_FLAG_OPERATOR_PRIVILEGE 0 (by decide) (by decide)).1

/-- C30: the mirror of `p` and `s` breaks.  From the initial channel `#room`
the inbound MODE strings `+ps` and then `-s` leave PRIVATE set in
`mode_state.flags` while the property private holds false. -/
theorem C30_private_false_while_flag_set :
    ((mode_events example_handles (idle_muc_channel_init 7 (ascii "#room") 1)
        [ascii "+ps", ascii "-s"]).map fun priv =>
          (priv.mode_state.flags &&& MODE_FLAG_PRIVATE,
           (priv.properties.getD TP_PROPERTY_PRIVATE ⟨.uint 0, 0⟩).value))
      = some (MODE_FLAG_PRIVATE, .boolean false) := by
  decide

/-- C31 (the failing case in general): when USER_LIMIT is already set, the
inbound MODE string `+l <arg>` stores the new limit in `mode_state.limit` and
keeps the flag, but `change_mode_state` sees no flag changing and queues no
property change: the property limit (and every other property value) keeps
its old value.  The only effect of the event is READ on the five mirrored
booleans. -/
theorem C31_limit_property_keeps_old_value (handles : IdleHandleStorage)
    (priv : IdleMUCChannelPrivate) (arg : List Nat) (n : Int)
    (harg : 32 ∉ arg) (hatoi : atoi arg = some n)
    (hset : priv.mode_state.flags &&& MODE_FLAG_USER_LIMIT ≠ 0)
    (hflags : priv.mode_state.flags < 4294967296) (hgroup : priv.group_flags < 4294967296) :
    _idle_muc_channel_mode handles priv (43 :: 108 :: 32 :: arg)
        = some (set_tp_property_flags
            { priv with mode_state := { priv.mode_state with limit := to_guint n } }
            (some mode_flags_helper) TP_PROPERTY_FLAG_READ 0)
      ∧ ∀ after : IdleMUCChannelPrivate,
          _idle_muc_channel_mode handles priv (43 :: 108 :: 32 :: arg) = some after →
          after.mode_state.limit = to_guint n
            ∧ after.mode_state.flags = priv.mode_state.flags
            ∧ ∀ prop_id : Nat, value_at after.properties prop_id = value_at priv.properties prop_id := by
  have hbit : priv.mode_state.flags.testBit 13 = true :=
    testBit_of_and_pow_ne_zero _ 13 (by simpa [ MODE_FLAG_USER_LIMIT] using hset)
  have hadd : MODE_FLAG_USER_LIMIT &&& guint_not priv.mode_state.flags = 0 :=
    two_pow_and_guint_not _ 13 (by decide) hbit
  have hmain : _idle_muc_channel_mode handles priv (43 :: 108 :: 32 :: arg)
      = some (set_tp_property_flags
          { priv with mode_state := { priv.mode_state with limit := to_guint n } }
          (some mode_flags_helper) TP_PROPERTY_FLAG_READ 0) := by
    unfold _idle_muc_channel_mode
    rw [g_strsplit_set_sign_letter 43 108 arg (by decide) (by decide) harg]
    have hletters := mode_limit_letters (handles.idle_handle_inspect_contact priv.own_handle)
      arg n hatoi
    simp only [List.drop_succ_cons, List.drop_zero] at hletters ⊢
    simp only [hletters]
    have hk : MODE_FLAG_USER_LIMIT &&& MODE_FLAG_KEY = 0 := by decide
    have hl : MODE_FLAG_USER_LIMIT &&& MODE_FLAG_USER_LIMIT ≠ 0 := by decide
    simp only [hk, ne_eq, not_true_eq_false, if_false, hl, not_false_eq_true, if_true,
      List.head?_cons, Option.some.injEq, Nat.reduceEqDiff, decide_False, Bool.false_eq_true,
      and_false, and_true]
    rw [change_mode_state_present]
    · rw [(set_tp_property_flags_properties _ _ _ _).2]
      exact hadd
    · rw [(set_tp_property_flags_properties _ _ _ _).2]
      exact hflags
    · rw [set_tp_property_flags_eq]
      exact hgroup
  refine ⟨hmain, ?_⟩
  intro after hafter
  rw [hmain] at hafter
  have e := Option.some.inj hafter
  subst e
  refine ⟨?_, ?_, ?_⟩
  · rw [(set_tp_property_flags_properties _ _ _ _).2]
  · rw [(set_tp_property_flags_properties _ _ _ _).2]
  · intro prop_id
    rw [(set_tp_property_flags_properties _ _ _ _).1]
    exact set_tp_property_flags_loop_value_at _ _ _ _ _

/-- C31 at the failing input: on the channel reached from the initial channel
`#room` by the inbound MODE string `+l 10`, the MODE string `+l 20` sets
`mode_state.limit` to 20 while the property limit still holds 10. -/
theorem C31_witness :
    (((_idle_muc_channel_mode example_handles (idle_muc_channel_init 7 (ascii "#room") 1)
        (ascii "+l 10")).bind fun priv =>
          _idle_muc_channel_mode example_handles priv (ascii "+l 20")).map fun after =>
            (after.mode_state.limit, after.mode_state.flags &&& MODE_FLAG_USER_LIMIT,
              value_at after.properties TP_PROPERTY_LIMITED,
              value_at after.properties TP_PROPERTY_LIMIT))
        = some (20, MODE_FLAG_USER_LIMIT, .boolean true, .uint 10)
      ∧ ∀ after : IdleMUCChannelPrivate,
          _idle_muc_channel_mode example_handles
              ((_idle_muc_channel_mode example_handles
                (idle_muc_channel_init 7 (ascii "#room") 1) (ascii "+l 10")).getD
                  (idle_muc_channel_init 7 (ascii "#room") 1))
              (ascii "+l 20") = some after →
            after.mode_state.limit = 20 :=
  ⟨by decide, fun after h =>
    ((C31_limit_property_keeps_old_value example_handles
      ((_idle_muc_channel_mode example_handles
        (idle_muc_channel_init 7 (ascii "#room") 1) (ascii "+l 10")).getD
          (idle_muc_channel_init 7 (ascii "#room") 1))
      (ascii "20") 20 (by decide) (by decide) (by decide) (by decide) (by decide)).2 after h).1⟩

/-- C32 (the failing behaviour in general): `_idle_muc_channel_topic_full`
hands `change_tp_properties` the subject entry twice and nothing else: the one
struct it builds is overwritten by each `dbus_g_type_struct_set`, and its
pointer is appended after the first two only.  So for every channel with its
ten properties and every non-zero setter handle, the event changes neither
the value nor the flags of subject-contact and subject-timestamp. -/
theorem C32_topic_full_reaches_subject_only (priv : IdleMUCChannelPrivate)
    (toucher timestamp : Nat) (topic : List Nat)
    (htoucher : toucher ≠ 0) (hlen : priv.properties.length = LAST_TP_PROPERTY_ENUM) :
    _idle_muc_channel_topic_full priv toucher timestamp topic
        = some (change_tp_properties priv
            [(TP_PROPERTY_SUBJECT, .string (some topic)),
             (TP_PROPERTY_SUBJECT, .string (some topic))])
      ∧ ∀ after : IdleMUCChannelPrivate,
          _idle_muc_channel_topic_full priv toucher timestamp topic = some after →
          value_at after.properties TP_PROPERTY_SUBJECT_CONTACT
              = value_at priv.properties TP_PROPERTY_SUBJECT_CONTACT
            ∧ value_at after.properties TP_PROPERTY_SUBJECT_TIMESTAMP
              = value_at priv.properties TP_PROPERTY_SUBJECT_TIMESTAMP
            ∧ flags_at after.properties TP_PROPERTY_SUBJECT_CONTACT
              = flags_at priv.properties TP_PROPERTY_SUBJECT_CONTACT
            ∧ flags_at after.properties TP_PROPERTY_SUBJECT_TIMESTAMP
              = flags_at priv.properties TP_PROPERTY_SUBJECT_TIMESTAMP := by
  have hmain : _idle_muc_channel_topic_full priv toucher timestamp topic
      = some (change_tp_properties priv
          [(TP_PROPERTY_SUBJECT, .string (some topic)),
           (TP_PROPERTY_SUBJECT, .string (some topic))]) := by
    unfold _idle_muc_channel_topic_full
    rw [if_neg htoucher]
    simp
  refine ⟨hmain, ?_⟩
  intro after hafter
  rw [hmain] at hafter
  have e := Option.some.inj hafter
  subst e
  have h9 := change_tp_properties_other priv
    [(TP_PROPERTY_SUBJECT, .string (some topic)), (TP_PROPERTY_SUBJECT, .string (some topic))]
    TP_PROPERTY_SUBJECT_CONTACT (by rw [hlen]; decide)
    (by intro e he; simp at he; rw [he]; show TP_PROPERTY_SUBJECT ≠ _; decide)
  have h8 := change_tp_properties_other priv
    [(TP_PROPERTY_SUBJECT, .string (some topic)), (TP_PROPERTY_SUBJECT, .string (some topic))]
    TP_PROPERTY_SUBJECT_TIMESTAMP (by rw [hlen]; decide)
    (by intro e he; simp at he; rw [he]; show TP_PROPERTY_SUBJECT ≠ _; decide)
  exact ⟨h9.1, h8.1, h9.2, h8.2⟩

/-- C32 at the failing input: after `topic_full (2, 1000, "hello")` on the
initial channel `#room` the property subject holds `hello` and is readable,
while subject-contact and subject-timestamp still hold 0, not 2 and 1000, and
have no READ flag. -/
theorem C32_witness :
    ((_idle_muc_channel_topic_full (idle_muc_channel_init 7 (ascii "#room") 1) 2 1000
        (ascii "hello")).map fun after =>
          [(value_at after.properties TP_PROPERTY_SUBJECT,
              flags_at after.properties TP_PROPERTY_SUBJECT),
           (value_at after.properties TP_PROPERTY_SUBJECT_TIMESTAMP,
              flags_at after.properties TP_PROPERTY_SUBJECT_TIMESTAMP),
           (value_at after.properties TP_PROPERTY_SUBJECT_CONTACT,
              flags_at after.properties TP_PROPERTY_SUBJECT_CONTACT)])
        = some [(.string (some (ascii "hello")), TP_PROPERTY_FLAG_READ), (.uint 0, 0), (.uint 0, 0)]
      ∧ _idle_muc_channel_topic_full (idle_muc_channel_init 7 (ascii "#room") 1) 2 1000
          (ascii "hello")
        = some (change_tp_properties (idle_muc_channel_init 7 (ascii "#room") 1)
            [(TP_PROPERTY_SUBJECT, .string (some (ascii "hello"))),
             (TP_PROPERTY_SUBJECT, .string (some (ascii "hello")))]) :=
  ⟨by decide,
   (C32_topic_full_reaches_subject_only (idle_muc_channel_init 7 (ascii "#room") 1) 2 1000
      (ascii "hello") (by decide) (by decide)).1⟩

/-- C33 (the failing behaviour in general): a data property changed together
with its boolean costs two lines, the first with an empty mode body.  For every
channel with its ten properties and a name of at most 200 bytes, a
`set_properties` call that is accepted and changes limit to `n` (not 0, a
`guint`) and limited to true, in either order, succeeds and pushes `MODE <chan> `
(nothing behind the header) and then `MODE <chan> +l <n>`; likewise password
changed to `key` (at most 200 bytes) with password-required set pushes
`MODE <chan> ` and then `MODE <chan> +k <key>`.  The batch is reordered as the
claim says, but the second loop sends the command buffer in every round, also
in the round of the data property that only stores the value. -/
theorem C33_data_property_round_sends_bare_header (priv : IdleMUCChannelPrivate)
    (hlen : priv.properties.length = LAST_TP_PROPERTY_ENUM)
    (hname : priv.channel_name.length ≤ 200) :
    (∀ (n : Nat) (entries : List (Nat × GValue)),
        (entries = [(TP_PROPERTY_LIMIT, .uint n), (TP_PROPERTY_LIMITED, .boolean true)]
          ∨ entries = [(TP_PROPERTY_LIMITED, .boolean true), (TP_PROPERTY_LIMIT, .uint n)]) →
        n ≠ 0 → n < 4294967296 →
        (value_at priv.properties TP_PROPERTY_LIMIT).type = .G_TYPE_UINT →
        flags_at priv.properties TP_PROPERTY_LIMIT &&& TP_PROPERTY_FLAG_WRITE ≠ 0 →
        flags_at priv.properties TP_PROPERTY_LIMITED &&& TP_PROPERTY_FLAG_WRITE ≠ 0 →
        value_at priv.properties TP_PROPERTY_LIMIT ≠ .uint n →
        value_at priv.properties TP_PROPERTY_LIMITED ≠ .boolean true →
        idle_muc_channel_set_properties priv entries
          = some ({ priv with
              properties :=
                (priv.properties.modify (fun p => { p with value := .uint n })
                  TP_PROPERTY_LIMIT)
              trace := (priv.trace ++
                [.connection_send (ascii "MODE " ++ priv.channel_name ++ ascii " "),
                 .connection_send (ascii "MODE " ++ priv.channel_name ++ ascii " "
                   ++ ascii "+l " ++ printf_u n)]) }, none))
      ∧ (∀ (key : List Nat) (entries : List (Nat × GValue)),
        (entries = [(TP_PROPERTY_PASSWORD, .string (some key)),
            (TP_PROPERTY_PASSWORD_REQUIRED, .boolean true)]
          ∨ entries = [(TP_PROPERTY_PASSWORD_REQUIRED, .boolean true),
            (TP_PROPERTY_PASSWORD, .string (some key))]) →
        key.length ≤ 200 →
        (value_at priv.properties TP_PROPERTY_PASSWORD).type = .G_TYPE_STRING →
        flags_at priv.properties TP_PROPERTY_PASSWORD &&& TP_PROPERTY_FLAG_WRITE ≠ 0 →
        flags_at priv.properties TP_PROPERTY_PASSWORD_REQUIRED &&& TP_PROPERTY_FLAG_WRITE ≠ 0 →
        value_at priv.properties TP_PROPERTY_PASSWORD ≠ .string (some key) →
        value_at priv.properties TP_PROPERTY_PASSWORD_REQUIRED ≠ .boolean true →
        idle_muc_channel_set_properties priv entries
          = some ({ priv with
              properties :=
                (priv.properties.modify (fun p => { p with value := .string (some key) })
                  TP_PROPERTY_PASSWORD)
              trace := (priv.trace ++
                [.connection_send (ascii "MODE " ++ priv.channel_name ++ ascii " "),
                 .connection_send (ascii "MODE " ++ priv.channel_name ++ ascii " "
                   ++ ascii "+k " ++ key)]) }, none)) := by
  constructor
  · intro n entries horder hn hguint htype hw1 hw2 hd1 hd2
    have hacc := pair_accepted priv.properties TP_PROPERTY_LIMIT (.uint n) (Or.inl rfl) rfl
      hw1 hw2 hd1 hd2 entries horder
    unfold idle_muc_channel_set_properties
    rw [hacc]
    simp only []
    have hreq : send_properties_request priv entries
        = send_properties_waiting_loop (ascii "MODE " ++ priv.channel_name ++ ascii " ")
            [(TP_PROPERTY_LIMIT, .uint n), (TP_PROPERTY_LIMITED, .boolean true)]
            [(TP_PROPERTY_LIMIT, .uint n), (TP_PROPERTY_LIMITED, .boolean true)] priv [] := by
      unfold send_properties_request
      rw [mode_cmd_eq _ hname]
      rcases horder with h | h <;> subst h <;>
        simp [send_properties_first_loop, to_irc_mode, reorder_waiting, prop_arr_find,
          swap_waiting, TP_PROPERTY_LIMIT, TP_PROPERTY_LIMITED, TP_PROPERTY_INVITE_ONLY,
          TP_PROPERTY_MODERATED, TP_PROPERTY_PRIVATE, TP_PROPERTY_SUBJECT,
          TP_PROPERTY_PASSWORD, TP_PROPERTY_PASSWORD_REQUIRED]
    rw [hreq, send_properties_waiting_loop_limit_pair priv n hlen htype hn hguint hname]
  · intro key entries horder hkey htype hw1 hw2 hd1 hd2
    have hacc := pair_accepted priv.properties TP_PROPERTY_PASSWORD (.string (some key))
      (Or.inr rfl) rfl hw1 hw2 hd1 hd2 entries horder
    unfold idle_muc_channel_set_properties
    rw [hacc]
    simp only []
    have hreq : send_properties_request priv entries
        = send_properties_waiting_loop (ascii "MODE " ++ priv.channel_name ++ ascii " ")
            [(TP_PROPERTY_PASSWORD, .string (some key)),
             (TP_PROPERTY_PASSWORD_REQUIRED, .boolean true)]
            [(TP_PROPERTY_PASSWORD, .string (some key)),
             (TP_PROPERTY_PASSWORD_REQUIRED, .boolean true)] priv [] := by
      unfold send_properties_request
      rw [mode_cmd_eq _ hname]
      rcases horder with h | h <;> subst h <;>
        simp [send_properties_first_loop, to_irc_mode, reorder_waiting, prop_arr_find,
          swap_waiting, TP_PROPERTY_LIMIT, TP_PROPERTY_LIMITED, TP_PROPERTY_INVITE_ONLY,
          TP_PROPERTY_MODERATED, TP_PROPERTY_PRIVATE, TP_PROPERTY_SUBJECT,
          TP_PROPERTY_PASSWORD, TP_PROPERTY_PASSWORD_REQUIRED]
    rw [hreq, send_properties_waiting_loop_password_pair priv key hlen htype hkey hname]

/-- C33 at the failing input: on the channel `#room` where self is operator
(after the inbound MODE string `+o me`), `set_properties` with limited = true
and limit = 5 succeeds and pushes the two lines `MODE #room ` and
`MODE #room +l 5`. -/
theorem C33_witness :
    (idle_muc_channel_set_properties
        ((_idle_muc_channel_mode example_handles (idle_muc_channel_init 7 (ascii "#room") 1)
          (ascii "+o me")).getD (idle_muc_channel_init 7 (ascii "#room") 1))
        [(TP_PROPERTY_LIMITED, .boolean true), (TP_PROPERTY_LIMIT, .uint 5)]).map
          (fun r => (pushed_lines r.1.trace, r.2))
      = some ([ascii "MODE #room ", ascii "MODE #room +l 5"], none) := by
  rw [(C33_data_property_round_sends_bare_header
    ((_idle_muc_channel_mode example_handles (idle_muc_channel_init 7 (ascii "#room") 1)
      (ascii "+o me")).getD (idle_muc_channel_init 7 (ascii "#room") 1))
    (by decide) (by decide)).1 5 _ (Or.inr rfl) (by decide) (by decide) (by decide) (by decide)
    (by decide) (by decide) (by decide)]
  decide

/-- C34, as stated, fails three times (the filter taken as the identity): the
text `\001VERSION\001` is not decoded as NORMAL, the function returns `FALSE`
with a `NULL` body; the text `\001ACTION waves`, which does not end with
`\001`, is decoded as ACTION with its last byte cut off; and on the bare
prefix `\001ACTION ` the length `strlen (text + 8) - 1` wraps to `SIZE_MAX`
and `g_strndup` does not return. -/
theorem C34_counterexample :
    idle_text_decode id (ascii "\x01VERSION\x01") = .ok none
      ∧ idle_text_decode id (ascii "\x01ACTION waves")
          = .ok (some (TP_CHANNEL_TEXT_MESSAGE_TYPE_ACTION, ascii "wave"))
      ∧ idle_text_decode id (ascii "\x01ACTION ") = .undefined := by
  refine ⟨?_, ?_, ?_⟩ <;> decide

/-- C34 (amended): for every text shorter than 2^63 bytes and every filter
`idle_ctcp_kill_blingbling`: if the text is an eight-byte prefix equal to
`\001ACTION ` up to ASCII case, an inner text and a final `\001`, the function
succeeds with type ACTION and the filtered inner text; if the text begins with
`\001` but not with `\001ACTION ` the function fails (returns `FALSE`, body
`NULL`); every text that does not begin with `\001` is decoded as NORMAL with
the filtered text as body. -/
theorem C34_decode_cases (idle_ctcp_kill_blingbling : List Nat → List Nat) (text : List Nat)
    (hlen : text.length < 9223372036854775808) :
    (∀ head inner : List Nat, head.map g_ascii_tolower = ascii "\x01action " →
        text = head ++ inner ++ [1] →
        idle_text_decode idle_ctcp_kill_blingbling text
          = .ok (some (TP_CHANNEL_TEXT_MESSAGE_TYPE_ACTION, idle_ctcp_kill_blingbling inner)))
      ∧ (text.head? = some 1 → ¬ begins_with_action text →
        idle_text_decode idle_ctcp_kill_blingbling text = .ok none)
      ∧ (text.head? ≠ some 1 →
        idle_text_decode idle_ctcp_kill_blingbling text
          = .ok (some (TP_CHANNEL_TEXT_MESSAGE_TYPE_NORMAL, idle_ctcp_kill_blingbling text))) := by
  have h8 : (ascii "\x01ACTION ").length = 8 := by decide
  refine ⟨?_, ?_, ?_⟩
  · intro head inner hhead htext
    have hl : head.length = 8 := by
      have := congrArg List.length hhead
      rw [List.length_map] at this
      rw [this]
      decide
    have htake : text.take 8 = head := by
      rw [htext, List.append_assoc, ← hl, List.take_left]
    have hact : begins_with_action text := by
      unfold begins_with_action
      rw [htake, hhead]
    have hfirst : text.head? = some 1 := by
      cases head with
      | nil => simp at hl
      | cons c r =>
        have hc : g_ascii_tolower c = 1 := by
          have := congrArg List.head? hhead
          simpa [ascii] using this
        have : c = 1 := by
          unfold g_ascii_tolower at hc
          split_ifs at hc <;> omega
        rw [htext, this]; rfl
    have hdrop : text.drop 8 = inner ++ [1] := by
      rw [htext, List.append_assoc, ← hl, List.drop_left]
    have hilen : inner.length + 9 = text.length := by
      rw [htext, List.length_append, List.length_append, hl]
      simp only [List.length_singleton]
      omega
    have hsub : gsize_sub (inner ++ [1]).length 1 = inner.length := by
      rw [List.length_append]
      simp only [List.length_singleton]
      unfold gsize_sub
      omega
    have hdup : g_strndup (text.drop 8) (gsize_sub (text.drop 8).length 1) = some inner := by
      rw [hdrop, hsub, g_strndup_of_lt _ _ (by omega), List.take_left]
    exact idle_text_decode_action _ _ _ hfirst ((decode_action_test text).mpr hact) hdup
  · intro hhead hnot
    unfold idle_text_decode
    rw [if_neg (by rw [hhead]; simp)]
    show (if _ then _ else _) = _
    rw [if_neg (fun h => hnot ((decode_action_test text).mp h))]
  · intro hhead
    unfold idle_text_decode
    rw [if_pos hhead]

/-- C34 (amended) on `\001action waves\001`: decoded as ACTION with the inner
text `waves`. -/
theorem C34_witness :
    (ascii "\x01action waves\x01").length < 9223372036854775808
      ∧ (ascii "\x01action ").map g_ascii_tolower = ascii "\x01action "
      ∧ ascii "\x01action waves\x01" = ascii "\x01action " ++ ascii "waves" ++ [1]
      ∧ idle_text_decode id (ascii "\x01action waves\x01")
          = .ok (some (TP_CHANNEL_TEXT_MESSAGE_TYPE_ACTION, id (ascii "waves"))) :=
  ⟨by decide, by decide, by decide,
   (C34_decode_cases id (ascii "\x01action waves\x01") (by decide)).1
      (ascii "\x01action ") (ascii "waves") (by decide) (by decide)⟩

/-- C35 fails on scenario S5: with `max_msg_len` 20 and header
`PRIVMSG #r :` the budget is 8 bytes, and the text `ABCDE€FG` (`€` is the three
bytes E2 82 AC) is sent as the chunks `ABCDE` and `€FG`; the first chunk is not
`ABCDE€`, although that prefix has exactly 8 bytes, is valid UTF-8 and is
followed by the letter `F`. -/
theorem C35_counterexample :
    idle_text_encode_and_split 2 TP_CHANNEL_TEXT_MESSAGE_TYPE_NORMAL (ascii "#r")
        (ascii "ABCDE" ++ [0xE2, 0x82, 0xAC] ++ ascii "FG") 20
      = .ok ([ascii "PRIVMSG #r :ABCDE", ascii "PRIVMSG #r :" ++ [0xE2, 0x82, 0xAC] ++ ascii "FG"],
             [ascii "ABCDE", [0xE2, 0x82, 0xAC] ++ ascii "FG"])
    ∧ gsize_sub 20 ((ascii "PRIVMSG #r :").length + 0) = 8
    ∧ (ascii "ABCDE" ++ [0xE2, 0x82, 0xAC] ++ ascii "FG").take 8
        = ascii "ABCDE" ++ [0xE2, 0x82, 0xAC]
    ∧ utf8_valid (ascii "ABCDE" ++ [0xE2, 0x82, 0xAC])
    ∧ ¬ is_continuation_byte ((ascii "ABCDE" ++ [0xE2, 0x82, 0xAC] ++ ascii "FG").getD 8 0) := by
  refine ⟨?_, ?_, ?_, ?_, ?_⟩ <;> decide

/-- C35, what the code does: when no newline lies within the byte budget and
the remaining text is longer than the budget (a budget below 2^31, a remaining
text shorter than 2^32 bytes), the cut is the result of
`g_utf8_find_prev_char (remaining_text, remaining_text + budget)`: the largest
offset strictly below the budget whose byte is not a UTF-8 continuation byte.
The chunk taken is the text before that offset, so it has fewer bytes than the
budget, and a code point that ends exactly at the budget is left for the next
chunk; when all bytes below the budget are continuation bytes no cut exists
(`NULL`). -/
theorem C35_cut_lies_below_budget (max_bytes : Nat) (remaining_text : List Nat)
    (hnl : 10 ∉ remaining_text.take max_bytes) (hlong : max_bytes < remaining_text.length)
    (hmax : max_bytes < 2147483648) (hlen : remaining_text.length < 4294967296) :
    end_iter max_bytes remaining_text = g_utf8_find_prev_char remaining_text max_bytes
      ∧ (∀ e : Nat, end_iter max_bytes remaining_text = some e ↔
          (e < max_bytes ∧ ¬ is_continuation_byte (remaining_text.getD e 0)
            ∧ ∀ e' : Nat, e < e' → e' < max_bytes →
                is_continuation_byte (remaining_text.getD e' 0)))
      ∧ (∀ (e fuel : Nat) (header footer : List Nat) (messages bodies : List (List Nat)),
          end_iter max_bytes remaining_text = some e →
          split_loop header footer max_bytes fuel remaining_text = .ok (messages, bodies) →
          bodies.head? = some (remaining_text.take e)
            ∧ (remaining_text.take e).length < max_bytes) := by
  have heq := end_iter_too_long max_bytes remaining_text hnl hlong hmax hlen
  refine ⟨heq, ?_, ?_⟩
  · intro e
    rw [heq]
    unfold is_continuation_byte
    constructor
    · intro h
      obtain ⟨h1, h2⟩ := g_utf8_find_prev_char_some _ _ _ h
      exact ⟨h1, h2, g_utf8_find_prev_char_max _ _ _ h⟩
    · rintro ⟨h1, h2, h3⟩
      exact g_utf8_find_prev_char_of_max _ _ _ h1 h2 h3
  · intro e fuel header footer messages bodies he hret
    have hlt : e < max_bytes := by
      rw [heq] at he
      exact (g_utf8_find_prev_char_some _ _ _ he).1
    cases hrem : remaining_text with
    | nil => rw [hrem] at hlong; simp at hlong
    | cons b r =>
      rw [hrem] at hret he hlen
      obtain ⟨fuel', e2, ms, bs, -, he2, -, -, hb⟩ :=
        split_loop_cons_exact _ _ _ _ _ _ _ _ hlen hret
      rw [he] at he2
      cases he2
      rw [hb]
      refine ⟨rfl, ?_⟩
      rw [List.length_take]
      omega

/-- C35 on scenario S5: the cut of the first round lies at offset 5, in front
of `€`. -/
theorem C35_witness :
    10 ∉ (ascii "ABCDE" ++ [0xE2, 0x82, 0xAC] ++ ascii "FG").take 8
      ∧ end_iter 8 (ascii "ABCDE" ++ [0xE2, 0x82, 0xAC] ++ ascii "FG")
          = g_utf8_find_prev_char (ascii "ABCDE" ++ [0xE2, 0x82, 0xAC] ++ ascii "FG") 8
      ∧ g_utf8_find_prev_char (ascii "ABCDE" ++ [0xE2, 0x82, 0xAC] ++ ascii "FG") 8 = some 5 :=
  ⟨by decide,
   (C35_cut_lies_below_budget 8 (ascii "ABCDE" ++ [0xE2, 0x82, 0xAC] ++ ascii "FG")
      (by decide) (by decide) (by decide) (by decide)).1,
   by decide⟩

/-- C36, as stated, fails: on the initial channel `#room` (self nick `me`)
the listing `%me` leaves HALFOP clear, where the listing `&me` sets it. -/
theorem C36_counterexample :
    (_idle_muc_channel_names example_handles (idle_muc_channel_init 7 (ascii "#room") 1)
        [ascii "%me"]).mode_state.flags &&& MODE_FLAG_HALFOP_PRIVILEGE = 0
      ∧ (_idle_muc_channel_names example_handles (idle_muc_channel_init 7 (ascii "#room") 1)
        [ascii "&me"]).mode_state.flags &&& MODE_FLAG_HALFOP_PRIVILEGE
          = MODE_FLAG_HALFOP_PRIVILEGE := by
  refine ⟨?_, ?_⟩ <;> decide

/-- C36 (amended): a NAMES listing with the self nick behind the sigil `%`
takes the `default:` branch of `switch (own_mode)`, which has cases for `@`,
`&` and `+` only, and treats self as a normal member.  For every channel state
(mode flags a `guint`), when `%<nick>` starts with a non-letter and `<nick>`
resolves to the non-zero self handle, the handler removes OPERATOR, VOICE and
HALFOP and adds nothing: afterwards `mode_state.flags` does not contain
HALFOP. -/
theorem C36_percent_sigil_clears_halfop (handles : IdleHandleStorage)
    (priv : IdleMUCChannelPrivate) (nick : List Nat)
    (halpha : handles.first_char_isalpha (37 :: nick) = false)
    (hnick : handles.idle_handle_for_contact nick = priv.own_handle)
    (hown : priv.own_handle ≠ 0) (hflags : priv.mode_state.flags < 4294967296) :
    (_idle_muc_channel_names handles priv [37 :: nick]).mode_state.flags
        = priv.mode_state.flags &&& guint_not (MODE_FLAG_OPERATOR_PRIVILEGE
            ||| MODE_FLAG_VOICE_PRIVILEGE ||| MODE_FLAG_HALFOP_PRIVILEGE)
      ∧ (_idle_muc_channel_names handles priv [37 :: nick]).mode_state.flags
          &&& MODE_FLAG_HALFOP_PRIVILEGE = 0 := by
  have hflagsEq : (_idle_muc_channel_names handles priv [37 :: nick]).mode_state.flags
      = priv.mode_state.flags &&& guint_not (MODE_FLAG_OPERATOR_PRIVILEGE
          ||| MODE_FLAG_VOICE_PRIVILEGE ||| MODE_FLAG_HALFOP_PRIVILEGE) := by
    unfold _idle_muc_channel_names
    simp only []
    rw [change_sets_mode_state]
    have hne : ¬ handles.idle_handle_for_contact nick = 0 := by rw [hnick]; exact hown
    simp only [_idle_muc_channel_names_loop, halpha, Bool.false_eq_true, not_false_eq_true,
      if_true, List.drop_succ_cons, List.drop_zero, hnick, hown, if_false, List.headD_cons]
    have hadd : names_own_mode_add 37 = 0 := by decide
    rw [hadd, (change_mode_state_result _ _ _ 0).1]
    have hrem : (MODE_FLAG_OPERATOR_PRIVILEGE ||| MODE_FLAG_VOICE_PRIVILEGE
        ||| MODE_FLAG_HALFOP_PRIVILEGE) &&& guint_not 0
        = MODE_FLAG_OPERATOR_PRIVILEGE ||| MODE_FLAG_VOICE_PRIVILEGE
          ||| MODE_FLAG_HALFOP_PRIVILEGE := by decide
    rw [hrem]
    exact remove_flags_result _ _ hflags
  refine ⟨hflagsEq, ?_⟩
  rw [hflagsEq]
  have h14 : MODE_FLAG_HALFOP_PRIVILEGE = 2 ^ 14 := by decide
  rw [h14, Nat.and_two_pow, Nat.testBit_and, guint_not_testBit _ _ (by decide)]
  have hb : (MODE_FLAG_OPERATOR_PRIVILEGE ||| MODE_FLAG_VOICE_PRIVILEGE
      ||| 2 ^ 14).testBit 14 = true := by decide
  rw [hb]
  simp

/-- C36 (amended) on the initial channel `#room` (self nick `me`): the
listing `%me` leaves no privilege flag set, where `&me` sets HALFOP; and a
listing `%me` after `&me` takes HALFOP away again. -/
theorem C36_witness :
    (_idle_muc_channel_names example_handles (idle_muc_channel_init 7 (ascii "#room") 1)
        [ascii "%me"]).mode_state.flags = 0
      ∧ (_idle_muc_channel_names example_handles (idle_muc_channel_init 7 (ascii "#room") 1)
        [ascii "&me"]).mode_state.flags = MODE_FLAG_HALFOP_PRIVILEGE
      ∧ (_idle_muc_channel_names example_handles
          (_idle_muc_channel_names example_handles (idle_muc_channel_init 7 (ascii "#room") 1)
            [ascii "&me"]) [ascii "%me"]).mode_state.flags &&& MODE_FLAG_HALFOP_PRIVILEGE = 0 :=
  ⟨by decide, by decide,
   (C36_percent_sigil_clears_halfop example_handles
      (_idle_muc_channel_names example_handles (idle_muc_channel_init 7 (ascii "#room") 1)
        [ascii "&me"]) (ascii "me") (by decide) (by decide) (by decide) (by decide)).2⟩

/-- C37 (the failing behaviour in general): an argument-taking letter with no
argument token left reads `mode_argv` at its terminating `NULL`, and the next
one past the end of the vector.  For every channel and sign, the strings
`<sign>o`, `<sign>h`, `<sign>v` and `<sign>l` hand that `NULL` to
`g_strncasecmp` or `atoi` (undefined behaviour), and in `<sign>kk` the second
`k` reads `mode_argv[2]` of a vector that ends at `mode_argv[1]`. -/
theorem C37_missing_argument_is_read (handles : IdleHandleStorage)
    (priv : IdleMUCChannelPrivate) (sign letter : Nat)
    (hsign : sign = 43 ∨ sign = 45)
    (hletter : letter = 111 ∨ letter = 104 ∨ letter = 118 ∨ letter = 108) :
    mode_argv_read (g_strsplit_set [sign, letter]) 1 = some none
      ∧ _idle_muc_channel_mode handles priv [sign, letter] = none
      ∧ mode_argv_read (g_strsplit_set [sign, 107, 107]) 2 = none
      ∧ _idle_muc_channel_mode handles priv [sign, 107, 107] = none := by
  have hs32 : sign ≠ 32 := by rcases hsign with h | h <;> omega
  have hl32 : letter ≠ 32 := by rcases hletter with h | h | h | h <;> omega
  have hsplit : g_strsplit_set [sign, letter] = [[sign, letter]] := by
    simp [g_strsplit_set, split_at_spaces, hs32, hl32]
  have hsplit2 : g_strsplit_set [sign, 107, 107] = [[sign, 107, 107]] := by
    simp [g_strsplit_set, split_at_spaces, hs32]
  refine ⟨?_, ?_, ?_, ?_⟩
  · rw [hsplit]; rfl
  · unfold _idle_muc_channel_mode
    rw [hsplit]
    have hread : mode_argv_read [[sign, letter]] 1 = some none := rfl
    have hletters : mode_letters (handles.idle_handle_inspect_contact priv.own_handle)
        [[sign, letter]] [letter] 1 0 0 none = none := by
      rcases hletter with h | h | h | h
      · subst h
        cases handles.idle_handle_inspect_contact priv.own_handle <;> simp [mode_letters, hread]
      · subst h
        cases handles.idle_handle_inspect_contact priv.own_handle <;> simp [mode_letters, hread]
      · subst h
        cases handles.idle_handle_inspect_contact priv.own_handle <;> simp [mode_letters, hread]
      · subst h
        simp [mode_letters, hread]
    rcases hsign with h | h <;> subst h <;> simp [hletters]
  · rw [hsplit2]; rfl
  · unfold _idle_muc_channel_mode
    rw [hsplit2]
    have hread1 : mode_argv_read [[sign, 107, 107]] 1 = some none := rfl
    have hread2 : mode_argv_read [[sign, 107, 107]] 2 = none := rfl
    have hletters : mode_letters (handles.idle_handle_inspect_contact priv.own_handle)
        [[sign, 107, 107]] [107, 107] 1 0 0 none = none := by
      simp [mode_letters, hread1, hread2]
    rcases hsign with h | h <;> subst h <;> simp [hletters]

/-- C37 at the failing input `-l` on the initial channel `#room`: the letter
`l` reads the terminating `NULL` of the token vector and hands it to `atoi`. -/
theorem C37_witness :
    mode_argv_read (g_strsplit_set (ascii "-l")) 1 = some none
      ∧ _idle_muc_channel_mode example_handles (idle_muc_channel_init 7 (ascii "#room") 1)
          (ascii "-l") = none :=
  ⟨(C37_missing_argument_is_read example_handles (idle_muc_channel_init 7 (ascii "#room") 1)
      45 108 (by decide) (by decide)).1,
   (C37_missing_argument_is_read example_handles (idle_muc_channel_init 7 (ascii "#room") 1)
      45 108 (by decide) (by decide)).2.1⟩

/-- C38, as stated, fails for a budget of one byte: with `max_msg_len` 13 and
the header `PRIVMSG #r :` (12 bytes) the NORMAL text `ab` makes the loop cut at
offset 0 in every round, so the read position never moves and the call returns
for no number of rounds. -/
theorem C38_counterexample :
    gsize_sub 13 ((ascii "PRIVMSG #r :").length + 0) = 1
      ∧ end_iter 1 (ascii "ab") = some 0
      ∧ ¬ ∃ (fuel : Nat) (result : List (List Nat) × List (List Nat)),
          idle_text_encode_and_split fuel TP_CHANNEL_TEXT_MESSAGE_TYPE_NORMAL (ascii "#r")
            (ascii "ab") 13 = .ok result := by
  refine ⟨by decide, by decide, ?_⟩
  rintro ⟨fuel, result, h⟩
  have hstuck := split_loop_budget_one_stuck (ascii "PRIVMSG " ++ ascii "#r" ++ ascii " :") []
    fuel
  have hval : idle_text_encode_and_split fuel TP_CHANNEL_TEXT_MESSAGE_TYPE_NORMAL (ascii "#r")
      (ascii "ab") 13
      = split_loop (ascii "PRIVMSG " ++ ascii "#r" ++ ascii " :") [] 1 fuel (ascii "ab") := rfl
  rw [hval, hstuck] at h
  cases h

/-- C38 (amended): for every valid UTF-8 text, every supported message type
and every `max_msg_len` below 2^31 that leaves a byte budget of at least 5
(`max_msg_len >= len(header) + len(footer) + 5`), every round of the splitting
loop on a non-empty valid remaining text chooses a cut and goes on with a
strictly shorter remaining text; the function returns, with the same result for
every number of rounds allowed that is at least the length of the text, so the
loop has left the text behind it; it returns at most one line per byte, and
for a text shorter than 2^32 bytes the bodies concatenated are the text
without its newline bytes. -/
theorem C38_splitting_terminates (type : Nat) (recipient text : List Nat) (max_msg_len : Nat)
    (header footer : List Nat)
    (htype : header_footer type recipient = some (header, footer))
    (hvalid : utf8_valid text)
    (hbudget : header.length + footer.length + 5 ≤ max_msg_len)
    (hmax : max_msg_len < 2147483648) :
    (∀ remaining_text : List Nat, remaining_text ≠ [] → utf8_valid remaining_text →
        ∃ e : Nat,
          end_iter (gsize_sub max_msg_len (header.length + footer.length)) remaining_text = some e
          ∧ (if remaining_text.get? e = some 10 then remaining_text.drop (e + 1)
              else remaining_text.drop e).length < remaining_text.length
          ∧ utf8_valid (if remaining_text.get? e = some 10 then remaining_text.drop (e + 1)
              else remaining_text.drop e))
      ∧ ∃ messages bodies : List (List Nat),
          (∀ fuel : Nat, text.length ≤ fuel →
            idle_text_encode_and_split fuel type recipient text max_msg_len
              = .ok (messages, bodies))
          ∧ messages.length ≤ text.length
          ∧ (text.length < 4294967296 →
              bodies.flatten = text.filter (fun b => decide (b ≠ 10))) := by
  have hsub : gsize_sub max_msg_len (header.length + footer.length)
      = max_msg_len - (header.length + footer.length) := by
    unfold gsize_sub
    omega
  have h5 : 5 ≤ gsize_sub max_msg_len (header.length + footer.length) := by
    rw [hsub]; omega
  have hlt : gsize_sub max_msg_len (header.length + footer.length) < 2147483648 := by
    rw [hsub]; omega
  constructor
  · intro rem hne hv
    obtain ⟨e, he, hadv⟩ := end_iter_progress _ rem hv hne h5 hlt
    obtain ⟨hle, -, -, -⟩ := end_iter_spec _ _ _ he
    exact ⟨e, he, next_remaining_shorter rem e hle hne hadv,
      next_remaining_valid _ rem e hv he⟩
  · obtain ⟨messages, bodies, hret, hcount⟩ := split_loop_terminates header footer _ h5 hlt
      text.length text hvalid (le_refl _)
    refine ⟨messages, bodies, ?_, hcount, ?_⟩
    · intro fuel hfuel
      unfold idle_text_encode_and_split
      rw [htype]
      simp only []
      have := split_loop_fuel_mono header footer _ _ _ _ hret (fuel - text.length)
      rw [Nat.add_sub_cancel' hfuel] at this
      exact this
    · exact fun hlen => (split_loop_bodies header footer _ _ _ _ _ hlen hret).2

/-- C38 (amended) on scenario S5: the split of `ABCDE€FG` with a budget of 8
bytes returns the same two lines for every number of rounds from 10 on. -/
theorem C38_witness :
    utf8_valid (ascii "ABCDE" ++ [0xE2, 0x82, 0xAC] ++ ascii "FG")
      ∧ ∃ messages bodies : List (List Nat),
          (∀ fuel : Nat, (ascii "ABCDE" ++ [0xE2, 0x82, 0xAC] ++ ascii "FG").length ≤ fuel →
            idle_text_encode_and_split fuel TP_CHANNEL_TEXT_MESSAGE_TYPE_NORMAL (ascii "#r")
              (ascii "ABCDE" ++ [0xE2, 0x82, 0xAC] ++ ascii "FG") 20 = .ok (messages, bodies))
          ∧ messages.length ≤ (ascii "ABCDE" ++ [0xE2, 0x82, 0xAC] ++ ascii "FG").length
          ∧ ((ascii "ABCDE" ++ [0xE2, 0x82, 0xAC] ++ ascii "FG").length < 4294967296 →
              bodies.flatten = (ascii "ABCDE" ++ [0xE2, 0x82, 0xAC] ++ ascii "FG").filter
                (fun b => decide (b ≠ 10))) :=
  ⟨by decide,
   (C38_splitting_terminates TP_CHANNEL_TEXT_MESSAGE_TYPE_NORMAL (ascii "#r")
      (ascii "ABCDE" ++ [0xE2, 0x82, 0xAC] ++ ascii "FG") 20
      (ascii "PRIVMSG " ++ ascii "#r" ++ ascii " :") [] rfl (by decide) (by decide)
      (by decide)).2⟩

set_option maxRecDepth 100000 in
/-- C39: the loop terminates, but a byte is lost when a newline lies beyond
the byte budget.  For every NORMAL or NOTICE text (shorter than 2^63 bytes) the
call returns when allowed as many rounds as the text has bytes.  On the
channel `#room` the header `PRIVMSG #room :` leaves 495 bytes; for the NORMAL
text of 495 `a`, then `b`, a newline and `c`, the call returns after three
rounds and the payloads of the pushed lines are the 495 `a`, the empty string
and `c`: the `b` at offset 495 is skipped by `if (br) part++`, which steps over
one byte whenever a newline exists anywhere further on. -/
theorem C39_byte_behind_budget_is_dropped :
    (∀ (handles : IdleHandleStorage) (priv : IdleMUCChannelPrivate) (type : Nat)
        (text : List Nat) (timestamp fuel : Nat),
        (type = TP_CHANNEL_TEXT_MESSAGE_TYPE_NORMAL ∨ type = TP_CHANNEL_TEXT_MESSAGE_TYPE_NOTICE) →
        text.length < 9223372036854775808 → text.length ≤ fuel →
        ∃ result : IdleMUCChannelPrivate × Option TelepathyError,
          idle_muc_channel_send handles fuel priv type text timestamp = .ok result)
    ∧ (match idle_muc_channel_send example_handles 3 (idle_muc_channel_init 7 (ascii "#room") 1)
        TP_CHANNEL_TEXT_MESSAGE_TYPE_NORMAL (List.replicate 495 97 ++ ascii "b\nc") 99 with
      | .ok r => some ((pushed_lines r.1.trace).map fun line =>
          (line.take 15, line.drop 15), r.2)
      | _ => none)
      = some ([(ascii "PRIVMSG #room :", List.replicate 495 97),
               (ascii "PRIVMSG #room :", []),
               (ascii "PRIVMSG #room :", ascii "c")], none)
    ∧ (List.replicate 495 97 ++ ascii "b\nc").filter (fun b => decide (b ≠ 10))
        ≠ ([List.replicate 495 97, [], ascii "c"] : List (List Nat)).flatten := by
  refine ⟨?_, ?_, ?_⟩
  · intro handles priv type text timestamp fuel htype hlen hfuel
    exact send_returns handles priv type text timestamp fuel htype hlen hfuel
  · decide
  · intro h
    have hlen := congrArg List.length h
    revert hlen
    decide

/-- C40: the invariant breaks when one of the two privileges is lost while the
other is held.  From the initial channel `#room` (self nick `me`) the events
NAMES `@me`, MODE `+h me`, MODE `-o me` lead to a state whose mode flags
contain HALFOP, while the group flags contain neither CAN_REMOVE nor
MESSAGE_REMOVE and none of the properties 0 to 7 has WRITE set. -/
theorem C40_halfop_held_but_rights_revoked :
    ((inbound_events example_handles (idle_muc_channel_init 7 (ascii "#room") 1)
        [.names [ascii "@me"], .mode (ascii "+h me")]).map fun priv =>
          (priv.mode_state.flags, priv.group_flags,
            (List.range 8).map fun i => flags_at priv.properties i &&& TP_PROPERTY_FLAG_WRITE))
        = some (MODE_FLAG_OPERATOR_PRIVILEGE ||| MODE_FLAG_HALFOP_PRIVILEGE,
            TP_CHANNEL_GROUP_FLAG_CAN_ADD ||| TP_CHANNEL_GROUP_FLAG_CAN_REMOVE
              ||| TP_CHANNEL_GROUP_FLAG_MESSAGE_REMOVE,
            List.replicate 8 TP_PROPERTY_FLAG_WRITE)
      ∧ ((inbound_events example_handles (idle_muc_channel_init 7 (ascii "#room") 1)
        [.names [ascii "@me"], .mode (ascii "+h me"), .mode (ascii "-o me")]).map fun priv =>
          (priv.mode_state.flags &&& MODE_FLAG_HALFOP_PRIVILEGE,
            priv.group_flags &&& TP_CHANNEL_GROUP_FLAG_CAN_REMOVE,
            priv.group_flags &&& TP_CHANNEL_GROUP_FLAG_MESSAGE_REMOVE,
            (List.range 8).map fun i => flags_at priv.properties i &&& TP_PROPERTY_FLAG_WRITE))
        = some (MODE_FLAG_HALFOP_PRIVILEGE, 0, 0, List.replicate 8 0) := by
  refine ⟨?_, ?_⟩
  · decide
  · decide

end Idle
